import Mathlib

/-!
# Thyme `Player` (src/game/common/rts/player.cpp)

A shallow embedding of the per-player game state object and of the operations
on it: relationship resolution, the upgrade ledger, science progression, the
kind-of production cost changes and the versioned save/load routine.

Conventions of the embedding.

* Pointers to objects owned by the player become values (`Option` for a
  nullable pointer); weak references to other players become the index of the
  referenced player.
* `std::map` is an association list; `find`, `operator[]` and `erase` are the
  functions `StdMap.find`, `StdMap.insert` and `StdMap.erase`.
* A finite `float` is its rational value; `float` arithmetic rounds the exact
  result to the nearest `float` (`Float32`), and a result that is not finite is
  `none`.
* The 32-bit `int` addition of `Reset_Rank` is reduced modulo `2 ^ 32` into
  the range of `int` (`Int32_Wrap`).
* `unsigned short` / `unsigned int` counters are naturals reduced modulo
  `2 ^ 16` / `2 ^ 32` where the source can wrap.
* Effects on collaborators (script engine, control bar, objects of the owned
  teams) are recorded in counters and logs that are part of the state.
* A release assertion (`captainslog_relassert`) that fails is the error result
  of an `Except` computation.

The file has two parts: the definitions, then the theorems.
-/

namespace Thyme

/-! ## Part 1: definitions -/

/-! ### Basic types -/

/-- Diplomatic stance; the enumerators of `Relationship` in declaration order. -/
inductive Relationship where
  | ENEMIES
  | NEUTRAL
  | ALLIES
  deriving DecidableEq, Repr, Inhabited

/-- Status of an upgrade record; the enumerators of `UpgradeStatusType`. -/
inductive UpgradeStatusType where
  | UPGRADE_STATUS_INVALID
  | UPGRADE_STATUS_IN_PRODUCTION
  | UPGRADE_STATUS_COMPLETE
  deriving DecidableEq, Repr, Inhabited

/-- Availability of a science; the order is the one of the string table in
`Get_Science_Availability_Type_From_String` ("Available", "Disabled", "Hidden")
followed by the invalid value. -/
inductive ScienceAvailabilityType where
  | SCIENCE_AVAILABILITY_AVAILABLE
  | SCIENCE_AVAILABILITY_DISABLED
  | SCIENCE_AVAILABILITY_HIDDEN
  | SCIENCE_AVAILABILITY_INVALID
  deriving DecidableEq, Repr, Inhabited

/-- Kind of a player (`PlayerType`). -/
inductive PlayerType where
  | PLAYER_HUMAN
  | PLAYER_COMPUTER
  deriving DecidableEq, Repr, Inhabited

/-- A science identifier (`ScienceType`, an `int` sized enumeration). -/
abbrev ScienceType := Int

/-- The invalid science sentinel. -/
def SCIENCE_INVALID : ScienceType := -1

/-- Modelled from the spec: the header constant `SQUAD_COUNT`, the number of
hotkey squads of a player (10, section 3). -/
def SQUAD_COUNT : Nat := 10

/-- Modelled from the spec: the header constant `MAX_PLAYER_COUNT` bounding the
player index range `0 .. MAX_PLAYER_COUNT - 1`; the header that declares it is
not part of the source. -/
def MAX_PLAYER_COUNT : Nat := 16

/-- Persisted content of a collaborator object whose class lives outside
player.cpp (energy, score keeper, AI player, resource gathering manager,
tunnel tracker, build list node, squad). -/
abbrev Snapshot := List Int

/-! ### `std::map` -/

/-- A `std::map<K, V>`: association list of key/value pairs. -/
abbrev StdMap (K V : Type) := List (K × V)

namespace StdMap

variable {K V : Type}

/-- `map.find(k)`: the mapped value of the first entry with key `k`, `none`
standing for `map.end()`. -/
def find [DecidableEq K] : StdMap K V → K → Option V
  | [], _ => none
  | (k0, v) :: rest, k => if k0 = k then some v else find rest k

/-- `map[k] = v`: overwrite the entry of `k` or insert one at its place in
ascending key order. -/
def insert [DecidableEq K] [LT K] [DecidableRel (fun a b : K => a < b)] :
    StdMap K V → K → V → StdMap K V
  | [], k, v => [(k, v)]
  | (k0, v0) :: rest, k, v =>
    if k = k0 then (k, v) :: rest
    else if k < k0 then (k, v) :: (k0, v0) :: rest
    else (k0, v0) :: insert rest k v

/-- `map.erase(map.find(k))` for a key that was found: drop the first entry with key `k`. -/
def erase [DecidableEq K] : StdMap K V → K → StdMap K V
  | [], _ => []
  | (k0, v) :: rest, k => if k0 = k then rest else (k0, v) :: erase rest k

end StdMap

/-! ### Bit flag sets -/

/-- Modelled from the spec: `BitFlags<N>` (bitflags.h is not part of the
source), a set of flag bits held as the natural number whose binary digits are
the bits. Used for the upgrade masks (`BitFlags<128>`) and for the kind-of
flags (`BitFlags<KINDOF_COUNT>`). -/
abbrev BitFlags := Nat

namespace BitFlags

/-- Modelled from the spec: `BitFlags::Set(mask)`, sets every bit of `mask`. -/
def Set (bits mask : BitFlags) : BitFlags := bits ||| mask

/-- Modelled from the spec: `BitFlags::Clear(mask)`, clears every bit of `mask`
(the bits of `bits` that are also in `mask` are removed). -/
def Clear (bits mask : BitFlags) : BitFlags := bits ^^^ (bits &&& mask)

/-- Modelled from the spec: `BitFlags::Test_For_All(mask)`, true when every bit
of `mask` is set in `bits`. -/
def Test_For_All (bits mask : BitFlags) : Bool := decide (bits &&& mask = mask)

end BitFlags

/-! ### Collaborator objects reachable from a player -/

/-- A special power module interface of an object: the science it requires and
what `Add_Science` does to it. -/
structure SpecialPowerModuleInterface where
  m_requiredScience : ScienceType
  /-- number of `On_Special_Power_Creation` calls received -/
  m_creationCalls : Nat := 0
  /-- frame last passed to `Set_Ready_Frame` -/
  m_readyFrame : Nat := 0
  deriving DecidableEq, Repr

/-- A behaviour module; `Get_Special_Power` is null for most modules. -/
structure BehaviorModule where
  m_specialPower : Option SpecialPowerModuleInterface := none
  deriving DecidableEq, Repr

/-- A game object, as far as the player reaches into it. -/
structure Object where
  m_modules : List BehaviorModule := []
  /-- number of `Update_Upgrade_Modules` calls received -/
  m_upgradeModuleUpdates : Nat := 0
  deriving DecidableEq, Repr

/-- A team instance: its id, the index of its controlling player (`none` when
`Get_Controlling_Player` is null) and its member list (an iterator position may
hold a null object). -/
structure Team where
  m_id : Nat
  m_controllingPlayer : Option Int := none
  m_members : List (Option Object) := []
  deriving DecidableEq, Repr

/-- `Team::Get_Team_ID`. -/
def Team.Get_Team_ID (t : Team) : Nat := t.m_id

/-- `Team::Get_Controlling_Player`, the controlling player given by its index. -/
def Team.Get_Controlling_Player (t : Team) : Option Int := t.m_controllingPlayer

/-- A team prototype: its id, the index of its owning player (the back
reference set by `Set_Owning_Player`) and its team instance list. -/
structure TeamPrototype where
  m_id : Nat
  m_owningPlayer : Option Int := none
  m_teamInstances : List (Option Team) := []
  deriving DecidableEq, Repr

/-- An upgrade template: name and upgrade mask. Two template pointers are equal
exactly when the template values are equal. -/
structure UpgradeTemplate where
  m_name : String
  m_upgradeMask : BitFlags
  deriving DecidableEq, Repr

/-- `UpgradeTemplate::Get_Upgrade_Mask`. -/
def UpgradeTemplate.Get_Upgrade_Mask (t : UpgradeTemplate) : BitFlags := t.m_upgradeMask

/-- `UpgradeTemplate::Get_Name`. -/
def UpgradeTemplate.Get_Name (t : UpgradeTemplate) : String := t.m_name

/-- A node of the upgrade list. The `m_next` / `m_prev` links are the list
structure itself: the node before and after it in `m_upgradeList`. -/
structure Upgrade where
  m_template : UpgradeTemplate
  m_status : UpgradeStatusType
  deriving DecidableEq, Repr

/-- Entry of the kind-of production cost change list. -/
structure KindOfPercentProductionChange where
  m_flags : BitFlags
  m_percent : ℚ
  m_count : Nat
  deriving DecidableEq, Repr

/-- Entry of the special power ready timer list. -/
structure SpecialPowerReadyTimerType where
  m_id : Nat
  m_frame : Nat
  deriving DecidableEq, Repr

/-- The optional battle plan bonuses of a player. -/
structure BattlePlanBonuses where
  m_armorBonus : ℚ := 0
  m_sightBonus : ℚ := 0
  m_bombardment : Int := 0
  m_holdTheLine : Int := 0
  m_searchAndDestroy : Int := 0
  m_validKindOf : BitFlags := 0
  m_invalidKindOf : BitFlags := 0
  deriving DecidableEq, Repr

/-- The money of a player: amount and owning player index. -/
structure Money where
  m_money : Nat := 0
  m_playerIndex : Int := 0
  deriving DecidableEq, Repr

/-- Rank metadata of one rank level (`RankInfo`). -/
structure RankInfo where
  m_skillPointsNeeded : Int
  m_sciencePurchasePointsGranted : Int
  m_sciencesGranted : List ScienceType
  deriving DecidableEq, Repr

/-- The part of a player template that `Init` and the rank reset read. -/
structure PlayerTemplate where
  m_side : String := ""
  m_baseSide : String := ""
  m_productionCostChanges : StdMap Nat ℚ := []
  m_productionTimeChanges : StdMap Nat ℚ := []
  m_productionVeterancyLevels : StdMap Nat Int := []
  m_preferredColor : Nat := 0
  m_money : Money := {}
  m_handicap : Snapshot := []
  m_observer : Bool := false
  m_playableSide : Bool := false
  m_intrinsicSciences : List ScienceType := []
  m_intrinsicSciencePurchasePoints : Int := 0
  deriving DecidableEq, Repr

/-! ### Global collaborators -/

/-- The global singletons the player consults, read only: upgrade centre, team
factory, rank info store, game text, name key generator, game logic clock,
player list, game info and global data. -/
structure Env where
  /-- `g_theUpgradeCenter->Find_Upgrade(name)` -/
  Find_Upgrade : String → Option UpgradeTemplate
  /-- `g_theTeamFactory->Find_Team_Prototype_By_ID(id)` -/
  Find_Team_Prototype_By_ID : Nat → Option TeamPrototype
  /-- `g_theTeamFactory->Find_Team_By_ID(id)` -/
  Find_Team_By_ID : Int → Option Team
  /-- `g_theRankInfoStore->Get_Rank_Info(level)` -/
  Get_Rank_Info : Int → Option RankInfo
  /-- `g_theGameText->Fetch(label)`, `none` when `g_theGameText` is null -/
  m_gameText : Option (String → String)
  /-- `g_theNameKeyGenerator->Name_To_Key(name)` -/
  Name_To_Key : String → Nat
  /-- `g_theGameLogic->Get_Frame()` -/
  m_frame : Nat
  /-- index of `g_thePlayerList->Get_Local_Player()` -/
  m_localPlayer : Option Int
  /-- `g_theGameInfo->Get_Money()`, `none` when `g_theGameInfo` is null -/
  m_gameInfoMoney : Option Money
  /-- `g_theWriteableGlobalData->m_defaultStartingCash` -/
  m_defaultStartingCash : Money

/-- What the player has done to collaborators that keep no state here. -/
structure Effects where
  /-- number of `g_theControlBar->Mark_UI_Dirty()` calls -/
  m_uiDirtyMarks : Nat := 0
  /-- the `Notify_Of_Acquired_Science(player index, science)` calls, oldest first -/
  m_acquiredScienceNotices : List (Int × ScienceType) := []
  /-- number of `On_Upgrade_Removed()` calls -/
  m_upgradeRemovedNotices : Nat := 0
  /-- number of debug assertions (`captainslog_dbgassert`) that failed -/
  m_failedDebugAsserts : Nat := 0
  deriving DecidableEq, Repr

/-! ### The player -/

/-- The state of a `Player`. Every member that player.cpp reads or writes is a
field; `m_effects` records the calls made on collaborators. -/
structure Player where
  m_playerIsPreorder : Bool := false
  m_playerIsDead : Bool := false
  m_playerIndex : Int
  m_upgradeList : List Upgrade := []
  m_upgradesInProgress : BitFlags := 0
  m_upgradesCompleted : BitFlags := 0
  m_buildListInfo : List Snapshot := []
  m_ai : Option Snapshot := none
  m_resourceGatheringManager : Option Snapshot := none
  m_defaultTeam : Option Team := none
  m_radarCount : Int := 0
  m_disableProofRadarCount : Int := 0
  m_radarDisabled : Bool := false
  m_tunnelSystem : Option Snapshot := none
  m_playerTemplate : Option PlayerTemplate := none
  m_battlePlanBonuses : Option BattlePlanBonuses := none
  m_skillPointsModifier : ℚ := 1
  m_canBuildUnits : Bool := true
  m_canBuildBase : Bool := true
  m_playerIsObserver : Bool := false
  m_listInScoreScreen : Bool := true
  m_bountyCostToBuild : ℚ := 0
  m_playerColor : Nat := 0
  m_playerNightColor : Nat := 0
  m_squads : List (Option Snapshot) := List.replicate SQUAD_COUNT none
  m_aiSquad : Option Snapshot := none
  m_rankLevel : Int := 0
  m_sciencePurchasePoints : Int := 0
  m_currentSkillPoints : Int := 0
  m_skillPointsNeededForNextRank : Int := 0
  m_rankProgress : Int := 0
  m_scienceGeneralName : String := ""
  m_sciences : List ScienceType := []
  m_disabledSciences : List ScienceType := []
  m_hiddenSciences : List ScienceType := []
  m_lastAttackedByFrame : Nat := 0
  m_unitsShouldHunt : Bool := false
  m_retaliationModeEnabled : Bool := false
  m_playerRelations : StdMap Int Relationship := []
  m_teamRelations : StdMap Nat Relationship := []
  m_activeBattlePlans0 : Int := 0
  m_activeBattlePlans1 : Int := 0
  m_activeBattlePlans2 : Int := 0
  m_side : String := ""
  m_baseSide : String := ""
  m_attackedByPlayer : List Bool := List.replicate MAX_PLAYER_COUNT false
  m_money : Money := {}
  m_energy : Snapshot := []
  m_missionStats : Snapshot := []
  m_scoreKeeper : Snapshot := []
  m_academyStats : Snapshot := []
  m_handicap : Snapshot := []
  m_productionCostChanges : StdMap Nat ℚ := []
  m_productionTimeChanges : StdMap Nat ℚ := []
  m_productionVeterancyLevels : StdMap Nat Int := []
  m_playerDisplayName : String := ""
  m_playerName : String := ""
  m_playerNameKey : Nat := 0
  m_playerType : PlayerType := PlayerType.PLAYER_HUMAN
  m_kindOfPercentProductionChangeList : List KindOfPercentProductionChange := []
  m_specialPowerReadyTimerList : List SpecialPowerReadyTimerType := []
  m_playerTeamPrototypes : List TeamPrototype := []
  m_effects : Effects := {}


/-! ### 32-bit floats

A finite `float` is modelled by its rational value; `none` stands for a `float`
that is not finite (an infinity or a NaN). A `float` operation gives the exact
result rounded to the nearest `float`, a tie to the one with an even
significand: 24 bits of significand, exponents from -126 with gradual
underflow below, and an infinity when the rounded value is beyond the largest
finite `float`. -/

namespace Float32

/-- Round to the nearest integer, a tie to the even one. -/
def Round_Nearest_Even (y : ℚ) : Int :=
  let f : Int := ⌊y⌋
  let d : ℚ := y - f
  if d < 1 / 2 then f else if 1 / 2 < d then f + 1 else if f % 2 = 0 then f else f + 1

/-- The `float` nearest to `x`: with `e` the binary exponent of `x`, not below
-126, the value is rounded to a multiple of `2 ^ (e - 23)`; `none` when the
rounded value is not below `2 ^ 128`, where the `float` is an infinity. -/
def Round (x : ℚ) : Option ℚ :=
  let e : Int := max (Int.log 2 |x|) (-126)
  let quantum : ℚ := 2 ^ (e - 23)
  let r : ℚ := Round_Nearest_Even (x / quantum) * quantum
  if |r| < 2 ^ 128 then some r else none

/-- The `float` addition `a + b`; an operand that is not finite gives a result
that is not finite. -/
def Add (a b : Option ℚ) : Option ℚ :=
  match a, b with
  | some x, some y => Round (x + y)
  | _, _ => none

/-- The `float` multiplication `a * b`; an operand that is not finite gives a
result that is not finite. -/
def Mul (a b : Option ℚ) : Option ℚ :=
  match a, b with
  | some x, some y => Round (x * y)
  | _, _ => none

end Float32

/-- The value a 32-bit `int` holds after an addition with the exact result
`x`: `x` itself when it is in the range -2^31 .. 2^31 - 1, and the value of
the same residue modulo 2^32 in that range when it is not. -/
def Int32_Wrap (x : Int) : Int := (x + 2 ^ 31) % 2 ^ 32 - 2 ^ 31

namespace Player

/-- `Player::Get_Player_Index`. -/
def Get_Player_Index (p : Player) : Int := p.m_playerIndex

/-! ### Relationship resolution -/

/-- `Player::Get_Relationship` (player.cpp 751-778). `that` is the team pointer,
`none` for null. -/
def Get_Relationship (p : Player) (that : Option Team) : Relationship :=
  match that with
  | none => Relationship.NEUTRAL
  | some team =>
    let teamHit : Option Relationship :=
      if !p.m_teamRelations.isEmpty then p.m_teamRelations.find team.Get_Team_ID else none
    match teamHit with
    | some r => r
    | none =>
      if !p.m_playerRelations.isEmpty then
        match team.Get_Controlling_Player with
        | some player =>
          match p.m_playerRelations.find player with
          | some r => r
          | none => Relationship.NEUTRAL
        | none => Relationship.NEUTRAL
      else Relationship.NEUTRAL

/-- The four-step resolution as the specification words it (section 4.2):
null team, team-level entry, player-level entry of the controlling player,
default. -/
def Get_Relationship_reference (p : Player) (that : Option Team) : Relationship :=
  match that with
  | none => Relationship.NEUTRAL
  | some team =>
    match p.m_teamRelations.find team.m_id with
    | some stance => stance
    | none =>
      match team.m_controllingPlayer with
      | none => Relationship.NEUTRAL
      | some index =>
        match p.m_playerRelations.find index with
        | some stance => stance
        | none => Relationship.NEUTRAL

/-- `Player::Set_Player_Relationship` (player.cpp 1284-1289); `that` is the
other player given by its index, `none` for null. -/
def Set_Player_Relationship (p : Player) (that : Option Int) (r : Relationship) : Player :=
  match that with
  | some index => { p with m_playerRelations := p.m_playerRelations.insert index r }
  | none => p

/-- `Player::Set_Team_Relationship` (player.cpp 1509-1514). -/
def Set_Team_Relationship (p : Player) (that : Option Team) (r : Relationship) : Player :=
  match that with
  | some team => { p with m_teamRelations := p.m_teamRelations.insert team.Get_Team_ID r }
  | none => p

/-- `Player::Remove_Team_Relationship` (player.cpp 729-748): the result flag
and the new state; `that` is `none` for a null team. -/
def Remove_Team_Relationship (p : Player) (that : Option Team) : Bool × Player :=
  if p.m_teamRelations.isEmpty then (false, p)
  else
    match that with
    | none => (true, { p with m_teamRelations := [] })
    | some team =>
      match p.m_teamRelations.find team.Get_Team_ID with
      | some _ => (true, { p with m_teamRelations := p.m_teamRelations.erase team.Get_Team_ID })
      | none => (false, p)

/-- `Player::Remove_Player_Relationship` (player.cpp 1488-1507); `that` is the
other player given by its index, `none` for null. -/
def Remove_Player_Relationship (p : Player) (that : Option Int) : Bool × Player :=
  if p.m_playerRelations.isEmpty then (false, p)
  else
    match that with
    | none => (true, { p with m_playerRelations := [] })
    | some index =>
      match p.m_playerRelations.find index with
      | some _ => (true, { p with m_playerRelations := p.m_playerRelations.erase index })
      | none => (false, p)

/-! ### Effects on collaborators -/

/-- `g_theControlBar->Mark_UI_Dirty()`. -/
def Mark_UI_Dirty (p : Player) : Player :=
  { p with m_effects := { p.m_effects with m_uiDirtyMarks := p.m_effects.m_uiDirtyMarks + 1 } }

/-- `g_theScriptEngine->Notify_Of_Acquired_Science(index, t)`. -/
def Notify_Of_Acquired_Science (p : Player) (index : Int) (t : ScienceType) : Player :=
  let notices := p.m_effects.m_acquiredScienceNotices ++ [(index, t)]
  { p with m_effects := { p.m_effects with m_acquiredScienceNotices := notices } }

/-- A `captainslog_dbgassert` whose condition is false. -/
def Debug_Assert_Failed (p : Player) : Player :=
  let failed := p.m_effects.m_failedDebugAsserts + 1
  { p with m_effects := { p.m_effects with m_failedDebugAsserts := failed } }

/-- The test `g_thePlayerList->Get_Local_Player() == this`. -/
def Is_Local_Player (env : Env) (p : Player) : Bool :=
  decide (env.m_localPlayer = some p.m_playerIndex)

/-! ### Upgrade ledger -/

/-- `Player::Find_Upgrade` (player.cpp 1332-1341): the first node, from the
head, whose template is `upgrade_template`. -/
def Find_Upgrade (p : Player) (upgrade_template : UpgradeTemplate) : Option Upgrade :=
  p.m_upgradeList.find? (fun upgrade => decide (upgrade.m_template = upgrade_template))

/-- `upgrade->Set_Status(status)` on the node `Find_Upgrade` returns: the first
node of the list whose template is `upgrade_template`. -/
def Set_Status_Of : List Upgrade → UpgradeTemplate → UpgradeStatusType → List Upgrade
  | [], _, _ => []
  | upgrade :: rest, upgrade_template, status =>
    if upgrade.m_template = upgrade_template then { upgrade with m_status := status } :: rest
    else upgrade :: Set_Status_Of rest upgrade_template status

/-- `Object::Update_Upgrade_Modules` on every non-null member of every non-null
team instance of one prototype. -/
def Update_Upgrade_Modules_Of (proto : TeamPrototype) : TeamPrototype :=
  let onObject (obj : Object) : Object :=
    { obj with m_upgradeModuleUpdates := obj.m_upgradeModuleUpdates + 1 }
  let onTeam (team : Team) : Team :=
    { team with m_members := team.m_members.map (fun obj? => obj?.map onObject) }
  { proto with m_teamInstances := proto.m_teamInstances.map (fun team? => team?.map onTeam) }

/-- `Player::On_Upgrade_Completed` (player.cpp 1343-1368). -/
def On_Upgrade_Completed (p : Player) (_upgrade_template : UpgradeTemplate) : Player :=
  { p with m_playerTeamPrototypes := p.m_playerTeamPrototypes.map Update_Upgrade_Modules_Of }

/-- `Player::On_Upgrade_Removed`. -/
def On_Upgrade_Removed (p : Player) : Player :=
  let notices := p.m_effects.m_upgradeRemovedNotices + 1
  { p with m_effects := { p.m_effects with m_upgradeRemovedNotices := notices } }

/-- `Player::Add_Upgrade` (player.cpp 1298-1330). Returns the new state and the
returned node (its value after the status was set). -/
def Add_Upgrade (env : Env) (p : Player) (upgrade_template : UpgradeTemplate)
    (status : UpgradeStatusType) : Player × Upgrade :=
  let found := p.Find_Upgrade upgrade_template
  -- find or create; a new node becomes the head of the list
  let p1 : Player :=
    match found with
    | none =>
      let node : Upgrade :=
        { m_template := upgrade_template, m_status := UpgradeStatusType.UPGRADE_STATUS_INVALID }
      { p with m_upgradeList := node :: p.m_upgradeList }
    | some _ => p
  let upgrade : Upgrade :=
    match found with
    | none => { m_template := upgrade_template, m_status := status }
    | some node => { node with m_status := status }
  let p2 : Player :=
    { p1 with m_upgradeList := Set_Status_Of p1.m_upgradeList upgrade_template status }
  let mask := upgrade_template.Get_Upgrade_Mask
  let p3 : Player :=
    if status = UpgradeStatusType.UPGRADE_STATUS_IN_PRODUCTION then
      { p2 with m_upgradesInProgress := BitFlags.Set p2.m_upgradesInProgress mask }
    else if status = UpgradeStatusType.UPGRADE_STATUS_COMPLETE then
      On_Upgrade_Completed
        { p2 with m_upgradesInProgress := BitFlags.Clear p2.m_upgradesInProgress mask,
                  m_upgradesCompleted := BitFlags.Set p2.m_upgradesCompleted mask }
        upgrade_template
    else p2
  let p4 : Player := if Is_Local_Player env p3 then p3.Mark_UI_Dirty else p3
  (p4, upgrade)

/-- `Player::Remove_Upgrade` (player.cpp 1786-1812): the found node is unlinked
from the list and both accumulators lose the bits of the template mask. -/
def Remove_Upgrade (env : Env) (p : Player) (upgrade_template : UpgradeTemplate) : Player :=
  match p.Find_Upgrade upgrade_template with
  | none => p
  | some upgrade =>
    let unlinked : List Upgrade :=
      p.m_upgradeList.eraseP (fun node => decide (node.m_template = upgrade_template))
    let p1 : Player := { p with m_upgradeList := unlinked }
    let mask := upgrade_template.Get_Upgrade_Mask
    let p2 : Player :=
      { p1 with m_upgradesInProgress := BitFlags.Clear p1.m_upgradesInProgress mask,
                m_upgradesCompleted := BitFlags.Clear p1.m_upgradesCompleted mask }
    let p3 : Player :=
      if upgrade.m_status = UpgradeStatusType.UPGRADE_STATUS_COMPLETE then p2.On_Upgrade_Removed
      else p2
    if Is_Local_Player env p3 then p3.Mark_UI_Dirty else p3

/-- `Player::Delete_Upgrade_List` (player.cpp 1370-1380). -/
def Delete_Upgrade_List (p : Player) : Player :=
  { p with m_upgradeList := [], m_upgradesInProgress := 0, m_upgradesCompleted := 0 }

/-- `Player::Has_Upgrade_Complete(BitFlags<128>)` (player.cpp 1771-1774). -/
def Has_Upgrade_Complete (p : Player) (test_mask : BitFlags) : Bool :=
  BitFlags.Test_For_All p.m_upgradesCompleted test_mask

/-- `Player::Has_Upgrade_In_Production` (player.cpp 1781-1784). -/
def Has_Upgrade_In_Production (p : Player) (upgrade_template : UpgradeTemplate) : Bool :=
  BitFlags.Test_For_All p.m_upgradesInProgress upgrade_template.Get_Upgrade_Mask

/-- The union of the masks of the list records whose status is `status`. -/
def Union_Of_Masks (status : UpgradeStatusType) (l : List Upgrade) : BitFlags :=
  (l.filter (fun upgrade => decide (upgrade.m_status = status))).foldr
    (fun upgrade acc => upgrade.m_template.m_upgradeMask ||| acc) 0

/-! ### Sciences -/

/-- `Player::Has_Science` (player.cpp 879-882). -/
def Has_Science (p : Player) (t : ScienceType) : Bool := decide (t ∈ p.m_sciences)

/-- `Player::Is_Science_Hidden` (player.cpp 1756-1759). -/
def Is_Science_Hidden (p : Player) (t : ScienceType) : Bool := decide (t ∈ p.m_hiddenSciences)

/-- `Player::Is_Science_Disabled` (player.cpp 1761-1764). -/
def Is_Science_Disabled (p : Player) (t : ScienceType) : Bool :=
  decide (t ∈ p.m_disabledSciences)

/-- The body of the module loop of `Add_Science`: a special power whose
required science is `t` is created and made ready at the current frame. -/
def Grant_Special_Power (env : Env) (t : ScienceType) (m : BehaviorModule) : BehaviorModule :=
  match m.m_specialPower with
  | none => m
  | some sp =>
    if sp.m_requiredScience = t then
      let sp1 : SpecialPowerModuleInterface :=
        { sp with m_creationCalls := sp.m_creationCalls + 1, m_readyFrame := env.m_frame }
      { m with m_specialPower := some sp1 }
    else m

/-- The team and member loops of `Add_Science` on one prototype. -/
def Grant_Special_Powers_Of (env : Env) (t : ScienceType) (proto : TeamPrototype) :
    TeamPrototype :=
  let onObject (obj : Object) : Object :=
    { obj with m_modules := obj.m_modules.map (Grant_Special_Power env t) }
  let onTeam (team : Team) : Team :=
    { team with m_members := team.m_members.map (fun obj? => obj?.map onObject) }
  { proto with m_teamInstances := proto.m_teamInstances.map (fun team? => team?.map onTeam) }

/-- `Player::Add_Science` (player.cpp 1441-1486). The control bar is marked
dirty once per owned prototype (the call sits inside the prototype loop). -/
def Add_Science (env : Env) (p : Player) (t : ScienceType) : Bool × Player :=
  if p.Has_Science t then (false, p)
  else
    let p1 : Player := { p with m_sciences := p.m_sciences ++ [t] }
    let marks := p1.m_effects.m_uiDirtyMarks + p1.m_playerTeamPrototypes.length
    let p2 : Player :=
      { p1 with
        m_playerTeamPrototypes := p1.m_playerTeamPrototypes.map (Grant_Special_Powers_Of env t),
        m_effects := { p1.m_effects with m_uiDirtyMarks := marks } }
    (true, p2.Notify_Of_Acquired_Science p2.Get_Player_Index t)

/-- The erase loops of `Set_Science_Availability`: remove the first element
equal to `t`; the flag tells whether one was found. -/
def Erase_First (t : ScienceType) : List ScienceType → Bool × List ScienceType
  | [] => (false, [])
  | x :: rest =>
    if x = t then (true, rest)
    else ((Erase_First t rest).1, x :: (Erase_First t rest).2)

/-- `Player::Set_Science_Availability` (player.cpp 1900-1926). -/
def Set_Science_Availability (p : Player) (t : ScienceType) (a : ScienceAvailabilityType) :
    Player :=
  let is_disabled := (Erase_First t p.m_disabledSciences).1
  let p1 : Player := { p with m_disabledSciences := (Erase_First t p.m_disabledSciences).2 }
  let p2 : Player :=
    if !is_disabled then { p1 with m_hiddenSciences := (Erase_First t p1.m_hiddenSciences).2 }
    else p1
  if a = ScienceAvailabilityType.SCIENCE_AVAILABILITY_DISABLED then
    { p2 with m_disabledSciences := p2.m_disabledSciences ++ [t] }
  else if a = ScienceAvailabilityType.SCIENCE_AVAILABILITY_HIDDEN then
    { p2 with m_hiddenSciences := p2.m_hiddenSciences ++ [t] }
  else p2

/-! ### Kind-of production cost changes -/

/-- The empty kind-of mask `KINDOFMASK_NONE`. -/
def KINDOFMASK_NONE : BitFlags := 0

/-- `Player::Get_Production_Cost_Change_Based_On_Kind_Of` (player.cpp 906-919):
`cost` is a `float` that starts at `1.0f`, and every entry that passes the flag
test replaces it by `(k->m_percent + 1.0f) * cost`, a float addition followed
by a float multiplication. The result is the value of the returned float,
`none` when it is not finite. `Test_Set_And_Clear flags must_be_set
must_be_clear` is the flag test of `BitFlags`, whose source is not part of
player.cpp. -/
def Get_Production_Cost_Change_Based_On_Kind_Of
    (Test_Set_And_Clear : BitFlags → BitFlags → BitFlags → Bool)
    (p : Player) (flags : BitFlags) : Option ℚ :=
  p.m_kindOfPercentProductionChangeList.foldl
    (fun cost k =>
      if Test_Set_And_Clear flags k.m_flags KINDOFMASK_NONE then
        Float32.Mul (Float32.Add (some k.m_percent) (some 1)) cost
      else cost)
    (some 1)

/-- The loop of `Add_Kind_Of_Production_Cost_Change`: bump the count of the
first entry with this percent and these flags, or append a new entry. -/
def Add_Kind_Of_Change (flags : BitFlags) (percent : ℚ) :
    List KindOfPercentProductionChange → List KindOfPercentProductionChange
  | [] => [{ m_flags := flags, m_percent := percent, m_count := 1 }]
  | k :: rest =>
    if k.m_percent = percent ∧ k.m_flags = flags then
      { k with m_count := (k.m_count + 1) % 2 ^ 32 } :: rest
    else k :: Add_Kind_Of_Change flags percent rest

/-- `Player::Add_Kind_Of_Production_Cost_Change` (player.cpp 1834-1849). -/
def Add_Kind_Of_Production_Cost_Change (p : Player) (flags : BitFlags) (percent : ℚ) : Player :=
  let l := Add_Kind_Of_Change flags percent p.m_kindOfPercentProductionChangeList
  { p with m_kindOfPercentProductionChangeList := l }

/-- The loop of `Remove_Kind_Of_Production_Cost_Change`: decrement the count of
the first entry with this percent and these flags and erase the entry when the
count reaches zero. The flag tells whether such an entry was found. -/
def Remove_Kind_Of_Change (flags : BitFlags) (percent : ℚ) :
    List KindOfPercentProductionChange → Bool × List KindOfPercentProductionChange
  | [] => (false, [])
  | k :: rest =>
    if k.m_percent = percent ∧ k.m_flags = flags then
      let count := (k.m_count + 2 ^ 32 - 1) % 2 ^ 32
      if count = 0 then (true, rest) else (true, { k with m_count := count } :: rest)
    else
      ((Remove_Kind_Of_Change flags percent rest).1,
        k :: (Remove_Kind_Of_Change flags percent rest).2)

/-- `Player::Remove_Kind_Of_Production_Cost_Change` (player.cpp 1851-1871); the
debug assertion fires when no entry matched. -/
def Remove_Kind_Of_Production_Cost_Change (p : Player) (flags : BitFlags) (percent : ℚ) :
    Player :=
  let r := Remove_Kind_Of_Change flags percent p.m_kindOfPercentProductionChangeList
  if r.1 then { p with m_kindOfPercentProductionChangeList := r.2 }
  else p.Debug_Assert_Failed

/-! ### Rank reset and initialisation -/

/-- The science notification loop that ends `Reset_Sciences`. -/
def Notify_All_Sciences (p : Player) : Player :=
  p.m_sciences.foldl (fun q t => q.Notify_Of_Acquired_Science q.Get_Player_Index t) p

/-- First part of `Reset_Sciences`: the acquired list is cleared and seeded
with the intrinsic sciences of the template. -/
def Seed_Sciences (p : Player) : Player :=
  let p1 : Player := { p with m_sciences := [] }
  match p1.m_playerTemplate with
  | some pt => { p1 with m_sciences := pt.m_intrinsicSciences }
  | none => p1

/-- The grant loop of one rank level in `Reset_Sciences`. -/
def Grant_Rank_Sciences (env : Env) (p : Player) (level : Int) : Player :=
  match env.Get_Rank_Info level with
  | some info => info.m_sciencesGranted.foldl (fun q t => (Add_Science env q t).2) p
  | none => p

/-- `Player::Reset_Sciences` (player.cpp 1418-1439): seed, grant the sciences
of the rank levels `1 .. m_rankLevel`, notify the script engine of every
science of the list. -/
def Reset_Sciences (env : Env) (p : Player) : Player :=
  let p2 : Player := p.Seed_Sciences
  let p3 : Player :=
    (List.range p2.m_rankLevel.toNat).foldl
      (fun q i => Grant_Rank_Sciences env q ((i : Int) + 1)) p2
  p3.Notify_All_Sciences

/-- The field assignments of `Reset_Rank` that precede its call of
`Reset_Sciences` (player.cpp 1384-1413). The purchase points are a 32-bit
`int`, and `+=` is a 32-bit addition. -/
def Reset_Rank_Fields (env : Env) (p : Player) : Player :=
  let p1 : Player := { p with m_rankLevel := 1, m_currentSkillPoints := 0 }
  let p2 : Player :=
    match env.Get_Rank_Info (p1.m_rankLevel + 1) with
    | some next_rank_info =>
      { p1 with m_skillPointsNeededForNextRank := next_rank_info.m_skillPointsNeeded }
    | none => { p1 with m_skillPointsNeededForNextRank := 0x7FFFFFFF }
  let p3 : Player := { p2 with m_rankProgress := 0, m_sciences := [] }
  let p4 : Player :=
    match p3.m_playerTemplate with
    | some pt => { p3 with m_sciencePurchasePoints := pt.m_intrinsicSciencePurchasePoints }
    | none => { p3 with m_sciencePurchasePoints := 0 }
  let p5 : Player :=
    match env.Get_Rank_Info p4.m_rankLevel with
    | some cur_rank_info =>
      let points :=
        Int32_Wrap (p4.m_sciencePurchasePoints + cur_rank_info.m_sciencePurchasePointsGranted)
      { p4 with m_sciencePurchasePoints := points }
    | none => p4
  match env.m_gameText with
  | some fetch => { p5 with m_scienceGeneralName := fetch "SCIENCE:GeneralName" }
  | none => { p5 with m_scienceGeneralName := "" }

/-- `Player::Reset_Rank` (player.cpp 1382-1416). -/
def Reset_Rank (env : Env) (p : Player) : Player :=
  Reset_Sciences env (Reset_Rank_Fields env p)

/-- The branch of `Init` for a non-null template (player.cpp 530-555). -/
def Init_From_Template (env : Env) (p : Player) (tmpl : PlayerTemplate) : Player :=
  let money0 : Money := { tmpl.m_money with m_playerIndex := p.Get_Player_Index }
  let money1 : Money :=
    if money0.m_money = 0 then
      match env.m_gameInfoMoney with
      | some m => m
      | none => env.m_defaultStartingCash
    else money0
  { p with
    m_side := tmpl.m_side, m_baseSide := tmpl.m_baseSide,
    m_productionCostChanges := tmpl.m_productionCostChanges,
    m_productionTimeChanges := tmpl.m_productionTimeChanges,
    m_productionVeterancyLevels := tmpl.m_productionVeterancyLevels,
    m_playerColor := (tmpl.m_preferredColor % 2 ^ 32) ||| 0xFF000000,
    m_playerNightColor := (tmpl.m_preferredColor % 2 ^ 32) ||| 0xFF000000,
    m_money := money1,
    m_handicap := tmpl.m_handicap,
    m_playerDisplayName := "", m_playerName := "",
    m_playerNameKey := 0,
    m_playerType := PlayerType.PLAYER_COMPUTER,
    m_playerIsObserver := tmpl.m_observer,
    m_playerIsDead := tmpl.m_observer }

/-- The branch of `Init` for a null template (player.cpp 556-571). -/
def Init_Without_Template (env : Env) (p : Player) : Player :=
  Set_Player_Relationship
    { p with
      m_side := "", m_baseSide := "",
      m_productionCostChanges := [], m_productionTimeChanges := [],
      m_productionVeterancyLevels := [],
      m_playerColor := 0xFFFFFFFF, m_playerNightColor := 0xFFFFFFFF,
      m_money := { p.m_money with m_money := 0 },
      m_handicap := [],
      m_playerDisplayName := "", m_playerName := "",
      m_playerNameKey := env.Name_To_Key "",
      m_playerType := PlayerType.PLAYER_COMPUTER }
    (some p.Get_Player_Index) Relationship.ALLIES

/-- `Init` up to its call of `Reset_Rank` (player.cpp 459-574). The
collaborator objects that are re-initialised (energy, mission stats, score
keeper, handicap) get their fresh content, the empty snapshot; a `new Squad()`
is the empty squad. -/
def Init_Before_Rank (env : Env) (p : Player) (pt : Option PlayerTemplate) : Player :=
  let p0 : Player := if p.m_playerTeamPrototypes.length = 0 then p else p.Debug_Assert_Failed
  let p1 : Player :=
    { p0 with
      m_skillPointsModifier := 1, m_lastAttackedByFrame := 0,
      m_playerIsPreorder := false, m_playerIsDead := false,
      m_radarCount := 0, m_disableProofRadarCount := 0, m_radarDisabled := false,
      m_activeBattlePlans0 := 0, m_activeBattlePlans1 := 0, m_activeBattlePlans2 := 0,
      m_battlePlanBonuses := none }
  let p2 : Player := p1.Delete_Upgrade_List
  let p3 : Player :=
    { p2 with
      m_energy := [], m_missionStats := [],
      m_buildListInfo := [], m_defaultTeam := none, m_ai := none,
      m_resourceGatheringManager := none,
      m_squads := List.replicate SQUAD_COUNT (some []),
      m_aiSquad := some [],
      m_tunnelSystem := none,
      m_canBuildBase := true, m_canBuildUnits := true, m_playerIsObserver := false,
      m_bountyCostToBuild := 0, m_listInScoreScreen := true, m_unitsShouldHunt := false }
  let p4 : Player :=
    match pt with
    | some tmpl => Init_From_Template env p3 tmpl
    | none => Init_Without_Template env p3
  { p4 with m_scoreKeeper := [], m_playerTemplate := pt }

/-- The end of `Init`, after `Reset_Rank` (player.cpp 576-595). -/
def Init_After_Rank (p : Player) : Player :=
  { p with
    m_disabledSciences := [], m_hiddenSciences := [],
    m_specialPowerReadyTimerList := [],
    m_kindOfPercentProductionChangeList := [],
    m_academyStats := [],
    m_retaliationModeEnabled := false }

/-- `Player::Init` (player.cpp 457-596). -/
def Init (env : Env) (p : Player) (pt : Option PlayerTemplate) : Player :=
  Init_After_Rank (Reset_Rank env (Init_Before_Rank env p pt))

/-- `Player::Player(player_index)` (player.cpp 46-90): the member initialisers,
empty relationship tables, null squads, cleared attack flags, then
`Init(nullptr)`. -/
def Construct (env : Env) (player_index : Int) : Player :=
  Init env
    { m_playerIsPreorder := false, m_playerIsDead := false, m_playerIndex := player_index,
      m_upgradeList := [], m_buildListInfo := [], m_ai := none,
      m_resourceGatheringManager := none, m_defaultTeam := none,
      m_radarCount := 0, m_disableProofRadarCount := 0, m_radarDisabled := false,
      m_tunnelSystem := none, m_playerTemplate := none, m_battlePlanBonuses := none,
      m_skillPointsModifier := 1, m_canBuildUnits := true, m_canBuildBase := true,
      m_bountyCostToBuild := 0, m_playerColor := 0, m_aiSquad := none,
      m_rankLevel := 0, m_sciencePurchasePoints := 0, m_currentSkillPoints := 0,
      m_lastAttackedByFrame := 0, m_unitsShouldHunt := false,
      m_playerRelations := [], m_teamRelations := [],
      m_activeBattlePlans0 := 0, m_activeBattlePlans1 := 0, m_activeBattlePlans2 := 0,
      m_side := "", m_baseSide := "",
      m_squads := List.replicate SQUAD_COUNT none,
      m_attackedByPlayer := List.replicate MAX_PLAYER_COUNT false }
    none

end Player

/-! ### Call sequences -/

/-- A call on the upgrade ledger. -/
inductive UpgradeCall where
  | add (upgrade_template : UpgradeTemplate) (status : UpgradeStatusType)
  | remove (upgrade_template : UpgradeTemplate)
  deriving DecidableEq, Repr

/-- The template a ledger call is about. -/
def UpgradeCall.template : UpgradeCall → UpgradeTemplate
  | UpgradeCall.add t _ => t
  | UpgradeCall.remove t => t

namespace Player

/-- One ledger call applied to a player. -/
def Apply_Upgrade_Call (env : Env) (p : Player) : UpgradeCall → Player
  | UpgradeCall.add t status => (p.Add_Upgrade env t status).1
  | UpgradeCall.remove t => p.Remove_Upgrade env t

/-- A sequence of ledger calls applied in order. -/
def Apply_Upgrade_Calls (env : Env) (p : Player) (calls : List UpgradeCall) : Player :=
  calls.foldl (Apply_Upgrade_Call env) p

/-- The status of the record of `upgrade_template`, if the list has one. -/
def Status_Of (p : Player) (upgrade_template : UpgradeTemplate) : Option UpgradeStatusType :=
  (p.Find_Upgrade upgrade_template).map (fun upgrade => upgrade.m_status)

/-- A ledger call that does not lower the status of an existing record:
IN_PRODUCTION is not requested for a COMPLETE record and INVALID is requested
only for a record that is absent or INVALID. -/
def Call_Keeps_Status_Order (p : Player) : UpgradeCall → Bool
  | UpgradeCall.add t UpgradeStatusType.UPGRADE_STATUS_IN_PRODUCTION =>
    decide (p.Status_Of t ≠ some UpgradeStatusType.UPGRADE_STATUS_COMPLETE)
  | UpgradeCall.add t UpgradeStatusType.UPGRADE_STATUS_INVALID =>
    decide (p.Status_Of t = none ∨
      p.Status_Of t = some UpgradeStatusType.UPGRADE_STATUS_INVALID)
  | UpgradeCall.add _ UpgradeStatusType.UPGRADE_STATUS_COMPLETE => true
  | UpgradeCall.remove _ => true

/-- Every call of the sequence keeps the status order in the state it is
applied to. -/
def Calls_Keep_Status_Order (env : Env) : Player → List UpgradeCall → Bool
  | _, [] => true
  | p, call :: calls =>
    p.Call_Keeps_Status_Order call
      && Calls_Keep_Status_Order env (p.Apply_Upgrade_Call env call) calls

end Player

/-- The templates of the calls have pairwise disjoint masks: two different
templates share no mask bit. -/
def Disjoint_Masks (calls : List UpgradeCall) : Prop :=
  ∀ c1 ∈ calls, ∀ c2 ∈ calls, c1.template ≠ c2.template →
    c1.template.m_upgradeMask &&& c2.template.m_upgradeMask = 0

/-! ### Invariants and frames -/

namespace Player

/-- The two accumulators agree with the list: the in-progress accumulator is the
union of the masks of the IN_PRODUCTION records and the completed accumulator
the union of the masks of the COMPLETE records. -/
def Ledger_Consistent (p : Player) : Prop :=
  p.m_upgradesInProgress
      = Union_Of_Masks UpgradeStatusType.UPGRADE_STATUS_IN_PRODUCTION p.m_upgradeList ∧
    p.m_upgradesCompleted
      = Union_Of_Masks UpgradeStatusType.UPGRADE_STATUS_COMPLETE p.m_upgradeList

/-- `q` differs from `p` at most in the acquired sciences, the owned prototypes
(the objects reached through them) and the recorded effects. -/
def Science_Frame (p q : Player) : Prop :=
  ∃ sc pr ef, q = { p with m_sciences := sc, m_playerTeamPrototypes := pr, m_effects := ef }

/-- A sequence of `Set_Science_Availability` calls applied in order. -/
def Apply_Availability_Calls (p : Player)
    (calls : List (ScienceType × ScienceAvailabilityType)) : Player :=
  calls.foldl (fun q call => q.Set_Science_Availability call.1 call.2) p

/-- The entries of the kind-of change list with this percent and these flags. -/
def Kind_Of_Entries (p : Player) (flags : BitFlags) (percent : ℚ) :
    List KindOfPercentProductionChange :=
  p.m_kindOfPercentProductionChangeList.filter
    (fun k => decide (k.m_percent = percent ∧ k.m_flags = flags))

end Player

/-- A flag test for the kind-of query: every bit of `must_be_set` is set in
`flags` and no bit of `must_be_clear` is. -/
def testAllSetNoneClear (flags must_be_set must_be_clear : BitFlags) : Bool :=
  decide (flags &&& must_be_set = must_be_set ∧ flags &&& must_be_clear = 0)

/-! ### The Xfer stream

The stream primitives of `Xfer` are not part of player.cpp. They are modelled
from the spec (section 6): an ordered, typed sequence of items; in save mode a
primitive appends the item of its value, in load mode it takes the next item,
which must be of its kind, and returns the stored value. -/

/-- Modelled from the spec: the transfer direction (`XferMode`), save or load. -/
inductive XferMode where
  | XFER_SAVE
  | XFER_LOAD
  deriving DecidableEq, Repr

/-- Modelled from the spec: one item of a stream, the value one primitive call
writes (section 6: booleans, integers, floating values, strings, opaque blocks). -/
inductive XferItem where
  | version (v : Nat)
  | bool (b : Bool)
  | int (i : Int)
  | unsignedInt (n : Nat)
  | unsignedShort (n : Nat)
  | real (r : ℚ)
  | asciiString (s : String)
  | unicodeString (s : String)
  | user (data : List Int)
  | upgradeMask (m : BitFlags)
  | kindOf (m : BitFlags)
  | scienceVec (v : List ScienceType)
  | snapshot (data : Snapshot)
  deriving DecidableEq, Repr

/-- Modelled from the spec: the abnormal ends of a transfer. -/
inductive XferError where
  /-- the stored version is newer than the current one -/
  | XFER_INVALID_VERSION
  /-- the stream ends, or its next item is not of the kind asked for -/
  | XFER_READ_ERROR
  /-- a release assertion (`captainslog_relassert`) failed -/
  | RELEASE_ASSERT
  deriving DecidableEq, Repr

/-- Modelled from the spec: the `Xfer` object, its mode and its stream. In save
mode the stream is what has been written so far, in load mode what is left to
read. -/
structure Xfer where
  m_mode : XferMode
  m_stream : List XferItem
  deriving DecidableEq, Repr

namespace Xfer

/-- `Xfer::Get_Mode`. -/
def Get_Mode (xfer : Xfer) : XferMode := xfer.m_mode

/-- Modelled from the spec: one primitive call on a value `v`. Save appends
`enc v` and leaves the value; load takes the next item and returns the value
`dec` reads from it. -/
def transfer {α : Type} (enc : α → XferItem) (dec : XferItem → Option α) (xfer : Xfer) (v : α) :
    Except XferError (Xfer × α) :=
  match xfer.m_mode with
  | XferMode.XFER_SAVE => Except.ok ({ xfer with m_stream := xfer.m_stream ++ [enc v] }, v)
  | XferMode.XFER_LOAD =>
    match xfer.m_stream with
    | [] => Except.error XferError.XFER_READ_ERROR
    | item :: rest =>
      match dec item with
      | some w => Except.ok ({ xfer with m_stream := rest }, w)
      | none => Except.error XferError.XFER_READ_ERROR

/-- Modelled from the spec: `Xfer::xferVersion(&version, current)`; a stored
version above the current one ends the load. -/
def xferVersion (xfer : Xfer) (version current : Nat) : Except XferError (Xfer × Nat) :=
  match transfer XferItem.version (fun item => match item with
      | XferItem.version v => some v
      | _ => none) xfer version with
  | Except.ok (xfer1, v) =>
    if v > current then Except.error XferError.XFER_INVALID_VERSION else Except.ok (xfer1, v)
  | Except.error e => Except.error e

/-- Modelled from the spec: `Xfer::xferBool`. -/
def xferBool (xfer : Xfer) (v : Bool) : Except XferError (Xfer × Bool) :=
  transfer XferItem.bool (fun item => match item with
    | XferItem.bool b => some b
    | _ => none) xfer v

/-- Modelled from the spec: `Xfer::xferInt`. -/
def xferInt (xfer : Xfer) (v : Int) : Except XferError (Xfer × Int) :=
  transfer XferItem.int (fun item => match item with
    | XferItem.int i => some i
    | _ => none) xfer v

/-- Modelled from the spec: `Xfer::xferUnsignedInt`. -/
def xferUnsignedInt (xfer : Xfer) (v : Nat) : Except XferError (Xfer × Nat) :=
  transfer XferItem.unsignedInt (fun item => match item with
    | XferItem.unsignedInt n => some n
    | _ => none) xfer v

/-- Modelled from the spec: `Xfer::xferUnsignedShort`. -/
def xferUnsignedShort (xfer : Xfer) (v : Nat) : Except XferError (Xfer × Nat) :=
  transfer XferItem.unsignedShort (fun item => match item with
    | XferItem.unsignedShort n => some n
    | _ => none) xfer v

/-- Modelled from the spec: `Xfer::xferReal`. -/
def xferReal (xfer : Xfer) (v : ℚ) : Except XferError (Xfer × ℚ) :=
  transfer XferItem.real (fun item => match item with
    | XferItem.real r => some r
    | _ => none) xfer v

/-- Modelled from the spec: `Xfer::xferAsciiString`. -/
def xferAsciiString (xfer : Xfer) (v : String) : Except XferError (Xfer × String) :=
  transfer XferItem.asciiString (fun item => match item with
    | XferItem.asciiString s => some s
    | _ => none) xfer v

/-- Modelled from the spec: `Xfer::xferUnicodeString`. -/
def xferUnicodeString (xfer : Xfer) (v : String) : Except XferError (Xfer × String) :=
  transfer XferItem.unicodeString (fun item => match item with
    | XferItem.unicodeString s => some s
    | _ => none) xfer v

/-- Modelled from the spec: `Xfer::xferUser(data, size)`, an opaque block of
fixed size; the block is given as the list of the values it holds and a load
accepts only a block of the same length. -/
def xferUser (xfer : Xfer) (v : List Int) : Except XferError (Xfer × List Int) :=
  transfer XferItem.user (fun item => match item with
    | XferItem.user data => if data.length = v.length then some data else none
    | _ => none) xfer v

/-- Modelled from the spec: `Xfer::xferUpgradeMask`. -/
def xferUpgradeMask (xfer : Xfer) (v : BitFlags) : Except XferError (Xfer × BitFlags) :=
  transfer XferItem.upgradeMask (fun item => match item with
    | XferItem.upgradeMask m => some m
    | _ => none) xfer v

/-- Modelled from the spec: `BitFlags<KINDOF_COUNT>::Xfer`. -/
def xferKindOf (xfer : Xfer) (v : BitFlags) : Except XferError (Xfer × BitFlags) :=
  transfer XferItem.kindOf (fun item => match item with
    | XferItem.kindOf m => some m
    | _ => none) xfer v

/-- Modelled from the spec: `Xfer::xferScienceVec`, the variable-width science
vector; a load replaces the content of the vector by the stored sequence. -/
def xferScienceVec (xfer : Xfer) (v : List ScienceType) :
    Except XferError (Xfer × List ScienceType) :=
  transfer XferItem.scienceVec (fun item => match item with
    | XferItem.scienceVec w => some w
    | _ => none) xfer v

/-- Modelled from the spec: `Xfer::xferSnapshot(object)` for a collaborator
object given by its persisted content. -/
def xferSnapshot (xfer : Xfer) (v : Snapshot) : Except XferError (Xfer × Snapshot) :=
  transfer XferItem.snapshot (fun item => match item with
    | XferItem.snapshot data => some data
    | _ => none) xfer v

/-- A `captainslog_relassert(condition, ...)`. -/
def relassert (condition : Bool) : Except XferError Unit :=
  if condition then Except.ok () else Except.error XferError.RELEASE_ASSERT

end Xfer

/-- Modelled from the spec: the integer a `Relationship` is stored as, its
position in the enumeration. -/
def Relationship.toInt : Relationship → Int
  | Relationship.ENEMIES => 0
  | Relationship.NEUTRAL => 1
  | Relationship.ALLIES => 2

/-- Modelled from the spec: the `Relationship` of a stored integer. -/
def Relationship.ofInt : Int → Option Relationship
  | 0 => some Relationship.ENEMIES
  | 1 => some Relationship.NEUTRAL
  | 2 => some Relationship.ALLIES
  | _ => none

/-- Modelled from the spec: the integer an `UpgradeStatusType` is stored as, its
position in the enumeration. -/
def UpgradeStatusType.toInt : UpgradeStatusType → Int
  | UpgradeStatusType.UPGRADE_STATUS_INVALID => 0
  | UpgradeStatusType.UPGRADE_STATUS_IN_PRODUCTION => 1
  | UpgradeStatusType.UPGRADE_STATUS_COMPLETE => 2

/-- Modelled from the spec: the `UpgradeStatusType` of a stored integer. -/
def UpgradeStatusType.ofInt : Int → Option UpgradeStatusType
  | 0 => some UpgradeStatusType.UPGRADE_STATUS_INVALID
  | 1 => some UpgradeStatusType.UPGRADE_STATUS_IN_PRODUCTION
  | 2 => some UpgradeStatusType.UPGRADE_STATUS_COMPLETE
  | _ => none

/-! ### Snapshots of the owned sub-objects -/

/-- Modelled from the spec: `Money::Xfer_Snapshot` (money.cpp is not part of
the source), which transfers the amount. -/
def Money.Xfer_Snapshot (xfer : Xfer) (money : Money) : Except XferError (Xfer × Money) := do
  let (xfer, data) ← xfer.xferSnapshot [(money.m_money : Int)]
  match data with
  | [amount] => pure (xfer, { money with m_money := amount.toNat })
  | _ => throw XferError.XFER_READ_ERROR

/-- Modelled from the spec: `Upgrade::Xfer_Snapshot` (upgrade.cpp is not part of
the source), which transfers the status of the record. -/
def Upgrade.Xfer_Snapshot (xfer : Xfer) (upgrade : Upgrade) :
    Except XferError (Xfer × Upgrade) := do
  let (xfer, data) ← xfer.xferSnapshot [upgrade.m_status.toInt]
  match data with
  | [code] =>
    match UpgradeStatusType.ofInt code with
    | some status => pure (xfer, { upgrade with m_status := status })
    | none => throw XferError.XFER_READ_ERROR
  | _ => throw XferError.XFER_READ_ERROR

namespace PlayerRelationMap

/-- The save loop of `PlayerRelationMap::Xfer_Snapshot` (player.cpp 934-939). -/
def Save_Entries : List (Int × Relationship) → Xfer → Except XferError Xfer
  | [], xfer => pure xfer
  | (id, r) :: rest, xfer => do
    let (xfer, _) ← xfer.xferInt id
    let (xfer, _) ← xfer.xferUser [r.toInt]
    Save_Entries rest xfer

/-- The load loop of `PlayerRelationMap::Xfer_Snapshot` (player.cpp 941-947):
each stored pair is assigned into the map, which is not cleared before. A
stored value that is no `Relationship` is a read error. -/
def Load_Entries : Nat → Xfer → StdMap Int Relationship →
    Except XferError (Xfer × StdMap Int Relationship)
  | 0, xfer, m => pure (xfer, m)
  | n + 1, xfer, m => do
    let (xfer, id) ← xfer.xferInt 0
    let (xfer, data) ← xfer.xferUser [0]
    match data with
    | [code] =>
      match Relationship.ofInt code with
      | some r => Load_Entries n xfer (m.insert id r)
      | none => throw XferError.XFER_READ_ERROR
    | _ => throw XferError.XFER_READ_ERROR

/-- `PlayerRelationMap::Xfer_Snapshot` (player.cpp 926-949). -/
def Xfer_Snapshot (xfer : Xfer) (m : StdMap Int Relationship) :
    Except XferError (Xfer × StdMap Int Relationship) := do
  let (xfer, _) ← xfer.xferVersion 1 1
  let (xfer, size) ← xfer.xferUnsignedShort (m.length % 2 ^ 16)
  if xfer.Get_Mode = XferMode.XFER_SAVE then
    let xfer ← Save_Entries m xfer
    pure (xfer, m)
  else
    Load_Entries size xfer m

end PlayerRelationMap

namespace TeamRelationMap

/-- Modelled from the spec: the save loop of `TeamRelationMap::Xfer_Snapshot`. -/
def Save_Entries : List (Nat × Relationship) → Xfer → Except XferError Xfer
  | [], xfer => pure xfer
  | (id, r) :: rest, xfer => do
    let (xfer, _) ← xfer.xferUnsignedInt id
    let (xfer, _) ← xfer.xferUser [r.toInt]
    Save_Entries rest xfer

/-- Modelled from the spec: the load loop of `TeamRelationMap::Xfer_Snapshot`. -/
def Load_Entries : Nat → Xfer → StdMap Nat Relationship →
    Except XferError (Xfer × StdMap Nat Relationship)
  | 0, xfer, m => pure (xfer, m)
  | n + 1, xfer, m => do
    let (xfer, id) ← xfer.xferUnsignedInt 0
    let (xfer, data) ← xfer.xferUser [0]
    match data with
    | [code] =>
      match Relationship.ofInt code with
      | some r => Load_Entries n xfer (m.insert id r)
      | none => throw XferError.XFER_READ_ERROR
    | _ => throw XferError.XFER_READ_ERROR

/-- Modelled from the spec: `TeamRelationMap::Xfer_Snapshot` (team.cpp is not
part of the source). The spec gives both relation stores the same relationship
table (section 2), so the routine is the one of `PlayerRelationMap` with team
ids as keys. -/
def Xfer_Snapshot (xfer : Xfer) (m : StdMap Nat Relationship) :
    Except XferError (Xfer × StdMap Nat Relationship) := do
  let (xfer, _) ← xfer.xferVersion 1 1
  let (xfer, size) ← xfer.xferUnsignedShort (m.length % 2 ^ 16)
  if xfer.Get_Mode = XferMode.XFER_SAVE then
    let xfer ← Save_Entries m xfer
    pure (xfer, m)
  else
    Load_Entries size xfer m

end TeamRelationMap

/-! ### `Player::Xfer_Snapshot`

The routine is cut into its consecutive blocks; `Player.Xfer_Snapshot` runs
them in the order of the source. Every block takes the `Xfer` object and the
player and returns both, or the error that ended the transfer. -/

namespace Player

/-- The save loop over the upgrade list (player.cpp 175-179). -/
def Save_Upgrades : List Upgrade → Xfer → Except XferError Xfer
  | [], xfer => pure xfer
  | upgrade :: rest, xfer => do
    let (xfer, _) ← xfer.xferAsciiString upgrade.m_template.Get_Name
    let (xfer, _) ← Upgrade.Xfer_Snapshot xfer upgrade
    Save_Upgrades rest xfer

/-- The load loop over the stored upgrades (player.cpp 181-187): the name must
resolve in the upgrade centre, the record is found or created by `Add_Upgrade`
and then takes the stored status. -/
def Load_Upgrades (env : Env) : Nat → Xfer → Player → Except XferError (Xfer × Player)
  | 0, xfer, p => pure (xfer, p)
  | n + 1, xfer, p => do
    let (xfer, str) ← xfer.xferAsciiString ""
    match env.Find_Upgrade str with
    | none => throw XferError.RELEASE_ASSERT
    | some tmplate =>
      let added := p.Add_Upgrade env tmplate UpgradeStatusType.UPGRADE_STATUS_INVALID
      let (xfer, upgrade) ← Upgrade.Xfer_Snapshot xfer added.2
      let nodes := Set_Status_Of added.1.m_upgradeList tmplate upgrade.m_status
      Load_Upgrades env n xfer { added.1 with m_upgradeList := nodes }

/-- Player.cpp 154-188: money, upgrade count, preorder flag (version 7),
disabled and hidden sciences (version 8), the upgrades. -/
def Xfer_Upgrades (env : Env) (version : Nat) (xfer : Xfer) (p : Player) :
    Except XferError (Xfer × Player) := do
  let (xfer, money) ← Money.Xfer_Snapshot xfer p.m_money
  let p : Player := { p with m_money := money }
  let (xfer, upgrade_count) ← xfer.xferUnsignedShort (p.m_upgradeList.length % 2 ^ 16)
  let (xfer, p) ←
    if version ≥ 7 then do
      let (xfer, preorder) ← xfer.xferBool p.m_playerIsPreorder
      pure (xfer, ({ p with m_playerIsPreorder := preorder } : Player))
    else pure (xfer, p)
  let (xfer, p) ←
    if version ≥ 8 then do
      let (xfer, disabled) ← xfer.xferScienceVec p.m_disabledSciences
      let (xfer, hidden) ← xfer.xferScienceVec p.m_hiddenSciences
      pure (xfer, ({ p with m_disabledSciences := disabled, m_hiddenSciences := hidden } : Player))
    else pure (xfer, p)
  if xfer.Get_Mode = XferMode.XFER_SAVE then do
    let xfer ← Save_Upgrades p.m_upgradeList xfer
    pure (xfer, p)
  else Load_Upgrades env upgrade_count xfer p

/-- Player.cpp 190-196: radar counters, dead flag, the two upgrade
accumulators, energy. -/
def Xfer_Radar_And_Masks (xfer : Xfer) (p : Player) : Except XferError (Xfer × Player) := do
  let (xfer, radarCount) ← xfer.xferInt p.m_radarCount
  let (xfer, dead) ← xfer.xferBool p.m_playerIsDead
  let (xfer, proofCount) ← xfer.xferInt p.m_disableProofRadarCount
  let (xfer, radarDisabled) ← xfer.xferBool p.m_radarDisabled
  let (xfer, inProgress) ← xfer.xferUpgradeMask p.m_upgradesInProgress
  let (xfer, completed) ← xfer.xferUpgradeMask p.m_upgradesCompleted
  let (xfer, energy) ← xfer.xferSnapshot p.m_energy
  pure (xfer,
    { p with
      m_radarCount := radarCount, m_playerIsDead := dead,
      m_disableProofRadarCount := proofCount, m_radarDisabled := radarDisabled,
      m_upgradesInProgress := inProgress, m_upgradesCompleted := completed,
      m_energy := energy })

/-- The save loop over the team prototypes (player.cpp 202-205). -/
def Save_Team_Prototypes : List TeamPrototype → Xfer → Except XferError Xfer
  | [], xfer => pure xfer
  | proto :: rest, xfer => do
    let (xfer, _) ← xfer.xferUser [(proto.m_id : Int)]
    Save_Team_Prototypes rest xfer

/-- The load loop over the stored prototype ids (player.cpp 209-215): an id the
team factory cannot resolve is fatal. -/
def Load_Team_Prototypes (env : Env) : Nat → Xfer → Player → Except XferError (Xfer × Player)
  | 0, xfer, p => pure (xfer, p)
  | n + 1, xfer, p => do
    let (xfer, data) ← xfer.xferUser [0]
    match data with
    | [id] =>
      match env.Find_Team_Prototype_By_ID id.toNat with
      | none => throw XferError.RELEASE_ASSERT
      | some prototype =>
        Load_Team_Prototypes env n xfer
          { p with m_playerTeamPrototypes := p.m_playerTeamPrototypes ++ [prototype] }
    | _ => throw XferError.XFER_READ_ERROR

/-- Player.cpp 198-216: the team prototype list, stored as ids. -/
def Xfer_Team_Prototypes (env : Env) (xfer : Xfer) (p : Player) :
    Except XferError (Xfer × Player) := do
  let (xfer, team_count) ← xfer.xferUnsignedShort (p.m_playerTeamPrototypes.length % 2 ^ 16)
  if xfer.Get_Mode = XferMode.XFER_SAVE then do
    let xfer ← Save_Team_Prototypes p.m_playerTeamPrototypes xfer
    pure (xfer, p)
  else Load_Team_Prototypes env team_count xfer { p with m_playerTeamPrototypes := [] }

/-- The save loop over the build list (player.cpp 227-229). -/
def Save_Build_List : List Snapshot → Xfer → Except XferError Xfer
  | [], xfer => pure xfer
  | build_list :: rest, xfer => do
    let (xfer, _) ← xfer.xferSnapshot build_list
    Save_Build_List rest xfer

/-- The load loop over the stored build list nodes (player.cpp 236-253): a new
node is linked at the tail of the chain and loaded. -/
def Load_Build_List : Nat → Xfer → Player → Except XferError (Xfer × Player)
  | 0, xfer, p => pure (xfer, p)
  | n + 1, xfer, p => do
    let (xfer, build_list) ← xfer.xferSnapshot []
    Load_Build_List n xfer { p with m_buildListInfo := p.m_buildListInfo ++ [build_list] }

/-- Player.cpp 218-254: the build list chain. -/
def Xfer_Build_List (xfer : Xfer) (p : Player) : Except XferError (Xfer × Player) := do
  let (xfer, build_list_count) ← xfer.xferUnsignedShort (p.m_buildListInfo.length % 2 ^ 16)
  if xfer.Get_Mode = XferMode.XFER_SAVE then do
    let xfer ← Save_Build_List p.m_buildListInfo xfer
    pure (xfer, p)
  else Load_Build_List build_list_count xfer { p with m_buildListInfo := [] }

/-- One nullable owned system with its presence flag (player.cpp 256-263,
265-274, 276-286): the flag read must agree with the presence of the object;
a present object is transferred. -/
def Xfer_Owned_System (xfer : Xfer) (system : Option Snapshot) :
    Except XferError (Xfer × Option Snapshot) := do
  let (xfer, has_system) ← xfer.xferBool system.isSome
  Xfer.relassert ((!has_system && system.isNone) || (has_system && system.isSome))
  match system with
  | some content =>
    let (xfer, content) ← xfer.xferSnapshot content
    pure (xfer, some content)
  | none => pure (xfer, none)

/-- Player.cpp 256-286: AI player, resource gathering manager, tunnel system. -/
def Xfer_Owned_Systems (xfer : Xfer) (p : Player) : Except XferError (Xfer × Player) := do
  let (xfer, ai) ← Xfer_Owned_System xfer p.m_ai
  let (xfer, manager) ← Xfer_Owned_System xfer p.m_resourceGatheringManager
  let (xfer, tunnels) ← Xfer_Owned_System xfer p.m_tunnelSystem
  pure (xfer,
    { p with m_ai := ai, m_resourceGatheringManager := manager, m_tunnelSystem := tunnels })

/-- Player.cpp 288-300: the default team, stored as its id, 0 for none; a load
takes the team the factory finds for the stored id. -/
def Xfer_Default_Team (env : Env) (xfer : Xfer) (p : Player) :
    Except XferError (Xfer × Player) := do
  let team_id : Int :=
    match p.m_defaultTeam with
    | some team => (team.Get_Team_ID : Int)
    | none => 0
  let (xfer, data) ← xfer.xferUser [team_id]
  if xfer.Get_Mode = XferMode.XFER_LOAD then
    match data with
    | [id] => pure (xfer, { p with m_defaultTeam := env.Find_Team_By_ID id })
    | _ => throw XferError.XFER_READ_ERROR
  else pure (xfer, p)

/-- The save loop of the legacy science list (player.cpp 307-310). -/
def Save_Sciences : List ScienceType → Xfer → Except XferError Xfer
  | [], xfer => pure xfer
  | science :: rest, xfer => do
    let (xfer, _) ← xfer.xferUser [science]
    Save_Sciences rest xfer

/-- The load loop of the legacy science list (player.cpp 312-316). -/
def Load_Sciences : Nat → Xfer → Player → Except XferError (Xfer × Player)
  | 0, xfer, p => pure (xfer, p)
  | n + 1, xfer, p => do
    let (xfer, data) ← xfer.xferUser [0]
    match data with
    | [science] => Load_Sciences n xfer { p with m_sciences := p.m_sciences ++ [science] }
    | _ => throw XferError.XFER_READ_ERROR

/-- Player.cpp 302-324: the acquired sciences, as the legacy counted list
below version 5 and as a science vector from version 5 on. -/
def Xfer_Sciences (version : Nat) (xfer : Xfer) (p : Player) :
    Except XferError (Xfer × Player) := do
  if version < 5 then do
    let (xfer, science_count) ← xfer.xferUnsignedShort (p.m_sciences.length % 2 ^ 16)
    if xfer.Get_Mode = XferMode.XFER_SAVE then do
      let xfer ← Save_Sciences p.m_sciences xfer
      pure (xfer, p)
    else Load_Sciences science_count xfer p
  else do
    let p : Player := if xfer.Get_Mode = XferMode.XFER_LOAD then { p with m_sciences := [] } else p
    let (xfer, sciences) ← xfer.xferScienceVec p.m_sciences
    pure (xfer, { p with m_sciences := sciences })

/-- Player.cpp 326-352: rank fields, general name, both relationship tables,
build flags, observer flag, skill point modifier (version 2), score screen
flag (version 3), attacked-by flags, bounty, score keeper. -/
def Xfer_Rank_And_Relations (version : Nat) (xfer : Xfer) (p : Player) :
    Except XferError (Xfer × Player) := do
  let (xfer, rankLevel) ← xfer.xferInt p.m_rankLevel
  let (xfer, currentSkillPoints) ← xfer.xferInt p.m_currentSkillPoints
  let (xfer, sciencePurchasePoints) ← xfer.xferInt p.m_sciencePurchasePoints
  let (xfer, neededForNextRank) ← xfer.xferInt p.m_skillPointsNeededForNextRank
  let (xfer, rankProgress) ← xfer.xferInt p.m_rankProgress
  let (xfer, generalName) ← xfer.xferUnicodeString p.m_scienceGeneralName
  let (xfer, playerRelations) ← PlayerRelationMap.Xfer_Snapshot xfer p.m_playerRelations
  let (xfer, teamRelations) ← TeamRelationMap.Xfer_Snapshot xfer p.m_teamRelations
  let (xfer, canBuildUnits) ← xfer.xferBool p.m_canBuildUnits
  let (xfer, canBuildBase) ← xfer.xferBool p.m_canBuildBase
  let (xfer, observer) ← xfer.xferBool p.m_playerIsObserver
  let (xfer, modifier) ←
    if version < 2 then pure (xfer, (1 : ℚ)) else xfer.xferReal p.m_skillPointsModifier
  let (xfer, listInScoreScreen) ←
    if version < 3 then pure (xfer, true) else xfer.xferBool p.m_listInScoreScreen
  let (xfer, attacked) ←
    xfer.xferUser (p.m_attackedByPlayer.map (fun b => if b then (1 : Int) else 0))
  let (xfer, bounty) ← xfer.xferReal p.m_bountyCostToBuild
  let (xfer, scoreKeeper) ← xfer.xferSnapshot p.m_scoreKeeper
  pure (xfer,
    { p with
      m_rankLevel := rankLevel, m_currentSkillPoints := currentSkillPoints,
      m_sciencePurchasePoints := sciencePurchasePoints,
      m_skillPointsNeededForNextRank := neededForNextRank,
      m_rankProgress := rankProgress, m_scienceGeneralName := generalName,
      m_playerRelations := playerRelations, m_teamRelations := teamRelations,
      m_canBuildUnits := canBuildUnits, m_canBuildBase := canBuildBase,
      m_playerIsObserver := observer, m_skillPointsModifier := modifier,
      m_listInScoreScreen := listInScoreScreen,
      m_attackedByPlayer := attacked.map (fun v => decide (v ≠ 0)),
      m_bountyCostToBuild := bounty, m_scoreKeeper := scoreKeeper })

/-- The save loop over the kind-of change list (player.cpp 357-362). -/
def Save_Kind_Of_Changes : List KindOfPercentProductionChange → Xfer → Except XferError Xfer
  | [], xfer => pure xfer
  | k :: rest, xfer => do
    let (xfer, _) ← xfer.xferKindOf k.m_flags
    let (xfer, _) ← xfer.xferReal k.m_percent
    let (xfer, _) ← xfer.xferUnsignedInt k.m_count
    Save_Kind_Of_Changes rest xfer

/-- The load loop over the stored kind-of changes (player.cpp 367-373). -/
def Load_Kind_Of_Changes : Nat → Xfer → Player → Except XferError (Xfer × Player)
  | 0, xfer, p => pure (xfer, p)
  | n + 1, xfer, p => do
    let (xfer, flags) ← xfer.xferKindOf 0
    let (xfer, percent) ← xfer.xferReal 0
    let (xfer, count) ← xfer.xferUnsignedInt 0
    let k : KindOfPercentProductionChange :=
      { m_flags := flags, m_percent := percent, m_count := count }
    let l := p.m_kindOfPercentProductionChangeList ++ [k]
    Load_Kind_Of_Changes n xfer { p with m_kindOfPercentProductionChangeList := l }

/-- Player.cpp 353-374: the kind-of change list; a load asserts that the list
of the player is empty. -/
def Xfer_Kind_Of_Changes (xfer : Xfer) (p : Player) : Except XferError (Xfer × Player) := do
  let (xfer, change_list_count) ←
    xfer.xferUnsignedShort (p.m_kindOfPercentProductionChangeList.length % 2 ^ 16)
  if xfer.Get_Mode = XferMode.XFER_SAVE then do
    let xfer ← Save_Kind_Of_Changes p.m_kindOfPercentProductionChangeList xfer
    pure (xfer, p)
  else do
    Xfer.relassert (decide (p.m_kindOfPercentProductionChangeList.length = 0))
    Load_Kind_Of_Changes change_list_count xfer p

/-- The save loop over the special power ready timers (player.cpp 381-385). -/
def Save_Timers : List SpecialPowerReadyTimerType → Xfer → Except XferError Xfer
  | [], xfer => pure xfer
  | timer :: rest, xfer => do
    let (xfer, _) ← xfer.xferUnsignedInt timer.m_id
    let (xfer, _) ← xfer.xferUnsignedInt timer.m_frame
    Save_Timers rest xfer

/-- The load loop over the stored timers (player.cpp 390-395). -/
def Load_Timers : Nat → Xfer → Player → Except XferError (Xfer × Player)
  | 0, xfer, p => pure (xfer, p)
  | n + 1, xfer, p => do
    let (xfer, id) ← xfer.xferUnsignedInt 0
    let (xfer, frame) ← xfer.xferUnsignedInt 0
    let l := p.m_specialPowerReadyTimerList ++ [{ m_id := id, m_frame := frame }]
    Load_Timers n xfer { p with m_specialPowerReadyTimerList := l }

/-- Player.cpp 376-399: the special power ready timers from version 5 on; for
an older version the list is cleared and nothing is transferred. -/
def Xfer_Special_Power_Timers (version : Nat) (xfer : Xfer) (p : Player) :
    Except XferError (Xfer × Player) := do
  if version > 4 then do
    let (xfer, special_power_timer_count) ←
      xfer.xferUnsignedShort (p.m_specialPowerReadyTimerList.length % 2 ^ 16)
    if xfer.Get_Mode = XferMode.XFER_SAVE then do
      let xfer ← Save_Timers p.m_specialPowerReadyTimerList xfer
      pure (xfer, p)
    else do
      Xfer.relassert (decide (p.m_specialPowerReadyTimerList.length = 0))
      Load_Timers special_power_timer_count xfer p
  else pure (xfer, { p with m_specialPowerReadyTimerList := [] })

/-- The squad loop (player.cpp 405-408) over the slots of the squad array: a
null slot is fatal, a squad is transferred. -/
def Xfer_Squad_Slots : List (Option Snapshot) → Xfer →
    Except XferError (Xfer × List (Option Snapshot))
  | [], xfer => pure (xfer, [])
  | none :: _, _ => throw XferError.RELEASE_ASSERT
  | some squad :: rest, xfer => do
    let (xfer, squad) ← xfer.xferSnapshot squad
    let (xfer, rest) ← Xfer_Squad_Slots rest xfer
    pure (xfer, some squad :: rest)

/-- Player.cpp 401-419: the squad count, which must be `SQUAD_COUNT`, the
hotkey squads and the AI squad with its presence flag. -/
def Xfer_Squads (xfer : Xfer) (p : Player) : Except XferError (Xfer × Player) := do
  let (xfer, squad_count) ← xfer.xferUnsignedShort SQUAD_COUNT
  Xfer.relassert (decide (squad_count = SQUAD_COUNT))
  let (xfer, squads) ← Xfer_Squad_Slots p.m_squads xfer
  let p : Player := { p with m_squads := squads }
  let (xfer, has_ai_squad) ← xfer.xferBool p.m_aiSquad.isSome
  if has_ai_squad then do
    let squad : Snapshot :=
      match p.m_aiSquad with
      | some content => content
      | none => []
    let (xfer, squad) ← xfer.xferSnapshot squad
    pure (xfer, { p with m_aiSquad := some squad })
  else pure (xfer, p)

/-- The fields of the battle plan bonuses (player.cpp 436-442). -/
def Xfer_Bonuses (xfer : Xfer) (b : BattlePlanBonuses) :
    Except XferError (Xfer × BattlePlanBonuses) := do
  let (xfer, armorBonus) ← xfer.xferReal b.m_armorBonus
  let (xfer, sightBonus) ← xfer.xferReal b.m_sightBonus
  let (xfer, bombardment) ← xfer.xferInt b.m_bombardment
  let (xfer, holdTheLine) ← xfer.xferInt b.m_holdTheLine
  let (xfer, searchAndDestroy) ← xfer.xferInt b.m_searchAndDestroy
  let (xfer, validKindOf) ← xfer.xferKindOf b.m_validKindOf
  let (xfer, invalidKindOf) ← xfer.xferKindOf b.m_invalidKindOf
  pure (xfer,
    { m_armorBonus := armorBonus, m_sightBonus := sightBonus, m_bombardment := bombardment,
      m_holdTheLine := holdTheLine, m_searchAndDestroy := searchAndDestroy,
      m_validKindOf := validKindOf, m_invalidKindOf := invalidKindOf })

/-- Player.cpp 421-453: battle plan bonuses with their presence flag (a load
releases the bonuses of the player and allocates new ones when the flag is
set), the three active battle plan counters, the hunt flag (version 6). -/
def Xfer_Battle_Plans (version : Nat) (xfer : Xfer) (p : Player) :
    Except XferError (Xfer × Player) := do
  let (xfer, has_battle_plan_bonuses) ← xfer.xferBool p.m_battlePlanBonuses.isSome
  let p : Player :=
    if xfer.Get_Mode = XferMode.XFER_LOAD then
      { p with m_battlePlanBonuses := if has_battle_plan_bonuses then some {} else none }
    else p
  let (xfer, p) ←
    match p.m_battlePlanBonuses with
    | some bonuses => do
      let (xfer, bonuses) ← Xfer_Bonuses xfer bonuses
      pure (xfer, ({ p with m_battlePlanBonuses := some bonuses } : Player))
    | none => pure (xfer, p)
  let (xfer, plans0) ← xfer.xferInt p.m_activeBattlePlans0
  let (xfer, plans1) ← xfer.xferInt p.m_activeBattlePlans1
  let (xfer, plans2) ← xfer.xferInt p.m_activeBattlePlans2
  let p : Player :=
    { p with m_activeBattlePlans0 := plans0, m_activeBattlePlans1 := plans1,
             m_activeBattlePlans2 := plans2 }
  if version < 6 then pure (xfer, { p with m_unitsShouldHunt := false })
  else do
    let (xfer, hunt) ← xfer.xferBool p.m_unitsShouldHunt
    pure (xfer, { p with m_unitsShouldHunt := hunt })

/-- `Player::Xfer_Snapshot` (player.cpp 150-454). -/
def Xfer_Snapshot (env : Env) (xfer : Xfer) (p : Player) : Except XferError (Xfer × Player) := do
  let (xfer, version) ← xfer.xferVersion 8 8
  let (xfer, p) ← Xfer_Upgrades env version xfer p
  let (xfer, p) ← Xfer_Radar_And_Masks xfer p
  let (xfer, p) ← Xfer_Team_Prototypes env xfer p
  let (xfer, p) ← Xfer_Build_List xfer p
  let (xfer, p) ← Xfer_Owned_Systems xfer p
  let (xfer, p) ← Xfer_Default_Team env xfer p
  let (xfer, p) ← Xfer_Sciences version xfer p
  let (xfer, p) ← Xfer_Rank_And_Relations version xfer p
  let (xfer, p) ← Xfer_Kind_Of_Changes xfer p
  let (xfer, p) ← Xfer_Special_Power_Timers version xfer p
  let (xfer, p) ← Xfer_Squads xfer p
  Xfer_Battle_Plans version xfer p

/-- Save `source` at the current version into an empty stream and load the
stream into `target`; the result is the loaded player and what is left of the
stream. -/
def Save_Then_Load (env : Env) (source target : Player) :
    Except XferError (List XferItem × Player) := do
  let (saved, _) ← Xfer_Snapshot env ⟨XferMode.XFER_SAVE, []⟩ source
  let (loaded, player) ← Xfer_Snapshot env ⟨XferMode.XFER_LOAD, saved.m_stream⟩ target
  pure (loaded.m_stream, player)

/-- `q` differs from `p` at most in the upgrade list and the recorded effects. -/
def Upgrade_Frame (p q : Player) : Prop :=
  ∃ nodes effects, q = { p with m_upgradeList := nodes, m_effects := effects }

/-- What the C++ types guarantee of a player state: the keys of each
relationship table are pairwise different (`std::map`), the attacked-by array
has `MAX_PLAYER_COUNT` flags, the squad array has `SQUAD_COUNT` slots and,
as after every `Init`, none of them is null. -/
def Well_Formed (p : Player) : Prop :=
  (p.m_playerRelations.map Prod.fst).Nodup ∧
  (p.m_teamRelations.map Prod.fst).Nodup ∧
  p.m_attackedByPlayer.length = MAX_PLAYER_COUNT ∧
  p.m_squads.length = SQUAD_COUNT ∧
  (∀ squad ∈ p.m_squads, squad.isSome = true)

/-- The element counts of the saved sequences fit the 16-bit count fields of
the stream. -/
def Counts_Fit (p : Player) : Prop :=
  p.m_upgradeList.length < 2 ^ 16 ∧
  p.m_playerTeamPrototypes.length < 2 ^ 16 ∧
  p.m_buildListInfo.length < 2 ^ 16 ∧
  p.m_playerRelations.length < 2 ^ 16 ∧
  p.m_teamRelations.length < 2 ^ 16 ∧
  p.m_kindOfPercentProductionChangeList.length < 2 ^ 16 ∧
  p.m_specialPowerReadyTimerList.length < 2 ^ 16

/-- The upgrade centre knows the name of every upgrade of the list and the team
factory the id of every owned prototype. -/
def References_Resolve (env : Env) (p : Player) : Prop :=
  (∀ upgrade ∈ p.m_upgradeList,
    (env.Find_Upgrade upgrade.m_template.m_name).isSome = true) ∧
  (∀ proto ∈ p.m_playerTeamPrototypes,
    (env.Find_Team_Prototype_By_ID proto.m_id).isSome = true)

/-- The player owns no AI player, no resource gathering manager and no tunnel
system, as a freshly initialised player does. -/
def No_Owned_Systems (p : Player) : Prop :=
  p.m_ai = none ∧ p.m_resourceGatheringManager = none ∧ p.m_tunnelSystem = none

/-- The player relationship table has an entry for the index of the player
itself. -/
def Has_Own_Relation (p : Player) : Prop :=
  (p.m_playerRelations.find p.m_playerIndex).isSome = true

end Player

/-! ### Queries on upgrades and sciences -/

namespace Player

/-- `Player::Has_Upgrade_Complete(const UpgradeTemplate *)` (player.cpp
1776-1779): the mask test on the mask of the template. -/
def Has_Upgrade_Complete_Of (p : Player) (upgrade_template : UpgradeTemplate) : Bool :=
  p.Has_Upgrade_Complete upgrade_template.Get_Upgrade_Mask

end Player

/-- Modelled from the spec: the science store `g_theScienceStore`
(sciencestore.cpp is not part of the source), as the two lookups that
`Is_Capable_Of_Purchasing_Science` makes in it. -/
structure ScienceStore where
  /-- `Player_Has_Prereqs_For_Science(player, t)` -/
  Player_Has_Prereqs_For_Science : Player → ScienceType → Bool
  /-- `Get_Science_Purchase_Cost(t)` -/
  Get_Science_Purchase_Cost : ScienceType → Int

namespace Player

/-- `Player::Has_Prereqs_For_Science` (player.cpp 1717-1720). -/
def Has_Prereqs_For_Science (store : ScienceStore) (p : Player) (t : ScienceType) : Bool :=
  store.Player_Has_Prereqs_For_Science p t

/-- Modelled from the spec: `Player::Get_Science_Purchase_Points` (the getter
is in player.h, which is not part of the source), the current science purchase
points `m_sciencePurchasePoints`. -/
def Get_Science_Purchase_Points (p : Player) : Int := p.m_sciencePurchasePoints

/-- `Player::Is_Capable_Of_Purchasing_Science` (player.cpp 1734-1754). -/
def Is_Capable_Of_Purchasing_Science (store : ScienceStore) (p : Player) (t : ScienceType) :
    Bool :=
  if t = SCIENCE_INVALID then false
  else if p.Has_Science t then false
  else if p.Is_Science_Disabled t || p.Is_Science_Hidden t then false
  else if !p.Has_Prereqs_For_Science store t then false
  else
    let cost := store.Get_Science_Purchase_Cost t
    decide (cost ≠ 0) && decide (cost ≤ p.Get_Science_Purchase_Points)

end Player

/-! ### The upgrade list as linked nodes -/

/-- An `Upgrade` node as the code holds it, with its `m_next` and `m_prev`
links. A link is the address of a node, `none` for null. -/
structure UpgradeNode where
  m_template : UpgradeTemplate
  m_status : UpgradeStatusType
  m_next : Option Nat := none
  m_prev : Option Nat := none
  deriving DecidableEq, Repr

/-- The upgrade nodes by address and the head pointer `m_upgradeList` of the
player. -/
structure UpgradeLinks where
  m_upgradeList : Option Nat
  m_nodes : Nat → Option UpgradeNode

namespace UpgradeLinks

/-- Modelled from the spec: `Upgrade::Friend_Get_Next` (upgrade.h is not part of
the source), the `m_next` link of the node at `address`. -/
def Friend_Get_Next (links : UpgradeLinks) (address : Nat) : Option Nat :=
  (links.m_nodes address).bind (fun node => node.m_next)

/-- Modelled from the spec: `Upgrade::Friend_Get_Prev` (upgrade.h is not part of
the source), the `m_prev` link of the node at `address`. -/
def Friend_Get_Prev (links : UpgradeLinks) (address : Nat) : Option Nat :=
  (links.m_nodes address).bind (fun node => node.m_prev)

/-- Modelled from the spec: `Upgrade::Friend_Set_Next` (upgrade.h is not part of
the source), which stores `next` in the `m_next` link of the node at `address`. -/
def Friend_Set_Next (links : UpgradeLinks) (address : Nat) (next : Option Nat) : UpgradeLinks :=
  { links with
    m_nodes := fun a =>
      if a = address then (links.m_nodes a).map (fun node => { node with m_next := next })
      else links.m_nodes a }

/-- Modelled from the spec: `Upgrade::Friend_Set_Prev` (upgrade.h is not part of
the source), which stores `prev` in the `m_prev` link of the node at `address`. -/
def Friend_Set_Prev (links : UpgradeLinks) (address : Nat) (prev : Option Nat) : UpgradeLinks :=
  { links with
    m_nodes := fun a =>
      if a = address then (links.m_nodes a).map (fun node => { node with m_prev := prev })
      else links.m_nodes a }

/-- The loop of `Player::Find_Upgrade` (player.cpp 1334-1338) from the node
`upgrade` on; `fuel` bounds the number of nodes visited. -/
def Find_Upgrade_From (links : UpgradeLinks) (upgrade_template : UpgradeTemplate) :
    Nat → Option Nat → Option Nat
  | 0, _ => none
  | _ + 1, none => none
  | fuel + 1, some upgrade =>
    match links.m_nodes upgrade with
    | none => none
    | some node =>
      if node.m_template = upgrade_template then some upgrade
      else Find_Upgrade_From links upgrade_template fuel node.m_next

/-- `Player::Find_Upgrade` (player.cpp 1332-1341) on the linked nodes: the
address of the first node, from the head, with the template. -/
def Find_Upgrade (links : UpgradeLinks) (fuel : Nat) (upgrade_template : UpgradeTemplate) :
    Option Nat :=
  Find_Upgrade_From links upgrade_template fuel links.m_upgradeList

/-- The unlinking statements of `Player::Remove_Upgrade` (player.cpp 1791-1799)
for the node `upgrade` that `Find_Upgrade` returned. -/
def Unlink (links : UpgradeLinks) (upgrade : Nat) : UpgradeLinks :=
  let links1 : UpgradeLinks :=
    match links.Friend_Get_Next upgrade with
    | some next => links.Friend_Set_Prev next (links.Friend_Get_Prev upgrade)
    | none => links
  match links1.Friend_Get_Prev upgrade with
  | some prev => links1.Friend_Set_Next prev (links1.Friend_Get_Next upgrade)
  | none => { links1 with m_upgradeList := links1.Friend_Get_Next upgrade }

/-- The list part of `Player::Remove_Upgrade` (player.cpp 1786-1799) on the
linked nodes: find the node of the template and unlink it. -/
def Remove_Upgrade (links : UpgradeLinks) (fuel : Nat) (upgrade_template : UpgradeTemplate) :
    UpgradeLinks :=
  match links.Find_Upgrade fuel upgrade_template with
  | none => links
  | some upgrade => links.Unlink upgrade

/-- The nodes at `addresses` are linked in this order starting at `upgrade`:
each is allocated, its `m_prev` is the node before it (`prev` for the first
one), its `m_next` is the node after it, and the last `m_next` is null. -/
def Chain (nodes : Nat → Option UpgradeNode) : Option Nat → Option Nat → List Nat → Prop
  | _, upgrade, [] => upgrade = none
  | prev, upgrade, address :: rest =>
    upgrade = some address ∧
    ∃ node, nodes address = some node ∧ node.m_prev = prev ∧
      Chain nodes (some address) node.m_next rest

/-- The template and status of the nodes at `addresses`, in this order. -/
def Records (nodes : Nat → Option UpgradeNode) (addresses : List Nat) : List Upgrade :=
  addresses.filterMap (fun address =>
    (nodes address).map (fun node =>
      ({ m_template := node.m_template, m_status := node.m_status } : Upgrade)))

/-- The node at `address` is allocated and has the template. -/
def Has_Template (links : UpgradeLinks) (upgrade_template : UpgradeTemplate) (address : Nat) :
    Bool :=
  match links.m_nodes address with
  | some node => decide (node.m_template = upgrade_template)
  | none => false

/-- The linked nodes hold the upgrade list `l`: the distinct nodes at
`addresses` are linked from the head with mutually consistent links and their
records are `l`. -/
def Holds (links : UpgradeLinks) (addresses : List Nat) (l : List Upgrade) : Prop :=
  Chain links.m_nodes none links.m_upgradeList addresses ∧ addresses.Nodup ∧
    Records links.m_nodes addresses = l

end UpgradeLinks

/-! ### Stream items of the stored sequences -/

namespace Player

/-- The stream items of stored upgrades, each given by its name and the code of
its status: the name, then the snapshot of the record. -/
def Stored_Upgrades : List (String × Int) → List XferItem
  | [] => []
  | (name, code) :: rest =>
    XferItem.asciiString name :: XferItem.snapshot [code] :: Stored_Upgrades rest

/-- The stream items between the upgrade count and the upgrades: the preorder
flag from version 7 on, the disabled and hidden science vectors from version 8
on. -/
def Stored_Preorder_And_Availability (version : Nat) (preorder : Bool)
    (disabled hidden : List ScienceType) : List XferItem :=
  (if version ≥ 7 then [XferItem.bool preorder] else []) ++
    (if version ≥ 8 then [XferItem.scienceVec disabled, XferItem.scienceVec hidden] else [])

/-- The stream items of stored team prototype ids. -/
def Stored_Prototype_Ids (ids : List Nat) : List XferItem :=
  ids.map (fun (id : Nat) => XferItem.user [(id : Int)])

/-- The prototypes the team factory finds for the ids, in the order of the ids;
`none` when it does not know one of them. -/
def Find_All_Team_Prototypes (env : Env) : List Nat → Option (List TeamPrototype)
  | [] => some []
  | id :: rest =>
    match env.Find_Team_Prototype_By_ID id with
    | none => none
    | some prototype => (Find_All_Team_Prototypes env rest).map (fun l => prototype :: l)

end Player
namespace Player

/-- The stream items of one nullable owned system: the presence flag, and right
after it the snapshot of the system when it is present. -/
def Stored_System (system : Option Snapshot) : List XferItem :=
  XferItem.bool system.isSome ::
    (match system with
     | some content => [XferItem.snapshot content]
     | none => [])

/-- The stream items of the battle plan bonuses: the presence flag, and right
after it the seven fields of the bonuses when they are present. -/
def Stored_Bonuses (bonuses : Option BattlePlanBonuses) : List XferItem :=
  XferItem.bool bonuses.isSome ::
    (match bonuses with
     | some b =>
       [XferItem.real b.m_armorBonus, XferItem.real b.m_sightBonus,
        XferItem.int b.m_bombardment, XferItem.int b.m_holdTheLine,
        XferItem.int b.m_searchAndDestroy, XferItem.kindOf b.m_validKindOf,
        XferItem.kindOf b.m_invalidKindOf]
     | none => [])

/-- The stream items of the last block: the battle plan bonuses, the three
active battle plan counters and, from version 6 on, the hunt flag. -/
def Stored_Battle_Plans (version : Nat) (bonuses : Option BattlePlanBonuses)
    (plans0 plans1 plans2 : Int) (hunt : Bool) : List XferItem :=
  Stored_Bonuses bonuses ++
    ([XferItem.int plans0, XferItem.int plans1, XferItem.int plans2] ++
      (if version < 6 then [] else [XferItem.bool hunt]))

end Player
namespace Player

/-- The stream items between the observer flag and the attacked-by flags: the
skill point modifier from version 2 on, the score screen flag from version 3
on. -/
def Stored_Modifier_And_Score_Flag (version : Nat) (modifier : ℚ)
    (listInScoreScreen : Bool) : List XferItem :=
  (if version < 2 then [] else [XferItem.real modifier]) ++
    (if version < 3 then [] else [XferItem.bool listInScoreScreen])

/-- The body of `Player::Xfer_Snapshot` after the version call (player.cpp
154-453) for a given value of `version`. -/
def Xfer_Body (env : Env) (version : Nat) (xfer : Xfer) (p : Player) :
    Except XferError (Xfer × Player) := do
  let (xfer, p) ← Xfer_Upgrades env version xfer p
  let (xfer, p) ← Xfer_Radar_And_Masks xfer p
  let (xfer, p) ← Xfer_Team_Prototypes env xfer p
  let (xfer, p) ← Xfer_Build_List xfer p
  let (xfer, p) ← Xfer_Owned_Systems xfer p
  let (xfer, p) ← Xfer_Default_Team env xfer p
  let (xfer, p) ← Xfer_Sciences version xfer p
  let (xfer, p) ← Xfer_Rank_And_Relations version xfer p
  let (xfer, p) ← Xfer_Kind_Of_Changes xfer p
  let (xfer, p) ← Xfer_Special_Power_Timers version xfer p
  let (xfer, p) ← Xfer_Squads xfer p
  Xfer_Battle_Plans version xfer p

/-- What a load of the stream saved from `s` asserts of the loading player `l`:
the same owned systems are present, the kind-of change list is empty, the
timer list is empty when the version has a timer section, no squad slot is
null and the fixed-size arrays have the saved sizes. -/
def Can_Load (version : Nat) (s l : Player) : Prop :=
  l.m_ai.isSome = s.m_ai.isSome ∧
  l.m_resourceGatheringManager.isSome = s.m_resourceGatheringManager.isSome ∧
  l.m_tunnelSystem.isSome = s.m_tunnelSystem.isSome ∧
  l.m_kindOfPercentProductionChangeList = [] ∧
  (4 < version → l.m_specialPowerReadyTimerList = []) ∧
  l.m_squads.length = s.m_squads.length ∧
  (∀ squad ∈ l.m_squads, squad.isSome = true) ∧
  l.m_attackedByPlayer.length = s.m_attackedByPlayer.length

end Player
namespace Player

/-- The stream body of version `version` for the saved player `s`: the parts
`b1`, `b2`, `b3`, `b4` that every version has, with the version-gated items
between them: preorder flag and availability vectors, skill point modifier and
score screen flag, the timer section `timers` from version 5 on, the hunt flag
from version 6 on. -/
def Stored_Body (version : Nat) (s : Player) (b1 b2 b3 b4 timers : List XferItem) :
    List XferItem :=
  b1 ++
    (Stored_Preorder_And_Availability version s.m_playerIsPreorder s.m_disabledSciences
        s.m_hiddenSciences ++
      (b2 ++
        (Stored_Modifier_And_Score_Flag version s.m_skillPointsModifier
            s.m_listInScoreScreen ++
          (b3 ++
            ((if version ≤ 4 then [] else timers) ++
              (b4 ++ (if version < 6 then [] else [XferItem.bool s.m_unitsShouldHunt])))))))

end Player

/-! ### The acquired sciences after a reset, as the specification words it -/

namespace Player

/-- The sciences the rank store grants at a rank level; none when it has no
info for the level. -/
def Sciences_Granted_At (env : Env) (level : Int) : List ScienceType :=
  match env.Get_Rank_Info level with
  | some info => info.m_sciencesGranted
  | none => []

/-- The sciences granted at the rank levels `1 .. level`, in rank order and in
grant order within a rank. -/
def Sciences_Granted_Up_To (env : Env) : Nat → List ScienceType
  | 0 => []
  | level + 1 => Sciences_Granted_Up_To env level ++ Sciences_Granted_At env ((level : Int) + 1)

/-- A science is added at the end of a list unless the list has it. -/
def Append_If_New (l : List ScienceType) (t : ScienceType) : List ScienceType :=
  if t ∈ l then l else l ++ [t]

/-- The acquired list after `Reset_Sciences` as the specification words it
(section 4.3): the intrinsic sciences of the template followed, in rank order
`1 .. rankLevel` and in grant order within a rank, by each granted science
that the list does not have yet. -/
def Sciences_After_Reset_reference (env : Env) (intrinsic : List ScienceType)
    (rankLevel : Int) : List ScienceType :=
  (Sciences_Granted_Up_To env rankLevel.toNat).foldl Append_If_New intrinsic

end Player

namespace Player

/-- `q` has the player index of `p`, and its log of science notices is the one
of `p` with notices added at the end. -/
def Notices_Extend (p q : Player) : Prop :=
  q.m_playerIndex = p.m_playerIndex ∧
    ∃ during, q.m_effects.m_acquiredScienceNotices
      = p.m_effects.m_acquiredScienceNotices ++ during

end Player
/-! ### The squads in the stream -/

namespace Player

/-- The blocks of `Player::Xfer_Snapshot` between the version call and the
squads (player.cpp 154-399), for a given value of `version`. -/
def Xfer_Before_Squads (env : Env) (version : Nat) (xfer : Xfer) (p : Player) :
    Except XferError (Xfer × Player) := do
  let (xfer, p) ← Xfer_Upgrades env version xfer p
  let (xfer, p) ← Xfer_Radar_And_Masks xfer p
  let (xfer, p) ← Xfer_Team_Prototypes env xfer p
  let (xfer, p) ← Xfer_Build_List xfer p
  let (xfer, p) ← Xfer_Owned_Systems xfer p
  let (xfer, p) ← Xfer_Default_Team env xfer p
  let (xfer, p) ← Xfer_Sciences version xfer p
  let (xfer, p) ← Xfer_Rank_And_Relations version xfer p
  let (xfer, p) ← Xfer_Kind_Of_Changes xfer p
  Xfer_Special_Power_Timers version xfer p

/-- The stream items of the squads block: the squad count, the hotkey squads
in slot order, the presence flag of the AI squad and the AI squad. -/
def Stored_Squads (squads : List Snapshot) (aiSquad : Option Snapshot) : List XferItem :=
  XferItem.unsignedShort SQUAD_COUNT ::
    (squads.map XferItem.snapshot ++ Stored_System aiSquad)

end Player
/-! ### Adding a node to the linked upgrade list -/

namespace UpgradeLinks

/-- Modelled from the spec: `new Upgrade(upgrade_template)` (upgrade.h is not
part of the source). The node is placed at `address`, the address the allocator
returns; it has the template, the status `UPGRADE_STATUS_INVALID` and null
links. -/
def New_Upgrade (links : UpgradeLinks) (address : Nat) (upgrade_template : UpgradeTemplate) :
    UpgradeLinks :=
  { links with
    m_nodes := fun a =>
      if a = address then
        some { m_template := upgrade_template,
               m_status := UpgradeStatusType.UPGRADE_STATUS_INVALID,
               m_next := none, m_prev := none }
      else links.m_nodes a }

/-- Modelled from the spec: `Upgrade::Set_Status` (upgrade.h is not part of the
source), which stores `status` in the node at `address`. -/
def Set_Status (links : UpgradeLinks) (address : Nat) (status : UpgradeStatusType) :
    UpgradeLinks :=
  { links with
    m_nodes := fun a =>
      if a = address then (links.m_nodes a).map (fun node => { node with m_status := status })
      else links.m_nodes a }

/-- The list part of `Player::Add_Upgrade` (player.cpp 1298-1315) on the linked
nodes: find the node of the template or create one and link it in front of the
head, then set its status. `address` is the address `new` returns if a node is
created. The result is the new links and the address of the node. -/
def Add_Upgrade (links : UpgradeLinks) (fuel : Nat) (upgrade_template : UpgradeTemplate)
    (status : UpgradeStatusType) (address : Nat) : UpgradeLinks × Nat :=
  match links.Find_Upgrade fuel upgrade_template with
  | none =>
    let links1 : UpgradeLinks := links.New_Upgrade address upgrade_template
    let links2 : UpgradeLinks := links1.Friend_Set_Prev address none
    let links3 : UpgradeLinks := links2.Friend_Set_Next address links2.m_upgradeList
    let links4 : UpgradeLinks :=
      match links3.m_upgradeList with
      | some head => links3.Friend_Set_Prev head (some address)
      | none => links3
    let links5 : UpgradeLinks := { links4 with m_upgradeList := some address }
    (links5.Set_Status address status, address)
  | some upgrade => (links.Set_Status upgrade status, upgrade)

end UpgradeLinks
/-! ### The destructor -/

/-- Modelled from the spec: `TeamPrototype::Set_Owning_Player` (team.h is not
part of the source), which stores the back reference to the owning player and
touches nothing else of the prototype. -/
def TeamPrototype.Set_Owning_Player (proto : TeamPrototype) (player : Option Int) :
    TeamPrototype :=
  { proto with m_owningPlayer := player }

namespace Player

/-- `Player::~Player` (player.cpp 93-121). The first component is the members
at the end of the destructor body, an object that was deleted being absent; the
second is what outlives the player: the team prototypes its list referred to,
each after its `Set_Owning_Player(nullptr)` call, in list order. The
prototypes are owned by the team factory; the destructor deletes none. -/
def Destruct (p : Player) : Player × List TeamPrototype :=
  let p1 : Player := { p with m_defaultTeam := none, m_playerTemplate := none }
  let prototypes : List TeamPrototype :=
    p1.m_playerTeamPrototypes.map (fun proto => proto.Set_Owning_Player none)
  let p2 : Player :=
    { p1 with m_playerTeamPrototypes := [], m_teamRelations := [], m_playerRelations := [] }
  let p3 : Player := { p2 with m_squads := p2.m_squads.map (fun _ => none) }
  let p4 : Player := { p3 with m_aiSquad := none }
  ({ p4 with m_battlePlanBonuses := none }, prototypes)

end Player

/-! ### Radar, hotkey squads and the team prototype list -/

namespace Player

/-- `Player::Has_Radar` (player.cpp 1814-1817). -/
def Has_Radar (p : Player) : Bool :=
  (!p.m_radarDisabled || p.m_disableProofRadarCount != 0) && decide (p.m_radarCount > 0)

end Player

/-- What evaluating `Get_Hotkey_Squad` comes to: a returned squad pointer
(`none` for null), or a read of the squad array at an index that is not one of
its slots, which C++ leaves undefined. -/
inductive SquadAccess where
  | returned (squad : Option Snapshot)
  | read_outside_array (index : Int)
  deriving DecidableEq, Repr

namespace Player

/-- The array read `m_squads[squad]`: the content of the slot for an index of
the array, a read outside the array otherwise. -/
def Read_Squad_Slot (p : Player) (squad : Int) : SquadAccess :=
  if 0 ≤ squad ∧ squad < (p.m_squads.length : Int) then
    SquadAccess.returned (p.m_squads.getD squad.toNat none)
  else SquadAccess.read_outside_array squad

/-- `Player::Get_Hotkey_Squad` (player.cpp 1825-1832): null above 9, the
array read for every other index. -/
def Get_Hotkey_Squad (p : Player) (squad : Int) : SquadAccess :=
  if squad > 9 then SquadAccess.returned none
  else p.Read_Squad_Slot squad

/-- The search loop of `Add_Team_To_List` and `Remove_Team_From_List`: whether
`team` is one of the prototypes. Two prototype pointers are equal exactly when
the prototypes are equal. -/
def Is_Team_In_List (team : TeamPrototype) : List TeamPrototype → Bool
  | [] => false
  | proto :: rest => if team = proto then true else Is_Team_In_List team rest

/-- `Player::Add_Team_To_List` (player.cpp 958-967). -/
def Add_Team_To_List (p : Player) (team : TeamPrototype) : Player :=
  if Is_Team_In_List team p.m_playerTeamPrototypes then p
  else { p with m_playerTeamPrototypes := p.m_playerTeamPrototypes ++ [team] }

/-- The loop of `Remove_Team_From_List`: the list without its first element
equal to `team`. -/
def Erase_Team (team : TeamPrototype) : List TeamPrototype → List TeamPrototype
  | [] => []
  | proto :: rest => if team = proto then rest else proto :: Erase_Team team rest

/-- `Player::Remove_Team_From_List` (player.cpp 969-977). -/
def Remove_Team_From_List (p : Player) (team : TeamPrototype) : Player :=
  { p with m_playerTeamPrototypes := Erase_Team team p.m_playerTeamPrototypes }

end Player

/-! ### Sequences of kind-of change calls -/

/-- A call on the kind-of change list. -/
inductive KindOfCall where
  | add (flags : BitFlags) (percent : ℚ)
  | remove (flags : BitFlags) (percent : ℚ)
  deriving DecidableEq, Repr

namespace Player

/-- One kind-of change call applied to a player. -/
def Apply_Kind_Of_Call (p : Player) : KindOfCall → Player
  | KindOfCall.add flags percent => p.Add_Kind_Of_Production_Cost_Change flags percent
  | KindOfCall.remove flags percent => p.Remove_Kind_Of_Production_Cost_Change flags percent

/-- A sequence of kind-of change calls applied in order. -/
def Apply_Kind_Of_Calls (p : Player) (calls : List KindOfCall) : Player :=
  calls.foldl Apply_Kind_Of_Call p

/-- The (flags, percent) pairs of the entries of a kind-of change list, in list
order. -/
def Kind_Of_Pairs (l : List KindOfPercentProductionChange) : List (BitFlags × ℚ) :=
  l.map (fun k => (k.m_flags, k.m_percent))

/-- No two entries of the list have the same (flags, percent) pair, and every
count is at least 1 and at most `bound`. -/
def Kind_Of_List_Ok (bound : Nat) (l : List KindOfPercentProductionChange) : Prop :=
  (Kind_Of_Pairs l).Nodup ∧ ∀ k ∈ l, 1 ≤ k.m_count ∧ k.m_count ≤ bound

end Player

/-! ### The stream of a relationship table -/

/-- The tokens the save loop of `PlayerRelationMap::Xfer_Snapshot` writes
(player.cpp 934-939): for every entry, in the order of the map, the id and
then the stance. -/
def PlayerRelationMap.Stored_Entries : List (Int × Relationship) → List XferItem
  | [] => []
  | (id, r) :: rest => XferItem.int id :: XferItem.user [r.toInt] :: Stored_Entries rest

/-- The stream `PlayerRelationMap::Xfer_Snapshot` writes for a table
(player.cpp 926-939): version 1, the number of entries, the entries. -/
def PlayerRelationMap.Stored_Relations (entries : List (Int × Relationship)) : List XferItem :=
  XferItem.version 1 :: XferItem.unsignedShort entries.length ::
    PlayerRelationMap.Stored_Entries entries

/-! ### Stream items of the saved sequences -/

namespace Player

/-- The stream items the save loop writes for the records of the upgrade list
(player.cpp 175-179): for every record, head first, the name of its template
and the snapshot of the record. -/
def Stored_Upgrade_Records (nodes : List Upgrade) : List XferItem :=
  Stored_Upgrades
    (nodes.map (fun upgrade => (upgrade.m_template.Get_Name, upgrade.m_status.toInt)))

/-- The stream items of the first block at version 8 (player.cpp 154-179):
money, the 16-bit upgrade count, the preorder flag, the disabled and hidden
sciences, the records of the upgrade list. -/
def Stored_Upgrade_Section (p : Player) : List XferItem :=
  XferItem.snapshot [(p.m_money.m_money : Int)] ::
    XferItem.unsignedShort (p.m_upgradeList.length % 2 ^ 16) ::
    XferItem.bool p.m_playerIsPreorder ::
    XferItem.scienceVec p.m_disabledSciences ::
    XferItem.scienceVec p.m_hiddenSciences ::
    Stored_Upgrade_Records p.m_upgradeList

/-- The stream items of the team prototype block (player.cpp 198-205): the
16-bit count and the ids in container order. -/
def Stored_Team_Prototype_Section (p : Player) : List XferItem :=
  XferItem.unsignedShort (p.m_playerTeamPrototypes.length % 2 ^ 16) ::
    Stored_Prototype_Ids (p.m_playerTeamPrototypes.map (fun pr => pr.m_id))

/-- The stream items of the build list block (player.cpp 218-229): the 16-bit
count and the nodes in link order. -/
def Stored_Build_List_Section (p : Player) : List XferItem :=
  XferItem.unsignedShort (p.m_buildListInfo.length % 2 ^ 16) ::
    p.m_buildListInfo.map XferItem.snapshot

/-- The stream items the save loop writes for the kind-of change list
(player.cpp 357-362): flags, percent and count of every entry. -/
def Stored_Kind_Of_Changes : List KindOfPercentProductionChange → List XferItem
  | [] => []
  | k :: rest =>
    XferItem.kindOf k.m_flags :: XferItem.real k.m_percent :: XferItem.unsignedInt k.m_count ::
      Stored_Kind_Of_Changes rest

/-- The stream items of the kind-of change block (player.cpp 353-362). -/
def Stored_Kind_Of_Section (p : Player) : List XferItem :=
  XferItem.unsignedShort (p.m_kindOfPercentProductionChangeList.length % 2 ^ 16) ::
    Stored_Kind_Of_Changes p.m_kindOfPercentProductionChangeList

/-- The stream items the save loop writes for the special power ready timers
(player.cpp 381-385): id and frame of every timer. -/
def Stored_Timers : List SpecialPowerReadyTimerType → List XferItem
  | [] => []
  | timer :: rest =>
    XferItem.unsignedInt timer.m_id :: XferItem.unsignedInt timer.m_frame :: Stored_Timers rest

/-- The stream items of the timer block from version 5 on (player.cpp 376-385). -/
def Stored_Timer_Section (p : Player) : List XferItem :=
  XferItem.unsignedShort (p.m_specialPowerReadyTimerList.length % 2 ^ 16) ::
    Stored_Timers p.m_specialPowerReadyTimerList

end Player

/-! ### Concrete states -/

/-- A player whose team table maps team id 5 to NEUTRAL. -/
def playerNeutralTeamEntry : Player :=
  { m_playerIndex := 0, m_teamRelations := [(5, Relationship.NEUTRAL)] }

/-- A team with id 5 and no controlling player. -/
def teamFive : Team := { m_id := 5 }

/-- A player with team-level ENEMIES for team 7 and player-level ALLIES for player 1. -/
def playerConflictingEntries : Player :=
  { m_playerIndex := 0, m_teamRelations := [(7, Relationship.ENEMIES)],
    m_playerRelations := [(1, Relationship.ALLIES)] }

/-- A team with id 7 controlled by player 1. -/
def teamSevenOfPlayerOne : Team := { m_id := 7, m_controllingPlayer := some 1 }

/-- The environment in which every collaborator lookup fails: no upgrade, team
or rank is known, there is no game text, game info or local player. -/
def envNone : Env :=
  { Find_Upgrade := fun _ => none, Find_Team_Prototype_By_ID := fun _ => none,
    Find_Team_By_ID := fun _ => none, Get_Rank_Info := fun _ => none, m_gameText := none,
    Name_To_Key := fun _ => 0, m_frame := 0, m_localPlayer := none, m_gameInfoMoney := none,
    m_defaultStartingCash := {} }

/-- An upgrade template with mask bit 0. -/
def templateA : UpgradeTemplate := { m_name := "A", m_upgradeMask := 1 }

/-- An upgrade template with mask bit 1. -/
def templateB : UpgradeTemplate := { m_name := "B", m_upgradeMask := 2 }

/-- The player with index 0 as the constructor leaves it. -/
def playerFresh : Player := Player.Construct envNone 0

/-- A fresh player that has acquired science 5. -/
def playerWithScienceFive : Player := (Player.Add_Science envNone playerFresh 5).2

/-- A fresh player with two kind-of cost changes, 1/10 on flag bit 0 and 2/10
on flag bit 2. -/
def playerTwoCostChanges : Player :=
  (playerFresh.Add_Kind_Of_Production_Cost_Change 1 (1 / 10)).Add_Kind_Of_Production_Cost_Change
    4 (2 / 10)

/-- The fresh player after `Remove_Player_Relationship(nullptr)`: its player
relationship table is empty. -/
def playerNoRelations : Player := (playerFresh.Remove_Player_Relationship none).2

/-- A team with id 1 controlled by player 0. -/
def teamOneOfPlayerZero : Team := { m_id := 1, m_controllingPlayer := some 0 }

/-- An environment whose upgrade centre knows the templates A and B. -/
def envWithUpgrades : Env :=
  { envNone with
    Find_Upgrade := fun name =>
      if name = "A" then some templateA else if name = "B" then some templateB else none }

/-- A player with an acquired science, a completed and a queued upgrade, a
team-level relationship and a changed rank level. -/
def playerInGame : Player :=
  { (Player.Set_Team_Relationship
      ((Player.Add_Upgrade envWithUpgrades
        ((Player.Add_Upgrade envWithUpgrades (Player.Add_Science envWithUpgrades playerFresh 5).2
          templateA UpgradeStatusType.UPGRADE_STATUS_COMPLETE).1)
        templateB UpgradeStatusType.UPGRADE_STATUS_IN_PRODUCTION).1)
      (some teamSevenOfPlayerOne) Relationship.ENEMIES) with
    m_rankLevel := 3, m_currentSkillPoints := 120 }

/-- The fresh player with an AI player attached. -/
def playerWithAI : Player := { playerFresh with m_ai := some [] }

/-- The fresh player with upgrade A completed, in the environment whose upgrade
centre knows no upgrade. -/
def playerUnknownUpgrade : Player :=
  (playerFresh.Add_Upgrade envNone templateA UpgradeStatusType.UPGRADE_STATUS_COMPLETE).1

/-- A player with two entries in each relationship table. -/
def playerTwoEntriesEach : Player :=
  { m_playerIndex := 0,
    m_teamRelations := [(5, Relationship.NEUTRAL), (7, Relationship.ENEMIES)],
    m_playerRelations := [(0, Relationship.ALLIES), (1, Relationship.ENEMIES)] }

/-- The linked nodes of the upgrade list of `playerInGame`: the head at address
2 holds upgrade B in production, its successor at address 1 holds the completed
upgrade A. -/
def linksInGame : UpgradeLinks :=
  { m_upgradeList := some 2,
    m_nodes := fun a =>
      if a = 2 then
        some { m_template := templateB,
               m_status := UpgradeStatusType.UPGRADE_STATUS_IN_PRODUCTION,
               m_next := some 1, m_prev := none }
      else if a = 1 then
        some { m_template := templateA, m_status := UpgradeStatusType.UPGRADE_STATUS_COMPLETE,
               m_next := none, m_prev := some 2 }
      else none }

/-- A team prototype with id 3. -/
def prototypeThree : TeamPrototype := { m_id := 3 }

/-- A team prototype with id 4. -/
def prototypeFour : TeamPrototype := { m_id := 4 }

/-- An environment whose upgrade centre knows the templates A and B and whose
team factory knows the prototypes 3 and 4. -/
def envWithPrototypes : Env :=
  { envWithUpgrades with
    Find_Team_Prototype_By_ID := fun id =>
      if id = 3 then some prototypeThree else if id = 4 then some prototypeFour else none }
/-- The fresh player with a tunnel system attached. -/
def playerWithTunnels : Player := { playerFresh with m_tunnelSystem := some [3] }

/-- A player in the game, as saved by an old build: a timer pending, hunting,
a preorder player with a disabled science. -/
def playerOldSave : Player :=
  { playerInGame with
    m_specialPowerReadyTimerList := [{ m_id := 1, m_frame := 30 }],
    m_unitsShouldHunt := true, m_playerIsPreorder := true, m_disabledSciences := [9],
    m_listInScoreScreen := false }

/-- The fresh player holding a special power timer. -/
def playerHoldingTimer : Player :=
  { playerFresh with m_specialPowerReadyTimerList := [{ m_id := 9, m_frame := 9 }] }
/-- A player in the game that owns the team prototypes 4 and 3, in this order. -/
def playerWithPrototypes : Player :=
  { playerInGame with m_playerTeamPrototypes := [prototypeFour, prototypeThree] }

/-- A version-4 stream: no preorder flag and no availability vectors after the
upgrade count, the legacy science list, no timer section and no hunt flag. -/
def streamVersionFour : List XferItem :=
  [XferItem.version 4, XferItem.snapshot [0], XferItem.unsignedShort 2,
   XferItem.asciiString "B", XferItem.snapshot [1], XferItem.asciiString "A",
   XferItem.snapshot [2], XferItem.int 0, XferItem.bool false, XferItem.int 0,
   XferItem.bool false, XferItem.upgradeMask 2, XferItem.upgradeMask 1, XferItem.snapshot [],
   XferItem.unsignedShort 0, XferItem.unsignedShort 0, XferItem.bool false,
   XferItem.bool false, XferItem.bool false, XferItem.user [0], XferItem.unsignedShort 1,
   XferItem.user [5], XferItem.int 3, XferItem.int 120, XferItem.int 0,
   XferItem.int 2147483647, XferItem.int 0, XferItem.unicodeString "", XferItem.version 1,
   XferItem.unsignedShort 1, XferItem.int 0, XferItem.user [2], XferItem.version 1,
   XferItem.unsignedShort 1, XferItem.unsignedInt 7, XferItem.user [0], XferItem.bool true,
   XferItem.bool true, XferItem.bool false, XferItem.real 1, XferItem.bool false,
   XferItem.user [0, 0, 0, 0, 0, 0, 0, 0, 0, 0, 0, 0, 0, 0, 0, 0], XferItem.real 0,
   XferItem.snapshot [], XferItem.unsignedShort 0, XferItem.unsignedShort 10,
   XferItem.snapshot [], XferItem.snapshot [], XferItem.snapshot [], XferItem.snapshot [],
   XferItem.snapshot [], XferItem.snapshot [], XferItem.snapshot [], XferItem.snapshot [],
   XferItem.snapshot [], XferItem.snapshot [], XferItem.bool true, XferItem.snapshot [],
   XferItem.bool false, XferItem.int 0, XferItem.int 0, XferItem.int 0]

/-- A fresh player 0 whose default team is the team with id 7. -/
def playerWithDefaultTeam : Player :=
  { playerFresh with m_defaultTeam := some teamSevenOfPlayerOne }

/-- The stream that the blocks before the squads write for the fresh player 0
at version 8. -/
def streamBeforeSquads : List XferItem :=
  match Player.Xfer_Before_Squads envNone 8 ⟨XferMode.XFER_SAVE, []⟩ playerFresh with
  | Except.ok r => r.1.m_stream
  | Except.error _ => []

/-- A fresh player 0 whose hotkey squad slot 2 is null. -/
def playerNullSquadSlot : Player :=
  { playerFresh with
    m_squads := [some [], some [], none, some [], some [], some [], some [], some [], some [],
      some []] }

/-- An upgrade template with mask bit 2. -/
def templateC : UpgradeTemplate := { m_name := "C", m_upgradeMask := 4 }

/-- The rank-1 info: one purchase point and the sciences 5, 7, 5. -/
def rankInfoOne : RankInfo :=
  { m_skillPointsNeeded := 0, m_sciencePurchasePointsGranted := 1, m_sciencesGranted := [5, 7, 5] }

/-- The rank-2 info: 100 skill points needed and the sciences 9, 5. -/
def rankInfoTwo : RankInfo :=
  { m_skillPointsNeeded := 100, m_sciencePurchasePointsGranted := 0, m_sciencesGranted := [9, 5] }

/-- The environment `envNone` with a rank store that knows the ranks 1 and 2. -/
def envWithRanks : Env :=
  { envNone with
    Get_Rank_Info := fun level =>
      if level = 1 then some rankInfoOne else if level = 2 then some rankInfoTwo else none }

/-- A player template with the intrinsic science 7 and two intrinsic purchase
points. -/
def templateWithScience : PlayerTemplate :=
  { m_intrinsicSciences := [7], m_intrinsicSciencePurchasePoints := 2 }

/-- The fresh player 0 with the template `templateWithScience` at rank 2. -/
def playerRankTwo : Player :=
  { playerFresh with m_playerTemplate := some templateWithScience, m_rankLevel := 2 }

/-- The fresh player 0 with one radar, no disable-proof radar. -/
def playerWithRadar : Player := { playerFresh with m_radarCount := 1 }

/-- The fresh player 0 with the prototypes 3 and 4 in its list. -/
def playerThreeFour : Player :=
  { playerFresh with m_playerTeamPrototypes := [prototypeThree, prototypeFour] }

/-- A player whose upgrade list holds 65536 records, with pairwise different
templates. -/
def playerManyUpgrades : Player :=
  { playerFresh with
    m_upgradeList := (List.range 65536).map (fun (i : Nat) =>
      ({ m_template := { m_name := toString i, m_upgradeMask := i },
         m_status := UpgradeStatusType.UPGRADE_STATUS_COMPLETE } : Upgrade)) }

/-- A player whose build list holds 65536 nodes. -/
def playerLongBuildList : Player :=
  { playerFresh with m_buildListInfo := List.replicate 65536 [] }

/-- The player in the game with two owned prototypes, a build list of two
nodes, two kind-of changes and two special power timers. -/
def playerWithSequences : Player :=
  { playerWithPrototypes with
    m_buildListInfo := [[1], [2]],
    m_kindOfPercentProductionChangeList :=
      [{ m_flags := 1, m_percent := 1 / 10, m_count := 2 },
       { m_flags := 4, m_percent := 2 / 10, m_count := 1 }],
    m_specialPowerReadyTimerList := [{ m_id := 1, m_frame := 30 }, { m_id := 2, m_frame := 60 }] }

/-- A player with two kind-of cost changes whose percents are the floats
nearest to 0.1 and 0.2, on flag bit 0 and on flag bit 2. -/
def playerFloatCostChanges : Player :=
  { playerFresh with
    m_kindOfPercentProductionChangeList :=
      [{ m_flags := 1, m_percent := 13421773 / 134217728, m_count := 1 },
       { m_flags := 4, m_percent := 13421773 / 67108864, m_count := 1 }] }

/-- A player with two kind-of cost changes of percent 1/2 and 1/4, on flag bit
0 and on flag bit 2. -/
def playerHalfAndQuarter : Player :=
  { playerFresh with
    m_kindOfPercentProductionChangeList :=
      [{ m_flags := 1, m_percent := 1 / 2, m_count := 1 },
       { m_flags := 4, m_percent := 1 / 4, m_count := 1 }] }

/-- A player template with the largest 32-bit number of intrinsic purchase
points. -/
def templateMaxPoints : PlayerTemplate := { m_intrinsicSciencePurchasePoints := 2147483647 }

/-- The fresh player 0 with the template `templateMaxPoints`. -/
def playerMaxPoints : Player := { playerFresh with m_playerTemplate := some templateMaxPoints }

/-- The fresh player 0 with the template `templateWithScience`. -/
def playerWithTemplate : Player :=
  { playerFresh with m_playerTemplate := some templateWithScience }

/-! ## Part 2: theorems -/

/-! ### `std::map` lemmas -/

/-! ### Relationship resolution -/

theorem StdMap.find_guarded {K V : Type} [DecidableEq K] (m : StdMap K V) (k : K) :
    (if (!m.isEmpty) = true then StdMap.find m k else none) = StdMap.find m k := by
  cases m with
  | nil => rfl
  | cons a l => simp

/-- The emptiness tests of the source change nothing: the code is the
four-step resolution. -/
theorem Player.Get_Relationship_eq_reference (p : Player) (that : Option Team) :
    p.Get_Relationship that = p.Get_Relationship_reference that := by
  cases that with
  | none => rfl
  | some team =>
    simp only [Player.Get_Relationship, Player.Get_Relationship_reference,
      Team.Get_Team_ID, Team.Get_Controlling_Player, StdMap.find_guarded]
    cases h1 : StdMap.find p.m_teamRelations team.m_id with
    | some r => rfl
    | none =>
      cases h2 : team.m_controllingPlayer with
      | none => simp
      | some index =>
        cases hP : p.m_playerRelations with
        | nil => simp [StdMap.find]
        | cons b l2 => simp

/-- C1 (as stated, refuted): a team-level entry that stores NEUTRAL makes
`Get_Relationship` return NEUTRAL although the team table has an entry for the
team id. Player with team table `5 -> NEUTRAL`, team with id 5. -/
theorem C1_neutral_entry_counterexample :
    ¬ (Player.Get_Relationship playerNeutralTeamEntry (some teamFive) = Relationship.NEUTRAL ↔
        (StdMap.find playerNeutralTeamEntry.m_teamRelations teamFive.m_id = none ∧
          (teamFive.m_controllingPlayer = none ∨
            ∀ index, teamFive.m_controllingPlayer = some index →
              StdMap.find playerNeutralTeamEntry.m_playerRelations index = none))) := by
  intro h
  have h1 := h.mp (by decide)
  exact absurd h1.1 (by decide)

/-- C1 (amended): `Get_Relationship` of a non-null team is NEUTRAL exactly when
the entry that resolves the team stores NEUTRAL or no entry resolves it: the
team table maps the team id to NEUTRAL, or it has no entry for the team id and
the team has no controlling player, or the player table has no entry for the
controlling player, or that entry is NEUTRAL. -/
theorem C1_neutral_iff (p : Player) (team : Team) :
    p.Get_Relationship (some team) = Relationship.NEUTRAL ↔
      (StdMap.find p.m_teamRelations team.m_id = some Relationship.NEUTRAL ∨
        (StdMap.find p.m_teamRelations team.m_id = none ∧
          (team.m_controllingPlayer = none ∨
            ∃ index, team.m_controllingPlayer = some index ∧
              (StdMap.find p.m_playerRelations index = none ∨
                StdMap.find p.m_playerRelations index = some Relationship.NEUTRAL)))) := by
  rw [Player.Get_Relationship_eq_reference]
  simp only [Player.Get_Relationship_reference]
  cases h1 : StdMap.find p.m_teamRelations team.m_id with
  | some r => simp
  | none =>
    cases h2 : team.m_controllingPlayer with
    | none => simp
    | some index =>
      cases h3 : StdMap.find p.m_playerRelations index with
      | none => simp [h3]
      | some r => simp [h3]

/-- C2: a team-level entry decides the result whatever the player table holds
for the controlling player. -/
theorem C2_team_entry_takes_precedence (p : Player) (team : Team) (s : Relationship)
    (h : StdMap.find p.m_teamRelations team.Get_Team_ID = some s) :
    p.Get_Relationship (some team) = s := by
  rw [Player.Get_Relationship_eq_reference]
  simp only [Team.Get_Team_ID] at h
  simp only [Player.Get_Relationship_reference, h]

/-- C2 at a concrete input: team-level ENEMIES against player-level ALLIES for
the controlling player of the team gives ENEMIES. -/
theorem C2_team_entry_takes_precedence_witness :
    StdMap.find playerConflictingEntries.m_playerRelations 1 = some Relationship.ALLIES ∧
    Player.Get_Relationship playerConflictingEntries (some teamSevenOfPlayerOne)
      = Relationship.ENEMIES :=
  ⟨by decide,
   C2_team_entry_takes_precedence playerConflictingEntries teamSevenOfPlayerOne
      Relationship.ENEMIES (by decide)⟩

/-- C3: `Get_Relationship` is the four-step reference resolution on every
input: null team, team-level entry, player-level entry of the controlling
player, NEUTRAL. -/
theorem C3_Get_Relationship_is_reference (p : Player) (that : Option Team) :
    p.Get_Relationship that = p.Get_Relationship_reference that :=
  Player.Get_Relationship_eq_reference p that

/-! ### Upgrade ledger -/

theorem Player.Set_Status_Of_map_template (l : List Upgrade) (t : UpgradeTemplate)
    (s : UpgradeStatusType) :
    (Player.Set_Status_Of l t s).map (fun u => u.m_template) = l.map (fun u => u.m_template) := by
  induction l with
  | nil => rfl
  | cons u rest ih =>
    simp only [Player.Set_Status_Of]
    split
    · simp
    · simp [ih]

theorem Player.Set_Status_Of_find (l : List Upgrade) (t : UpgradeTemplate)
    (s : UpgradeStatusType) :
    (Player.Set_Status_Of l t s).find? (fun u => decide (u.m_template = t))
      = (l.find? (fun u => decide (u.m_template = t))).map (fun u => { u with m_status := s }) := by
  induction l with
  | nil => rfl
  | cons u rest ih =>
    simp only [Player.Set_Status_Of]
    by_cases h : u.m_template = t
    · simp [h, List.find?]
    · simp [h, List.find?, ih]

theorem Player.Add_Upgrade_list (env : Env) (p : Player) (t : UpgradeTemplate)
    (s : UpgradeStatusType) :
    (p.Add_Upgrade env t s).1.m_upgradeList =
      match p.Find_Upgrade t with
      | none => { m_template := t, m_status := s } :: p.m_upgradeList
      | some _ => Player.Set_Status_Of p.m_upgradeList t s := by
  unfold Player.Add_Upgrade
  cases hf : p.Find_Upgrade t with
  | none =>
    simp only [Player.Set_Status_Of, if_true]
    split_ifs <;> simp [Player.On_Upgrade_Completed, Player.Mark_UI_Dirty, Player.Set_Status_Of]
  | some u =>
    simp only
    split_ifs <;> simp [Player.On_Upgrade_Completed, Player.Mark_UI_Dirty]

theorem Player.Add_Upgrade_result (env : Env) (p : Player) (t : UpgradeTemplate)
    (s : UpgradeStatusType) :
    (p.Add_Upgrade env t s).2 =
      match p.Find_Upgrade t with
      | none => { m_template := t, m_status := s }
      | some node => { node with m_status := s } := by
  cases hf : p.Find_Upgrade t <;> simp only [Player.Add_Upgrade, hf]

theorem Player.Find_Upgrade_template (p : Player) (t : UpgradeTemplate) (u : Upgrade)
    (h : p.Find_Upgrade t = some u) : u.m_template = t := by
  have := List.find?_some h
  simpa using this

theorem Player.Find_Upgrade_after_Add (env : Env) (p : Player) (t : UpgradeTemplate)
    (s : UpgradeStatusType) :
    (p.Add_Upgrade env t s).1.Find_Upgrade t = some (p.Add_Upgrade env t s).2 := by
  have hl := Player.Add_Upgrade_list env p t s
  have hr := Player.Add_Upgrade_result env p t s
  cases hf : p.Find_Upgrade t with
  | none =>
    rw [hf] at hl hr
    simp only [Player.Find_Upgrade, hl, hr]
    simp [List.find?]
  | some u =>
    rw [hf] at hl hr
    simp only [Player.Find_Upgrade, hl, hr, Player.Set_Status_Of_find]
    unfold Player.Find_Upgrade at hf
    rw [hf]; rfl

theorem Player.Find_Upgrade_none_iff (p : Player) (t : UpgradeTemplate) :
    p.Find_Upgrade t = none ↔ t ∉ p.m_upgradeList.map (fun u => u.m_template) := by
  unfold Player.Find_Upgrade
  rw [List.find?_eq_none]
  simp

/-- No two records of the list have the same template. -/
theorem Player.Add_Upgrade_nodup (env : Env) (p : Player) (t : UpgradeTemplate)
    (s : UpgradeStatusType) (h : (p.m_upgradeList.map (fun u => u.m_template)).Nodup) :
    ((p.Add_Upgrade env t s).1.m_upgradeList.map (fun u => u.m_template)).Nodup := by
  rw [Player.Add_Upgrade_list]
  cases hf : p.Find_Upgrade t with
  | none =>
    simp only [List.map_cons, List.nodup_cons]
    exact ⟨(Player.Find_Upgrade_none_iff p t).mp hf, h⟩
  | some u =>
    simp only [Player.Set_Status_Of_map_template]
    exact h

theorem Player.Remove_Upgrade_list (env : Env) (p : Player) (t : UpgradeTemplate) :
    (p.Remove_Upgrade env t).m_upgradeList =
      p.m_upgradeList.eraseP (fun node => decide (node.m_template = t)) := by
  cases hf : p.Find_Upgrade t with
  | none =>
    simp only [Player.Remove_Upgrade, hf]
    unfold Player.Find_Upgrade at hf
    rw [List.find?_eq_none] at hf
    exact (List.eraseP_of_forall_not hf).symm
  | some u =>
    simp only [Player.Remove_Upgrade, hf]
    split_ifs <;> simp [Player.On_Upgrade_Removed, Player.Mark_UI_Dirty]

theorem Player.Remove_Upgrade_nodup (env : Env) (p : Player) (t : UpgradeTemplate)
    (h : (p.m_upgradeList.map (fun u => u.m_template)).Nodup) :
    ((p.Remove_Upgrade env t).m_upgradeList.map (fun u => u.m_template)).Nodup := by
  rw [Player.Remove_Upgrade_list]
  exact List.Nodup.sublist (List.Sublist.map _ (List.eraseP_sublist _)) h

theorem Player.Apply_Upgrade_Calls_nodup (env : Env) (calls : List UpgradeCall) (p : Player)
    (h : (p.m_upgradeList.map (fun u => u.m_template)).Nodup) :
    ((p.Apply_Upgrade_Calls env calls).m_upgradeList.map (fun u => u.m_template)).Nodup := by
  induction calls generalizing p with
  | nil => exact h
  | cons c cs ih =>
    simp only [Player.Apply_Upgrade_Calls, List.foldl_cons]
    apply ih
    cases c with
    | add t s => exact Player.Add_Upgrade_nodup env p t s h
    | remove t => exact Player.Remove_Upgrade_nodup env p t h

theorem List.length_filter_eq_one_of_nodup_map {α β : Type} [DecidableEq β] (f : α → β)
    (l : List α) (b : β) (hn : (l.map f).Nodup) (hb : b ∈ l.map f) :
    (l.filter (fun a => decide (f a = b))).length = 1 := by
  induction l with
  | nil => simp at hb
  | cons a rest ih =>
    simp only [List.map_cons, List.nodup_cons] at hn
    by_cases h : f a = b
    · have hnot : ∀ x ∈ rest, ¬ f x = b := by
        intro x hx hxb
        apply hn.1
        rw [h, ← hxb]
        exact List.mem_map_of_mem f hx
      have : rest.filter (fun a => decide (f a = b)) = [] := by
        rw [List.filter_eq_nil_iff]
        intro x hx
        simpa using hnot x hx
      simp [List.filter_cons, h, this]
    · have hb2 : b ∈ rest.map f := by
        simp only [List.map_cons, List.mem_cons] at hb
        rcases hb with hb | hb
        · exact absurd hb.symm h
        · exact hb
      simp [List.filter_cons, h, ih hn.2 hb2]

/-! ### Bit flag lemmas -/

theorem BitFlags.Clear_of_disjoint (x m : BitFlags) (h : x &&& m = 0) :
    BitFlags.Clear x m = x := by
  simp [BitFlags.Clear, h]

theorem BitFlags.Clear_self (m : BitFlags) : BitFlags.Clear m m = 0 := by
  simp [BitFlags.Clear]

theorem BitFlags.Clear_lor (a b m : BitFlags) :
    BitFlags.Clear (a ||| b) m = BitFlags.Clear a m ||| BitFlags.Clear b m := by
  apply Nat.eq_of_testBit_eq
  intro i
  simp only [BitFlags.Clear, Nat.testBit_xor, Nat.testBit_and, Nat.testBit_or]
  cases a.testBit i <;> cases b.testBit i <;> cases m.testBit i <;> rfl

theorem BitFlags.lor_land_right (a b m : BitFlags) :
    (a ||| b) &&& m = (a &&& m) ||| (b &&& m) := by
  apply Nat.eq_of_testBit_eq
  intro i
  simp only [Nat.testBit_and, Nat.testBit_or]
  cases a.testBit i <;> cases b.testBit i <;> cases m.testBit i <;> rfl

theorem BitFlags.lor_absorb (a m : BitFlags) : (m ||| a) ||| m = m ||| a := by
  apply Nat.eq_of_testBit_eq
  intro i
  simp only [Nat.testBit_or]
  cases a.testBit i <;> cases m.testBit i <;> rfl

/-- C5: on a ledger reached from an empty one, two `Add_Upgrade` calls for the
same template return the list record of that template both times (the second
result is the first one with the new status), the second call adds no node
(same templates in the same order) and the list holds exactly one record of
the template. -/
theorem C5_Add_Upgrade_idempotent (env : Env) (p0 p : Player) (calls : List UpgradeCall)
    (t : UpgradeTemplate) (s1 s2 : UpgradeStatusType)
    (h0 : p0.m_upgradeList = []) (hp : p = p0.Apply_Upgrade_Calls env calls) :
    (p.Add_Upgrade env t s1).2.m_template = t ∧
    (p.Add_Upgrade env t s1).1.Find_Upgrade t = some (p.Add_Upgrade env t s1).2 ∧
    ((p.Add_Upgrade env t s1).1.Add_Upgrade env t s2).2
      = { (p.Add_Upgrade env t s1).2 with m_status := s2 } ∧
    ((p.Add_Upgrade env t s1).1.Add_Upgrade env t s2).1.Find_Upgrade t
      = some ((p.Add_Upgrade env t s1).1.Add_Upgrade env t s2).2 ∧
    ((p.Add_Upgrade env t s1).1.Add_Upgrade env t s2).1.m_upgradeList.map (fun u => u.m_template)
      = (p.Add_Upgrade env t s1).1.m_upgradeList.map (fun u => u.m_template) ∧
    (((p.Add_Upgrade env t s1).1.Add_Upgrade env t s2).1.m_upgradeList.filter
      (fun u => decide (u.m_template = t))).length = 1 := by
  have hnd : (p.m_upgradeList.map (fun u => u.m_template)).Nodup := by
    rw [hp]
    exact Player.Apply_Upgrade_Calls_nodup env calls p0 (by simp [h0])
  have hfind1 := Player.Find_Upgrade_after_Add env p t s1
  have hfind2 := Player.Find_Upgrade_after_Add env (p.Add_Upgrade env t s1).1 t s2
  have hres2 := Player.Add_Upgrade_result env (p.Add_Upgrade env t s1).1 t s2
  have hlist2 := Player.Add_Upgrade_list env (p.Add_Upgrade env t s1).1 t s2
  rw [hfind1] at hres2 hlist2
  simp only at hres2 hlist2
  have hnd2 := Player.Add_Upgrade_nodup env _ t s2 (Player.Add_Upgrade_nodup env p t s1 hnd)
  refine ⟨Player.Find_Upgrade_template _ t _ hfind1, hfind1, hres2, hfind2, ?_, ?_⟩
  · rw [hlist2, Player.Set_Status_Of_map_template]
  · apply List.length_filter_eq_one_of_nodup_map (fun u : Upgrade => u.m_template) _ t hnd2
    by_contra hmem
    rw [← Player.Find_Upgrade_none_iff, hfind2] at hmem
    exact Option.noConfusion hmem

/-- C5 at a concrete input: a fresh player, one earlier call for another
template, then template A added as IN_PRODUCTION and again as COMPLETE. -/
theorem C5_Add_Upgrade_idempotent_witness :
    playerFresh.m_upgradeList = [] ∧
    (((playerFresh.Apply_Upgrade_Calls envNone
          [UpgradeCall.add templateB UpgradeStatusType.UPGRADE_STATUS_COMPLETE]).Add_Upgrade
        envNone templateA UpgradeStatusType.UPGRADE_STATUS_IN_PRODUCTION).1.Add_Upgrade
        envNone templateA UpgradeStatusType.UPGRADE_STATUS_COMPLETE).1.m_upgradeList
      = [{ m_template := templateA, m_status := UpgradeStatusType.UPGRADE_STATUS_COMPLETE },
         { m_template := templateB, m_status := UpgradeStatusType.UPGRADE_STATUS_COMPLETE }] ∧
    ((((playerFresh.Apply_Upgrade_Calls envNone
          [UpgradeCall.add templateB UpgradeStatusType.UPGRADE_STATUS_COMPLETE]).Add_Upgrade
        envNone templateA UpgradeStatusType.UPGRADE_STATUS_IN_PRODUCTION).1.Add_Upgrade
        envNone templateA UpgradeStatusType.UPGRADE_STATUS_COMPLETE).1.m_upgradeList.filter
      (fun u => decide (u.m_template = templateA))).length = 1 :=
  ⟨by decide, by decide,
   (C5_Add_Upgrade_idempotent envNone playerFresh
      (playerFresh.Apply_Upgrade_Calls envNone
        [UpgradeCall.add templateB UpgradeStatusType.UPGRADE_STATUS_COMPLETE])
      [UpgradeCall.add templateB UpgradeStatusType.UPGRADE_STATUS_COMPLETE]
      templateA UpgradeStatusType.UPGRADE_STATUS_IN_PRODUCTION
      UpgradeStatusType.UPGRADE_STATUS_COMPLETE (by decide) rfl).2.2.2.2.2⟩

/-! ### Ledger and accumulators -/

theorem Player.Add_Upgrade_inProgress (env : Env) (p : Player) (t : UpgradeTemplate)
    (s : UpgradeStatusType) :
    (p.Add_Upgrade env t s).1.m_upgradesInProgress =
      if s = UpgradeStatusType.UPGRADE_STATUS_IN_PRODUCTION then
        BitFlags.Set p.m_upgradesInProgress t.m_upgradeMask
      else if s = UpgradeStatusType.UPGRADE_STATUS_COMPLETE then
        BitFlags.Clear p.m_upgradesInProgress t.m_upgradeMask
      else p.m_upgradesInProgress := by
  unfold Player.Add_Upgrade
  cases p.Find_Upgrade t <;> cases s <;>
    simp only [UpgradeTemplate.Get_Upgrade_Mask, reduceCtorEq, if_true, if_false] <;>
    split_ifs <;> simp [Player.On_Upgrade_Completed, Player.Mark_UI_Dirty]

theorem Player.Add_Upgrade_completed (env : Env) (p : Player) (t : UpgradeTemplate)
    (s : UpgradeStatusType) :
    (p.Add_Upgrade env t s).1.m_upgradesCompleted =
      if s = UpgradeStatusType.UPGRADE_STATUS_COMPLETE then
        BitFlags.Set p.m_upgradesCompleted t.m_upgradeMask
      else p.m_upgradesCompleted := by
  unfold Player.Add_Upgrade
  cases p.Find_Upgrade t <;> cases s <;>
    simp only [UpgradeTemplate.Get_Upgrade_Mask, reduceCtorEq, if_true, if_false] <;>
    split_ifs <;> simp [Player.On_Upgrade_Completed, Player.Mark_UI_Dirty]

theorem Player.Remove_Upgrade_inProgress (env : Env) (p : Player) (t : UpgradeTemplate) :
    (p.Remove_Upgrade env t).m_upgradesInProgress =
      match p.Find_Upgrade t with
      | none => p.m_upgradesInProgress
      | some _ => BitFlags.Clear p.m_upgradesInProgress t.m_upgradeMask := by
  cases hf : p.Find_Upgrade t with
  | none => simp only [Player.Remove_Upgrade, hf]
  | some u =>
    simp only [Player.Remove_Upgrade, hf, UpgradeTemplate.Get_Upgrade_Mask]
    split_ifs <;> simp [Player.On_Upgrade_Removed, Player.Mark_UI_Dirty]

theorem Player.Remove_Upgrade_completed (env : Env) (p : Player) (t : UpgradeTemplate) :
    (p.Remove_Upgrade env t).m_upgradesCompleted =
      match p.Find_Upgrade t with
      | none => p.m_upgradesCompleted
      | some _ => BitFlags.Clear p.m_upgradesCompleted t.m_upgradeMask := by
  cases hf : p.Find_Upgrade t with
  | none => simp only [Player.Remove_Upgrade, hf]
  | some u =>
    simp only [Player.Remove_Upgrade, hf, UpgradeTemplate.Get_Upgrade_Mask]
    split_ifs <;> simp [Player.On_Upgrade_Removed, Player.Mark_UI_Dirty]

theorem Player.Union_Of_Masks_nil (s : UpgradeStatusType) : Player.Union_Of_Masks s [] = 0 := rfl

theorem Player.Union_Of_Masks_cons (s : UpgradeStatusType) (u : Upgrade) (l : List Upgrade) :
    Player.Union_Of_Masks s (u :: l) =
      if u.m_status = s then u.m_template.m_upgradeMask ||| Player.Union_Of_Masks s l
      else Player.Union_Of_Masks s l := by
  unfold Player.Union_Of_Masks
  by_cases h : u.m_status = s <;> simp [List.filter_cons, h]

/-- The union over records whose masks avoid `m` avoids `m`. -/
theorem Player.Union_Of_Masks_disjoint (s : UpgradeStatusType) (m : BitFlags) (l : List Upgrade)
    (h : ∀ u ∈ l, u.m_status = s → u.m_template.m_upgradeMask &&& m = 0) :
    Player.Union_Of_Masks s l &&& m = 0 := by
  induction l with
  | nil => simp [Player.Union_Of_Masks_nil]
  | cons u rest ih =>
    have ih2 := ih (fun v hv => h v (List.mem_cons_of_mem _ hv))
    rw [Player.Union_Of_Masks_cons]
    split_ifs with hs
    · rw [BitFlags.lor_land_right, h u (List.mem_cons_self _ _) hs, ih2]; rfl
    · exact ih2

theorem Player.Union_Of_Masks_Clear (s : UpgradeStatusType) (m : BitFlags) (l : List Upgrade)
    (h : ∀ u ∈ l, u.m_status = s → u.m_template.m_upgradeMask &&& m = 0) :
    BitFlags.Clear (Player.Union_Of_Masks s l) m = Player.Union_Of_Masks s l :=
  BitFlags.Clear_of_disjoint _ _ (Player.Union_Of_Masks_disjoint s m l h)

/-- Unlinking the record of `t` takes the bits of its mask out of the union. -/
theorem Player.Union_Of_Masks_eraseP (s : UpgradeStatusType) (t : UpgradeTemplate)
    (l : List Upgrade) (hn : (l.map (fun u => u.m_template)).Nodup)
    (hd : ∀ u ∈ l, u.m_template ≠ t → u.m_template.m_upgradeMask &&& t.m_upgradeMask = 0) :
    Player.Union_Of_Masks s (l.eraseP (fun node => decide (node.m_template = t)))
      = BitFlags.Clear (Player.Union_Of_Masks s l) t.m_upgradeMask := by
  induction l with
  | nil => simp [Player.Union_Of_Masks_nil, BitFlags.Clear]
  | cons u rest ih =>
    simp only [List.map_cons, List.nodup_cons] at hn
    have hdrest : ∀ v ∈ rest, v.m_template ≠ t →
        v.m_template.m_upgradeMask &&& t.m_upgradeMask = 0 :=
      fun v hv => hd v (List.mem_cons_of_mem _ hv)
    by_cases hu : u.m_template = t
    · have hrest : ∀ v ∈ rest, v.m_status = s →
          v.m_template.m_upgradeMask &&& t.m_upgradeMask = 0 := by
        intro v hv _
        apply hdrest v hv
        intro hvt
        apply hn.1
        rw [hu, ← hvt]
        exact List.mem_map_of_mem (fun u => u.m_template) hv
      have hclear := Player.Union_Of_Masks_Clear s t.m_upgradeMask rest hrest
      simp only [List.eraseP_cons, hu, decide_True, cond_true]
      rw [Player.Union_Of_Masks_cons]
      split_ifs with hs
      · rw [BitFlags.Clear_lor, hclear, hu, BitFlags.Clear_self]; simp
      · exact hclear.symm
    · have hdu := hd u (List.mem_cons_self _ _) hu
      simp only [List.eraseP_cons, hu, decide_False, cond_false]
      rw [Player.Union_Of_Masks_cons, Player.Union_Of_Masks_cons, ih hn.2 hdrest]
      split_ifs with hs
      · rw [BitFlags.Clear_lor, BitFlags.Clear_of_disjoint _ _ hdu]
      · rfl

/-- Setting the record of `t` to status `s2` adds its mask to the union for `s2`. -/
theorem Player.Union_Of_Masks_Set_Status_same (s2 : UpgradeStatusType) (t : UpgradeTemplate)
    (l : List Upgrade) (hmem : t ∈ l.map (fun u => u.m_template)) :
    Player.Union_Of_Masks s2 (Player.Set_Status_Of l t s2)
      = Player.Union_Of_Masks s2 l ||| t.m_upgradeMask := by
  induction l with
  | nil => simp at hmem
  | cons u rest ih =>
    by_cases hu : u.m_template = t
    · simp only [Player.Set_Status_Of, hu, if_true]
      rw [Player.Union_Of_Masks_cons, Player.Union_Of_Masks_cons]
      simp only [if_true, hu]
      split_ifs with hs
      · exact (BitFlags.lor_absorb _ _).symm
      · exact Nat.lor_comm _ _
    · have hmem2 : t ∈ rest.map (fun u => u.m_template) := by
        simp only [List.map_cons, List.mem_cons] at hmem
        rcases hmem with h | h
        · exact absurd h.symm hu
        · exact h
      simp only [Player.Set_Status_Of, hu, if_false]
      rw [Player.Union_Of_Masks_cons, Player.Union_Of_Masks_cons, ih hmem2]
      split_ifs with hs
      · exact (Nat.lor_assoc _ _ _).symm
      · rfl

/-- Setting the record of `t` to another status takes its mask out of the union for `s`. -/
theorem Player.Union_Of_Masks_Set_Status_other (s s2 : UpgradeStatusType) (t : UpgradeTemplate)
    (l : List Upgrade) (hne : s2 ≠ s) (hn : (l.map (fun u => u.m_template)).Nodup)
    (hd : ∀ u ∈ l, u.m_template ≠ t → u.m_template.m_upgradeMask &&& t.m_upgradeMask = 0) :
    Player.Union_Of_Masks s (Player.Set_Status_Of l t s2)
      = BitFlags.Clear (Player.Union_Of_Masks s l) t.m_upgradeMask := by
  induction l with
  | nil => simp [Player.Set_Status_Of, Player.Union_Of_Masks_nil, BitFlags.Clear]
  | cons u rest ih =>
    simp only [List.map_cons, List.nodup_cons] at hn
    have hdrest : ∀ v ∈ rest, v.m_template ≠ t →
        v.m_template.m_upgradeMask &&& t.m_upgradeMask = 0 :=
      fun v hv => hd v (List.mem_cons_of_mem _ hv)
    by_cases hu : u.m_template = t
    · have hrest : ∀ v ∈ rest, v.m_status = s →
          v.m_template.m_upgradeMask &&& t.m_upgradeMask = 0 := by
        intro v hv _
        apply hdrest v hv
        intro hvt
        apply hn.1
        rw [hu, ← hvt]
        exact List.mem_map_of_mem (fun u => u.m_template) hv
      have hclear := Player.Union_Of_Masks_Clear s t.m_upgradeMask rest hrest
      simp only [Player.Set_Status_Of, hu, if_true]
      rw [Player.Union_Of_Masks_cons, Player.Union_Of_Masks_cons]
      simp only [hne, if_false]
      split_ifs with hs
      · rw [BitFlags.Clear_lor, hclear, hu, BitFlags.Clear_self]; simp
      · exact hclear.symm
    · have hdu := hd u (List.mem_cons_self _ _) hu
      simp only [Player.Set_Status_Of, hu, if_false]
      rw [Player.Union_Of_Masks_cons, Player.Union_Of_Masks_cons, ih hn.2 hdrest]
      split_ifs with hs
      · rw [BitFlags.Clear_lor, BitFlags.Clear_of_disjoint _ _ hdu]
      · rfl

theorem Player.find_unique (t : UpgradeTemplate) (l : List Upgrade) (u0 : Upgrade)
    (hn : (l.map (fun u => u.m_template)).Nodup)
    (hf : l.find? (fun u => decide (u.m_template = t)) = some u0) :
    ∀ u ∈ l, u.m_template = t → u = u0 := by
  induction l with
  | nil => simp at hf
  | cons v rest ih =>
    simp only [List.map_cons, List.nodup_cons] at hn
    intro u hu hut
    by_cases hv : v.m_template = t
    · simp only [List.find?, hv, decide_True, Option.some.injEq] at hf
      rcases List.mem_cons.mp hu with h | h
      · rw [h, hf]
      · exfalso
        apply hn.1
        rw [hv, ← hut]
        exact List.mem_map_of_mem (fun u => u.m_template) h
    · simp only [List.find?, hv, decide_False] at hf
      rcases List.mem_cons.mp hu with h | h
      · rw [h] at hut; exact absurd hut hv
      · exact ih hn.2 hf u h hut

/-- When the record of `t` has not status `s`, no record counted for `s`
meets the mask of `t` (distinct templates having disjoint masks). -/
theorem Player.Status_Of_ne_disjoint (p : Player) (t : UpgradeTemplate) (s : UpgradeStatusType)
    (hn : (p.m_upgradeList.map (fun u => u.m_template)).Nodup)
    (hd : ∀ u ∈ p.m_upgradeList, u.m_template ≠ t →
      u.m_template.m_upgradeMask &&& t.m_upgradeMask = 0)
    (hs : p.Status_Of t ≠ some s) :
    ∀ u ∈ p.m_upgradeList, u.m_status = s →
      u.m_template.m_upgradeMask &&& t.m_upgradeMask = 0 := by
  intro u hu hus
  by_cases hut : u.m_template = t
  · exfalso
    apply hs
    cases hf : p.Find_Upgrade t with
    | none =>
      rw [Player.Find_Upgrade_none_iff] at hf
      exact absurd (hut ▸ List.mem_map_of_mem (fun u => u.m_template) hu) hf
    | some u0 =>
      have := Player.find_unique t p.m_upgradeList u0 hn hf u hu hut
      simp only [Player.Status_Of, hf, Option.map_some', this.symm, hus]
  · exact hd u hu hut

theorem Player.Add_Upgrade_consistent (env : Env) (p : Player) (t : UpgradeTemplate)
    (s : UpgradeStatusType)
    (hn : (p.m_upgradeList.map (fun u => u.m_template)).Nodup)
    (hd : ∀ u ∈ p.m_upgradeList, u.m_template ≠ t →
      u.m_template.m_upgradeMask &&& t.m_upgradeMask = 0)
    (hg : p.Call_Keeps_Status_Order (UpgradeCall.add t s) = true)
    (hc : p.Ledger_Consistent) :
    (p.Add_Upgrade env t s).1.Ledger_Consistent := by
  obtain ⟨hip, hco⟩ := hc
  unfold Player.Ledger_Consistent
  rw [Player.Add_Upgrade_inProgress, Player.Add_Upgrade_completed, Player.Add_Upgrade_list]
  cases hf : p.Find_Upgrade t with
  | none =>
    have hnone : ∀ u ∈ p.m_upgradeList, u.m_template ≠ t := by
      intro u hu hut
      rw [Player.Find_Upgrade_none_iff] at hf
      exact hf (hut ▸ List.mem_map_of_mem (fun u => u.m_template) hu)
    have hall : ∀ s0, ∀ u ∈ p.m_upgradeList, u.m_status = s0 →
        u.m_template.m_upgradeMask &&& t.m_upgradeMask = 0 :=
      fun _ u hu _ => hd u hu (hnone u hu)
    cases s with
    | UPGRADE_STATUS_INVALID =>
      simp [Player.Union_Of_Masks_cons, hip, hco]
    | UPGRADE_STATUS_IN_PRODUCTION =>
      simp [Player.Union_Of_Masks_cons, hip, hco, BitFlags.Set, Nat.lor_comm]
    | UPGRADE_STATUS_COMPLETE =>
      simp only [reduceCtorEq, if_false, if_true, Player.Union_Of_Masks_cons]
      rw [hip, hco, Player.Union_Of_Masks_Clear _ _ _ (hall _)]
      simp [BitFlags.Set, Nat.lor_comm]
  | some u0 =>
    have hmem : t ∈ p.m_upgradeList.map (fun u => u.m_template) := by
      by_contra hcon
      rw [← Player.Find_Upgrade_none_iff, hf] at hcon
      exact Option.noConfusion hcon
    simp only
    cases s with
    | UPGRADE_STATUS_INVALID =>
      simp only [reduceCtorEq, if_false]
      have hst : p.Status_Of t = some UpgradeStatusType.UPGRADE_STATUS_INVALID := by
        simp only [Player.Call_Keeps_Status_Order, decide_eq_true_eq] at hg
        rcases hg with h | h
        · simp [Player.Status_Of, hf] at h
        · exact h
      rw [Player.Union_Of_Masks_Set_Status_other _ _ t _ (by decide) hn hd,
        Player.Union_Of_Masks_Set_Status_other _ _ t _ (by decide) hn hd,
        Player.Union_Of_Masks_Clear _ _ _
          (Player.Status_Of_ne_disjoint p t _ hn hd (by rw [hst]; decide)),
        Player.Union_Of_Masks_Clear _ _ _
          (Player.Status_Of_ne_disjoint p t _ hn hd (by rw [hst]; decide))]
      exact ⟨hip, hco⟩
    | UPGRADE_STATUS_IN_PRODUCTION =>
      simp only [reduceCtorEq, if_false, if_true]
      have hst : p.Status_Of t ≠ some UpgradeStatusType.UPGRADE_STATUS_COMPLETE := by
        simpa [Player.Call_Keeps_Status_Order] using hg
      rw [Player.Union_Of_Masks_Set_Status_same _ t _ hmem,
        Player.Union_Of_Masks_Set_Status_other _ _ t _ (by decide) hn hd,
        Player.Union_Of_Masks_Clear _ _ _ (Player.Status_Of_ne_disjoint p t _ hn hd hst)]
      exact ⟨by rw [hip]; rfl, hco⟩
    | UPGRADE_STATUS_COMPLETE =>
      simp only [reduceCtorEq, if_false, if_true]
      rw [Player.Union_Of_Masks_Set_Status_same _ t _ hmem,
        Player.Union_Of_Masks_Set_Status_other _ _ t _ (by decide) hn hd]
      exact ⟨by rw [hip], by rw [hco]; rfl⟩

theorem Player.Remove_Upgrade_consistent (env : Env) (p : Player) (t : UpgradeTemplate)
    (hn : (p.m_upgradeList.map (fun u => u.m_template)).Nodup)
    (hd : ∀ u ∈ p.m_upgradeList, u.m_template ≠ t →
      u.m_template.m_upgradeMask &&& t.m_upgradeMask = 0)
    (hc : p.Ledger_Consistent) :
    (p.Remove_Upgrade env t).Ledger_Consistent := by
  obtain ⟨hip, hco⟩ := hc
  unfold Player.Ledger_Consistent
  rw [Player.Remove_Upgrade_inProgress, Player.Remove_Upgrade_completed,
    Player.Remove_Upgrade_list, Player.Union_Of_Masks_eraseP _ t _ hn hd,
    Player.Union_Of_Masks_eraseP _ t _ hn hd]
  cases hf : p.Find_Upgrade t with
  | none =>
    have hnone : ∀ s0, ∀ u ∈ p.m_upgradeList, u.m_status = s0 →
        u.m_template.m_upgradeMask &&& t.m_upgradeMask = 0 := by
      intro _ u hu _
      apply hd u hu
      intro hut
      rw [Player.Find_Upgrade_none_iff] at hf
      exact hf (hut ▸ List.mem_map_of_mem (fun u => u.m_template) hu)
    simp only
    rw [Player.Union_Of_Masks_Clear _ _ _ (hnone _), Player.Union_Of_Masks_Clear _ _ _ (hnone _)]
    exact ⟨hip, hco⟩
  | some u0 =>
    simp only
    exact ⟨by rw [hip], by rw [hco]⟩

/-! ### What the science and rank resets leave alone -/

theorem Player.Science_Frame_refl (p : Player) : p.Science_Frame p :=
  ⟨p.m_sciences, p.m_playerTeamPrototypes, p.m_effects, rfl⟩

theorem Player.Science_Frame_trans {p q r : Player} (h1 : p.Science_Frame q)
    (h2 : q.Science_Frame r) : p.Science_Frame r := by
  obtain ⟨sc1, pr1, ef1, rfl⟩ := h1
  obtain ⟨sc2, pr2, ef2, rfl⟩ := h2
  exact ⟨sc2, pr2, ef2, rfl⟩

theorem Player.Notify_Of_Acquired_Science_frame (p : Player) (i : Int) (t : ScienceType) :
    p.Science_Frame (p.Notify_Of_Acquired_Science i t) :=
  ⟨p.m_sciences, p.m_playerTeamPrototypes, _, rfl⟩

theorem Player.Add_Science_frame (env : Env) (p : Player) (t : ScienceType) :
    p.Science_Frame (Player.Add_Science env p t).2 := by
  unfold Player.Add_Science
  split_ifs
  · exact Player.Science_Frame_refl p
  · exact ⟨_, _, _, rfl⟩

theorem Player.Science_Frame_foldl {α : Type} (f : Player → α → Player)
    (hf : ∀ (q : Player) (a : α), q.Science_Frame (f q a)) (l : List α) (p : Player) :
    p.Science_Frame (l.foldl f p) := by
  induction l generalizing p with
  | nil => exact Player.Science_Frame_refl p
  | cons a rest ih => exact Player.Science_Frame_trans (hf p a) (ih (f p a))

theorem Player.Seed_Sciences_frame (p : Player) : p.Science_Frame p.Seed_Sciences := by
  unfold Player.Seed_Sciences
  simp only []
  split <;> exact ⟨_, _, _, rfl⟩

theorem Player.Grant_Rank_Sciences_frame (env : Env) (p : Player) (level : Int) :
    p.Science_Frame (Player.Grant_Rank_Sciences env p level) := by
  unfold Player.Grant_Rank_Sciences
  cases env.Get_Rank_Info level with
  | none => exact Player.Science_Frame_refl p
  | some info =>
    exact Player.Science_Frame_foldl _ (fun q t => Player.Add_Science_frame env q t) _ _

theorem Player.Reset_Sciences_frame (env : Env) (p : Player) :
    p.Science_Frame (Player.Reset_Sciences env p) := by
  unfold Player.Reset_Sciences Player.Notify_All_Sciences
  refine Player.Science_Frame_trans (Player.Seed_Sciences_frame p)
    (Player.Science_Frame_trans (Player.Science_Frame_foldl _ ?_ _ _)
      (Player.Science_Frame_foldl _ ?_ _ _))
  · intro q i
    exact Player.Grant_Rank_Sciences_frame env q _
  · intro q t
    exact Player.Notify_Of_Acquired_Science_frame q _ t

theorem Player.Reset_Rank_Fields_frame (env : Env) (p : Player) :
    ∃ needed points name, Player.Reset_Rank_Fields env p =
      { p with m_rankLevel := 1, m_currentSkillPoints := 0,
               m_skillPointsNeededForNextRank := needed, m_rankProgress := 0,
               m_sciencePurchasePoints := points, m_scienceGeneralName := name,
               m_sciences := [] } := by
  unfold Player.Reset_Rank_Fields
  simp only []
  split <;> split <;> split <;> split <;> exact ⟨_, _, _, rfl⟩

/-- The state after `Reset_Rank` is the old one with new rank fields, sciences,
prototypes and effects. -/
theorem Player.Reset_Rank_frame (env : Env) (p : Player) :
    ∃ needed points name sc pr ef, Player.Reset_Rank env p =
      { p with m_rankLevel := 1, m_currentSkillPoints := 0,
               m_skillPointsNeededForNextRank := needed, m_rankProgress := 0,
               m_sciencePurchasePoints := points, m_scienceGeneralName := name,
               m_sciences := sc, m_playerTeamPrototypes := pr, m_effects := ef } := by
  obtain ⟨needed, points, name, h1⟩ := Player.Reset_Rank_Fields_frame env p
  obtain ⟨sc, pr, ef, h2⟩ := Player.Reset_Sciences_frame env (Player.Reset_Rank_Fields env p)
  refine ⟨needed, points, name, sc, pr, ef, ?_⟩
  unfold Player.Reset_Rank
  rw [h2, h1]

theorem Player.Init_upgradeList (env : Env) (p : Player) (pt : Option PlayerTemplate) :
    (Player.Init env p pt).m_upgradeList = [] ∧
    (Player.Init env p pt).m_upgradesInProgress = 0 ∧
    (Player.Init env p pt).m_upgradesCompleted = 0 := by
  obtain ⟨needed, points, name, sc, pr, ef, h⟩ :=
    Player.Reset_Rank_frame env (Player.Init_Before_Rank env p pt)
  unfold Player.Init
  rw [h]
  cases pt <;>
    simp [Player.Init_After_Rank, Player.Init_Before_Rank, Player.Init_From_Template,
      Player.Init_Without_Template, Player.Set_Player_Relationship, Player.Delete_Upgrade_List]

theorem Player.Apply_Upgrade_Calls_consistent (env : Env) (D : UpgradeTemplate → Prop)
    (hD : ∀ t1 t2, D t1 → D t2 → t1 ≠ t2 → t1.m_upgradeMask &&& t2.m_upgradeMask = 0)
    (calls : List UpgradeCall) (p : Player)
    (hcalls : ∀ c ∈ calls, D c.template)
    (hg : Player.Calls_Keep_Status_Order env p calls = true)
    (hn : (p.m_upgradeList.map (fun u => u.m_template)).Nodup)
    (hin : ∀ t ∈ p.m_upgradeList.map (fun u => u.m_template), D t)
    (hc : p.Ledger_Consistent) :
    (p.Apply_Upgrade_Calls env calls).Ledger_Consistent := by
  induction calls generalizing p with
  | nil => exact hc
  | cons c cs ih =>
    simp only [Player.Calls_Keep_Status_Order, Bool.and_eq_true] at hg
    have hDc : D c.template := hcalls c (List.mem_cons_self _ _)
    have hd : ∀ u ∈ p.m_upgradeList, u.m_template ≠ c.template →
        u.m_template.m_upgradeMask &&& c.template.m_upgradeMask = 0 :=
      fun u hu hne => hD _ _ (hin _ (List.mem_map_of_mem (fun u => u.m_template) hu)) hDc hne
    simp only [Player.Apply_Upgrade_Calls, List.foldl_cons]
    apply ih _ (fun c2 hc2 => hcalls c2 (List.mem_cons_of_mem _ hc2)) hg.2
    · cases c with
      | add t s => exact Player.Add_Upgrade_nodup env p t s hn
      | remove t => exact Player.Remove_Upgrade_nodup env p t hn
    · cases c with
      | add t s =>
        intro t2 ht2
        simp only [Player.Apply_Upgrade_Call, Player.Add_Upgrade_list] at ht2
        cases hf : p.Find_Upgrade t with
        | none =>
          rw [hf] at ht2
          simp only [List.map_cons, List.mem_cons] at ht2
          rcases ht2 with h | h
          · rw [h]; exact hDc
          · exact hin t2 h
        | some u0 =>
          rw [hf] at ht2
          simp only [Player.Set_Status_Of_map_template] at ht2
          exact hin t2 ht2
      | remove t =>
        intro t2 ht2
        simp only [Player.Apply_Upgrade_Call, Player.Remove_Upgrade_list] at ht2
        exact hin t2 ((List.Sublist.map _ (List.eraseP_sublist _)).subset ht2)
    · cases c with
      | add t s => exact Player.Add_Upgrade_consistent env p t s hn hd hg.1 hc
      | remove t => exact Player.Remove_Upgrade_consistent env p t hn hd hc

/-- C6 (as stated, refuted): after `Add_Upgrade(A, COMPLETE)` and then
`Add_Upgrade(A, IN_PRODUCTION)` on a fresh player the completed accumulator
still holds the mask of A although no record is COMPLETE. -/
theorem C6_status_lowered_counterexample :
    ¬ (playerFresh.Apply_Upgrade_Calls envNone
        [UpgradeCall.add templateA UpgradeStatusType.UPGRADE_STATUS_COMPLETE,
         UpgradeCall.add templateA UpgradeStatusType.UPGRADE_STATUS_IN_PRODUCTION]).Ledger_Consistent := by
  unfold Player.Ledger_Consistent
  decide

/-- C6 (amended): from a freshly initialised player, after any sequence of
`Add_Upgrade` and `Remove_Upgrade` calls whose templates have pairwise
disjoint masks and in which no `Add_Upgrade` lowers the status of an existing
record, the in-progress accumulator is the union of the masks of the
IN_PRODUCTION records and the completed accumulator the union of the masks of
the COMPLETE records. -/
theorem C6_ledger_consistent (env : Env) (q : Player) (pt : Option PlayerTemplate)
    (calls : List UpgradeCall) (hd : Disjoint_Masks calls)
    (hg : Player.Calls_Keep_Status_Order env (Player.Init env q pt) calls = true) :
    ((Player.Init env q pt).Apply_Upgrade_Calls env calls).Ledger_Consistent := by
  obtain ⟨hl, hi, hc⟩ := Player.Init_upgradeList env q pt
  apply Player.Apply_Upgrade_Calls_consistent env (fun t => ∃ c ∈ calls, c.template = t) ?_
    calls _ (fun c hc => ⟨c, hc, rfl⟩) hg
  · rw [hl]; exact List.nodup_nil
  · rw [hl]; intro t ht; simp at ht
  · unfold Player.Ledger_Consistent
    rw [hl, hi, hc]
    exact ⟨rfl, rfl⟩
  · rintro t1 t2 ⟨c1, hc1, rfl⟩ ⟨c2, hc2, rfl⟩ hne
    exact hd c1 hc1 c2 hc2 hne

/-- C6 (amended) at a concrete input: A and B put in production, A completed,
B removed, on the player the constructor makes. -/
theorem C6_ledger_consistent_witness :
    Disjoint_Masks
      [UpgradeCall.add templateA UpgradeStatusType.UPGRADE_STATUS_IN_PRODUCTION,
       UpgradeCall.add templateB UpgradeStatusType.UPGRADE_STATUS_IN_PRODUCTION,
       UpgradeCall.add templateA UpgradeStatusType.UPGRADE_STATUS_COMPLETE,
       UpgradeCall.remove templateB] ∧
    ((Player.Init envNone playerFresh none).Apply_Upgrade_Calls envNone
      [UpgradeCall.add templateA UpgradeStatusType.UPGRADE_STATUS_IN_PRODUCTION,
       UpgradeCall.add templateB UpgradeStatusType.UPGRADE_STATUS_IN_PRODUCTION,
       UpgradeCall.add templateA UpgradeStatusType.UPGRADE_STATUS_COMPLETE,
       UpgradeCall.remove templateB]).Ledger_Consistent :=
  ⟨by unfold Disjoint_Masks; decide,
   C6_ledger_consistent envNone playerFresh none _ (by unfold Disjoint_Masks; decide)
     (by decide)⟩

/-! ### Sciences -/

/-- C7: `Add_Science` of a science already acquired returns false and changes
nothing, neither the lists nor the recorded notifications; of a science not yet
acquired it returns true, appends it at the end of the acquired list and
`Has_Science` holds afterwards. -/
theorem C7_Add_Science (env : Env) (p : Player) (t : ScienceType) :
    (p.Has_Science t = true → Player.Add_Science env p t = (false, p)) ∧
    (p.Has_Science t = false →
      (Player.Add_Science env p t).1 = true ∧
      (Player.Add_Science env p t).2.m_sciences = p.m_sciences ++ [t] ∧
      (Player.Add_Science env p t).2.Has_Science t = true) := by
  constructor
  · intro h
    simp only [Player.Add_Science, h, if_true]
  · intro h
    have h2 : t ∉ p.m_sciences := by simpa [Player.Has_Science] using h
    simp [Player.Add_Science, Player.Has_Science, h2, Player.Notify_Of_Acquired_Science]

/-- C7 at concrete inputs: science 5 added again to a player that has it, and
science 7 added to that player. -/
theorem C7_Add_Science_witness :
    Player.Add_Science envNone playerWithScienceFive 5 = (false, playerWithScienceFive) ∧
    ((Player.Add_Science envNone playerWithScienceFive 7).1 = true ∧
      (Player.Add_Science envNone playerWithScienceFive 7).2.m_sciences
        = playerWithScienceFive.m_sciences ++ [7] ∧
      (Player.Add_Science envNone playerWithScienceFive 7).2.Has_Science 7 = true) :=
  ⟨(C7_Add_Science envNone playerWithScienceFive 5).1 (by decide),
   (C7_Add_Science envNone playerWithScienceFive 7).2 (by decide)⟩

theorem Player.Erase_First_eq (t : ScienceType) (l : List ScienceType) :
    Player.Erase_First t l = (decide (t ∈ l), l.erase t) := by
  induction l with
  | nil => simp [Player.Erase_First]
  | cons x rest ih =>
    by_cases h : x = t
    · simp [Player.Erase_First, h]
    · have h2 : ¬ t = x := fun e => h e.symm
      simp [Player.Erase_First, h, h2, ih, List.erase_cons_tail]

theorem Player.Set_Science_Availability_disabled (p : Player) (t : ScienceType)
    (a : ScienceAvailabilityType) :
    (p.Set_Science_Availability t a).m_disabledSciences =
      if a = ScienceAvailabilityType.SCIENCE_AVAILABILITY_DISABLED then
        p.m_disabledSciences.erase t ++ [t]
      else p.m_disabledSciences.erase t := by
  unfold Player.Set_Science_Availability
  simp only [Player.Erase_First_eq]
  cases a <;> by_cases h : t ∈ p.m_disabledSciences <;> simp [h]

theorem Player.Set_Science_Availability_hidden (p : Player) (t : ScienceType)
    (a : ScienceAvailabilityType) :
    (p.Set_Science_Availability t a).m_hiddenSciences =
      if a = ScienceAvailabilityType.SCIENCE_AVAILABILITY_HIDDEN then
        (if t ∈ p.m_disabledSciences then p.m_hiddenSciences
          else p.m_hiddenSciences.erase t) ++ [t]
      else (if t ∈ p.m_disabledSciences then p.m_hiddenSciences
          else p.m_hiddenSciences.erase t) := by
  unfold Player.Set_Science_Availability
  simp only [Player.Erase_First_eq]
  cases a <;> by_cases h : t ∈ p.m_disabledSciences <;> simp [h]

/-- The two override lists are duplicate free and share no science. -/
theorem Player.Set_Science_Availability_inv (p : Player) (t : ScienceType)
    (a : ScienceAvailabilityType)
    (hd : p.m_disabledSciences.Nodup) (hh : p.m_hiddenSciences.Nodup)
    (hdis : ∀ x, x ∈ p.m_disabledSciences → x ∉ p.m_hiddenSciences) :
    (p.Set_Science_Availability t a).m_disabledSciences.Nodup ∧
    (p.Set_Science_Availability t a).m_hiddenSciences.Nodup ∧
    ∀ x, x ∈ (p.Set_Science_Availability t a).m_disabledSciences →
      x ∉ (p.Set_Science_Availability t a).m_hiddenSciences := by
  rw [Player.Set_Science_Availability_disabled, Player.Set_Science_Availability_hidden]
  have hD1 : (p.m_disabledSciences.erase t).Nodup := hd.erase t
  have htD1 : t ∉ p.m_disabledSciences.erase t := fun h => (hd.mem_erase_iff.mp h).1 rfl
  have hH1 : (if t ∈ p.m_disabledSciences then p.m_hiddenSciences
      else p.m_hiddenSciences.erase t).Nodup := by
    split_ifs
    · exact hh
    · exact hh.erase t
  have htH1 : t ∉ (if t ∈ p.m_disabledSciences then p.m_hiddenSciences
      else p.m_hiddenSciences.erase t) := by
    split_ifs with h
    · exact hdis t h
    · exact fun h2 => (hh.mem_erase_iff.mp h2).1 rfl
  have hdis1 : ∀ x, x ∈ p.m_disabledSciences.erase t →
      x ∉ (if t ∈ p.m_disabledSciences then p.m_hiddenSciences
        else p.m_hiddenSciences.erase t) := by
    intro x hx
    have hx2 := hdis x (List.mem_of_mem_erase hx)
    split_ifs
    · exact hx2
    · exact fun h2 => hx2 (List.mem_of_mem_erase h2)
  generalize p.m_disabledSciences.erase t = D1 at *
  generalize (if t ∈ p.m_disabledSciences then p.m_hiddenSciences
      else p.m_hiddenSciences.erase t) = H1 at *
  cases a <;> simp only [reduceCtorEq, if_true, if_false]
  · exact ⟨hD1, hH1, hdis1⟩
  · refine ⟨?_, hH1, ?_⟩
    · rw [List.nodup_append]
      refine ⟨hD1, List.nodup_singleton t, ?_⟩
      intro x hx hx2
      rw [List.mem_singleton] at hx2
      exact htD1 (hx2 ▸ hx)
    · intro x hx
      rcases List.mem_append.mp hx with h | h
      · exact hdis1 x h
      · rw [List.mem_singleton] at h
        rw [h]; exact htH1
  · refine ⟨hD1, ?_, ?_⟩
    · rw [List.nodup_append]
      refine ⟨hH1, List.nodup_singleton t, ?_⟩
      intro x hx hx2
      rw [List.mem_singleton] at hx2
      exact htH1 (hx2 ▸ hx)
    · intro x hx hx2
      rcases List.mem_append.mp hx2 with h | h
      · exact hdis1 x hx h
      · rw [List.mem_singleton] at h
        exact htD1 (h ▸ hx)
  · exact ⟨hD1, hH1, hdis1⟩

theorem Player.Apply_Availability_Calls_inv
    (calls : List (ScienceType × ScienceAvailabilityType)) (p : Player)
    (hd : p.m_disabledSciences.Nodup) (hh : p.m_hiddenSciences.Nodup)
    (hdis : ∀ x, x ∈ p.m_disabledSciences → x ∉ p.m_hiddenSciences) :
    ∀ x, x ∈ (p.Apply_Availability_Calls calls).m_disabledSciences →
      x ∉ (p.Apply_Availability_Calls calls).m_hiddenSciences := by
  induction calls generalizing p with
  | nil => exact hdis
  | cons c cs ih =>
    obtain ⟨h1, h2, h3⟩ := Player.Set_Science_Availability_inv p c.1 c.2 hd hh hdis
    exact ih _ h1 h2 h3

theorem Player.Init_override_lists (env : Env) (p : Player) (pt : Option PlayerTemplate) :
    (Player.Init env p pt).m_disabledSciences = [] ∧
    (Player.Init env p pt).m_hiddenSciences = [] := ⟨rfl, rfl⟩

/-- C8: in every state reached from a freshly initialised player by
`Set_Science_Availability` calls, no science is both disabled and hidden. -/
theorem C8_never_disabled_and_hidden (env : Env) (q : Player) (pt : Option PlayerTemplate)
    (calls : List (ScienceType × ScienceAvailabilityType)) (t : ScienceType) :
    ¬ (((Player.Init env q pt).Apply_Availability_Calls calls).Is_Science_Disabled t = true ∧
       ((Player.Init env q pt).Apply_Availability_Calls calls).Is_Science_Hidden t = true) := by
  obtain ⟨hd, hh⟩ := Player.Init_override_lists env q pt
  have := Player.Apply_Availability_Calls_inv calls (Player.Init env q pt)
    (by rw [hd]; exact List.nodup_nil) (by rw [hh]; exact List.nodup_nil)
    (by rw [hd]; intro x hx; simp at hx) t
  simp only [Player.Is_Science_Disabled, Player.Is_Science_Hidden, decide_eq_true_eq]
  exact fun h => this h.1 h.2

/-! ### Kind-of production cost changes -/

theorem Player.Add_Kind_Of_Change_absent (flags : BitFlags) (percent : ℚ)
    (l : List KindOfPercentProductionChange)
    (h : ∀ k ∈ l, ¬ (k.m_percent = percent ∧ k.m_flags = flags)) :
    Player.Add_Kind_Of_Change flags percent l
      = l ++ [{ m_flags := flags, m_percent := percent, m_count := 1 }] := by
  induction l with
  | nil => rfl
  | cons k rest ih =>
    have hk := h k (List.mem_cons_self _ _)
    simp only [Player.Add_Kind_Of_Change, hk, if_false, List.cons_append]
    rw [ih (fun k2 hk2 => h k2 (List.mem_cons_of_mem _ hk2))]

theorem Player.Add_Kind_Of_Change_present (flags : BitFlags) (percent : ℚ) (count : Nat)
    (l : List KindOfPercentProductionChange)
    (h : ∀ k ∈ l, ¬ (k.m_percent = percent ∧ k.m_flags = flags)) :
    Player.Add_Kind_Of_Change flags percent
        (l ++ [{ m_flags := flags, m_percent := percent, m_count := count }])
      = l ++ [{ m_flags := flags, m_percent := percent, m_count := (count + 1) % 2 ^ 32 }] := by
  induction l with
  | nil => simp [Player.Add_Kind_Of_Change]
  | cons k rest ih =>
    have hk := h k (List.mem_cons_self _ _)
    simp only [Player.Add_Kind_Of_Change, hk, if_false, List.cons_append, List.append_eq]
    rw [ih (fun k2 hk2 => h k2 (List.mem_cons_of_mem _ hk2))]

theorem Player.Remove_Kind_Of_Change_present (flags : BitFlags) (percent : ℚ) (count : Nat)
    (l : List KindOfPercentProductionChange)
    (h : ∀ k ∈ l, ¬ (k.m_percent = percent ∧ k.m_flags = flags)) :
    Player.Remove_Kind_Of_Change flags percent
        (l ++ [{ m_flags := flags, m_percent := percent, m_count := count }])
      = (true,
          if (count + 2 ^ 32 - 1) % 2 ^ 32 = 0 then l
          else l ++ [{ m_flags := flags, m_percent := percent,
                       m_count := (count + 2 ^ 32 - 1) % 2 ^ 32 }]) := by
  induction l with
  | nil =>
    simp only [Player.Remove_Kind_Of_Change, List.nil_append, and_self, if_true]
    split_ifs <;> rfl
  | cons k rest ih =>
    have hk := h k (List.mem_cons_self _ _)
    simp only [Player.Remove_Kind_Of_Change, hk, if_false, List.cons_append, List.append_eq]
    rw [ih (fun k2 hk2 => h k2 (List.mem_cons_of_mem _ hk2))]
    split_ifs <;> rfl

theorem Player.filter_absent (flags : BitFlags) (percent : ℚ)
    (l : List KindOfPercentProductionChange)
    (h : ∀ k ∈ l, ¬ (k.m_percent = percent ∧ k.m_flags = flags)) :
    l.filter (fun k => decide (k.m_percent = percent ∧ k.m_flags = flags)) = [] := by
  rw [List.filter_eq_nil_iff]
  intro k hk
  simpa using h k hk

/-- C9: starting without an entry for the pair, two `Add` calls leave one
entry for the pair, with count 2, at the end of the list; one `Remove` leaves
that entry with count 1; a second `Remove` deletes it and the list is the
initial one. -/
theorem C9_reference_counting (p : Player) (flags : BitFlags) (percent : ℚ)
    (h : ∀ k ∈ p.m_kindOfPercentProductionChangeList,
      ¬ (k.m_percent = percent ∧ k.m_flags = flags)) :
    ((p.Add_Kind_Of_Production_Cost_Change flags percent).Add_Kind_Of_Production_Cost_Change
        flags percent).Kind_Of_Entries flags percent
      = [{ m_flags := flags, m_percent := percent, m_count := 2 }] ∧
    (((p.Add_Kind_Of_Production_Cost_Change flags percent).Add_Kind_Of_Production_Cost_Change
        flags percent).Remove_Kind_Of_Production_Cost_Change flags percent).Kind_Of_Entries
        flags percent
      = [{ m_flags := flags, m_percent := percent, m_count := 1 }] ∧
    ((((p.Add_Kind_Of_Production_Cost_Change flags percent).Add_Kind_Of_Production_Cost_Change
        flags percent).Remove_Kind_Of_Production_Cost_Change
        flags percent).Remove_Kind_Of_Production_Cost_Change flags percent).Kind_Of_Entries
        flags percent = [] ∧
    ((((p.Add_Kind_Of_Production_Cost_Change flags percent).Add_Kind_Of_Production_Cost_Change
        flags percent).Remove_Kind_Of_Production_Cost_Change
        flags percent).Remove_Kind_Of_Production_Cost_Change
        flags percent).m_kindOfPercentProductionChangeList
      = p.m_kindOfPercentProductionChangeList := by
  have hf := Player.filter_absent flags percent _ h
  have e1 : (p.Add_Kind_Of_Production_Cost_Change flags percent).m_kindOfPercentProductionChangeList
      = p.m_kindOfPercentProductionChangeList
          ++ [{ m_flags := flags, m_percent := percent, m_count := 1 }] := by
    simp only [Player.Add_Kind_Of_Production_Cost_Change]
    exact Player.Add_Kind_Of_Change_absent flags percent _ h
  have e2 : ((p.Add_Kind_Of_Production_Cost_Change flags percent).Add_Kind_Of_Production_Cost_Change
        flags percent).m_kindOfPercentProductionChangeList
      = p.m_kindOfPercentProductionChangeList
          ++ [{ m_flags := flags, m_percent := percent, m_count := 2 }] := by
    rw [Player.Add_Kind_Of_Production_Cost_Change]
    simp only [e1]
    exact Player.Add_Kind_Of_Change_present flags percent 1 _ h
  have e3 : (((p.Add_Kind_Of_Production_Cost_Change flags
        percent).Add_Kind_Of_Production_Cost_Change flags
        percent).Remove_Kind_Of_Production_Cost_Change flags
        percent).m_kindOfPercentProductionChangeList
      = p.m_kindOfPercentProductionChangeList
          ++ [{ m_flags := flags, m_percent := percent, m_count := 1 }] := by
    rw [Player.Remove_Kind_Of_Production_Cost_Change]
    simp only [e2, Player.Remove_Kind_Of_Change_present flags percent 2 _ h]
    rfl
  have e4 : ((((p.Add_Kind_Of_Production_Cost_Change flags
        percent).Add_Kind_Of_Production_Cost_Change flags
        percent).Remove_Kind_Of_Production_Cost_Change flags
        percent).Remove_Kind_Of_Production_Cost_Change flags
        percent).m_kindOfPercentProductionChangeList
      = p.m_kindOfPercentProductionChangeList := by
    rw [Player.Remove_Kind_Of_Production_Cost_Change]
    simp only [e3, Player.Remove_Kind_Of_Change_present flags percent 1 _ h]
    rfl
  refine ⟨?_, ?_, ?_, e4⟩
  · simp only [Player.Kind_Of_Entries, e2, List.filter_append, hf]
    simp
  · simp only [Player.Kind_Of_Entries, e3, List.filter_append, hf]
    simp
  · simp only [Player.Kind_Of_Entries, e4, hf]

/-- C9 at a concrete input: the pair (flags 1, percent 1/10) on the player the
constructor makes, whose list is empty. -/
theorem C9_reference_counting_witness :
    playerFresh.m_kindOfPercentProductionChangeList = [] ∧
    ((playerFresh.Add_Kind_Of_Production_Cost_Change 1
        (1 / 10)).Add_Kind_Of_Production_Cost_Change 1 (1 / 10)).Kind_Of_Entries 1 (1 / 10)
      = [{ m_flags := 1, m_percent := 1 / 10, m_count := 2 }] :=
  ⟨by decide,
   (C9_reference_counting playerFresh 1 (1 / 10) (by
      intro k hk
      have : playerFresh.m_kindOfPercentProductionChangeList = [] := by decide
      rw [this] at hk
      simp at hk)).1⟩

theorem playerTwoCostChanges_list :
    playerTwoCostChanges.m_kindOfPercentProductionChangeList
      = [{ m_flags := 1, m_percent := 1 / 10, m_count := 1 },
         { m_flags := 4, m_percent := 2 / 10, m_count := 1 }] := by
  have h0 : playerFresh.m_kindOfPercentProductionChangeList = [] := rfl
  simp only [playerTwoCostChanges, Player.Add_Kind_Of_Production_Cost_Change, h0,
    Player.Add_Kind_Of_Change]
  norm_num

/-! ### The kind-of cost multiplier in float arithmetic -/

theorem Float32.Round_Nearest_Even_eq (y : ℚ) (n : Int) (h1 : (n : ℚ) - 1 / 2 < y)
    (h2 : y < (n : ℚ) + 1 / 2) : Float32.Round_Nearest_Even y = n := by
  unfold Float32.Round_Nearest_Even
  by_cases hf : (n : ℚ) ≤ y
  · have hfl : ⌊y⌋ = n := by
      rw [Int.floor_eq_iff]
      constructor
      · exact hf
      · linarith
    simp only [hfl]
    have hd : y - (n : ℚ) < 1 / 2 := by linarith
    simp only [hd, if_true]
  · have hfl : ⌊y⌋ = n - 1 := by
      rw [Int.floor_eq_iff]
      push_cast
      constructor
      · linarith
      · push_neg at hf
        linarith
    simp only [hfl]
    push_cast
    have hd1 : ¬ (y - ((n : ℚ) - 1) < 1 / 2) := by
      push_neg
      linarith
    have hd2 : (1 : ℚ) / 2 < y - ((n : ℚ) - 1) := by linarith
    simp only [hd1, hd2, if_false, if_true]
    ring

/-- The rounding of a positive value in the range of the normal floats whose
scaled value is nearer to `n` than to any other integer. -/
theorem Float32.Round_value (x r : ℚ) (e n : Int) (h1 : (2 : ℚ) ^ e ≤ x)
    (h2 : x < (2 : ℚ) ^ (e + 1)) (he : -126 ≤ e)
    (hlo : (n : ℚ) - 1 / 2 < x / 2 ^ (e - 23)) (hhi : x / 2 ^ (e - 23) < (n : ℚ) + 1 / 2)
    (hr : r = (n : ℚ) * 2 ^ (e - 23)) (hfin : |r| < 2 ^ 128) :
    Float32.Round x = some r := by
  have hx : 0 < x := lt_of_lt_of_le (zpow_pos (by norm_num) e) h1
  have habs : |x| = x := abs_of_pos hx
  have hlog : Int.log 2 |x| = e := by
    rw [habs]
    apply le_antisymm
    · have := (Int.lt_zpow_iff_log_lt (b := 2) (by norm_num) hx).mp (by exact_mod_cast h2)
      omega
    · exact (Int.zpow_le_iff_le_log (b := 2) (by norm_num) hx).mp (by exact_mod_cast h1)
  unfold Float32.Round
  simp only [hlog, max_eq_left he, Float32.Round_Nearest_Even_eq _ n hlo hhi, ← hr, hfin,
    if_true]

theorem Float32.Round_one_tenth_plus_one :
    Float32.Round (1 / 10 + 1) = some (9227469 / 8388608) :=
  Float32.Round_value _ _ 0 9227469 (by norm_num) (by norm_num) (by norm_num) (by norm_num)
    (by norm_num) (by norm_num) (by norm_num [abs_of_pos])

theorem Float32.Round_two_tenths_plus_one :
    Float32.Round (2 / 10 + 1) = some (5033165 / 4194304) :=
  Float32.Round_value _ _ 0 10066330 (by norm_num) (by norm_num) (by norm_num) (by norm_num)
    (by norm_num) (by norm_num) (by norm_num [abs_of_pos])

theorem Float32.Round_float_tenth_plus_one :
    Float32.Round (13421773 / 134217728 + 1) = some (9227469 / 8388608) :=
  Float32.Round_value _ _ 0 9227469 (by norm_num) (by norm_num) (by norm_num) (by norm_num)
    (by norm_num) (by norm_num) (by norm_num [abs_of_pos])

theorem Float32.Round_float_two_tenths_plus_one :
    Float32.Round (13421773 / 67108864 + 1) = some (5033165 / 4194304) :=
  Float32.Round_value _ _ 0 10066330 (by norm_num) (by norm_num) (by norm_num) (by norm_num)
    (by norm_num) (by norm_num) (by norm_num [abs_of_pos])

theorem Float32.Round_first_factor :
    Float32.Round (9227469 / 8388608 * 1) = some (9227469 / 8388608) :=
  Float32.Round_value _ _ 0 9227469 (by norm_num) (by norm_num) (by norm_num) (by norm_num)
    (by norm_num) (by norm_num) (by norm_num [abs_of_pos])

theorem Float32.Round_product :
    Float32.Round (5033165 / 4194304 * (9227469 / 8388608)) = some (11072963 / 8388608) :=
  Float32.Round_value _ _ 0 11072963 (by norm_num) (by norm_num) (by norm_num) (by norm_num)
    (by norm_num) (by norm_num) (by norm_num [abs_of_pos])

theorem Float32.Round_half_plus_one : Float32.Round (1 / 2 + 1) = some (3 / 2) :=
  Float32.Round_value _ _ 0 12582912 (by norm_num) (by norm_num) (by norm_num) (by norm_num)
    (by norm_num) (by norm_num) (by norm_num [abs_of_pos])

theorem Float32.Round_quarter_plus_one : Float32.Round (1 / 4 + 1) = some (5 / 4) :=
  Float32.Round_value _ _ 0 10485760 (by norm_num) (by norm_num) (by norm_num) (by norm_num)
    (by norm_num) (by norm_num) (by norm_num [abs_of_pos])

theorem Float32.Round_three_halves : Float32.Round (3 / 2 * 1) = some (3 / 2) :=
  Float32.Round_value _ _ 0 12582912 (by norm_num) (by norm_num) (by norm_num) (by norm_num)
    (by norm_num) (by norm_num) (by norm_num [abs_of_pos])

theorem Float32.Round_fifteen_eighths : Float32.Round (5 / 4 * (3 / 2)) = some (15 / 8) :=
  Float32.Round_value _ _ 0 15728640 (by norm_num) (by norm_num) (by norm_num) (by norm_num)
    (by norm_num) (by norm_num) (by norm_num [abs_of_pos])

/-- The loop of the multiplier skips the entries that fail the flag test. -/
theorem Player.cost_fold_filter (test : BitFlags → BitFlags → BitFlags → Bool)
    (flags : BitFlags) (l : List KindOfPercentProductionChange) (c : Option ℚ) :
    l.foldl (fun cost k =>
        if test flags k.m_flags Player.KINDOFMASK_NONE then
          Float32.Mul (Float32.Add (some k.m_percent) (some 1)) cost
        else cost) c
      = (l.filter (fun k => test flags k.m_flags Player.KINDOFMASK_NONE)).foldl
          (fun cost k => Float32.Mul (Float32.Add (some k.m_percent) (some 1)) cost) c := by
  induction l generalizing c with
  | nil => rfl
  | cons k rest ih =>
    simp only [List.foldl_cons, List.filter_cons]
    rw [ih]
    split_ifs with hk
    · rfl
    · rfl

/-- The multiplier of the flag set 5 on the player with the changes 1/10 and
2/10, both of which pass the test. -/
theorem Player.cost_of_two_changes :
    playerTwoCostChanges.Get_Production_Cost_Change_Based_On_Kind_Of testAllSetNoneClear 5
      = some (11072963 / 8388608) := by
  have h1 : testAllSetNoneClear 5 1 Player.KINDOFMASK_NONE = true := by decide
  have h4 : testAllSetNoneClear 5 4 Player.KINDOFMASK_NONE = true := by decide
  simp only [Player.Get_Production_Cost_Change_Based_On_Kind_Of, playerTwoCostChanges_list,
    List.foldl_cons, List.foldl_nil, h1, h4, if_true, Float32.Add, Float32.Mul,
    Float32.Round_one_tenth_plus_one, Float32.Round_two_tenths_plus_one,
    Float32.Round_first_factor, Float32.Round_product]

/-- C10 (as stated, refuted): the code computes the multiplier in 32-bit float
and rounds after every addition and multiplication. For two matching entries
of percent 1/10 and 2/10, and likewise for the floats nearest to them,
13421773/134217728 and 13421773/67108864, the multiplier is the float
11072963/8388608 = 1.32000005..., which is neither 1.32 nor the exact product
of the two factors. -/
theorem C10_float_rounding_counterexample :
    playerTwoCostChanges.Get_Production_Cost_Change_Based_On_Kind_Of testAllSetNoneClear 5
      = some (11072963 / 8388608) ∧
    playerFloatCostChanges.Get_Production_Cost_Change_Based_On_Kind_Of testAllSetNoneClear 5
      = some (11072963 / 8388608) ∧
    (11072963 / 8388608 : ℚ) ≠ 132 / 100 ∧
    (11072963 / 8388608 : ℚ) ≠ (1 / 10 + 1) * (2 / 10 + 1) ∧
    (11072963 / 8388608 : ℚ) ≠ (13421773 / 134217728 + 1) * (13421773 / 67108864 + 1) := by
  have h1 : testAllSetNoneClear 5 1 Player.KINDOFMASK_NONE = true := by decide
  have h4 : testAllSetNoneClear 5 4 Player.KINDOFMASK_NONE = true := by decide
  have hl : playerFloatCostChanges.m_kindOfPercentProductionChangeList
      = [{ m_flags := 1, m_percent := 13421773 / 134217728, m_count := 1 },
         { m_flags := 4, m_percent := 13421773 / 67108864, m_count := 1 }] := rfl
  refine ⟨Player.cost_of_two_changes, ?_, by norm_num, by norm_num, by norm_num⟩
  simp only [Player.Get_Production_Cost_Change_Based_On_Kind_Of, hl, List.foldl_cons,
    List.foldl_nil, h1, h4, if_true, Float32.Add, Float32.Mul,
    Float32.Round_float_tenth_plus_one, Float32.Round_float_two_tenths_plus_one,
    Float32.Round_first_factor, Float32.Round_product]

/-- C10 (amended): the kind-of cost multiplier is the product of `percent + 1`
over the entries whose flag test against the queried flags succeeds, taken in
list order in 32-bit float arithmetic, every sum and every product rounded to
the nearest float; it is exactly 1 when no entry passes the test; and for two
passing entries of percent 1/10 and 2/10 it is the float 11072963/8388608. -/
theorem C10_cost_change_is_product (test : BitFlags → BitFlags → BitFlags → Bool)
    (p : Player) (flags : BitFlags) :
    p.Get_Production_Cost_Change_Based_On_Kind_Of test flags
      = (p.m_kindOfPercentProductionChangeList.filter
            (fun k => test flags k.m_flags Player.KINDOFMASK_NONE)).foldl
          (fun cost k => Float32.Mul (Float32.Add (some k.m_percent) (some 1)) cost)
          (some 1) ∧
    ((∀ k ∈ p.m_kindOfPercentProductionChangeList,
        test flags k.m_flags Player.KINDOFMASK_NONE = false) →
      p.Get_Production_Cost_Change_Based_On_Kind_Of test flags = some 1) ∧
    playerTwoCostChanges.Get_Production_Cost_Change_Based_On_Kind_Of testAllSetNoneClear 5
      = some (11072963 / 8388608) := by
  have hfold := Player.cost_fold_filter test flags p.m_kindOfPercentProductionChangeList
    (some 1)
  refine ⟨hfold, ?_, Player.cost_of_two_changes⟩
  intro h
  unfold Player.Get_Production_Cost_Change_Based_On_Kind_Of
  rw [hfold]
  have : p.m_kindOfPercentProductionChangeList.filter
      (fun k => test flags k.m_flags Player.KINDOFMASK_NONE) = [] := by
    rw [List.filter_eq_nil_iff]
    intro k hk
    simp [h k hk]
  rw [this]
  rfl

/-- C10 at concrete inputs: on the player with the changes 1/10 and 2/10 the
query for flag bit 1, which no entry passes, gives exactly 1; on the player
with the changes 1/2 and 1/4, both of which pass the test of the flag set 5
and whose factors and product are floats, the multiplier is the exact product
(1/4 + 1) * (1/2 + 1) = 15/8. -/
theorem C10_cost_change_is_product_witness :
    playerTwoCostChanges.Get_Production_Cost_Change_Based_On_Kind_Of testAllSetNoneClear 2
      = some 1 ∧
    playerHalfAndQuarter.Get_Production_Cost_Change_Based_On_Kind_Of testAllSetNoneClear 5
      = some (15 / 8) :=
  ⟨(C10_cost_change_is_product testAllSetNoneClear playerTwoCostChanges 2).2.1 (by
      rw [playerTwoCostChanges_list]
      intro k hk
      simp only [List.mem_cons, List.mem_singleton, List.not_mem_nil, or_false] at hk
      rcases hk with h | h <;> rw [h] <;> decide),
   (C10_cost_change_is_product testAllSetNoneClear playerHalfAndQuarter 5).1.trans (by
      have h1 : testAllSetNoneClear 5 1 Player.KINDOFMASK_NONE = true := by decide
      have h4 : testAllSetNoneClear 5 4 Player.KINDOFMASK_NONE = true := by decide
      have hl : playerHalfAndQuarter.m_kindOfPercentProductionChangeList
          = [{ m_flags := 1, m_percent := 1 / 2, m_count := 1 },
             { m_flags := 4, m_percent := 1 / 4, m_count := 1 }] := rfl
      simp only [hl, List.filter_cons, h1, h4, if_true, List.filter_nil, List.foldl_cons,
        List.foldl_nil, Float32.Add, Float32.Mul, Float32.Round_half_plus_one,
        Float32.Round_quarter_plus_one, Float32.Round_three_halves,
        Float32.Round_fifteen_eighths])⟩

/-! ### Stream primitives -/

@[simp] theorem Xfer.transfer_save {α : Type} (enc : α → XferItem) (dec : XferItem → Option α)
    (out : List XferItem) (v : α) :
    Xfer.transfer enc dec ⟨XferMode.XFER_SAVE, out⟩ v
      = Except.ok (⟨XferMode.XFER_SAVE, out ++ [enc v]⟩, v) := rfl

@[simp] theorem Xfer.transfer_load {α : Type} (enc : α → XferItem) (dec : XferItem → Option α)
    (item : XferItem) (rest : List XferItem) (v : α) :
    Xfer.transfer enc dec ⟨XferMode.XFER_LOAD, item :: rest⟩ v
      = match dec item with
        | some w => Except.ok (⟨XferMode.XFER_LOAD, rest⟩, w)
        | none => Except.error XferError.XFER_READ_ERROR := rfl

@[simp] theorem Except.bind_ok_eq {ε α β : Type} (a : α) (f : α → Except ε β) :
    (Except.ok a : Except ε α) >>= f = f a := rfl

@[simp] theorem Except.pure_eq_ok {ε α : Type} (a : α) :
    (pure a : Except ε α) = Except.ok a := rfl

theorem Relationship.relationship_ofInt_toInt (r : Relationship) : Relationship.ofInt r.toInt = some r := by
  cases r <;> rfl

theorem PlayerRelationMap.Player_Entries_round_trip (m : StdMap Int Relationship) :
    ∃ toks : List XferItem,
      (∀ out, PlayerRelationMap.Save_Entries m ⟨XferMode.XFER_SAVE, out⟩
        = Except.ok ⟨XferMode.XFER_SAVE, out ++ toks⟩) ∧
      (∀ rest base, PlayerRelationMap.Load_Entries m.length ⟨XferMode.XFER_LOAD, toks ++ rest⟩ base
        = Except.ok (⟨XferMode.XFER_LOAD, rest⟩,
            m.foldl (fun acc e => StdMap.insert acc e.1 e.2) base)) := by
  induction m with
  | nil => exact ⟨[], fun out => by simp [PlayerRelationMap.Save_Entries],
      fun rest base => by simp [PlayerRelationMap.Load_Entries]⟩
  | cons e m ih =>
    obtain ⟨toks, hs, hl⟩ := ih
    obtain ⟨id, r⟩ := e
    refine ⟨XferItem.int id :: XferItem.user [r.toInt] :: toks, ?_, ?_⟩
    · intro out
      simp [PlayerRelationMap.Save_Entries, Xfer.xferInt, Xfer.xferUser, hs]
    · intro rest base
      simp [PlayerRelationMap.Load_Entries, Xfer.xferInt, Xfer.xferUser, hl,
        Relationship.relationship_ofInt_toInt]

theorem PlayerRelationMap.Player_Relations_round_trip (m : StdMap Int Relationship)
    (hlen : m.length < 2 ^ 16) :
    ∃ toks : List XferItem,
      (∀ out, PlayerRelationMap.Xfer_Snapshot ⟨XferMode.XFER_SAVE, out⟩ m
        = Except.ok (⟨XferMode.XFER_SAVE, out ++ toks⟩, m)) ∧
      (∀ rest base, PlayerRelationMap.Xfer_Snapshot ⟨XferMode.XFER_LOAD, toks ++ rest⟩ base
        = Except.ok (⟨XferMode.XFER_LOAD, rest⟩,
            m.foldl (fun acc e => StdMap.insert acc e.1 e.2) base)) := by
  obtain ⟨toks, hs, hl⟩ := PlayerRelationMap.Player_Entries_round_trip m
  refine ⟨XferItem.version 1 :: XferItem.unsignedShort m.length :: toks, ?_, ?_⟩
  · intro out
    have hmod : m.length % 65536 = m.length := Nat.mod_eq_of_lt hlen
    simp [PlayerRelationMap.Xfer_Snapshot, Xfer.xferVersion, Xfer.xferUnsignedShort, hs,
      Xfer.Get_Mode, hmod]
  · intro rest base
    simp [PlayerRelationMap.Xfer_Snapshot, Xfer.xferVersion, Xfer.xferUnsignedShort, hl,
      Xfer.Get_Mode]

theorem TeamRelationMap.Team_Entries_round_trip (m : StdMap Nat Relationship) :
    ∃ toks : List XferItem,
      (∀ out, TeamRelationMap.Save_Entries m ⟨XferMode.XFER_SAVE, out⟩
        = Except.ok ⟨XferMode.XFER_SAVE, out ++ toks⟩) ∧
      (∀ rest base, TeamRelationMap.Load_Entries m.length ⟨XferMode.XFER_LOAD, toks ++ rest⟩ base
        = Except.ok (⟨XferMode.XFER_LOAD, rest⟩,
            m.foldl (fun acc e => StdMap.insert acc e.1 e.2) base)) := by
  induction m with
  | nil => exact ⟨[], fun out => by simp [TeamRelationMap.Save_Entries],
      fun rest base => by simp [TeamRelationMap.Load_Entries]⟩
  | cons e m ih =>
    obtain ⟨toks, hs, hl⟩ := ih
    obtain ⟨id, r⟩ := e
    refine ⟨XferItem.unsignedInt id :: XferItem.user [r.toInt] :: toks, ?_, ?_⟩
    · intro out
      simp [TeamRelationMap.Save_Entries, Xfer.xferUnsignedInt, Xfer.xferUser, hs]
    · intro rest base
      simp [TeamRelationMap.Load_Entries, Xfer.xferUnsignedInt, Xfer.xferUser, hl,
        Relationship.relationship_ofInt_toInt]

theorem TeamRelationMap.Team_Relations_round_trip (m : StdMap Nat Relationship)
    (hlen : m.length < 2 ^ 16) :
    ∃ toks : List XferItem,
      (∀ out, TeamRelationMap.Xfer_Snapshot ⟨XferMode.XFER_SAVE, out⟩ m
        = Except.ok (⟨XferMode.XFER_SAVE, out ++ toks⟩, m)) ∧
      (∀ rest base, TeamRelationMap.Xfer_Snapshot ⟨XferMode.XFER_LOAD, toks ++ rest⟩ base
        = Except.ok (⟨XferMode.XFER_LOAD, rest⟩,
            m.foldl (fun acc e => StdMap.insert acc e.1 e.2) base)) := by
  obtain ⟨toks, hs, hl⟩ := TeamRelationMap.Team_Entries_round_trip m
  refine ⟨XferItem.version 1 :: XferItem.unsignedShort m.length :: toks, ?_, ?_⟩
  · intro out
    have hmod : m.length % 65536 = m.length := Nat.mod_eq_of_lt hlen
    simp [TeamRelationMap.Xfer_Snapshot, Xfer.xferVersion, Xfer.xferUnsignedShort, hs,
      Xfer.Get_Mode, hmod]
  · intro rest base
    simp [TeamRelationMap.Xfer_Snapshot, Xfer.xferVersion, Xfer.xferUnsignedShort, hl,
      Xfer.Get_Mode]

/-! ### Round trip of the blocks of `Xfer_Snapshot` -/

theorem UpgradeStatusType.status_ofInt_toInt (s : UpgradeStatusType) :
    UpgradeStatusType.ofInt s.toInt = some s := by
  cases s <;> rfl

theorem Player.Upgrade_Frame_refl (p : Player) : p.Upgrade_Frame p :=
  ⟨p.m_upgradeList, p.m_effects, rfl⟩

theorem Player.Add_Upgrade_invalid_frame (env : Env) (p : Player) (t : UpgradeTemplate) :
    p.Upgrade_Frame (p.Add_Upgrade env t UpgradeStatusType.UPGRADE_STATUS_INVALID).1 := by
  cases hf : p.Find_Upgrade t <;>
    simp only [Player.Add_Upgrade, hf, reduceCtorEq, if_false] <;>
    split_ifs <;> exact ⟨_, _, rfl⟩

theorem Player.Upgrades_round_trip (env : Env) (nodes : List Upgrade)
    (hres : ∀ u ∈ nodes, (env.Find_Upgrade u.m_template.m_name).isSome = true) :
    ∃ toks : List XferItem,
      (∀ out, Player.Save_Upgrades nodes ⟨XferMode.XFER_SAVE, out⟩
        = Except.ok ⟨XferMode.XFER_SAVE, out ++ toks⟩) ∧
      (∀ rest (l : Player), ∃ r,
        Player.Load_Upgrades env nodes.length ⟨XferMode.XFER_LOAD, toks ++ rest⟩ l
          = Except.ok (⟨XferMode.XFER_LOAD, rest⟩, r) ∧ l.Upgrade_Frame r) := by
  induction nodes with
  | nil =>
    exact ⟨[], fun out => by simp [Player.Save_Upgrades],
      fun rest l => ⟨l, by simp [Player.Load_Upgrades], Player.Upgrade_Frame_refl l⟩⟩
  | cons u nodes ih =>
    obtain ⟨toks, hs, hl⟩ := ih (fun v hv => hres v (List.mem_cons_of_mem _ hv))
    refine ⟨XferItem.asciiString u.m_template.m_name
      :: XferItem.snapshot [u.m_status.toInt] :: toks, ?_, ?_⟩
    · intro out
      simp [Player.Save_Upgrades, Xfer.xferAsciiString, Upgrade.Xfer_Snapshot, Xfer.xferSnapshot,
        UpgradeTemplate.Get_Name, UpgradeStatusType.status_ofInt_toInt, hs]
    · intro rest l
      have hu := hres u (List.mem_cons_self _ _)
      obtain ⟨t, ht⟩ := Option.isSome_iff_exists.mp hu
      obtain ⟨nodes1, effects1, h1⟩ := Player.Add_Upgrade_invalid_frame env l t
      obtain ⟨r, hr, nodes2, effects2, h2⟩ := hl rest
        { (l.Add_Upgrade env t UpgradeStatusType.UPGRADE_STATUS_INVALID).1 with
          m_upgradeList := Player.Set_Status_Of
            (l.Add_Upgrade env t UpgradeStatusType.UPGRADE_STATUS_INVALID).1.m_upgradeList t
            u.m_status }
      refine ⟨r, ?_, nodes2, effects2, ?_⟩
      · simp [Player.Load_Upgrades, Xfer.xferAsciiString, Upgrade.Xfer_Snapshot,
          Xfer.xferSnapshot, ht, UpgradeStatusType.status_ofInt_toInt, hr]
      · rw [h2, h1]

theorem Player.Team_Prototypes_round_trip (env : Env) (protos : List TeamPrototype)
    (hres : ∀ pr ∈ protos, (env.Find_Team_Prototype_By_ID pr.m_id).isSome = true) :
    ∃ toks : List XferItem,
      (∀ out, Player.Save_Team_Prototypes protos ⟨XferMode.XFER_SAVE, out⟩
        = Except.ok ⟨XferMode.XFER_SAVE, out ++ toks⟩) ∧
      (∀ rest (l : Player), ∃ resolved,
        Player.Load_Team_Prototypes env protos.length ⟨XferMode.XFER_LOAD, toks ++ rest⟩ l
          = Except.ok (⟨XferMode.XFER_LOAD, rest⟩,
              { l with m_playerTeamPrototypes := l.m_playerTeamPrototypes ++ resolved })) := by
  induction protos with
  | nil =>
    exact ⟨[], fun out => by simp [Player.Save_Team_Prototypes],
      fun rest l => ⟨[], by simp [Player.Load_Team_Prototypes]⟩⟩
  | cons pr protos ih =>
    obtain ⟨toks, hs, hl⟩ := ih (fun v hv => hres v (List.mem_cons_of_mem _ hv))
    refine ⟨XferItem.user [(pr.m_id : Int)] :: toks, ?_, ?_⟩
    · intro out
      simp [Player.Save_Team_Prototypes, Xfer.xferUser, hs]
    · intro rest l
      obtain ⟨found, hfound⟩ := Option.isSome_iff_exists.mp (hres pr (List.mem_cons_self _ _))
      obtain ⟨resolved, hr⟩ := hl rest
        { l with m_playerTeamPrototypes := l.m_playerTeamPrototypes ++ [found] }
      refine ⟨found :: resolved, ?_⟩
      simp [Player.Load_Team_Prototypes, Xfer.xferUser, hfound, hr]

theorem Player.Build_List_round_trip (nodes : List Snapshot) :
    ∃ toks : List XferItem,
      (∀ out, Player.Save_Build_List nodes ⟨XferMode.XFER_SAVE, out⟩
        = Except.ok ⟨XferMode.XFER_SAVE, out ++ toks⟩) ∧
      (∀ rest (l : Player),
        Player.Load_Build_List nodes.length ⟨XferMode.XFER_LOAD, toks ++ rest⟩ l
          = Except.ok (⟨XferMode.XFER_LOAD, rest⟩,
              { l with m_buildListInfo := l.m_buildListInfo ++ nodes })) := by
  induction nodes with
  | nil =>
    exact ⟨[], fun out => by simp [Player.Save_Build_List],
      fun rest l => by simp [Player.Load_Build_List]⟩
  | cons node nodes ih =>
    obtain ⟨toks, hs, hl⟩ := ih
    refine ⟨XferItem.snapshot node :: toks, ?_, ?_⟩
    · intro out
      simp [Player.Save_Build_List, Xfer.xferSnapshot, hs]
    · intro rest l
      simp [Player.Load_Build_List, Xfer.xferSnapshot, hl]

theorem Player.Kind_Of_Changes_round_trip (entries : List KindOfPercentProductionChange) :
    ∃ toks : List XferItem,
      (∀ out, Player.Save_Kind_Of_Changes entries ⟨XferMode.XFER_SAVE, out⟩
        = Except.ok ⟨XferMode.XFER_SAVE, out ++ toks⟩) ∧
      (∀ rest (l : Player),
        Player.Load_Kind_Of_Changes entries.length ⟨XferMode.XFER_LOAD, toks ++ rest⟩ l
          = Except.ok (⟨XferMode.XFER_LOAD, rest⟩,
              { l with m_kindOfPercentProductionChangeList :=
                         l.m_kindOfPercentProductionChangeList ++ entries })) := by
  induction entries with
  | nil =>
    exact ⟨[], fun out => by simp [Player.Save_Kind_Of_Changes],
      fun rest l => by simp [Player.Load_Kind_Of_Changes]⟩
  | cons k entries ih =>
    obtain ⟨toks, hs, hl⟩ := ih
    refine ⟨XferItem.kindOf k.m_flags :: XferItem.real k.m_percent
      :: XferItem.unsignedInt k.m_count :: toks, ?_, ?_⟩
    · intro out
      simp [Player.Save_Kind_Of_Changes, Xfer.xferKindOf, Xfer.xferReal, Xfer.xferUnsignedInt, hs]
    · intro rest l
      simp [Player.Load_Kind_Of_Changes, Xfer.xferKindOf, Xfer.xferReal, Xfer.xferUnsignedInt, hl]

theorem Player.Timers_round_trip (timers : List SpecialPowerReadyTimerType) :
    ∃ toks : List XferItem,
      (∀ out, Player.Save_Timers timers ⟨XferMode.XFER_SAVE, out⟩
        = Except.ok ⟨XferMode.XFER_SAVE, out ++ toks⟩) ∧
      (∀ rest (l : Player),
        Player.Load_Timers timers.length ⟨XferMode.XFER_LOAD, toks ++ rest⟩ l
          = Except.ok (⟨XferMode.XFER_LOAD, rest⟩,
              { l with m_specialPowerReadyTimerList :=
                         l.m_specialPowerReadyTimerList ++ timers })) := by
  induction timers with
  | nil =>
    exact ⟨[], fun out => by simp [Player.Save_Timers],
      fun rest l => by simp [Player.Load_Timers]⟩
  | cons timer timers ih =>
    obtain ⟨toks, hs, hl⟩ := ih
    refine ⟨XferItem.unsignedInt timer.m_id :: XferItem.unsignedInt timer.m_frame :: toks, ?_, ?_⟩
    · intro out
      simp [Player.Save_Timers, Xfer.xferUnsignedInt, hs]
    · intro rest l
      simp [Player.Load_Timers, Xfer.xferUnsignedInt, hl]

theorem Player.Squad_Slots_round_trip (slots : List (Option Snapshot))
    (hsome : ∀ x ∈ slots, x.isSome = true) :
    ∃ toks : List XferItem,
      (∀ out, Player.Xfer_Squad_Slots slots ⟨XferMode.XFER_SAVE, out⟩
        = Except.ok (⟨XferMode.XFER_SAVE, out ++ toks⟩, slots)) ∧
      (∀ rest (slots2 : List (Option Snapshot)), slots2.length = slots.length →
        (∀ x ∈ slots2, x.isSome = true) →
        Player.Xfer_Squad_Slots slots2 ⟨XferMode.XFER_LOAD, toks ++ rest⟩
          = Except.ok (⟨XferMode.XFER_LOAD, rest⟩, slots)) := by
  induction slots with
  | nil =>
    refine ⟨[], fun out => by simp [Player.Xfer_Squad_Slots], ?_⟩
    intro rest slots2 hlen _
    have : slots2 = [] := List.length_eq_zero.mp hlen
    subst this
    simp [Player.Xfer_Squad_Slots]
  | cons slot slots ih =>
    obtain ⟨toks, hs, hl⟩ := ih (fun v hv => hsome v (List.mem_cons_of_mem _ hv))
    obtain ⟨squad, hsquad⟩ := Option.isSome_iff_exists.mp (hsome slot (List.mem_cons_self _ _))
    subst hsquad
    refine ⟨XferItem.snapshot squad :: toks, ?_, ?_⟩
    · intro out
      simp [Player.Xfer_Squad_Slots, Xfer.xferSnapshot, hs]
    · intro rest slots2 hlen hsome2
      cases slots2 with
      | nil => simp at hlen
      | cons slot2 slots2 =>
        obtain ⟨squad2, hsquad2⟩ :=
          Option.isSome_iff_exists.mp (hsome2 slot2 (List.mem_cons_self _ _))
        subst hsquad2
        have hlen2 : slots2.length = slots.length := by simpa using hlen
        simp [Player.Xfer_Squad_Slots, Xfer.xferSnapshot,
          hl rest slots2 hlen2 (fun v hv => hsome2 v (List.mem_cons_of_mem _ hv))]

theorem Player.Xfer_Radar_And_Masks_round_trip (s : Player) :
    ∃ toks : List XferItem,
      (∀ out, Player.Xfer_Radar_And_Masks ⟨XferMode.XFER_SAVE, out⟩ s
        = Except.ok (⟨XferMode.XFER_SAVE, out ++ toks⟩, s)) ∧
      (∀ rest (l : Player),
        Player.Xfer_Radar_And_Masks ⟨XferMode.XFER_LOAD, toks ++ rest⟩ l
          = Except.ok (⟨XferMode.XFER_LOAD, rest⟩,
              { l with
                m_radarCount := s.m_radarCount, m_playerIsDead := s.m_playerIsDead,
                m_disableProofRadarCount := s.m_disableProofRadarCount,
                m_radarDisabled := s.m_radarDisabled,
                m_upgradesInProgress := s.m_upgradesInProgress,
                m_upgradesCompleted := s.m_upgradesCompleted,
                m_energy := s.m_energy })) := by
  refine ⟨[XferItem.int s.m_radarCount, XferItem.bool s.m_playerIsDead,
    XferItem.int s.m_disableProofRadarCount, XferItem.bool s.m_radarDisabled,
    XferItem.upgradeMask s.m_upgradesInProgress, XferItem.upgradeMask s.m_upgradesCompleted,
    XferItem.snapshot s.m_energy], ?_, ?_⟩
  · intro out
    simp [Player.Xfer_Radar_And_Masks, Xfer.xferInt, Xfer.xferBool, Xfer.xferUpgradeMask,
      Xfer.xferSnapshot]
  · intro rest l
    simp [Player.Xfer_Radar_And_Masks, Xfer.xferInt, Xfer.xferBool, Xfer.xferUpgradeMask,
      Xfer.xferSnapshot]

theorem Player.Xfer_Upgrades_round_trip (env : Env) (s : Player)
    (hlen : s.m_upgradeList.length < 2 ^ 16)
    (hres : ∀ u ∈ s.m_upgradeList, (env.Find_Upgrade u.m_template.m_name).isSome = true) :
    ∃ toks : List XferItem,
      (∀ out, Player.Xfer_Upgrades env 8 ⟨XferMode.XFER_SAVE, out⟩ s
        = Except.ok (⟨XferMode.XFER_SAVE, out ++ toks⟩, s)) ∧
      (∀ rest (l : Player), ∃ nodes effects,
        Player.Xfer_Upgrades env 8 ⟨XferMode.XFER_LOAD, toks ++ rest⟩ l
          = Except.ok (⟨XferMode.XFER_LOAD, rest⟩,
              { l with
                m_money := { l.m_money with m_money := s.m_money.m_money },
                m_playerIsPreorder := s.m_playerIsPreorder,
                m_disabledSciences := s.m_disabledSciences,
                m_hiddenSciences := s.m_hiddenSciences,
                m_upgradeList := nodes, m_effects := effects })) := by
  obtain ⟨toks, hs, hl⟩ := Player.Upgrades_round_trip env s.m_upgradeList hres
  have hmod : s.m_upgradeList.length % 65536 = s.m_upgradeList.length := Nat.mod_eq_of_lt hlen
  refine ⟨XferItem.snapshot [(s.m_money.m_money : Int)]
    :: XferItem.unsignedShort s.m_upgradeList.length
    :: XferItem.bool s.m_playerIsPreorder
    :: XferItem.scienceVec s.m_disabledSciences
    :: XferItem.scienceVec s.m_hiddenSciences :: toks, ?_, ?_⟩
  · intro out
    simp [Player.Xfer_Upgrades, Money.Xfer_Snapshot, Xfer.xferSnapshot, Xfer.xferUnsignedShort,
      Xfer.xferBool, Xfer.xferScienceVec, Xfer.Get_Mode, hs, hmod]
  · intro rest l
    obtain ⟨r, hr, nodes, effects, hframe⟩ := hl rest
      { l with
        m_money := { l.m_money with m_money := s.m_money.m_money },
        m_playerIsPreorder := s.m_playerIsPreorder,
        m_disabledSciences := s.m_disabledSciences,
        m_hiddenSciences := s.m_hiddenSciences }
    refine ⟨nodes, effects, ?_⟩
    simp [Player.Xfer_Upgrades, Money.Xfer_Snapshot, Xfer.xferSnapshot, Xfer.xferUnsignedShort,
      Xfer.xferBool, Xfer.xferScienceVec, Xfer.Get_Mode, hr, hframe]

theorem Player.Xfer_Team_Prototypes_round_trip (env : Env) (s : Player)
    (hlen : s.m_playerTeamPrototypes.length < 2 ^ 16)
    (hres : ∀ pr ∈ s.m_playerTeamPrototypes,
      (env.Find_Team_Prototype_By_ID pr.m_id).isSome = true) :
    ∃ toks : List XferItem,
      (∀ out, Player.Xfer_Team_Prototypes env ⟨XferMode.XFER_SAVE, out⟩ s
        = Except.ok (⟨XferMode.XFER_SAVE, out ++ toks⟩, s)) ∧
      (∀ rest (l : Player), ∃ resolved,
        Player.Xfer_Team_Prototypes env ⟨XferMode.XFER_LOAD, toks ++ rest⟩ l
          = Except.ok (⟨XferMode.XFER_LOAD, rest⟩,
              { l with m_playerTeamPrototypes := resolved })) := by
  obtain ⟨toks, hs, hl⟩ := Player.Team_Prototypes_round_trip env s.m_playerTeamPrototypes hres
  have hmod : s.m_playerTeamPrototypes.length % 65536 = s.m_playerTeamPrototypes.length :=
    Nat.mod_eq_of_lt hlen
  refine ⟨XferItem.unsignedShort s.m_playerTeamPrototypes.length :: toks, ?_, ?_⟩
  · intro out
    simp [Player.Xfer_Team_Prototypes, Xfer.xferUnsignedShort, Xfer.Get_Mode, hs, hmod]
  · intro rest l
    obtain ⟨resolved, hr⟩ := hl rest { l with m_playerTeamPrototypes := [] }
    refine ⟨resolved, ?_⟩
    simp [Player.Xfer_Team_Prototypes, Xfer.xferUnsignedShort, Xfer.Get_Mode, hr]

theorem Player.Xfer_Build_List_round_trip (s : Player)
    (hlen : s.m_buildListInfo.length < 2 ^ 16) :
    ∃ toks : List XferItem,
      (∀ out, Player.Xfer_Build_List ⟨XferMode.XFER_SAVE, out⟩ s
        = Except.ok (⟨XferMode.XFER_SAVE, out ++ toks⟩, s)) ∧
      (∀ rest (l : Player),
        Player.Xfer_Build_List ⟨XferMode.XFER_LOAD, toks ++ rest⟩ l
          = Except.ok (⟨XferMode.XFER_LOAD, rest⟩,
              { l with m_buildListInfo := s.m_buildListInfo })) := by
  obtain ⟨toks, hs, hl⟩ := Player.Build_List_round_trip s.m_buildListInfo
  have hmod : s.m_buildListInfo.length % 65536 = s.m_buildListInfo.length :=
    Nat.mod_eq_of_lt hlen
  refine ⟨XferItem.unsignedShort s.m_buildListInfo.length :: toks, ?_, ?_⟩
  · intro out
    simp [Player.Xfer_Build_List, Xfer.xferUnsignedShort, Xfer.Get_Mode, hs, hmod]
  · intro rest l
    simp [Player.Xfer_Build_List, Xfer.xferUnsignedShort, Xfer.Get_Mode, hl]

theorem Player.Xfer_Owned_System_round_trip (system : Option Snapshot) :
    ∃ toks : List XferItem,
      (∀ out, Player.Xfer_Owned_System ⟨XferMode.XFER_SAVE, out⟩ system
        = Except.ok (⟨XferMode.XFER_SAVE, out ++ toks⟩, system)) ∧
      (∀ rest (target : Option Snapshot), target.isSome = system.isSome →
        Player.Xfer_Owned_System ⟨XferMode.XFER_LOAD, toks ++ rest⟩ target
          = Except.ok (⟨XferMode.XFER_LOAD, rest⟩, system)) := by
  cases system with
  | none =>
    refine ⟨[XferItem.bool false], ?_, ?_⟩
    · intro out
      simp [Player.Xfer_Owned_System, Xfer.xferBool, Xfer.relassert]
    · intro rest target htarget
      cases target with
      | none => simp [Player.Xfer_Owned_System, Xfer.xferBool, Xfer.relassert]
      | some content => simp at htarget
  | some content =>
    refine ⟨[XferItem.bool true, XferItem.snapshot content], ?_, ?_⟩
    · intro out
      simp [Player.Xfer_Owned_System, Xfer.xferBool, Xfer.relassert, Xfer.xferSnapshot]
    · intro rest target htarget
      cases target with
      | none => simp at htarget
      | some content2 =>
        simp [Player.Xfer_Owned_System, Xfer.xferBool, Xfer.relassert, Xfer.xferSnapshot]

theorem Player.Xfer_Owned_Systems_round_trip (s : Player) :
    ∃ toks : List XferItem,
      (∀ out, Player.Xfer_Owned_Systems ⟨XferMode.XFER_SAVE, out⟩ s
        = Except.ok (⟨XferMode.XFER_SAVE, out ++ toks⟩, s)) ∧
      (∀ rest (l : Player), l.m_ai.isSome = s.m_ai.isSome →
        l.m_resourceGatheringManager.isSome = s.m_resourceGatheringManager.isSome →
        l.m_tunnelSystem.isSome = s.m_tunnelSystem.isSome →
        Player.Xfer_Owned_Systems ⟨XferMode.XFER_LOAD, toks ++ rest⟩ l
          = Except.ok (⟨XferMode.XFER_LOAD, rest⟩,
              { l with m_ai := s.m_ai,
                       m_resourceGatheringManager := s.m_resourceGatheringManager,
                       m_tunnelSystem := s.m_tunnelSystem })) := by
  obtain ⟨t1, hs1, hl1⟩ := Player.Xfer_Owned_System_round_trip s.m_ai
  obtain ⟨t2, hs2, hl2⟩ := Player.Xfer_Owned_System_round_trip s.m_resourceGatheringManager
  obtain ⟨t3, hs3, hl3⟩ := Player.Xfer_Owned_System_round_trip s.m_tunnelSystem
  refine ⟨t1 ++ (t2 ++ t3), ?_, ?_⟩
  · intro out
    simp [Player.Xfer_Owned_Systems, hs1, hs2, hs3]
  · intro rest l h1 h2 h3
    simp [Player.Xfer_Owned_Systems, hl1 _ _ h1, hl2 _ _ h2, hl3 _ _ h3]

theorem Player.Xfer_Default_Team_round_trip (env : Env) (s : Player) :
    ∃ toks : List XferItem,
      (∀ out, Player.Xfer_Default_Team env ⟨XferMode.XFER_SAVE, out⟩ s
        = Except.ok (⟨XferMode.XFER_SAVE, out ++ toks⟩, s)) ∧
      (∀ rest (l : Player), ∃ team,
        Player.Xfer_Default_Team env ⟨XferMode.XFER_LOAD, toks ++ rest⟩ l
          = Except.ok (⟨XferMode.XFER_LOAD, rest⟩, { l with m_defaultTeam := team })) := by
  refine ⟨[XferItem.user [match s.m_defaultTeam with
    | some team => (team.Get_Team_ID : Int)
    | none => 0]], ?_, ?_⟩
  · intro out
    simp [Player.Xfer_Default_Team, Xfer.xferUser, Xfer.Get_Mode]
  · intro rest l
    refine ⟨env.Find_Team_By_ID (match s.m_defaultTeam with
      | some team => (team.Get_Team_ID : Int)
      | none => 0), ?_⟩
    simp [Player.Xfer_Default_Team, Xfer.xferUser, Xfer.Get_Mode]

theorem Player.Xfer_Sciences_round_trip (s : Player) :
    ∃ toks : List XferItem,
      (∀ out, Player.Xfer_Sciences 8 ⟨XferMode.XFER_SAVE, out⟩ s
        = Except.ok (⟨XferMode.XFER_SAVE, out ++ toks⟩, s)) ∧
      (∀ rest (l : Player),
        Player.Xfer_Sciences 8 ⟨XferMode.XFER_LOAD, toks ++ rest⟩ l
          = Except.ok (⟨XferMode.XFER_LOAD, rest⟩, { l with m_sciences := s.m_sciences })) := by
  refine ⟨[XferItem.scienceVec s.m_sciences], ?_, ?_⟩
  · intro out
    simp [Player.Xfer_Sciences, Xfer.xferScienceVec, Xfer.Get_Mode]
  · intro rest l
    simp [Player.Xfer_Sciences, Xfer.xferScienceVec, Xfer.Get_Mode]

theorem Player.attacked_flags_round_trip (flags : List Bool) :
    List.map ((fun v : Int => !decide (v = 0)) ∘ fun b : Bool => if b = true then (1 : Int) else 0)
      flags = flags := by
  induction flags with
  | nil => rfl
  | cons b rest ih => cases b <;> simp [ih]

theorem Player.Xfer_Rank_And_Relations_round_trip (s : Player)
    (hplayers : s.m_playerRelations.length < 2 ^ 16)
    (hteams : s.m_teamRelations.length < 2 ^ 16) :
    ∃ toks : List XferItem,
      (∀ out, Player.Xfer_Rank_And_Relations 8 ⟨XferMode.XFER_SAVE, out⟩ s
        = Except.ok (⟨XferMode.XFER_SAVE, out ++ toks⟩, s)) ∧
      (∀ rest (l : Player), l.m_attackedByPlayer.length = s.m_attackedByPlayer.length →
        Player.Xfer_Rank_And_Relations 8 ⟨XferMode.XFER_LOAD, toks ++ rest⟩ l
          = Except.ok (⟨XferMode.XFER_LOAD, rest⟩,
              { l with
                m_rankLevel := s.m_rankLevel, m_currentSkillPoints := s.m_currentSkillPoints,
                m_sciencePurchasePoints := s.m_sciencePurchasePoints,
                m_skillPointsNeededForNextRank := s.m_skillPointsNeededForNextRank,
                m_rankProgress := s.m_rankProgress,
                m_scienceGeneralName := s.m_scienceGeneralName,
                m_playerRelations :=
                  s.m_playerRelations.foldl (fun acc e => StdMap.insert acc e.1 e.2)
                    l.m_playerRelations,
                m_teamRelations :=
                  s.m_teamRelations.foldl (fun acc e => StdMap.insert acc e.1 e.2)
                    l.m_teamRelations,
                m_canBuildUnits := s.m_canBuildUnits, m_canBuildBase := s.m_canBuildBase,
                m_playerIsObserver := s.m_playerIsObserver,
                m_skillPointsModifier := s.m_skillPointsModifier,
                m_listInScoreScreen := s.m_listInScoreScreen,
                m_attackedByPlayer := s.m_attackedByPlayer,
                m_bountyCostToBuild := s.m_bountyCostToBuild,
                m_scoreKeeper := s.m_scoreKeeper })) := by
  obtain ⟨t1, hs1, hl1⟩ := PlayerRelationMap.Player_Relations_round_trip s.m_playerRelations hplayers
  obtain ⟨t2, hs2, hl2⟩ := TeamRelationMap.Team_Relations_round_trip s.m_teamRelations hteams
  refine ⟨[XferItem.int s.m_rankLevel, XferItem.int s.m_currentSkillPoints,
    XferItem.int s.m_sciencePurchasePoints, XferItem.int s.m_skillPointsNeededForNextRank,
    XferItem.int s.m_rankProgress, XferItem.unicodeString s.m_scienceGeneralName]
    ++ (t1 ++ (t2 ++ [XferItem.bool s.m_canBuildUnits, XferItem.bool s.m_canBuildBase,
      XferItem.bool s.m_playerIsObserver, XferItem.real s.m_skillPointsModifier,
      XferItem.bool s.m_listInScoreScreen,
      XferItem.user (s.m_attackedByPlayer.map (fun b => if b then (1 : Int) else 0)),
      XferItem.real s.m_bountyCostToBuild, XferItem.snapshot s.m_scoreKeeper])), ?_, ?_⟩
  · intro out
    simp [Player.Xfer_Rank_And_Relations, Xfer.xferInt, Xfer.xferUnicodeString, Xfer.xferBool,
      Xfer.xferReal, Xfer.xferUser, Xfer.xferSnapshot, hs1, hs2,
      Player.attacked_flags_round_trip]
  · intro rest l hatt
    simp [Player.Xfer_Rank_And_Relations, Xfer.xferInt, Xfer.xferUnicodeString, Xfer.xferBool,
      Xfer.xferReal, Xfer.xferUser, Xfer.xferSnapshot, hl1, hl2, hatt,
      Player.attacked_flags_round_trip]

theorem Player.Xfer_Kind_Of_Changes_round_trip (s : Player)
    (hlen : s.m_kindOfPercentProductionChangeList.length < 2 ^ 16) :
    ∃ toks : List XferItem,
      (∀ out, Player.Xfer_Kind_Of_Changes ⟨XferMode.XFER_SAVE, out⟩ s
        = Except.ok (⟨XferMode.XFER_SAVE, out ++ toks⟩, s)) ∧
      (∀ rest (l : Player), l.m_kindOfPercentProductionChangeList = [] →
        Player.Xfer_Kind_Of_Changes ⟨XferMode.XFER_LOAD, toks ++ rest⟩ l
          = Except.ok (⟨XferMode.XFER_LOAD, rest⟩,
              { l with m_kindOfPercentProductionChangeList :=
                         s.m_kindOfPercentProductionChangeList })) := by
  obtain ⟨toks, hs, hl⟩ :=
    Player.Kind_Of_Changes_round_trip s.m_kindOfPercentProductionChangeList
  have hmod : s.m_kindOfPercentProductionChangeList.length % 65536
      = s.m_kindOfPercentProductionChangeList.length := Nat.mod_eq_of_lt hlen
  refine ⟨XferItem.unsignedShort s.m_kindOfPercentProductionChangeList.length :: toks, ?_, ?_⟩
  · intro out
    simp [Player.Xfer_Kind_Of_Changes, Xfer.xferUnsignedShort, Xfer.Get_Mode, hs, hmod]
  · intro rest l hempty
    simp [Player.Xfer_Kind_Of_Changes, Xfer.xferUnsignedShort, Xfer.Get_Mode, hl, hempty,
      Xfer.relassert]

theorem Player.Xfer_Special_Power_Timers_round_trip (s : Player)
    (hlen : s.m_specialPowerReadyTimerList.length < 2 ^ 16) :
    ∃ toks : List XferItem,
      (∀ out, Player.Xfer_Special_Power_Timers 8 ⟨XferMode.XFER_SAVE, out⟩ s
        = Except.ok (⟨XferMode.XFER_SAVE, out ++ toks⟩, s)) ∧
      (∀ rest (l : Player), l.m_specialPowerReadyTimerList = [] →
        Player.Xfer_Special_Power_Timers 8 ⟨XferMode.XFER_LOAD, toks ++ rest⟩ l
          = Except.ok (⟨XferMode.XFER_LOAD, rest⟩,
              { l with m_specialPowerReadyTimerList := s.m_specialPowerReadyTimerList })) := by
  obtain ⟨toks, hs, hl⟩ := Player.Timers_round_trip s.m_specialPowerReadyTimerList
  have hmod : s.m_specialPowerReadyTimerList.length % 65536
      = s.m_specialPowerReadyTimerList.length := Nat.mod_eq_of_lt hlen
  refine ⟨XferItem.unsignedShort s.m_specialPowerReadyTimerList.length :: toks, ?_, ?_⟩
  · intro out
    simp [Player.Xfer_Special_Power_Timers, Xfer.xferUnsignedShort, Xfer.Get_Mode, hs, hmod]
  · intro rest l hempty
    simp [Player.Xfer_Special_Power_Timers, Xfer.xferUnsignedShort, Xfer.Get_Mode, hl, hempty,
      Xfer.relassert]

theorem Player.Xfer_Squads_round_trip (s : Player)
    (hsome : ∀ x ∈ s.m_squads, x.isSome = true) :
    ∃ toks : List XferItem,
      (∀ out, Player.Xfer_Squads ⟨XferMode.XFER_SAVE, out⟩ s
        = Except.ok (⟨XferMode.XFER_SAVE, out ++ toks⟩, s)) ∧
      (∀ rest (l : Player), l.m_squads.length = s.m_squads.length →
        (∀ x ∈ l.m_squads, x.isSome = true) →
        Player.Xfer_Squads ⟨XferMode.XFER_LOAD, toks ++ rest⟩ l
          = Except.ok (⟨XferMode.XFER_LOAD, rest⟩,
              { l with m_squads := s.m_squads,
                       m_aiSquad := if s.m_aiSquad.isSome then s.m_aiSquad
                                    else l.m_aiSquad })) := by
  obtain ⟨toks, hs, hl⟩ := Player.Squad_Slots_round_trip s.m_squads hsome
  cases hai : s.m_aiSquad with
  | none =>
    refine ⟨XferItem.unsignedShort SQUAD_COUNT :: (toks ++ [XferItem.bool false]), ?_, ?_⟩
    · intro out
      simp [Player.Xfer_Squads, Xfer.xferUnsignedShort, Xfer.xferBool, Xfer.relassert, hs, hai]
      rw [← hai]
    · intro rest l hlen hl2
      simp [Player.Xfer_Squads, Xfer.xferUnsignedShort, Xfer.xferBool, Xfer.relassert,
        hl _ _ hlen hl2]
  | some squad =>
    refine ⟨XferItem.unsignedShort SQUAD_COUNT
      :: (toks ++ [XferItem.bool true, XferItem.snapshot squad]), ?_, ?_⟩
    · intro out
      simp [Player.Xfer_Squads, Xfer.xferUnsignedShort, Xfer.xferBool, Xfer.relassert,
        Xfer.xferSnapshot, hs, hai]
      rw [← hai]
    · intro rest l hlen hl2
      simp [Player.Xfer_Squads, Xfer.xferUnsignedShort, Xfer.xferBool, Xfer.relassert,
        Xfer.xferSnapshot, hl _ _ hlen hl2]

theorem Player.Xfer_Battle_Plans_round_trip (s : Player) :
    ∃ toks : List XferItem,
      (∀ out, Player.Xfer_Battle_Plans 8 ⟨XferMode.XFER_SAVE, out⟩ s
        = Except.ok (⟨XferMode.XFER_SAVE, out ++ toks⟩, s)) ∧
      (∀ rest (l : Player),
        Player.Xfer_Battle_Plans 8 ⟨XferMode.XFER_LOAD, toks ++ rest⟩ l
          = Except.ok (⟨XferMode.XFER_LOAD, rest⟩,
              { l with m_battlePlanBonuses := s.m_battlePlanBonuses,
                       m_activeBattlePlans0 := s.m_activeBattlePlans0,
                       m_activeBattlePlans1 := s.m_activeBattlePlans1,
                       m_activeBattlePlans2 := s.m_activeBattlePlans2,
                       m_unitsShouldHunt := s.m_unitsShouldHunt })) := by
  cases hb : s.m_battlePlanBonuses with
  | none =>
    refine ⟨[XferItem.bool false, XferItem.int s.m_activeBattlePlans0,
      XferItem.int s.m_activeBattlePlans1, XferItem.int s.m_activeBattlePlans2,
      XferItem.bool s.m_unitsShouldHunt], ?_, ?_⟩
    · intro out
      simp [Player.Xfer_Battle_Plans, Xfer.xferBool, Xfer.xferInt, Xfer.Get_Mode, hb]
      rw [← hb]
    · intro rest l
      simp [Player.Xfer_Battle_Plans, Xfer.xferBool, Xfer.xferInt, Xfer.Get_Mode]
  | some b =>
    refine ⟨[XferItem.bool true, XferItem.real b.m_armorBonus, XferItem.real b.m_sightBonus,
      XferItem.int b.m_bombardment, XferItem.int b.m_holdTheLine,
      XferItem.int b.m_searchAndDestroy, XferItem.kindOf b.m_validKindOf,
      XferItem.kindOf b.m_invalidKindOf, XferItem.int s.m_activeBattlePlans0,
      XferItem.int s.m_activeBattlePlans1, XferItem.int s.m_activeBattlePlans2,
      XferItem.bool s.m_unitsShouldHunt], ?_, ?_⟩
    · intro out
      simp [Player.Xfer_Battle_Plans, Player.Xfer_Bonuses, Xfer.xferBool, Xfer.xferInt,
        Xfer.xferReal, Xfer.xferKindOf, Xfer.Get_Mode, hb]
      rw [← hb]
    · intro rest l
      simp [Player.Xfer_Battle_Plans, Player.Xfer_Bonuses, Xfer.xferBool, Xfer.xferInt,
        Xfer.xferReal, Xfer.xferKindOf, Xfer.Get_Mode]

/-! ### The freshly constructed player -/

theorem Player.Construct_fields (env : Env) (index : Int) :
    (Player.Construct env index).m_ai = none ∧
    (Player.Construct env index).m_resourceGatheringManager = none ∧
    (Player.Construct env index).m_tunnelSystem = none ∧
    (Player.Construct env index).m_kindOfPercentProductionChangeList = [] ∧
    (Player.Construct env index).m_specialPowerReadyTimerList = [] ∧
    (Player.Construct env index).m_squads = List.replicate SQUAD_COUNT (some []) ∧
    (Player.Construct env index).m_attackedByPlayer = List.replicate MAX_PLAYER_COUNT false ∧
    (Player.Construct env index).m_playerRelations = [(index, Relationship.ALLIES)] ∧
    (Player.Construct env index).m_teamRelations = [] ∧
    (Player.Construct env index).m_playerIndex = index := by
  unfold Player.Construct Player.Init
  generalize hq : Player.Init_Before_Rank env _ none = q
  obtain ⟨needed, points, name, sc, pr, ef, h⟩ := Player.Reset_Rank_frame env q
  rw [h, ← hq]
  simp [Player.Init_After_Rank, Player.Init_Before_Rank, Player.Init_Without_Template,
    Player.Set_Player_Relationship, Player.Delete_Upgrade_List, Player.Get_Player_Index,
    StdMap.insert]

/-! ### Loading a relationship table over another -/

theorem StdMap.find_insert {K V : Type} [DecidableEq K] [LT K]
    [DecidableRel (fun a b : K => a < b)] (m : StdMap K V) (k k2 : K) (v : V) :
    StdMap.find (StdMap.insert m k v) k2 = if k = k2 then some v else StdMap.find m k2 := by
  induction m with
  | nil => simp [StdMap.insert, StdMap.find]
  | cons e rest ih =>
    obtain ⟨k0, v0⟩ := e
    simp only [StdMap.insert]
    by_cases h1 : k = k0
    · subst h1
      simp only [if_true, StdMap.find]
      split_ifs <;> rfl
    · simp only [h1, if_false]
      by_cases h2 : k < k0
      · simp only [h2, if_true, StdMap.find]
      · simp only [h2, if_false, StdMap.find, ih]
        by_cases h3 : k0 = k2
        · subst h3
          simp [h1]
        · simp [h3]

theorem StdMap.find_eq_none_of_not_mem {K V : Type} [DecidableEq K] (m : StdMap K V) (k : K)
    (h : k ∉ m.map Prod.fst) : StdMap.find m k = none := by
  induction m with
  | nil => rfl
  | cons e rest ih =>
    obtain ⟨k0, v0⟩ := e
    simp only [List.map_cons, List.mem_cons, not_or] at h
    have hne : ¬ k0 = k := fun e => h.1 e.symm
    simp only [StdMap.find, hne, if_false]
    exact ih h.2

/-- Assigning the entries of a table with pairwise different keys into `base`
gives a table in which a key of `m` finds its value of `m` and any other key
what it found in `base`. -/
theorem StdMap.find_foldl_insert {K V : Type} [DecidableEq K] [LT K]
    [DecidableRel (fun a b : K => a < b)] (m base : StdMap K V) (k : K)
    (hn : (m.map Prod.fst).Nodup) :
    StdMap.find (m.foldl (fun acc e => StdMap.insert acc e.1 e.2) base) k
      = match StdMap.find m k with
        | some v => some v
        | none => StdMap.find base k := by
  induction m generalizing base with
  | nil => rfl
  | cons e rest ih =>
    obtain ⟨k0, v0⟩ := e
    simp only [List.map_cons, List.nodup_cons] at hn
    simp only [List.foldl_cons, ih _ hn.2, StdMap.find, StdMap.find_insert]
    by_cases h : k0 = k
    · subst h
      simp [StdMap.find_eq_none_of_not_mem rest k0 hn.1]
    · simp [h]

/-! ### Round trip of `Xfer_Snapshot` -/

/-- Saving a player and loading the stream into the freshly constructed player
of the same index succeeds, consumes the stream and copies the saved fields;
the relationship tables are the saved entries assigned over those of the
fresh player. -/
theorem Player.Xfer_Snapshot_round_trip (env : Env) (s : Player)
    (hwf : s.Well_Formed) (hc : s.Counts_Fit) (hr : s.References_Resolve env)
    (hn : s.No_Owned_Systems) :
    ∃ (toks : List XferItem) (loaded : Player),
      Player.Xfer_Snapshot env ⟨XferMode.XFER_SAVE, []⟩ s
        = Except.ok (⟨XferMode.XFER_SAVE, toks⟩, s) ∧
      Player.Xfer_Snapshot env ⟨XferMode.XFER_LOAD, toks⟩ (Player.Construct env s.m_playerIndex)
        = Except.ok (⟨XferMode.XFER_LOAD, []⟩, loaded) ∧
      loaded.m_sciences = s.m_sciences ∧
      loaded.m_upgradesInProgress = s.m_upgradesInProgress ∧
      loaded.m_upgradesCompleted = s.m_upgradesCompleted ∧
      loaded.m_rankLevel = s.m_rankLevel ∧
      loaded.m_currentSkillPoints = s.m_currentSkillPoints ∧
      loaded.m_sciencePurchasePoints = s.m_sciencePurchasePoints ∧
      loaded.m_skillPointsNeededForNextRank = s.m_skillPointsNeededForNextRank ∧
      loaded.m_rankProgress = s.m_rankProgress ∧
      loaded.m_playerRelations
        = s.m_playerRelations.foldl (fun acc e => StdMap.insert acc e.1 e.2)
            [(s.m_playerIndex, Relationship.ALLIES)] ∧
      loaded.m_teamRelations
        = s.m_teamRelations.foldl (fun acc e => StdMap.insert acc e.1 e.2) [] := by
  obtain ⟨hw1, hw2, hw3, hw4, hw5⟩ := hwf
  obtain ⟨hc1, hc2, hc3, hc4, hc5, hc6, hc7⟩ := hc
  obtain ⟨hr1, hr2⟩ := hr
  obtain ⟨hn1, hn2, hn3⟩ := hn
  obtain ⟨f1, f2, f3, f4, f5, f6, f7, f8, f9, f10⟩ := Player.Construct_fields env s.m_playerIndex
  generalize Player.Construct env s.m_playerIndex = l0 at *
  obtain ⟨t1, s1, l1⟩ := Player.Xfer_Upgrades_round_trip env s hc1 hr1
  obtain ⟨t2, s2, l2⟩ := Player.Xfer_Radar_And_Masks_round_trip s
  obtain ⟨t3, s3, l3⟩ := Player.Xfer_Team_Prototypes_round_trip env s hc2 hr2
  obtain ⟨t4, s4, l4⟩ := Player.Xfer_Build_List_round_trip s hc3
  obtain ⟨t5, s5, l5⟩ := Player.Xfer_Owned_Systems_round_trip s
  obtain ⟨t6, s6, l6⟩ := Player.Xfer_Default_Team_round_trip env s
  obtain ⟨t7, s7, l7⟩ := Player.Xfer_Sciences_round_trip s
  obtain ⟨t8, s8, l8⟩ := Player.Xfer_Rank_And_Relations_round_trip s hc4 hc5
  obtain ⟨t9, s9, l9⟩ := Player.Xfer_Kind_Of_Changes_round_trip s hc6
  obtain ⟨t10, s10, l10⟩ := Player.Xfer_Special_Power_Timers_round_trip s hc7
  obtain ⟨t11, s11, l11⟩ := Player.Xfer_Squads_round_trip s hw5
  obtain ⟨t12, s12, l12⟩ := Player.Xfer_Battle_Plans_round_trip s
  -- the states of the load after each block
  obtain ⟨nodes, effects, e1⟩ := l1
    (t2 ++ (t3 ++ (t4 ++ (t5 ++ (t6 ++ (t7 ++ (t8 ++ (t9 ++ (t10 ++ (t11 ++ (t12 ++ []))))))))))) l0
  generalize hp1 : ({ l0 with
      m_money := { l0.m_money with m_money := s.m_money.m_money },
      m_playerIsPreorder := s.m_playerIsPreorder,
      m_disabledSciences := s.m_disabledSciences,
      m_hiddenSciences := s.m_hiddenSciences,
      m_upgradeList := nodes, m_effects := effects } : Player) = p1 at e1
  have e2 := l2 (t3 ++ (t4 ++ (t5 ++ (t6 ++ (t7 ++ (t8 ++ (t9 ++ (t10 ++ (t11 ++ (t12 ++ [])))))))))) p1
  generalize hp2 : ({ p1 with
      m_radarCount := s.m_radarCount, m_playerIsDead := s.m_playerIsDead,
      m_disableProofRadarCount := s.m_disableProofRadarCount,
      m_radarDisabled := s.m_radarDisabled,
      m_upgradesInProgress := s.m_upgradesInProgress,
      m_upgradesCompleted := s.m_upgradesCompleted,
      m_energy := s.m_energy } : Player) = p2 at e2
  obtain ⟨resolved, e3⟩ := l3
    (t4 ++ (t5 ++ (t6 ++ (t7 ++ (t8 ++ (t9 ++ (t10 ++ (t11 ++ (t12 ++ []))))))))) p2
  generalize hp3 : ({ p2 with m_playerTeamPrototypes := resolved } : Player) = p3 at e3
  have e4 := l4 (t5 ++ (t6 ++ (t7 ++ (t8 ++ (t9 ++ (t10 ++ (t11 ++ (t12 ++ [])))))))) p3
  generalize hp4 : ({ p3 with m_buildListInfo := s.m_buildListInfo } : Player) = p4 at e4
  have e5 := l5 (t6 ++ (t7 ++ (t8 ++ (t9 ++ (t10 ++ (t11 ++ (t12 ++ []))))))) p4
    (by rw [← hp4, ← hp3, ← hp2, ← hp1]; simp [f1, hn1])
    (by rw [← hp4, ← hp3, ← hp2, ← hp1]; simp [f2, hn2])
    (by rw [← hp4, ← hp3, ← hp2, ← hp1]; simp [f3, hn3])
  generalize hp5 : ({ p4 with
      m_ai := s.m_ai,
      m_resourceGatheringManager := s.m_resourceGatheringManager,
      m_tunnelSystem := s.m_tunnelSystem } : Player) = p5 at e5
  obtain ⟨team, e6⟩ := l6 (t7 ++ (t8 ++ (t9 ++ (t10 ++ (t11 ++ (t12 ++ [])))))) p5
  generalize hp6 : ({ p5 with m_defaultTeam := team } : Player) = p6 at e6
  have e7 := l7 (t8 ++ (t9 ++ (t10 ++ (t11 ++ (t12 ++ []))))) p6
  generalize hp7 : ({ p6 with m_sciences := s.m_sciences } : Player) = p7 at e7
  have e8 := l8 (t9 ++ (t10 ++ (t11 ++ (t12 ++ [])))) p7
    (by rw [← hp7, ← hp6, ← hp5, ← hp4, ← hp3, ← hp2, ← hp1]; simp [f7, hw3])
  have hrel : p7.m_playerRelations = [(s.m_playerIndex, Relationship.ALLIES)] := by
    rw [← hp7, ← hp6, ← hp5, ← hp4, ← hp3, ← hp2, ← hp1]; exact f8
  have hteam : p7.m_teamRelations = [] := by
    rw [← hp7, ← hp6, ← hp5, ← hp4, ← hp3, ← hp2, ← hp1]; exact f9
  rw [hrel, hteam] at e8
  generalize hp8 : ({ p7 with
      m_rankLevel := s.m_rankLevel, m_currentSkillPoints := s.m_currentSkillPoints,
      m_sciencePurchasePoints := s.m_sciencePurchasePoints,
      m_skillPointsNeededForNextRank := s.m_skillPointsNeededForNextRank,
      m_rankProgress := s.m_rankProgress,
      m_scienceGeneralName := s.m_scienceGeneralName,
      m_playerRelations :=
        s.m_playerRelations.foldl (fun acc e => StdMap.insert acc e.1 e.2)
          [(s.m_playerIndex, Relationship.ALLIES)],
      m_teamRelations :=
        s.m_teamRelations.foldl (fun acc e => StdMap.insert acc e.1 e.2) [],
      m_canBuildUnits := s.m_canBuildUnits, m_canBuildBase := s.m_canBuildBase,
      m_playerIsObserver := s.m_playerIsObserver,
      m_skillPointsModifier := s.m_skillPointsModifier,
      m_listInScoreScreen := s.m_listInScoreScreen,
      m_attackedByPlayer := s.m_attackedByPlayer,
      m_bountyCostToBuild := s.m_bountyCostToBuild,
      m_scoreKeeper := s.m_scoreKeeper } : Player) = p8 at e8
  have e9 := l9 (t10 ++ (t11 ++ (t12 ++ []))) p8
    (by rw [← hp8, ← hp7, ← hp6, ← hp5, ← hp4, ← hp3, ← hp2, ← hp1]; exact f4)
  generalize hp9 : ({ p8 with
      m_kindOfPercentProductionChangeList := s.m_kindOfPercentProductionChangeList } : Player)
    = p9 at e9
  have e10 := l10 (t11 ++ (t12 ++ [])) p9
    (by rw [← hp9, ← hp8, ← hp7, ← hp6, ← hp5, ← hp4, ← hp3, ← hp2, ← hp1]; exact f5)
  generalize hp10 : ({ p9 with
      m_specialPowerReadyTimerList := s.m_specialPowerReadyTimerList } : Player) = p10 at e10
  have hsq : p10.m_squads = List.replicate SQUAD_COUNT (some []) := by
    rw [← hp10, ← hp9, ← hp8, ← hp7, ← hp6, ← hp5, ← hp4, ← hp3, ← hp2, ← hp1]; exact f6
  have e11 := l11 (t12 ++ []) p10 (by rw [hsq, hw4]; simp)
    (by rw [hsq]; intro x hx; rw [List.eq_of_mem_replicate hx]; rfl)
  generalize hp11 : ({ p10 with
      m_squads := s.m_squads,
      m_aiSquad := if s.m_aiSquad.isSome then s.m_aiSquad else p10.m_aiSquad } : Player)
    = p11 at e11
  have e12 := l12 [] p11
  generalize hp12 : ({ p11 with
      m_battlePlanBonuses := s.m_battlePlanBonuses,
      m_activeBattlePlans0 := s.m_activeBattlePlans0,
      m_activeBattlePlans1 := s.m_activeBattlePlans1,
      m_activeBattlePlans2 := s.m_activeBattlePlans2,
      m_unitsShouldHunt := s.m_unitsShouldHunt } : Player) = p12 at e12
  refine ⟨XferItem.version 8 :: (t1 ++ (t2 ++ (t3 ++ (t4 ++ (t5 ++ (t6 ++ (t7 ++ (t8 ++ (t9
    ++ (t10 ++ (t11 ++ (t12 ++ [])))))))))))), p12, ?_, ?_, ?_⟩
  · simp [Player.Xfer_Snapshot, Xfer.xferVersion, s1, s2, s3, s4, s5, s6, s7, s8, s9, s10,
      s11, s12]
  · simp only [Player.Xfer_Snapshot, Xfer.xferVersion, Xfer.transfer_load, Except.bind_ok_eq,
      show ¬ (8 > 8) from by decide, if_false, e1, e2, e3, e4, e5, e6, e7, e8, e9, e10, e11]
    exact e12
  · rw [← hp12, ← hp11, ← hp10, ← hp9, ← hp8, ← hp7, ← hp6, ← hp5, ← hp4, ← hp3, ← hp2]
    exact ⟨rfl, rfl, rfl, rfl, rfl, rfl, rfl, rfl, rfl, rfl⟩

/-- C4 (as stated, refuted): the fresh player with index 0 whose player table
was cleared by `Remove_Player_Relationship(nullptr)` is NEUTRAL towards a team
controlled by player 0; saved and loaded into a freshly constructed player 0,
whose table holds the self-alliance of `Init` that the load does not clear,
it is ALLIES, the load having succeeded and consumed the stream. Moreover the
load into a freshly constructed player aborts on a release assertion when the
saved player owns an AI player, and when the upgrade centre does not know the
name of a saved upgrade. -/
theorem C4_round_trip_counterexample :
    (Player.Get_Relationship playerNoRelations (some teamOneOfPlayerZero)
        = Relationship.NEUTRAL ∧
      (Player.Save_Then_Load envNone playerNoRelations
          (Player.Construct envNone playerNoRelations.m_playerIndex)).map
        (fun r => (r.1, r.2.Get_Relationship (some teamOneOfPlayerZero)))
        = Except.ok ([], Relationship.ALLIES)) ∧
    (Player.Save_Then_Load envNone playerWithAI
        (Player.Construct envNone playerWithAI.m_playerIndex)).map (fun r => r.1)
      = Except.error XferError.RELEASE_ASSERT ∧
    (Player.Save_Then_Load envNone playerUnknownUpgrade
        (Player.Construct envNone playerUnknownUpgrade.m_playerIndex)).map (fun r => r.1)
      = Except.error XferError.RELEASE_ASSERT := by
  refine ⟨⟨?_, ?_⟩, ?_, ?_⟩
  · decide
  · rfl
  · rfl
  · rfl

/-- C4 (amended): for a well-formed player state whose sequence counts fit the
16-bit count fields, whose upgrade names and prototype ids resolve, that owns
no AI player, resource gathering manager or tunnel system, and whose player
table has an entry for its own index, saving at version 8 and loading into the
freshly constructed player of the same index succeeds, consumes the whole
stream, and gives a player with the same `Get_Relationship`, `Has_Science` and
`Has_Upgrade_Complete` answers and the same five rank fields. -/
theorem C4_round_trip (env : Env) (s : Player)
    (hwf : s.Well_Formed) (hc : s.Counts_Fit) (hr : s.References_Resolve env)
    (hn : s.No_Owned_Systems) (hown : s.Has_Own_Relation) :
    ∃ loaded : Player,
      Player.Save_Then_Load env s (Player.Construct env s.m_playerIndex)
        = Except.ok ([], loaded) ∧
      (∀ that : Option Team, loaded.Get_Relationship that = s.Get_Relationship that) ∧
      (∀ t : ScienceType, loaded.Has_Science t = s.Has_Science t) ∧
      (∀ mask : BitFlags, loaded.Has_Upgrade_Complete mask = s.Has_Upgrade_Complete mask) ∧
      loaded.m_rankLevel = s.m_rankLevel ∧
      loaded.m_currentSkillPoints = s.m_currentSkillPoints ∧
      loaded.m_sciencePurchasePoints = s.m_sciencePurchasePoints ∧
      loaded.m_skillPointsNeededForNextRank = s.m_skillPointsNeededForNextRank ∧
      loaded.m_rankProgress = s.m_rankProgress := by
  obtain ⟨toks, loaded, hsave, hload, hsci, _, hcomp, h1, h2, h3, h4, h5, hprel, htrel⟩ :=
    Player.Xfer_Snapshot_round_trip env s hwf hc hr hn
  refine ⟨loaded, ?_, ?_, ?_, ?_, h1, h2, h3, h4, h5⟩
  · simp [Player.Save_Then_Load, hsave, hload]
  · intro that
    rw [Player.Get_Relationship_eq_reference, Player.Get_Relationship_eq_reference]
    cases that with
    | none => rfl
    | some team =>
      have hteam : ∀ k, StdMap.find loaded.m_teamRelations k = StdMap.find s.m_teamRelations k := by
        intro k
        rw [htrel, StdMap.find_foldl_insert _ _ _ hwf.2.1]
        cases StdMap.find s.m_teamRelations k <;> rfl
      have hplayer : ∀ k, StdMap.find loaded.m_playerRelations k
          = StdMap.find s.m_playerRelations k := by
        intro k
        rw [hprel, StdMap.find_foldl_insert _ _ _ hwf.1]
        cases hk : StdMap.find s.m_playerRelations k with
        | some v => rfl
        | none =>
          have hne : ¬ s.m_playerIndex = k := by
            intro e
            unfold Player.Has_Own_Relation at hown
            rw [e, hk] at hown
            simp at hown
          simp [StdMap.find, hne]
      simp only [Player.Get_Relationship_reference, hteam, hplayer]
  · intro t
    simp only [Player.Has_Science, hsci]
  · intro mask
    simp only [Player.Has_Upgrade_Complete, hcomp]

/-- C4 (amended) at a concrete input: a player with a science, two upgrades, a
team-level relationship and a changed rank, in an environment whose upgrade
centre knows both upgrades. -/
theorem C4_round_trip_witness :
    playerInGame.Well_Formed ∧ playerInGame.Counts_Fit ∧
    playerInGame.References_Resolve envWithUpgrades ∧ playerInGame.No_Owned_Systems ∧
    playerInGame.Has_Own_Relation ∧
    ∃ loaded : Player,
      Player.Save_Then_Load envWithUpgrades playerInGame
          (Player.Construct envWithUpgrades playerInGame.m_playerIndex)
        = Except.ok ([], loaded) ∧
      (∀ that : Option Team,
        loaded.Get_Relationship that = playerInGame.Get_Relationship that) ∧
      (∀ t : ScienceType, loaded.Has_Science t = playerInGame.Has_Science t) ∧
      (∀ mask : BitFlags,
        loaded.Has_Upgrade_Complete mask = playerInGame.Has_Upgrade_Complete mask) ∧
      loaded.m_rankLevel = playerInGame.m_rankLevel ∧
      loaded.m_currentSkillPoints = playerInGame.m_currentSkillPoints ∧
      loaded.m_sciencePurchasePoints = playerInGame.m_sciencePurchasePoints ∧
      loaded.m_skillPointsNeededForNextRank = playerInGame.m_skillPointsNeededForNextRank ∧
      loaded.m_rankProgress = playerInGame.m_rankProgress :=
  ⟨by unfold Player.Well_Formed; decide, by unfold Player.Counts_Fit; decide,
   by unfold Player.References_Resolve; decide, by unfold Player.No_Owned_Systems; decide,
   by unfold Player.Has_Own_Relation; decide,
   C4_round_trip envWithUpgrades playerInGame (by unfold Player.Well_Formed; decide)
     (by unfold Player.Counts_Fit; decide) (by unfold Player.References_Resolve; decide)
     (by unfold Player.No_Owned_Systems; decide) (by unfold Player.Has_Own_Relation; decide)⟩

/-! ### Removing and setting relationship entries -/

theorem StdMap.find_isSome_iff_mem {K V : Type} [DecidableEq K] (m : StdMap K V) (k : K) :
    (StdMap.find m k).isSome = true ↔ k ∈ m.map Prod.fst := by
  induction m with
  | nil => simp [StdMap.find]
  | cons e rest ih =>
    obtain ⟨k0, v0⟩ := e
    by_cases h : k0 = k
    · simp [StdMap.find, h]
    · have h2 : ¬ k = k0 := fun e => h e.symm
      simp [StdMap.find, h, h2, ih]

/-- With one entry per key, erasing the entry of `k` keeps exactly the entries
of the other keys, in their order. -/
theorem StdMap.erase_eq_filter {K V : Type} [DecidableEq K] (m : StdMap K V) (k : K)
    (hn : (m.map Prod.fst).Nodup) :
    StdMap.erase m k = m.filter (fun e => decide (e.1 ≠ k)) := by
  induction m with
  | nil => rfl
  | cons e rest ih =>
    obtain ⟨k0, v0⟩ := e
    simp only [List.map_cons, List.nodup_cons] at hn
    by_cases h : k0 = k
    · subst h
      simp only [StdMap.erase, if_true, ne_eq, not_true_eq_false, decide_False,
        Bool.false_eq_true, not_false_eq_true, List.filter_cons_of_neg]
      symm
      rw [List.filter_eq_self]
      intro a ha
      have : a.1 ≠ k0 := by
        intro e
        exact hn.1 (e ▸ List.mem_map_of_mem Prod.fst ha)
      simpa using this
    · simp [StdMap.erase, h, ih hn.2]

/-- Without an entry for `k`, the filter on the other keys keeps everything. -/
theorem StdMap.filter_ne_of_not_mem {K V : Type} [DecidableEq K] (m : StdMap K V) (k : K)
    (h : k ∉ m.map Prod.fst) :
    m.filter (fun e => decide (e.1 ≠ k)) = m := by
  rw [List.filter_eq_self]
  intro a ha
  have : a.1 ≠ k := by
    intro e
    exact h (e ▸ List.mem_map_of_mem Prod.fst ha)
  simpa using this

theorem StdMap.find_filter_ne {K V : Type} [DecidableEq K] (m : StdMap K V) (k k2 : K) :
    StdMap.find (m.filter (fun e => decide (e.1 ≠ k))) k2 =
      if k2 = k then none else StdMap.find m k2 := by
  induction m with
  | nil => simp [StdMap.find]
  | cons e rest ih =>
    obtain ⟨k0, v0⟩ := e
    by_cases h : k0 = k
    · subst h
      by_cases h2 : k2 = k0
      · subst h2
        simpa [StdMap.find] using ih
      · have h3 : ¬ k0 = k2 := fun e => h2 e.symm
        simpa [StdMap.find, h2, h3] using ih
    · by_cases h2 : k2 = k
      · subst h2
        simpa [StdMap.find, h] using ih
      · by_cases h3 : k0 = k2
        · simp [StdMap.find, h, h2, h3]
        · simpa [StdMap.find, h, h2, h3] using ih

/-- C13: with a null argument, `Remove_Player_Relationship` leaves the player
table empty and returns true exactly when the table was not empty before, and
`Remove_Team_Relationship` does the same on the team table; the other table,
and every other member, is unchanged. -/
theorem C13_remove_null_clears (p : Player) :
    ((p.Remove_Player_Relationship none).2.m_playerRelations = [] ∧
      ((p.Remove_Player_Relationship none).1 = true ↔ p.m_playerRelations ≠ []) ∧
      (p.Remove_Player_Relationship none).2.m_teamRelations = p.m_teamRelations ∧
      (p.Remove_Player_Relationship none).2 = { p with m_playerRelations := [] }) ∧
    ((p.Remove_Team_Relationship none).2.m_teamRelations = [] ∧
      ((p.Remove_Team_Relationship none).1 = true ↔ p.m_teamRelations ≠ []) ∧
      (p.Remove_Team_Relationship none).2.m_playerRelations = p.m_playerRelations ∧
      (p.Remove_Team_Relationship none).2 = { p with m_teamRelations := [] }) := by
  constructor
  · cases h : p.m_playerRelations with
    | nil =>
      have hp : p = { p with m_playerRelations := [] } := by rw [← h]
      simp [Player.Remove_Player_Relationship, h]
      exact hp
    | cons e rest => simp [Player.Remove_Player_Relationship, h]
  · cases h : p.m_teamRelations with
    | nil =>
      have hp : p = { p with m_teamRelations := [] } := by rw [← h]
      simp [Player.Remove_Team_Relationship, h]
      exact hp
    | cons e rest => simp [Player.Remove_Team_Relationship, h]
theorem Player.Remove_Team_Relationship_some (p : Player) (x : Team)
    (hn : (p.m_teamRelations.map Prod.fst).Nodup) :
    (p.Remove_Team_Relationship (some x)).1 = (StdMap.find p.m_teamRelations x.Get_Team_ID).isSome ∧
    (p.Remove_Team_Relationship (some x)).2 =
      { p with
        m_teamRelations := p.m_teamRelations.filter (fun e => decide (e.1 ≠ x.Get_Team_ID)) } ∧
    ((p.Remove_Team_Relationship (some x)).1 = false →
      (p.Remove_Team_Relationship (some x)).2 = p) := by
  cases hm : p.m_teamRelations with
  | nil =>
    have hp : p = { p with m_teamRelations := [] } := by rw [← hm]
    simp only [Player.Remove_Team_Relationship, hm, List.isEmpty_nil, if_true, StdMap.find,
      Option.isSome_none, List.filter_nil, implies_true, and_true, true_and]
    exact hp
  | cons e rest =>
    have hne : p.m_teamRelations.isEmpty = false := by rw [hm]; rfl
    cases hf : StdMap.find p.m_teamRelations x.Get_Team_ID with
    | none =>
      have hnot : x.Get_Team_ID ∉ p.m_teamRelations.map Prod.fst := by
        rw [← StdMap.find_isSome_iff_mem, hf]; simp
      have hfil := StdMap.filter_ne_of_not_mem p.m_teamRelations x.Get_Team_ID hnot
      have hp : p = { p with m_teamRelations := p.m_teamRelations } := rfl
      rw [← hm]
      simp only [Player.Remove_Team_Relationship, hne, hf, hfil, Bool.false_eq_true, if_false,
        Option.isSome_none, implies_true, and_true, true_and]
    | some r =>
      rw [← hm]
      simp only [Player.Remove_Team_Relationship, hne, hf, Bool.false_eq_true, if_false,
        Option.isSome_some, StdMap.erase_eq_filter _ _ hn, true_and, Bool.true_eq_false,
        false_implies, and_true]

theorem Player.Remove_Player_Relationship_some (p : Player) (q : Int)
    (hn : (p.m_playerRelations.map Prod.fst).Nodup) :
    (p.Remove_Player_Relationship (some q)).1 = (StdMap.find p.m_playerRelations q).isSome ∧
    (p.Remove_Player_Relationship (some q)).2 =
      { p with m_playerRelations := p.m_playerRelations.filter (fun e => decide (e.1 ≠ q)) } ∧
    ((p.Remove_Player_Relationship (some q)).1 = false →
      (p.Remove_Player_Relationship (some q)).2 = p) := by
  cases hm : p.m_playerRelations with
  | nil =>
    have hp : p = { p with m_playerRelations := [] } := by rw [← hm]
    simp only [Player.Remove_Player_Relationship, hm, List.isEmpty_nil, if_true, StdMap.find,
      Option.isSome_none, List.filter_nil, implies_true, and_true, true_and]
    exact hp
  | cons e rest =>
    have hne : p.m_playerRelations.isEmpty = false := by rw [hm]; rfl
    cases hf : StdMap.find p.m_playerRelations q with
    | none =>
      have hnot : q ∉ p.m_playerRelations.map Prod.fst := by
        rw [← StdMap.find_isSome_iff_mem, hf]; simp
      have hfil := StdMap.filter_ne_of_not_mem p.m_playerRelations q hnot
      rw [← hm]
      simp only [Player.Remove_Player_Relationship, hne, hf, hfil, Bool.false_eq_true, if_false,
        Option.isSome_none, implies_true, and_true, true_and]
    | some r =>
      rw [← hm]
      simp only [Player.Remove_Player_Relationship, hne, hf, Bool.false_eq_true, if_false,
        Option.isSome_some, StdMap.erase_eq_filter _ _ hn, true_and, Bool.true_eq_false,
        false_implies, and_true]

/-- C14: for a non-null team `x`, on a team table with one entry per key,
`Remove_Team_Relationship(x)` returns true exactly when the table had an entry
for the id of `x`; afterwards the table is the old table without the entry of
that id, so it has no entry for the id and every other key resolves as before;
when the result is false the player is unchanged. `Remove_Player_Relationship`
behaves the same on the player table with the index `q` of the other player.
Neither touches the other table. -/
theorem C14_remove_entry (p : Player) (x : Team) (q : Int)
    (ht : (p.m_teamRelations.map Prod.fst).Nodup)
    (hp : (p.m_playerRelations.map Prod.fst).Nodup) :
    (((p.Remove_Team_Relationship (some x)).1 = true ↔
        x.Get_Team_ID ∈ p.m_teamRelations.map Prod.fst) ∧
      (p.Remove_Team_Relationship (some x)).2.m_teamRelations =
        p.m_teamRelations.filter (fun e => decide (e.1 ≠ x.Get_Team_ID)) ∧
      x.Get_Team_ID ∉ (p.Remove_Team_Relationship (some x)).2.m_teamRelations.map Prod.fst ∧
      (∀ k, k ≠ x.Get_Team_ID →
        StdMap.find (p.Remove_Team_Relationship (some x)).2.m_teamRelations k =
          StdMap.find p.m_teamRelations k) ∧
      ((p.Remove_Team_Relationship (some x)).1 = false →
        (p.Remove_Team_Relationship (some x)).2 = p) ∧
      (p.Remove_Team_Relationship (some x)).2.m_playerRelations = p.m_playerRelations) ∧
    (((p.Remove_Player_Relationship (some q)).1 = true ↔
        q ∈ p.m_playerRelations.map Prod.fst) ∧
      (p.Remove_Player_Relationship (some q)).2.m_playerRelations =
        p.m_playerRelations.filter (fun e => decide (e.1 ≠ q)) ∧
      q ∉ (p.Remove_Player_Relationship (some q)).2.m_playerRelations.map Prod.fst ∧
      (∀ k, k ≠ q →
        StdMap.find (p.Remove_Player_Relationship (some q)).2.m_playerRelations k =
          StdMap.find p.m_playerRelations k) ∧
      ((p.Remove_Player_Relationship (some q)).1 = false →
        (p.Remove_Player_Relationship (some q)).2 = p) ∧
      (p.Remove_Player_Relationship (some q)).2.m_teamRelations = p.m_teamRelations) := by
  obtain ⟨t1, t2, t3⟩ := Player.Remove_Team_Relationship_some p x ht
  obtain ⟨q1, q2, q3⟩ := Player.Remove_Player_Relationship_some p q hp
  refine ⟨⟨?_, ?_, ?_, ?_, t3, ?_⟩, ⟨?_, ?_, ?_, ?_, q3, ?_⟩⟩
  · rw [t1]; exact StdMap.find_isSome_iff_mem _ _
  · rw [t2]
  · rw [t2]; simp
  · intro k hk
    rw [t2]
    simp only [StdMap.find_filter_ne, hk, if_false]
  · rw [t2]
  · rw [q1]; exact StdMap.find_isSome_iff_mem _ _
  · rw [q2]
  · rw [q2]; simp
  · intro k hk
    rw [q2]
    simp only [StdMap.find_filter_ne, hk, if_false]
  · rw [q2]

/-- C14 at a concrete input: removing team 7 and player 1 from a player with
two entries in each table. -/
theorem C14_remove_entry_witness :
    (playerTwoEntriesEach.m_teamRelations.map Prod.fst).Nodup ∧
    (playerTwoEntriesEach.m_playerRelations.map Prod.fst).Nodup ∧
    (Player.Remove_Team_Relationship playerTwoEntriesEach (some teamSevenOfPlayerOne)).2.m_teamRelations
      = [(5, Relationship.NEUTRAL)] ∧
    (Player.Remove_Player_Relationship playerTwoEntriesEach (some 1)).2.m_playerRelations
      = [(0, Relationship.ALLIES)] :=
  ⟨by decide, by decide,
   (C14_remove_entry playerTwoEntriesEach teamSevenOfPlayerOne 1 (by decide) (by decide)).1.2.1,
   (C14_remove_entry playerTwoEntriesEach teamSevenOfPlayerOne 1 (by decide) (by decide)).2.2.1⟩

/-- C15: `Set_Team_Relationship(T, r)` with a non-null team maps the id of `T`
to `r` in the team table, changes the entry of no other key and leaves the
player table alone, so `Get_Relationship(T)` is `r` afterwards;
`Set_Player_Relationship(Q, r)` maps the index of `Q` to `r` in the player
table, changes the entry of no other key and leaves the team table alone; with
a null argument the player is unchanged. -/
theorem C15_set_relationship (p : Player) (T : Team) (q : Int) (r : Relationship) :
    (StdMap.find (p.Set_Team_Relationship (some T) r).m_teamRelations T.Get_Team_ID = some r ∧
      (∀ k, k ≠ T.Get_Team_ID →
        StdMap.find (p.Set_Team_Relationship (some T) r).m_teamRelations k =
          StdMap.find p.m_teamRelations k) ∧
      (p.Set_Team_Relationship (some T) r).m_playerRelations = p.m_playerRelations ∧
      (p.Set_Team_Relationship (some T) r).Get_Relationship (some T) = r) ∧
    (StdMap.find (p.Set_Player_Relationship (some q) r).m_playerRelations q = some r ∧
      (∀ k, k ≠ q →
        StdMap.find (p.Set_Player_Relationship (some q) r).m_playerRelations k =
          StdMap.find p.m_playerRelations k) ∧
      (p.Set_Player_Relationship (some q) r).m_teamRelations = p.m_teamRelations) ∧
    p.Set_Team_Relationship none r = p ∧
    p.Set_Player_Relationship none r = p := by
  refine ⟨⟨?_, ?_, rfl, ?_⟩, ⟨?_, ?_, rfl⟩, rfl, rfl⟩
  · simp [Player.Set_Team_Relationship, StdMap.find_insert]
  · intro k hk
    have hk2 : ¬ T.Get_Team_ID = k := fun e => hk e.symm
    simp [Player.Set_Team_Relationship, StdMap.find_insert, hk2]
  · rw [Player.Get_Relationship_eq_reference]
    simp [Player.Set_Team_Relationship, Player.Get_Relationship_reference, StdMap.find_insert,
      Team.Get_Team_ID]
  · simp [Player.Set_Player_Relationship, StdMap.find_insert]
  · intro k hk
    have hk2 : ¬ q = k := fun e => hk e.symm
    simp [Player.Set_Player_Relationship, StdMap.find_insert, hk2]
/-! ### Accumulators after `Add_Upgrade` -/

theorem BitFlags.testBit_Set (bits mask : BitFlags) (i : Nat) :
    (BitFlags.Set bits mask).testBit i = (bits.testBit i || mask.testBit i) := by
  simp [BitFlags.Set, Nat.testBit_or]

theorem BitFlags.testBit_Clear (bits mask : BitFlags) (i : Nat) :
    (BitFlags.Clear bits mask).testBit i = (bits.testBit i && !mask.testBit i) := by
  simp only [BitFlags.Clear, Nat.testBit_xor, Nat.testBit_and]
  cases bits.testBit i <;> cases mask.testBit i <;> rfl

theorem BitFlags.Test_For_All_Set (bits mask : BitFlags) :
    BitFlags.Test_For_All (BitFlags.Set bits mask) mask = true := by
  simp only [BitFlags.Test_For_All, BitFlags.Set, decide_eq_true_eq]
  apply Nat.eq_of_testBit_eq
  intro i
  simp only [Nat.testBit_and, Nat.testBit_or]
  cases bits.testBit i <;> cases mask.testBit i <;> rfl

theorem BitFlags.Clear_land_mask (bits mask : BitFlags) :
    BitFlags.Clear bits mask &&& mask = 0 := by
  apply Nat.eq_of_testBit_eq
  intro i
  simp only [BitFlags.Clear, Nat.testBit_xor, Nat.testBit_and, Nat.zero_testBit]
  cases bits.testBit i <;> cases mask.testBit i <;> rfl

/-- C16: `Add_Upgrade(t, IN_PRODUCTION)` sets every bit of the mask of `t` in
the in-progress accumulator (the other bits stay), leaves the completed
accumulator unchanged and returns a record with status IN_PRODUCTION;
`Add_Upgrade(t, COMPLETE)` clears every bit of the mask from the in-progress
accumulator (the other bits stay), sets every bit of it in the completed
accumulator, so `Has_Upgrade_Complete(t)` holds afterwards, and returns a
record with status COMPLETE. -/
theorem C16_Add_Upgrade_accumulators (env : Env) (p : Player) (t : UpgradeTemplate) :
    ((∀ i, (p.Add_Upgrade env t
          UpgradeStatusType.UPGRADE_STATUS_IN_PRODUCTION).1.m_upgradesInProgress.testBit i
        = (p.m_upgradesInProgress.testBit i || t.Get_Upgrade_Mask.testBit i)) ∧
      (p.Add_Upgrade env t UpgradeStatusType.UPGRADE_STATUS_IN_PRODUCTION).1.Has_Upgrade_In_Production
          t = true ∧
      (p.Add_Upgrade env t UpgradeStatusType.UPGRADE_STATUS_IN_PRODUCTION).1.m_upgradesCompleted
        = p.m_upgradesCompleted ∧
      (p.Add_Upgrade env t UpgradeStatusType.UPGRADE_STATUS_IN_PRODUCTION).2.m_status
        = UpgradeStatusType.UPGRADE_STATUS_IN_PRODUCTION) ∧
    ((∀ i, (p.Add_Upgrade env t
          UpgradeStatusType.UPGRADE_STATUS_COMPLETE).1.m_upgradesInProgress.testBit i
        = (p.m_upgradesInProgress.testBit i && !t.Get_Upgrade_Mask.testBit i)) ∧
      (p.Add_Upgrade env t UpgradeStatusType.UPGRADE_STATUS_COMPLETE).1.m_upgradesInProgress
        &&& t.Get_Upgrade_Mask = 0 ∧
      (∀ i, (p.Add_Upgrade env t
          UpgradeStatusType.UPGRADE_STATUS_COMPLETE).1.m_upgradesCompleted.testBit i
        = (p.m_upgradesCompleted.testBit i || t.Get_Upgrade_Mask.testBit i)) ∧
      (p.Add_Upgrade env t UpgradeStatusType.UPGRADE_STATUS_COMPLETE).1.Has_Upgrade_Complete_Of
          t = true ∧
      (p.Add_Upgrade env t UpgradeStatusType.UPGRADE_STATUS_COMPLETE).2.m_status
        = UpgradeStatusType.UPGRADE_STATUS_COMPLETE) := by
  have hi1 := Player.Add_Upgrade_inProgress env p t UpgradeStatusType.UPGRADE_STATUS_IN_PRODUCTION
  have hc1 := Player.Add_Upgrade_completed env p t UpgradeStatusType.UPGRADE_STATUS_IN_PRODUCTION
  have hr1 := Player.Add_Upgrade_result env p t UpgradeStatusType.UPGRADE_STATUS_IN_PRODUCTION
  have hi2 := Player.Add_Upgrade_inProgress env p t UpgradeStatusType.UPGRADE_STATUS_COMPLETE
  have hc2 := Player.Add_Upgrade_completed env p t UpgradeStatusType.UPGRADE_STATUS_COMPLETE
  have hr2 := Player.Add_Upgrade_result env p t UpgradeStatusType.UPGRADE_STATUS_COMPLETE
  simp only [if_true, reduceCtorEq, if_false] at hi1 hc1 hi2 hc2
  refine ⟨⟨?_, ?_, hc1, ?_⟩, ⟨?_, ?_, ?_, ?_, ?_⟩⟩
  · intro i
    rw [hi1]
    exact BitFlags.testBit_Set _ _ i
  · simp only [Player.Has_Upgrade_In_Production, hi1, UpgradeTemplate.Get_Upgrade_Mask]
    exact BitFlags.Test_For_All_Set _ _
  · rw [hr1]
    cases p.Find_Upgrade t <;> rfl
  · intro i
    rw [hi2]
    exact BitFlags.testBit_Clear _ _ i
  · rw [hi2]
    exact BitFlags.Clear_land_mask _ _
  · intro i
    rw [hc2]
    exact BitFlags.testBit_Set _ _ i
  · simp only [Player.Has_Upgrade_Complete_Of, Player.Has_Upgrade_Complete, hc2,
      UpgradeTemplate.Get_Upgrade_Mask]
    exact BitFlags.Test_For_All_Set _ _
  · rw [hr2]
    cases p.Find_Upgrade t <;> rfl

/-! ### Removing a kind-of change that is not in the list -/

theorem Player.Remove_Kind_Of_Change_absent (flags : BitFlags) (percent : ℚ)
    (l : List KindOfPercentProductionChange)
    (h : ∀ k ∈ l, ¬ (k.m_percent = percent ∧ k.m_flags = flags)) :
    Player.Remove_Kind_Of_Change flags percent l = (false, l) := by
  induction l with
  | nil => rfl
  | cons k rest ih =>
    have hk := h k (List.mem_cons_self _ _)
    have hrest := ih (fun x hx => h x (List.mem_cons_of_mem _ hx))
    simp only [Player.Remove_Kind_Of_Change, hk, if_false, hrest]

/-- The entries of another (flags, percent) pair are left as they are, in
their order, whether or not the pair to remove is found. -/
theorem Player.Remove_Kind_Of_Change_others (flags : BitFlags) (percent : ℚ)
    (l : List KindOfPercentProductionChange) :
    (Player.Remove_Kind_Of_Change flags percent l).2.filter
        (fun k => !decide (k.m_percent = percent ∧ k.m_flags = flags))
      = l.filter (fun k => !decide (k.m_percent = percent ∧ k.m_flags = flags)) := by
  induction l with
  | nil => rfl
  | cons k rest ih =>
    by_cases hk : k.m_percent = percent ∧ k.m_flags = flags
    · simp only [Player.Remove_Kind_Of_Change, hk, and_self, if_true]
      split
      · simp [hk]
      · simp [hk]
    · simp only [Player.Remove_Kind_Of_Change, hk, if_false]
      simp only [List.filter_cons, ih]

/-- C18: when no entry of the list has the pair (flags, percent),
`Remove_Kind_Of_Production_Cost_Change(flags, percent)` only reports the
failed assertion and leaves the list as it was; and in every case the entries
of the other pairs are the same, in the same order, after the call. -/
theorem C18_remove_without_match (p : Player) (flags : BitFlags) (percent : ℚ) :
    ((∀ k ∈ p.m_kindOfPercentProductionChangeList,
        ¬ (k.m_percent = percent ∧ k.m_flags = flags)) →
      p.Remove_Kind_Of_Production_Cost_Change flags percent = p.Debug_Assert_Failed ∧
      (p.Remove_Kind_Of_Production_Cost_Change flags percent).m_kindOfPercentProductionChangeList
        = p.m_kindOfPercentProductionChangeList ∧
      (p.Remove_Kind_Of_Production_Cost_Change flags percent).m_effects.m_failedDebugAsserts
        = p.m_effects.m_failedDebugAsserts + 1) ∧
    (p.Remove_Kind_Of_Production_Cost_Change flags percent).m_kindOfPercentProductionChangeList.filter
        (fun k => !decide (k.m_percent = percent ∧ k.m_flags = flags))
      = p.m_kindOfPercentProductionChangeList.filter
        (fun k => !decide (k.m_percent = percent ∧ k.m_flags = flags)) := by
  constructor
  · intro h
    have ha := Player.Remove_Kind_Of_Change_absent flags percent _ h
    have he : p.Remove_Kind_Of_Production_Cost_Change flags percent = p.Debug_Assert_Failed := by
      simp only [Player.Remove_Kind_Of_Production_Cost_Change, ha, Bool.false_eq_true, if_false]
    rw [he]
    exact ⟨rfl, rfl, rfl⟩
  · have ho := Player.Remove_Kind_Of_Change_others flags percent
      p.m_kindOfPercentProductionChangeList
    unfold Player.Remove_Kind_Of_Production_Cost_Change
    cases hr : (Player.Remove_Kind_Of_Change flags percent
        p.m_kindOfPercentProductionChangeList).1 with
    | true => simpa [hr] using ho
    | false => simp [hr, Player.Debug_Assert_Failed]

/-- C18 at a concrete input: removing the pair (2, 1/10) from the list with the
pairs (1, 1/10) and (4, 2/10) leaves the two entries and counts one failed
assertion. -/
theorem C18_remove_without_match_witness :
    (Player.Remove_Kind_Of_Production_Cost_Change playerTwoCostChanges 2
        (1 / 10)).m_kindOfPercentProductionChangeList
      = playerTwoCostChanges.m_kindOfPercentProductionChangeList ∧
    (Player.Remove_Kind_Of_Production_Cost_Change playerTwoCostChanges 2
        (1 / 10)).m_effects.m_failedDebugAsserts = 1 := by
  have h := (C18_remove_without_match playerTwoCostChanges 2 (1 / 10)).1
    (by
      rw [playerTwoCostChanges_list]
      intro k hk
      simp only [List.mem_cons, List.mem_singleton, List.not_mem_nil, or_false] at hk
      rcases hk with rfl | rfl <;> simp)
  exact ⟨h.2.1, h.2.2⟩

/-! ### Purchasing a science -/

/-- C12: `Is_Capable_Of_Purchasing_Science(t)` is true exactly when `t` is not
the invalid sentinel, is not acquired, is neither disabled nor hidden, its
prerequisites hold according to the science store, and its purchase cost is
not 0 and at most the current science purchase points. -/
theorem C12_capable_of_purchasing_iff (store : ScienceStore) (p : Player) (t : ScienceType) :
    p.Is_Capable_Of_Purchasing_Science store t = true ↔
      (t ≠ SCIENCE_INVALID ∧ t ∉ p.m_sciences ∧
        t ∉ p.m_disabledSciences ∧ t ∉ p.m_hiddenSciences ∧
        store.Player_Has_Prereqs_For_Science p t = true ∧
        store.Get_Science_Purchase_Cost t ≠ 0 ∧
        store.Get_Science_Purchase_Cost t ≤ p.m_sciencePurchasePoints) := by
  unfold Player.Is_Capable_Of_Purchasing_Science
  by_cases h1 : t = SCIENCE_INVALID
  · simp [h1]
  by_cases h2 : t ∈ p.m_sciences
  · simp [h1, h2, Player.Has_Science]
  by_cases h3 : t ∈ p.m_disabledSciences
  · simp [h1, h2, h3, Player.Has_Science, Player.Is_Science_Disabled]
  by_cases h4 : t ∈ p.m_hiddenSciences
  · simp [h1, h2, h3, h4, Player.Has_Science, Player.Is_Science_Disabled,
      Player.Is_Science_Hidden]
  cases h5 : store.Player_Has_Prereqs_For_Science p t with
  | false =>
    simp [h1, h2, h3, h4, h5, Player.Has_Science, Player.Is_Science_Disabled,
      Player.Is_Science_Hidden, Player.Has_Prereqs_For_Science]
  | true =>
    simp [h1, h2, h3, h4, h5, Player.Has_Science, Player.Is_Science_Disabled,
      Player.Is_Science_Hidden, Player.Has_Prereqs_For_Science,
      Player.Get_Science_Purchase_Points]

/-! ### Unlinking a node of the upgrade list -/

theorem UpgradeLinks.Chain_head (nodes : Nat → Option UpgradeNode) (prev upgrade : Option Nat)
    (addresses : List Nat) (h : UpgradeLinks.Chain nodes prev upgrade addresses) :
    upgrade = addresses.head? := by
  cases addresses with
  | nil => exact h
  | cons a rest => exact h.1

/-- A chain only reads the nodes at its addresses. -/
theorem UpgradeLinks.Chain_congr (nodes nodes2 : Nat → Option UpgradeNode)
    (addresses : List Nat) :
    ∀ (prev upgrade : Option Nat), (∀ a ∈ addresses, nodes2 a = nodes a) →
      UpgradeLinks.Chain nodes prev upgrade addresses →
      UpgradeLinks.Chain nodes2 prev upgrade addresses := by
  induction addresses with
  | nil => intro prev upgrade _ h; exact h
  | cons a rest ih =>
    intro prev upgrade hagree h
    obtain ⟨h1, node, h2, h3, h4⟩ := h
    refine ⟨h1, node, ?_, h3, ?_⟩
    · rw [hagree a (List.mem_cons_self _ _)]; exact h2
    · exact ih _ _ (fun b hb => hagree b (List.mem_cons_of_mem _ hb)) h4

theorem UpgradeLinks.Records_congr (nodes nodes2 : Nat → Option UpgradeNode)
    (addresses : List Nat)
    (h : ∀ a ∈ addresses, (nodes2 a).map (fun node =>
        ({ m_template := node.m_template, m_status := node.m_status } : Upgrade)) =
      (nodes a).map (fun node =>
        ({ m_template := node.m_template, m_status := node.m_status } : Upgrade))) :
    UpgradeLinks.Records nodes2 addresses = UpgradeLinks.Records nodes addresses := by
  induction addresses with
  | nil => rfl
  | cons a rest ih =>
    simp only [UpgradeLinks.Records, List.filterMap_cons]
    rw [h a (List.mem_cons_self _ _)]
    have ih2 := ih (fun b hb => h b (List.mem_cons_of_mem _ hb))
    simp only [UpgradeLinks.Records] at ih2
    rw [ih2]

/-- On a chain with enough fuel, the search returns the first address whose
node has the template. -/
theorem UpgradeLinks.Find_Upgrade_From_chain (links : UpgradeLinks) (t : UpgradeTemplate)
    (addresses : List Nat) :
    ∀ (fuel : Nat) (prev upgrade : Option Nat),
      UpgradeLinks.Chain links.m_nodes prev upgrade addresses → addresses.length ≤ fuel →
      UpgradeLinks.Find_Upgrade_From links t fuel upgrade =
        addresses.find? (links.Has_Template t) := by
  induction addresses with
  | nil =>
    intro fuel prev upgrade h _
    have h0 : upgrade = none := h
    subst h0
    cases fuel <;> rfl
  | cons a rest ih =>
    intro fuel prev upgrade h hfuel
    obtain ⟨h1, node, h2, h3, h4⟩ := h
    subst h1
    cases fuel with
    | zero => simp at hfuel
    | succ fuel =>
      simp only [List.length_cons, Nat.add_le_add_iff_right] at hfuel
      simp only [UpgradeLinks.Find_Upgrade_From, h2, List.find?_cons,
        UpgradeLinks.Has_Template]
      by_cases hm : node.m_template = t
      · simp [hm]
      · simp only [hm, if_false, decide_False]
        exact ih fuel _ _ h4 hfuel
/-- The nodes after `Unlink`: the successor of the unlinked node gets its
`m_prev`, the predecessor gets its `m_next`, every other node is as before. -/
theorem UpgradeLinks.Unlink_nodes (links : UpgradeLinks) (a : Nat) (na : UpgradeNode)
    (ha : links.m_nodes a = some na) (b : Nat) :
    (links.Unlink a).m_nodes b =
      ((if na.m_next = some b then
          (links.m_nodes b).map (fun node => { node with m_prev := na.m_prev })
        else links.m_nodes b).map
        (fun node => if na.m_prev = some b then { node with m_next := na.m_next } else node)) := by
  cases hn : na.m_next with
  | none =>
    cases hp : na.m_prev with
    | none =>
      simp [UpgradeLinks.Unlink, UpgradeLinks.Friend_Get_Next, UpgradeLinks.Friend_Get_Prev,
        ha, hn, hp]
    | some pv =>
      by_cases hb : b = pv
      · subst hb
        simp [UpgradeLinks.Unlink, UpgradeLinks.Friend_Get_Next, UpgradeLinks.Friend_Get_Prev,
          UpgradeLinks.Friend_Set_Next, ha, hn, hp]
      · have hb2 : ¬ pv = b := fun e => hb e.symm
        simp [UpgradeLinks.Unlink, UpgradeLinks.Friend_Get_Next, UpgradeLinks.Friend_Get_Prev,
          UpgradeLinks.Friend_Set_Next, ha, hn, hp, hb, hb2]
  | some nx =>
    have h1p : (links.Friend_Set_Prev nx na.m_prev).Friend_Get_Prev a = na.m_prev := by
      by_cases e : a = nx
      · subst e
        simp [UpgradeLinks.Friend_Get_Prev, UpgradeLinks.Friend_Set_Prev, ha]
      · simp [UpgradeLinks.Friend_Get_Prev, UpgradeLinks.Friend_Set_Prev, e, ha]
    have h1n : (links.Friend_Set_Prev nx na.m_prev).Friend_Get_Next a = some nx := by
      by_cases e : a = nx
      · subst e
        simp [UpgradeLinks.Friend_Get_Next, UpgradeLinks.Friend_Set_Prev, ha, hn]
      · simp [UpgradeLinks.Friend_Get_Next, UpgradeLinks.Friend_Set_Prev, e, ha, hn]
    have hg : links.Friend_Get_Next a = some nx := by
      simp [UpgradeLinks.Friend_Get_Next, ha, hn]
    have hg2 : links.Friend_Get_Prev a = na.m_prev := by
      simp [UpgradeLinks.Friend_Get_Prev, ha]
    simp only [UpgradeLinks.Unlink, hg, hg2, h1p, h1n]
    cases hp : na.m_prev with
    | none =>
      by_cases hb : b = nx
      · subst hb
        simp only [UpgradeLinks.Friend_Set_Prev, if_true, reduceCtorEq, if_false]
        cases links.m_nodes b <;> rfl
      · have hb2 : ¬ nx = b := fun e => hb e.symm
        simp [UpgradeLinks.Friend_Set_Prev, hb, hb2]
    | some pv =>
      by_cases hb : b = nx
      · subst hb
        by_cases hc : b = pv
        · subst hc
          simp [UpgradeLinks.Friend_Set_Prev, UpgradeLinks.Friend_Set_Next]
        · have hc2 : ¬ pv = b := fun e => hc e.symm
          simp [UpgradeLinks.Friend_Set_Prev, UpgradeLinks.Friend_Set_Next, hc, hc2]
          cases links.m_nodes b <;> rfl
      · have hb2 : ¬ nx = b := fun e => hb e.symm
        by_cases hc : b = pv
        · subst hc
          simp [UpgradeLinks.Friend_Set_Prev, UpgradeLinks.Friend_Set_Next, hb, hb2]
        · have hc2 : ¬ pv = b := fun e => hc e.symm
          simp [UpgradeLinks.Friend_Set_Prev, UpgradeLinks.Friend_Set_Next, hb, hb2, hc, hc2]
/-- Where the links of a node inside a chain point: its `m_next` is the next
address of the chain, its `m_prev` the address before it. -/
theorem UpgradeLinks.Chain_mid (nodes : Nat → Option UpgradeNode) (a : Nat) (post : List Nat)
    (pre : List Nat) :
    ∀ (prev upgrade : Option Nat),
      UpgradeLinks.Chain nodes prev upgrade (pre ++ a :: post) →
      ∃ na, nodes a = some na ∧ na.m_next = post.head? ∧
        ((pre = [] ∧ na.m_prev = prev) ∨ (∃ pv ∈ pre, na.m_prev = some pv)) := by
  induction pre with
  | nil =>
    intro prev upgrade h
    obtain ⟨_, node, h2, h3, h4⟩ := h
    exact ⟨node, h2, UpgradeLinks.Chain_head _ _ _ _ h4, Or.inl ⟨rfl, h3⟩⟩
  | cons c pre2 ih =>
    intro prev upgrade h
    obtain ⟨_, node, h2, h3, h4⟩ := h
    obtain ⟨na, g1, g2, g3⟩ := ih _ _ h4
    refine ⟨na, g1, g2, Or.inr ?_⟩
    rcases g3 with ⟨e, g⟩ | ⟨pv, hpv, g⟩
    · exact ⟨c, List.mem_cons_self _ _, g⟩
    · exact ⟨pv, List.mem_cons_of_mem _ hpv, g⟩

/-- Unlinking a node of a chain leaves the chain of the other nodes, with
mutually consistent links. -/
theorem UpgradeLinks.Unlink_chain (links : UpgradeLinks) (a : Nat) (na : UpgradeNode)
    (ha : links.m_nodes a = some na) (post : List Nat) (pre : List Nat) :
    ∀ (prev upgrade : Option Nat),
      UpgradeLinks.Chain links.m_nodes prev upgrade (pre ++ a :: post) →
      (pre ++ a :: post).Nodup →
      (∀ pv, prev = some pv → pv ∉ pre ++ a :: post) →
      UpgradeLinks.Chain (links.Unlink a).m_nodes prev
        (if pre = [] then na.m_next else upgrade) (pre ++ post) := by
  induction pre with
  | nil =>
    intro prev upgrade h hnd hext
    obtain ⟨_, node, h2, h3, h4⟩ := h
    rw [ha] at h2
    cases h2
    simp only [List.nil_append, if_true]
    simp only [List.nil_append, List.nodup_cons] at hnd
    cases post with
    | nil => exact h4
    | cons b post2 =>
      obtain ⟨k1, nb, k2, k3, k4⟩ := h4
      have hb : (links.Unlink a).m_nodes b = some { nb with m_prev := na.m_prev } := by
        rw [UpgradeLinks.Unlink_nodes links a na ha b]
        have hne : ¬ na.m_prev = some b := by
          intro e
          exact hext b (h3 ▸ e) (by simp)
        simp [k1, k2, hne]
      refine ⟨k1, _, hb, h3, ?_⟩
      apply UpgradeLinks.Chain_congr links.m_nodes _ post2 _ _ _ k4
      intro c hc
      rw [UpgradeLinks.Unlink_nodes links a na ha c]
      have hc1 : ¬ na.m_next = some c := by
        rw [k1]
        intro e
        cases e
        exact (List.nodup_cons.mp hnd.2).1 hc
      have hc2 : ¬ na.m_prev = some c := by
        intro e
        exact hext c (h3 ▸ e) (by simp [hc])
      simp only [hc1, hc2, if_false]
      cases links.m_nodes c <;> rfl
  | cons c pre2 ih =>
    intro prev upgrade h hnd hext
    obtain ⟨h1, nc, h2, h3, h4⟩ := h
    simp only [List.cons_append, List.nodup_cons] at hnd
    have hih := ih (some c) nc.m_next h4 hnd.2 (by
      intro pv e
      cases e
      exact hnd.1)
    obtain ⟨na2, g1, g2, g3⟩ := UpgradeLinks.Chain_mid links.m_nodes a post pre2 _ _ h4
    rw [ha] at g1
    cases g1
    have hn1 : ¬ na.m_next = some c := by
      rw [g2]
      intro e
      have : c ∈ post := List.mem_of_mem_head? e
      exact hnd.1 (by simp [this])
    simp only [List.cons_append, reduceCtorEq, if_false]
    refine ⟨h1, ?_⟩
    rcases g3 with ⟨e, g⟩ | ⟨pv, hpv, g⟩
    · subst e
      simp only [if_true] at hih
      have hcn : (links.Unlink a).m_nodes c = some { nc with m_next := na.m_next } := by
        rw [UpgradeLinks.Unlink_nodes links a na ha c]
        simp [hn1, h2, g]
      exact ⟨_, hcn, h3, hih⟩
    · have hne : pre2 ≠ [] := List.ne_nil_of_mem hpv
      simp only [hne, if_false] at hih
      have hp1 : ¬ na.m_prev = some c := by
        rw [g]
        intro e
        cases e
        exact hnd.1 (by simp [hpv])
      have hcn : (links.Unlink a).m_nodes c = some nc := by
        rw [UpgradeLinks.Unlink_nodes links a na ha c]
        simp [hn1, hp1, h2]
      exact ⟨_, hcn, h3, hih⟩

/-- The head pointer after `Unlink`: the successor of the unlinked node when
that node had no predecessor, unchanged otherwise. -/
theorem UpgradeLinks.Unlink_head (links : UpgradeLinks) (a : Nat) (na : UpgradeNode)
    (ha : links.m_nodes a = some na) :
    (links.Unlink a).m_upgradeList =
      if na.m_prev = none then na.m_next else links.m_upgradeList := by
  have h1p : ∀ nx, (links.Friend_Set_Prev nx na.m_prev).Friend_Get_Prev a = na.m_prev := by
    intro nx
    by_cases e : a = nx
    · subst e
      simp [UpgradeLinks.Friend_Get_Prev, UpgradeLinks.Friend_Set_Prev, ha]
    · simp [UpgradeLinks.Friend_Get_Prev, UpgradeLinks.Friend_Set_Prev, e, ha]
  have h1n : ∀ nx, (links.Friend_Set_Prev nx na.m_prev).Friend_Get_Next a = na.m_next := by
    intro nx
    by_cases e : a = nx
    · subst e
      simp [UpgradeLinks.Friend_Get_Next, UpgradeLinks.Friend_Set_Prev, ha]
    · simp [UpgradeLinks.Friend_Get_Next, UpgradeLinks.Friend_Set_Prev, e, ha]
  have hg : links.Friend_Get_Next a = na.m_next := by
    simp [UpgradeLinks.Friend_Get_Next, ha]
  have hg2 : links.Friend_Get_Prev a = na.m_prev := by
    simp [UpgradeLinks.Friend_Get_Prev, ha]
  cases hn : na.m_next with
  | none =>
    cases hp : na.m_prev with
    | none => simp [UpgradeLinks.Unlink, hg, hg2, hn, hp]
    | some pv => simp [UpgradeLinks.Unlink, hg, hg2, hn, hp, UpgradeLinks.Friend_Set_Next]
  | some nx =>
    have e1 := h1p nx
    have e2 := h1n nx
    cases hp : na.m_prev with
    | none =>
      rw [hp] at e1 e2
      simp only [UpgradeLinks.Unlink, hg, hg2, hn, hp, e1, e2, if_true]
    | some pv =>
      rw [hp] at e1 e2
      simp only [UpgradeLinks.Unlink, hg, hg2, hn, hp, e1, e2, reduceCtorEq, if_false]
      rfl
/-- `Unlink` changes links only: template and status of every node stay. -/
theorem UpgradeLinks.Unlink_record (links : UpgradeLinks) (a : Nat) (na : UpgradeNode)
    (ha : links.m_nodes a = some na) (b : Nat) :
    ((links.Unlink a).m_nodes b).map (fun node =>
        ({ m_template := node.m_template, m_status := node.m_status } : Upgrade)) =
      (links.m_nodes b).map (fun node =>
        ({ m_template := node.m_template, m_status := node.m_status } : Upgrade)) := by
  rw [UpgradeLinks.Unlink_nodes links a na ha b]
  cases links.m_nodes b with
  | none => simp
  | some nb =>
    by_cases h1 : na.m_next = some b <;> by_cases h2 : na.m_prev = some b <;> simp [h1, h2]

theorem UpgradeLinks.Records_mem (nodes : Nat → Option UpgradeNode) (addresses : List Nat)
    (u : Upgrade) (hu : u ∈ UpgradeLinks.Records nodes addresses) :
    ∃ a ∈ addresses, ∃ node, nodes a = some node ∧ u.m_template = node.m_template := by
  simp only [UpgradeLinks.Records, List.mem_filterMap, Option.map_eq_some'] at hu
  obtain ⟨a, ha, node, hn, e⟩ := hu
  exact ⟨a, ha, node, hn, by rw [← e]⟩

/-- The linked-node `Remove_Upgrade` refines the removal of the first record
of the template from the list: with enough fuel for the search, the nodes that
held the list `l` hold `l` without that record afterwards; they are the old
nodes without the first one that has the template, linked in the old order
with consistent links, and the head pointer is the first of them. -/
theorem UpgradeLinks.Remove_Upgrade_holds (links : UpgradeLinks) (addresses : List Nat)
    (l : List Upgrade) (t : UpgradeTemplate) (fuel : Nat)
    (h : links.Holds addresses l) (hfuel : addresses.length ≤ fuel) :
    (links.Remove_Upgrade fuel t).Holds (addresses.eraseP (links.Has_Template t))
        (l.eraseP (fun u => decide (u.m_template = t))) ∧
      (links.Remove_Upgrade fuel t).m_upgradeList =
        (addresses.eraseP (links.Has_Template t)).head? := by
  obtain ⟨hc, hnd, hr⟩ := h
  have hfind := UpgradeLinks.Find_Upgrade_From_chain links t addresses fuel none _ hc hfuel
  cases hf : addresses.find? (links.Has_Template t) with
  | none =>
    have hrem : links.Remove_Upgrade fuel t = links := by
      simp only [UpgradeLinks.Remove_Upgrade, UpgradeLinks.Find_Upgrade, hfind, hf]
    rw [hrem]
    have hnone := List.find?_eq_none.mp hf
    have hno : ∀ u ∈ l, ¬ (decide (u.m_template = t)) = true := by
      intro u hu
      rw [← hr] at hu
      obtain ⟨a, ha, node, hn, e⟩ := UpgradeLinks.Records_mem _ _ u hu
      have := hnone a ha
      simp only [UpgradeLinks.Has_Template, hn] at this
      rw [e]
      exact this
    rw [List.eraseP_of_forall_not hno, List.eraseP_of_forall_not hnone]
    exact ⟨⟨hc, hnd, hr⟩, UpgradeLinks.Chain_head _ _ _ _ hc⟩
  | some a =>
    have hrem : links.Remove_Upgrade fuel t = links.Unlink a := by
      simp only [UpgradeLinks.Remove_Upgrade, UpgradeLinks.Find_Upgrade, hfind, hf]
    rw [hrem]
    obtain ⟨hPa, pre, post, hsplit, hpre⟩ := List.find?_eq_some.mp hf
    subst hsplit
    have herase : (pre ++ a :: post).eraseP (links.Has_Template t) = pre ++ post := by
      rw [List.eraseP_append_right, List.eraseP_cons_of_pos hPa]
      intro b hb
      simpa using hpre b hb
    rw [herase]
    obtain ⟨na, g1, g2, g3⟩ := UpgradeLinks.Chain_mid links.m_nodes a post pre _ _ hc
    simp only [UpgradeLinks.Has_Template, g1, decide_eq_true_eq] at hPa
    have hchain := UpgradeLinks.Unlink_chain links a na g1 post pre none _ hc hnd
      (by intro pv e; cases e)
    have hhead := UpgradeLinks.Unlink_head links a na g1
    have hhead2 : (links.Unlink a).m_upgradeList =
        if pre = [] then na.m_next else links.m_upgradeList := by
      rw [hhead]
      rcases g3 with ⟨e, g⟩ | ⟨pv, hpv, g⟩
      · simp [e, g]
      · have hne : pre ≠ [] := List.ne_nil_of_mem hpv
        simp [hne, g]
    rw [← hhead2] at hchain
    refine ⟨⟨hchain, ?_, ?_⟩, UpgradeLinks.Chain_head _ _ _ _ hchain⟩
    · exact List.Nodup.sublist (List.Sublist.append_left (List.sublist_cons_self a post) pre) hnd
    · rw [UpgradeLinks.Records_congr links.m_nodes _ _
        (fun b _ => UpgradeLinks.Unlink_record links a na g1 b), ← hr]
      simp only [UpgradeLinks.Records, List.filterMap_append, List.filterMap_cons, g1,
        Option.map_some']
      rw [List.eraseP_append_right, List.eraseP_cons_of_pos]
      · simpa using hPa
      · intro u hu
        obtain ⟨b, hb, node, hn, e⟩ := UpgradeLinks.Records_mem links.m_nodes pre u hu
        have := hpre b hb
        simp only [UpgradeLinks.Has_Template, hn] at this
        rw [e]
        simpa using this

/-- C17: on a ledger with one record per template that has a record for `t`,
`Remove_Upgrade(t)` leaves the old list without that one record, the others in
their order; `Find_Upgrade(t)` is null afterwards and every bit of the mask of
`t` is cleared in both accumulators. On the linked nodes that hold the list,
the unlinking leaves the old nodes without the node of `t`, in their order and
with mutually consistent `m_prev` / `m_next` links, and the head pointer is the
first of them: the old second node when the head was removed. -/
theorem C17_Remove_Upgrade_unlinks (env : Env) (p : Player) (t : UpgradeTemplate)
    (hn : (p.m_upgradeList.map (fun u => u.m_template)).Nodup)
    (hf : t ∈ p.m_upgradeList.map (fun u => u.m_template)) :
    (∃ pre u post, p.m_upgradeList = pre ++ u :: post ∧ u.m_template = t ∧
        (p.Remove_Upgrade env t).m_upgradeList = pre ++ post) ∧
    (p.Remove_Upgrade env t).Find_Upgrade t = none ∧
    (p.Remove_Upgrade env t).m_upgradesInProgress &&& t.Get_Upgrade_Mask = 0 ∧
    (p.Remove_Upgrade env t).m_upgradesCompleted &&& t.Get_Upgrade_Mask = 0 ∧
    (∀ (links : UpgradeLinks) (addresses : List Nat) (fuel : Nat),
      links.Holds addresses p.m_upgradeList → addresses.length ≤ fuel →
      (links.Remove_Upgrade fuel t).Holds (addresses.eraseP (links.Has_Template t))
          (p.Remove_Upgrade env t).m_upgradeList ∧
        (links.Remove_Upgrade fuel t).m_upgradeList =
          (addresses.eraseP (links.Has_Template t)).head? ∧
        (addresses.eraseP (links.Has_Template t)).length + 1 = addresses.length ∧
        (∀ first rest, addresses = first :: rest → links.Has_Template t first = true →
          (links.Remove_Upgrade fuel t).m_upgradeList = rest.head?)) := by
  have hlist := Player.Remove_Upgrade_list env p t
  have hprog := Player.Remove_Upgrade_inProgress env p t
  have hcomp := Player.Remove_Upgrade_completed env p t
  have hsome : ∃ u0, p.Find_Upgrade t = some u0 := by
    cases hfu : p.Find_Upgrade t with
    | none => exact absurd hf ((Player.Find_Upgrade_none_iff p t).mp hfu)
    | some u0 => exact ⟨u0, rfl⟩
  obtain ⟨u0, hu0⟩ := hsome
  rw [hu0] at hprog hcomp
  simp only at hprog hcomp
  have hfind := hu0
  unfold Player.Find_Upgrade at hfind
  obtain ⟨hQ, pre, post, hsplit, hpre⟩ := List.find?_eq_some.mp hfind
  have hut : u0.m_template = t := by simpa using hQ
  have herase : p.m_upgradeList.eraseP (fun node => decide (node.m_template = t)) = pre ++ post := by
    rw [hsplit, List.eraseP_append_right _ (by intro b hb; simpa using hpre b hb)]
    simp [List.eraseP_cons, hut]
  refine ⟨⟨pre, u0, post, hsplit, hut, by rw [hlist, herase]⟩, ?_, ?_, ?_, ?_⟩
  · rw [Player.Find_Upgrade_none_iff, hlist, herase]
    rw [hsplit] at hn
    simp only [List.map_append, List.map_cons, hut] at hn ⊢
    intro hmem
    rcases List.mem_append.mp hmem with h1 | h1
    · have := (List.nodup_append.mp hn).2.2
      exact this h1 (List.mem_cons_self _ _)
    · have := (List.nodup_append.mp hn).2.1
      exact (List.nodup_cons.mp this).1 h1
  · rw [hprog]
    exact BitFlags.Clear_land_mask _ _
  · rw [hcomp]
    exact BitFlags.Clear_land_mask _ _
  · intro links addresses fuel hh hfuel
    obtain ⟨k1, k2⟩ := UpgradeLinks.Remove_Upgrade_holds links addresses _ t fuel hh hfuel
    rw [← hlist] at k1
    refine ⟨k1, k2, ?_, ?_⟩
    · have hex : ∃ a ∈ addresses, links.Has_Template t a = true := by
        have hu0mem : u0 ∈ UpgradeLinks.Records links.m_nodes addresses := by
          rw [hh.2.2, hsplit]
          simp
        obtain ⟨a, ha, node, hnode, e⟩ := UpgradeLinks.Records_mem _ _ u0 hu0mem
        refine ⟨a, ha, ?_⟩
        simp only [UpgradeLinks.Has_Template, hnode, decide_eq_true_eq]
        rw [← e, hut]
      obtain ⟨a, ha, hPa⟩ := hex
      have := List.length_eraseP_of_mem ha hPa
      have hpos : 0 < addresses.length := List.length_pos_of_mem ha
      omega
    · intro first rest e hP
      rw [k2, e, List.eraseP_cons_of_pos hP]
/-- C17 at a concrete input: removing upgrade B, the head of the list of
`playerInGame`, whose nodes are at the addresses 2 and 1; the node at address 1
becomes the head. -/
theorem C17_Remove_Upgrade_unlinks_witness :
    (playerInGame.m_upgradeList.map (fun u => u.m_template)).Nodup ∧
    templateB ∈ playerInGame.m_upgradeList.map (fun u => u.m_template) ∧
    linksInGame.Holds [2, 1] playerInGame.m_upgradeList ∧
    (linksInGame.Remove_Upgrade 2 templateB).Holds [1]
      (playerInGame.Remove_Upgrade envWithUpgrades templateB).m_upgradeList ∧
    (linksInGame.Remove_Upgrade 2 templateB).m_upgradeList = some 1 :=
  have hholds : linksInGame.Holds [2, 1] playerInGame.m_upgradeList :=
    ⟨⟨rfl, _, rfl, rfl, rfl, _, rfl, rfl, rfl⟩, by decide, by decide⟩
  ⟨by decide, by decide, hholds,
   ((C17_Remove_Upgrade_unlinks envWithUpgrades playerInGame templateB (by decide)
      (by decide)).2.2.2.2 linksInGame [2, 1] 2 hholds (by decide)).1,
   ((C17_Remove_Upgrade_unlinks envWithUpgrades playerInGame templateB (by decide)
      (by decide)).2.2.2.2 linksInGame [2, 1] 2 hholds (by decide)).2.1⟩

/-! ### References that do not resolve on load -/

/-- The upgrade loop of the load ends on a release assertion at the first name
the upgrade centre does not know. -/
theorem Player.Load_Upgrades_unresolved (env : Env) (name : String)
    (hname : env.Find_Upgrade name = none) (entries : List (String × Int)) :
    ∀ (n : Nat) (rest : List XferItem) (p : Player),
      (∀ e ∈ entries, (env.Find_Upgrade e.1).isSome = true ∧
        (UpgradeStatusType.ofInt e.2).isSome = true) →
      entries.length < n →
      Player.Load_Upgrades env n
          ⟨XferMode.XFER_LOAD,
            Player.Stored_Upgrades entries ++ XferItem.asciiString name :: rest⟩ p
        = Except.error XferError.RELEASE_ASSERT := by
  induction entries with
  | nil =>
    intro n rest p _ hn
    cases n with
    | zero => simp at hn
    | succ n =>
      simp [Player.Load_Upgrades, Player.Stored_Upgrades, Xfer.xferAsciiString, hname]
      rfl
  | cons e entries ih =>
    intro n rest p hres hn
    obtain ⟨ename, code⟩ := e
    cases n with
    | zero => simp at hn
    | succ n =>
      have he := hres (ename, code) (List.mem_cons_self _ _)
      obtain ⟨t, ht⟩ := Option.isSome_iff_exists.mp he.1
      obtain ⟨status, hstatus⟩ := Option.isSome_iff_exists.mp he.2
      simp only [List.length_cons, Nat.add_lt_add_iff_right] at hn
      simp at ht hstatus
      simp [Player.Load_Upgrades, Player.Stored_Upgrades, Xfer.xferAsciiString,
        Upgrade.Xfer_Snapshot, Xfer.xferSnapshot, ht, hstatus]
      exact ih n rest _ (fun x hx => hres x (List.mem_cons_of_mem _ hx)) hn

/-- The prototype loop of the load appends the prototypes found for the stored
ids, in their order, and ends on a release assertion when one is not found. -/
theorem Player.Load_Team_Prototypes_ids (env : Env) (ids : List Nat) :
    ∀ (rest : List XferItem) (p : Player),
      Player.Load_Team_Prototypes env ids.length
          ⟨XferMode.XFER_LOAD, Player.Stored_Prototype_Ids ids ++ rest⟩ p
        = match Player.Find_All_Team_Prototypes env ids with
          | some resolved =>
            Except.ok (⟨XferMode.XFER_LOAD, rest⟩,
              { p with m_playerTeamPrototypes := p.m_playerTeamPrototypes ++ resolved })
          | none => Except.error XferError.RELEASE_ASSERT := by
  induction ids with
  | nil =>
    intro rest p
    simp [Player.Load_Team_Prototypes, Player.Stored_Prototype_Ids,
      Player.Find_All_Team_Prototypes]
  | cons id ids ih =>
    intro rest p
    cases hf : env.Find_Team_Prototype_By_ID id with
    | none =>
      simp [Player.Load_Team_Prototypes, Player.Stored_Prototype_Ids,
        Player.Find_All_Team_Prototypes, Xfer.xferUser, hf]
      rfl
    | some prototype =>
      have hi := ih rest
        { p with m_playerTeamPrototypes := p.m_playerTeamPrototypes ++ [prototype] }
      simp only [Player.Stored_Prototype_Ids] at hi
      simp only [Player.Load_Team_Prototypes, Player.Stored_Prototype_Ids,
        Player.Find_All_Team_Prototypes, Xfer.xferUser, hf, List.map_cons, List.cons_append,
        List.length_cons, Xfer.transfer_load, List.length_singleton, if_true,
        Except.bind_ok_eq, Int.toNat_ofNat, hi]
      cases Player.Find_All_Team_Prototypes env ids with
      | none => rfl
      | some resolved => simp
/-! ### Presence flags of the nullable owned structures -/

theorem Player.Xfer_Owned_System_save (system : Option Snapshot) (out : List XferItem) :
    Player.Xfer_Owned_System ⟨XferMode.XFER_SAVE, out⟩ system
      = Except.ok (⟨XferMode.XFER_SAVE, out ++ Player.Stored_System system⟩, system) := by
  cases system with
  | none => simp [Player.Xfer_Owned_System, Player.Stored_System, Xfer.xferBool, Xfer.relassert]
  | some content =>
    simp [Player.Xfer_Owned_System, Player.Stored_System, Xfer.xferBool, Xfer.relassert,
      Xfer.xferSnapshot]

/-- Loading one owned system: a flag that differs from the presence of the
system in the loading player is fatal; otherwise an absent system stays absent
and a present one is loaded in place. -/
theorem Player.Xfer_Owned_System_load (flag : Bool) (rest : List XferItem)
    (target : Option Snapshot) :
    Player.Xfer_Owned_System ⟨XferMode.XFER_LOAD, XferItem.bool flag :: rest⟩ target
      = if flag = target.isSome then
          match target with
          | none => Except.ok (⟨XferMode.XFER_LOAD, rest⟩, none)
          | some content =>
            (Xfer.xferSnapshot ⟨XferMode.XFER_LOAD, rest⟩ content).map
              (fun r => (r.1, some r.2))
        else Except.error XferError.RELEASE_ASSERT := by
  cases target with
  | none =>
    cases flag
    · simp [Player.Xfer_Owned_System, Xfer.xferBool, Xfer.relassert]
    · simp [Player.Xfer_Owned_System, Xfer.xferBool, Xfer.relassert]
      rfl
  | some content =>
    cases flag
    · simp [Player.Xfer_Owned_System, Xfer.xferBool, Xfer.relassert]
      rfl
    · simp only [Player.Xfer_Owned_System, Xfer.xferBool, Xfer.relassert, Xfer.transfer_load,
        Except.bind_ok_eq, Option.isSome_some, Bool.not_true, Option.isNone_some, Bool.and_self,
        Bool.or_true, Bool.false_and, Bool.true_and, if_true, Bool.false_or]
      cases Xfer.xferSnapshot ⟨XferMode.XFER_LOAD, rest⟩ content <;> rfl

theorem Player.Xfer_Battle_Plans_save (version : Nat) (p : Player) (out : List XferItem) :
    Player.Xfer_Battle_Plans version ⟨XferMode.XFER_SAVE, out⟩ p
      = Except.ok (⟨XferMode.XFER_SAVE,
            out ++ Player.Stored_Battle_Plans version p.m_battlePlanBonuses
              p.m_activeBattlePlans0 p.m_activeBattlePlans1 p.m_activeBattlePlans2
              p.m_unitsShouldHunt⟩,
          { p with
            m_unitsShouldHunt := if version < 6 then false else p.m_unitsShouldHunt }) := by
  cases hb : p.m_battlePlanBonuses with
  | none =>
    by_cases hv : version < 6
    · simp only [Player.Xfer_Battle_Plans, Player.Stored_Battle_Plans, Player.Stored_Bonuses,
        Xfer.xferBool, Xfer.xferInt, Xfer.Get_Mode, hb, hv, Xfer.transfer_save, Except.bind_ok_eq, Except.pure_eq_ok, if_true, if_false, List.append_assoc, List.cons_append, List.nil_append, List.append_nil, Option.isSome_none, Option.isSome_some, reduceCtorEq, Bool.false_eq_true]
    · simp only [Player.Xfer_Battle_Plans, Player.Stored_Battle_Plans, Player.Stored_Bonuses,
        Xfer.xferBool, Xfer.xferInt, Xfer.Get_Mode, hb, hv, Xfer.transfer_save, Except.bind_ok_eq, Except.pure_eq_ok, if_true, if_false, List.append_assoc, List.cons_append, List.nil_append, List.append_nil, Option.isSome_none, Option.isSome_some, reduceCtorEq, Bool.false_eq_true]
  | some b =>
    by_cases hv : version < 6
    · simp only [Player.Xfer_Battle_Plans, Player.Stored_Battle_Plans, Player.Stored_Bonuses,
        Player.Xfer_Bonuses, Xfer.xferBool, Xfer.xferInt, Xfer.xferReal, Xfer.xferKindOf,
        Xfer.Get_Mode, hb, hv, Xfer.transfer_save, Except.bind_ok_eq, Except.pure_eq_ok, if_true, if_false, List.append_assoc, List.cons_append, List.nil_append, List.append_nil, Option.isSome_none, Option.isSome_some, reduceCtorEq, Bool.false_eq_true]
    · simp only [Player.Xfer_Battle_Plans, Player.Stored_Battle_Plans, Player.Stored_Bonuses,
        Player.Xfer_Bonuses, Xfer.xferBool, Xfer.xferInt, Xfer.xferReal, Xfer.xferKindOf,
        Xfer.Get_Mode, hb, hv, Xfer.transfer_save, Except.bind_ok_eq, Except.pure_eq_ok, if_true, if_false, List.append_assoc, List.cons_append, List.nil_append, List.append_nil, Option.isSome_none, Option.isSome_some, reduceCtorEq, Bool.false_eq_true]

/-- Loading the last block: the bonuses of the loading player are replaced by
the stored ones, present or not, whatever the player held. -/
theorem Player.Xfer_Battle_Plans_load (version : Nat) (bonuses : Option BattlePlanBonuses)
    (plans0 plans1 plans2 : Int) (hunt : Bool) (rest : List XferItem) (l : Player) :
    Player.Xfer_Battle_Plans version
        ⟨XferMode.XFER_LOAD,
          Player.Stored_Battle_Plans version bonuses plans0 plans1 plans2 hunt ++ rest⟩ l
      = Except.ok (⟨XferMode.XFER_LOAD, rest⟩,
          { l with m_battlePlanBonuses := bonuses,
                   m_activeBattlePlans0 := plans0,
                   m_activeBattlePlans1 := plans1,
                   m_activeBattlePlans2 := plans2,
                   m_unitsShouldHunt := if version < 6 then false else hunt }) := by
  cases bonuses with
  | none =>
    by_cases hv : version < 6
    · simp only [Player.Xfer_Battle_Plans, Player.Stored_Battle_Plans, Player.Stored_Bonuses,
        Xfer.xferBool, Xfer.xferInt, Xfer.Get_Mode, hv, Xfer.transfer_load, Except.bind_ok_eq, Except.pure_eq_ok, if_true, if_false, List.append_assoc, List.cons_append, List.nil_append, List.append_nil, Option.isSome_none, Option.isSome_some, reduceCtorEq, Bool.false_eq_true]
    · simp only [Player.Xfer_Battle_Plans, Player.Stored_Battle_Plans, Player.Stored_Bonuses,
        Xfer.xferBool, Xfer.xferInt, Xfer.Get_Mode, hv, Xfer.transfer_load, Except.bind_ok_eq, Except.pure_eq_ok, if_true, if_false, List.append_assoc, List.cons_append, List.nil_append, List.append_nil, Option.isSome_none, Option.isSome_some, reduceCtorEq, Bool.false_eq_true]
  | some b =>
    by_cases hv : version < 6
    · simp only [Player.Xfer_Battle_Plans, Player.Stored_Battle_Plans, Player.Stored_Bonuses,
        Player.Xfer_Bonuses, Xfer.xferBool, Xfer.xferInt, Xfer.xferReal, Xfer.xferKindOf,
        Xfer.Get_Mode, hv, Xfer.transfer_load, Except.bind_ok_eq, Except.pure_eq_ok, if_true, if_false, List.append_assoc, List.cons_append, List.nil_append, List.append_nil, Option.isSome_none, Option.isSome_some, reduceCtorEq, Bool.false_eq_true]
    · simp only [Player.Xfer_Battle_Plans, Player.Stored_Battle_Plans, Player.Stored_Bonuses,
        Player.Xfer_Bonuses, Xfer.xferBool, Xfer.xferInt, Xfer.xferReal, Xfer.xferKindOf,
        Xfer.Get_Mode, hv, Xfer.transfer_load, Except.bind_ok_eq, Except.pure_eq_ok, if_true, if_false, List.append_assoc, List.cons_append, List.nil_append, List.append_nil, Option.isSome_none, Option.isSome_some, reduceCtorEq, Bool.false_eq_true]

theorem Player.Xfer_Owned_Systems_save (p : Player) (out : List XferItem) :
    Player.Xfer_Owned_Systems ⟨XferMode.XFER_SAVE, out⟩ p
      = Except.ok (⟨XferMode.XFER_SAVE,
            out ++ (Player.Stored_System p.m_ai ++
              (Player.Stored_System p.m_resourceGatheringManager ++
                Player.Stored_System p.m_tunnelSystem))⟩, p) := by
  simp [Player.Xfer_Owned_Systems, Player.Xfer_Owned_System_save]

/-- C19 (as stated, refuted): for the AI player, the resource gathering manager
and the tunnel system the flag read does not drive an allocation or a release.
Loading the stored items of a present system into a player without it, and of
an absent system into a player that holds one, both end on the release
assertion; so does the load, into a freshly constructed player, of the stream
saved from a player with a tunnel system. -/
theorem C19_presence_flag_counterexample :
    Player.Xfer_Owned_System ⟨XferMode.XFER_LOAD, Player.Stored_System (some [7])⟩ none
      = Except.error XferError.RELEASE_ASSERT ∧
    Player.Xfer_Owned_System ⟨XferMode.XFER_LOAD, Player.Stored_System none⟩ (some [7])
      = Except.error XferError.RELEASE_ASSERT ∧
    (Player.Save_Then_Load envNone playerWithTunnels
        (Player.Construct envNone playerWithTunnels.m_playerIndex)).map (fun r => r.1)
      = Except.error XferError.RELEASE_ASSERT := by
  refine ⟨rfl, rfl, rfl⟩

/-- C19 (amended): for each nullable owned structure, save writes the presence
flag immediately before the data of the structure (AI player, resource
gathering manager and tunnel system one after the other; the battle plan
bonuses at the start of the last block). On load the battle plan bonuses are
present exactly when the flag read is true, whatever the loading player held
before: the bonuses it held are released and stored ones are allocated. For the
AI player, the resource gathering manager and the tunnel system nothing is
allocated or released: a flag that differs from the presence of the structure
in the loading player ends the load on a release assertion, and otherwise an
absent structure stays absent and a present one is loaded in place. -/
theorem C19_presence_flags (p : Player) (version : Nat) :
    (∀ out, Player.Xfer_Owned_Systems ⟨XferMode.XFER_SAVE, out⟩ p
      = Except.ok (⟨XferMode.XFER_SAVE,
            out ++ (Player.Stored_System p.m_ai ++
              (Player.Stored_System p.m_resourceGatheringManager ++
                Player.Stored_System p.m_tunnelSystem))⟩, p)) ∧
    (∀ out, Player.Xfer_Battle_Plans version ⟨XferMode.XFER_SAVE, out⟩ p
      = Except.ok (⟨XferMode.XFER_SAVE,
            out ++ Player.Stored_Battle_Plans version p.m_battlePlanBonuses
              p.m_activeBattlePlans0 p.m_activeBattlePlans1 p.m_activeBattlePlans2
              p.m_unitsShouldHunt⟩,
          { p with
            m_unitsShouldHunt := if version < 6 then false else p.m_unitsShouldHunt })) ∧
    (∀ (flag : Bool) (rest : List XferItem) (target : Option Snapshot),
      Player.Xfer_Owned_System ⟨XferMode.XFER_LOAD, XferItem.bool flag :: rest⟩ target
        = if flag = target.isSome then
            match target with
            | none => Except.ok (⟨XferMode.XFER_LOAD, rest⟩, none)
            | some content =>
              (Xfer.xferSnapshot ⟨XferMode.XFER_LOAD, rest⟩ content).map
                (fun r => (r.1, some r.2))
          else Except.error XferError.RELEASE_ASSERT) ∧
    (∀ (bonuses : Option BattlePlanBonuses) (plans0 plans1 plans2 : Int) (hunt : Bool)
        (rest : List XferItem) (l : Player),
      Player.Xfer_Battle_Plans version
          ⟨XferMode.XFER_LOAD,
            Player.Stored_Battle_Plans version bonuses plans0 plans1 plans2 hunt ++ rest⟩ l
        = Except.ok (⟨XferMode.XFER_LOAD, rest⟩,
            { l with m_battlePlanBonuses := bonuses,
                     m_activeBattlePlans0 := plans0,
                     m_activeBattlePlans1 := plans1,
                     m_activeBattlePlans2 := plans2,
                     m_unitsShouldHunt := if version < 6 then false else hunt })) :=
  ⟨Player.Xfer_Owned_Systems_save p, Player.Xfer_Battle_Plans_save version p,
    Player.Xfer_Owned_System_load, Player.Xfer_Battle_Plans_load version⟩
/-! ### The blocks of `Xfer_Snapshot` at any version -/

theorem Player.Xfer_Snapshot_eq_Body (env : Env) (xfer : Xfer) (p : Player) :
    Player.Xfer_Snapshot env xfer p =
      (xfer.xferVersion 8 8).bind (fun r => Player.Xfer_Body env r.2 r.1 p) := rfl

theorem Player.Sciences_round_trip (sciences : List ScienceType) :
    ∃ toks : List XferItem,
      (∀ out, Player.Save_Sciences sciences ⟨XferMode.XFER_SAVE, out⟩
        = Except.ok ⟨XferMode.XFER_SAVE, out ++ toks⟩) ∧
      (∀ rest (l : Player),
        Player.Load_Sciences sciences.length ⟨XferMode.XFER_LOAD, toks ++ rest⟩ l
          = Except.ok (⟨XferMode.XFER_LOAD, rest⟩,
              { l with m_sciences := l.m_sciences ++ sciences })) := by
  induction sciences with
  | nil =>
    exact ⟨[], fun out => by simp [Player.Save_Sciences],
      fun rest l => by simp [Player.Load_Sciences]⟩
  | cons science sciences ih =>
    obtain ⟨toks, hs, hl⟩ := ih
    refine ⟨XferItem.user [science] :: toks, ?_, ?_⟩
    · intro out
      simp [Player.Save_Sciences, Xfer.xferUser, hs]
    · intro rest l
      simp [Player.Load_Sciences, Xfer.xferUser, hl]

theorem Player.Xfer_Sciences_at (version : Nat) (s : Player)
    (hlen : version < 5 → s.m_sciences.length < 2 ^ 16) :
    ∃ toks : List XferItem,
      (∀ out, Player.Xfer_Sciences version ⟨XferMode.XFER_SAVE, out⟩ s
        = Except.ok (⟨XferMode.XFER_SAVE, out ++ toks⟩, s)) ∧
      (∀ rest (l : Player),
        Player.Xfer_Sciences version ⟨XferMode.XFER_LOAD, toks ++ rest⟩ l
          = Except.ok (⟨XferMode.XFER_LOAD, rest⟩,
              { l with m_sciences :=
                  if version < 5 then l.m_sciences ++ s.m_sciences else s.m_sciences })) := by
  by_cases hv : version < 5
  · obtain ⟨toks, hs, hl⟩ := Player.Sciences_round_trip s.m_sciences
    have hmod : s.m_sciences.length % 65536 = s.m_sciences.length :=
      Nat.mod_eq_of_lt (hlen hv)
    refine ⟨XferItem.unsignedShort s.m_sciences.length :: toks, ?_, ?_⟩
    · intro out
      simp [Player.Xfer_Sciences, Xfer.xferUnsignedShort, Xfer.Get_Mode, hs, hmod, hv]
    · intro rest l
      simp [Player.Xfer_Sciences, Xfer.xferUnsignedShort, Xfer.Get_Mode, hl, hv]
  · refine ⟨[XferItem.scienceVec s.m_sciences], ?_, ?_⟩
    · intro out
      simp [Player.Xfer_Sciences, Xfer.xferScienceVec, Xfer.Get_Mode, hv]
    · intro rest l
      simp [Player.Xfer_Sciences, Xfer.xferScienceVec, Xfer.Get_Mode, hv]

theorem Player.Xfer_Special_Power_Timers_at (version : Nat) (s : Player)
    (hlen : s.m_specialPowerReadyTimerList.length < 2 ^ 16) :
    ∃ toks : List XferItem,
      (∀ out, Player.Xfer_Special_Power_Timers version ⟨XferMode.XFER_SAVE, out⟩ s
        = Except.ok (⟨XferMode.XFER_SAVE, out ++ (if version ≤ 4 then [] else toks)⟩,
            { s with m_specialPowerReadyTimerList :=
                if version ≤ 4 then [] else s.m_specialPowerReadyTimerList })) ∧
      (∀ rest (l : Player), (4 < version → l.m_specialPowerReadyTimerList = []) →
        Player.Xfer_Special_Power_Timers version
            ⟨XferMode.XFER_LOAD, (if version ≤ 4 then [] else toks) ++ rest⟩ l
          = Except.ok (⟨XferMode.XFER_LOAD, rest⟩,
              { l with m_specialPowerReadyTimerList :=
                  if version ≤ 4 then [] else s.m_specialPowerReadyTimerList })) := by
  obtain ⟨toks, hs, hl⟩ := Player.Timers_round_trip s.m_specialPowerReadyTimerList
  have hmod : s.m_specialPowerReadyTimerList.length % 65536
      = s.m_specialPowerReadyTimerList.length := Nat.mod_eq_of_lt hlen
  refine ⟨XferItem.unsignedShort s.m_specialPowerReadyTimerList.length :: toks, ?_, ?_⟩
  · intro out
    by_cases hv : version ≤ 4
    · have hv2 : ¬ version > 4 := by omega
      simp [Player.Xfer_Special_Power_Timers, hv, hv2]
    · have hv2 : version > 4 := by omega
      simp [Player.Xfer_Special_Power_Timers, Xfer.xferUnsignedShort, Xfer.Get_Mode, hs, hmod,
        hv, hv2]
  · intro rest l hempty
    by_cases hv : version ≤ 4
    · have hv2 : ¬ version > 4 := by omega
      simp [Player.Xfer_Special_Power_Timers, hv, hv2]
    · have hv2 : version > 4 := by omega
      simp [Player.Xfer_Special_Power_Timers, Xfer.xferUnsignedShort, Xfer.Get_Mode, hl,
        hempty (by omega), Xfer.relassert, hv, hv2]
theorem Player.attacked_flags_decode (flags : List Bool) :
    List.map ((fun v : Int => decide (v ≠ 0)) ∘ fun b : Bool => if b = true then (1 : Int) else 0)
      flags = flags := by
  simpa using Player.attacked_flags_round_trip flags

theorem Player.Xfer_Rank_And_Relations_at (version : Nat) (s : Player)
    (hplayers : s.m_playerRelations.length < 2 ^ 16)
    (hteams : s.m_teamRelations.length < 2 ^ 16) :
    ∃ pre post : List XferItem,
      (∀ out, Player.Xfer_Rank_And_Relations version ⟨XferMode.XFER_SAVE, out⟩ s
        = Except.ok (⟨XferMode.XFER_SAVE,
              out ++ (pre ++ (Player.Stored_Modifier_And_Score_Flag version
                s.m_skillPointsModifier s.m_listInScoreScreen ++ post))⟩,
            { s with
              m_skillPointsModifier := if version < 2 then 1 else s.m_skillPointsModifier,
              m_listInScoreScreen := if version < 3 then true else s.m_listInScoreScreen })) ∧
      (∀ rest (l : Player), l.m_attackedByPlayer.length = s.m_attackedByPlayer.length →
        Player.Xfer_Rank_And_Relations version
            ⟨XferMode.XFER_LOAD,
              pre ++ (Player.Stored_Modifier_And_Score_Flag version
                s.m_skillPointsModifier s.m_listInScoreScreen ++ (post ++ rest))⟩ l
          = Except.ok (⟨XferMode.XFER_LOAD, rest⟩,
              { l with
                m_rankLevel := s.m_rankLevel, m_currentSkillPoints := s.m_currentSkillPoints,
                m_sciencePurchasePoints := s.m_sciencePurchasePoints,
                m_skillPointsNeededForNextRank := s.m_skillPointsNeededForNextRank,
                m_rankProgress := s.m_rankProgress,
                m_scienceGeneralName := s.m_scienceGeneralName,
                m_playerRelations :=
                  s.m_playerRelations.foldl (fun acc e => StdMap.insert acc e.1 e.2)
                    l.m_playerRelations,
                m_teamRelations :=
                  s.m_teamRelations.foldl (fun acc e => StdMap.insert acc e.1 e.2)
                    l.m_teamRelations,
                m_canBuildUnits := s.m_canBuildUnits, m_canBuildBase := s.m_canBuildBase,
                m_playerIsObserver := s.m_playerIsObserver,
                m_skillPointsModifier := if version < 2 then 1 else s.m_skillPointsModifier,
                m_listInScoreScreen := if version < 3 then true else s.m_listInScoreScreen,
                m_attackedByPlayer := s.m_attackedByPlayer,
                m_bountyCostToBuild := s.m_bountyCostToBuild,
                m_scoreKeeper := s.m_scoreKeeper })) := by
  obtain ⟨t1, hs1, hl1⟩ := PlayerRelationMap.Player_Relations_round_trip s.m_playerRelations hplayers
  obtain ⟨t2, hs2, hl2⟩ := TeamRelationMap.Team_Relations_round_trip s.m_teamRelations hteams
  refine ⟨[XferItem.int s.m_rankLevel, XferItem.int s.m_currentSkillPoints,
    XferItem.int s.m_sciencePurchasePoints, XferItem.int s.m_skillPointsNeededForNextRank,
    XferItem.int s.m_rankProgress, XferItem.unicodeString s.m_scienceGeneralName]
    ++ (t1 ++ (t2 ++ [XferItem.bool s.m_canBuildUnits, XferItem.bool s.m_canBuildBase,
      XferItem.bool s.m_playerIsObserver])),
    [XferItem.user (s.m_attackedByPlayer.map (fun b => if b then (1 : Int) else 0)),
      XferItem.real s.m_bountyCostToBuild, XferItem.snapshot s.m_scoreKeeper], ?_, ?_⟩
  · intro out
    by_cases h2 : version < 2 <;> by_cases h3 : version < 3 <;>
      simp only [Player.Xfer_Rank_And_Relations, Player.Stored_Modifier_And_Score_Flag,
        Xfer.xferInt, Xfer.xferUnicodeString, Xfer.xferBool, Xfer.xferReal, Xfer.xferUser,
        Xfer.xferSnapshot, hs1, hs2, h2, h3, Xfer.transfer_save, Except.bind_ok_eq,
        Except.pure_eq_ok, if_true, if_false, List.append_assoc, List.cons_append,
        List.nil_append, List.map_map, Player.attacked_flags_decode, List.append_nil]
  · intro rest l hatt
    by_cases h2 : version < 2 <;> by_cases h3 : version < 3 <;>
      simp only [Player.Xfer_Rank_And_Relations, Player.Stored_Modifier_And_Score_Flag,
        Xfer.xferInt, Xfer.xferUnicodeString, Xfer.xferBool, Xfer.xferReal, Xfer.xferUser,
        Xfer.xferSnapshot, hl1, hl2, h2, h3, hatt, Xfer.transfer_load, Except.bind_ok_eq,
        Except.pure_eq_ok, if_true, if_false, List.append_assoc, List.cons_append,
        List.nil_append, List.map_map, Player.attacked_flags_decode, List.append_nil,
        List.length_map]

theorem Player.Xfer_Upgrades_at (env : Env) (version : Nat) (s : Player)
    (hlen : s.m_upgradeList.length < 2 ^ 16)
    (hres : ∀ u ∈ s.m_upgradeList, (env.Find_Upgrade u.m_template.m_name).isSome = true) :
    ∃ toks : List XferItem,
      (∀ out, Player.Xfer_Upgrades env version ⟨XferMode.XFER_SAVE, out⟩ s
        = Except.ok (⟨XferMode.XFER_SAVE,
              out ++ (XferItem.snapshot [(s.m_money.m_money : Int)]
                :: XferItem.unsignedShort s.m_upgradeList.length
                :: (Player.Stored_Preorder_And_Availability version s.m_playerIsPreorder
                    s.m_disabledSciences s.m_hiddenSciences ++ toks))⟩, s)) ∧
      (∀ rest (l : Player), ∃ nodes effects,
        Player.Xfer_Upgrades env version
            ⟨XferMode.XFER_LOAD,
              XferItem.snapshot [(s.m_money.m_money : Int)]
                :: XferItem.unsignedShort s.m_upgradeList.length
                :: (Player.Stored_Preorder_And_Availability version s.m_playerIsPreorder
                    s.m_disabledSciences s.m_hiddenSciences ++ (toks ++ rest))⟩ l
          = Except.ok (⟨XferMode.XFER_LOAD, rest⟩,
              { l with
                m_money := { l.m_money with m_money := s.m_money.m_money },
                m_playerIsPreorder :=
                  if version ≥ 7 then s.m_playerIsPreorder else l.m_playerIsPreorder,
                m_disabledSciences :=
                  if version ≥ 8 then s.m_disabledSciences else l.m_disabledSciences,
                m_hiddenSciences :=
                  if version ≥ 8 then s.m_hiddenSciences else l.m_hiddenSciences,
                m_upgradeList := nodes, m_effects := effects })) := by
  obtain ⟨toks, hs, hl⟩ := Player.Upgrades_round_trip env s.m_upgradeList hres
  have hmod : s.m_upgradeList.length % 2 ^ 16 = s.m_upgradeList.length := Nat.mod_eq_of_lt hlen
  refine ⟨toks, ?_, ?_⟩
  · intro out
    by_cases h7 : version ≥ 7 <;> by_cases h8 : version ≥ 8 <;>
      simp only [Player.Xfer_Upgrades, Player.Stored_Preorder_And_Availability,
        Money.Xfer_Snapshot, Xfer.xferSnapshot, Xfer.xferUnsignedShort, Xfer.xferBool,
        Xfer.xferScienceVec, Xfer.Get_Mode, hs, hmod, h7, h8, Xfer.transfer_save,
        Except.bind_ok_eq, Except.pure_eq_ok, if_true, if_false, List.append_assoc,
        List.cons_append, List.nil_append, List.append_nil, Int.toNat_ofNat]
  · intro rest l
    obtain ⟨r, hr, nodes, effects, hframe⟩ := hl rest
      { l with
        m_money := { l.m_money with m_money := s.m_money.m_money },
        m_playerIsPreorder :=
          if version ≥ 7 then s.m_playerIsPreorder else l.m_playerIsPreorder,
        m_disabledSciences :=
          if version ≥ 8 then s.m_disabledSciences else l.m_disabledSciences,
        m_hiddenSciences :=
          if version ≥ 8 then s.m_hiddenSciences else l.m_hiddenSciences }
    refine ⟨nodes, effects, ?_⟩
    rw [hframe] at hr
    by_cases h7 : version ≥ 7 <;> by_cases h8 : version ≥ 8 <;>
      simp only [h7, h8, if_true, if_false] at hr <;>
      simp only [Player.Xfer_Upgrades, Player.Stored_Preorder_And_Availability,
        Money.Xfer_Snapshot, Xfer.xferSnapshot, Xfer.xferUnsignedShort, Xfer.xferBool,
        Xfer.xferScienceVec, Xfer.Get_Mode, hr, h7, h8, Xfer.transfer_load,
        Except.bind_ok_eq, Except.pure_eq_ok, if_true, if_false, List.append_assoc,
        List.cons_append, List.nil_append, List.append_nil, Int.toNat_ofNat, reduceCtorEq]
theorem Player.Save_Team_Prototypes_ids (protos : List TeamPrototype) :
    ∀ out, Player.Save_Team_Prototypes protos ⟨XferMode.XFER_SAVE, out⟩
      = Except.ok ⟨XferMode.XFER_SAVE,
          out ++ Player.Stored_Prototype_Ids (protos.map (fun pr => pr.m_id))⟩ := by
  induction protos with
  | nil => intro out; simp [Player.Save_Team_Prototypes, Player.Stored_Prototype_Ids]
  | cons pr protos ih =>
    intro out
    simp only [Player.Stored_Prototype_Ids] at ih
    simp [Player.Save_Team_Prototypes, Player.Stored_Prototype_Ids, Xfer.xferUser, ih]

theorem Player.Xfer_Team_Prototypes_save (env : Env) (s : Player)
    (hlen : s.m_playerTeamPrototypes.length < 2 ^ 16) (out : List XferItem) :
    Player.Xfer_Team_Prototypes env ⟨XferMode.XFER_SAVE, out⟩ s
      = Except.ok (⟨XferMode.XFER_SAVE,
            out ++ (XferItem.unsignedShort s.m_playerTeamPrototypes.length ::
              Player.Stored_Prototype_Ids (s.m_playerTeamPrototypes.map (fun pr => pr.m_id)))⟩,
          s) := by
  have hmod : s.m_playerTeamPrototypes.length % 65536 = s.m_playerTeamPrototypes.length :=
    Nat.mod_eq_of_lt hlen
  simp [Player.Xfer_Team_Prototypes, Xfer.xferUnsignedShort, Xfer.Get_Mode,
    Player.Save_Team_Prototypes_ids, hmod]

/-- Loading the prototype block: the list of the loading player is replaced by
the prototypes found for the stored ids, in stream order; an id that is not
found ends the load on a release assertion. -/
theorem Player.Xfer_Team_Prototypes_load (env : Env) (ids : List Nat) (rest : List XferItem)
    (p : Player) :
    Player.Xfer_Team_Prototypes env
        ⟨XferMode.XFER_LOAD,
          XferItem.unsignedShort ids.length :: (Player.Stored_Prototype_Ids ids ++ rest)⟩ p
      = match Player.Find_All_Team_Prototypes env ids with
        | some resolved =>
          Except.ok (⟨XferMode.XFER_LOAD, rest⟩, { p with m_playerTeamPrototypes := resolved })
        | none => Except.error XferError.RELEASE_ASSERT := by
  have h := Player.Load_Team_Prototypes_ids env ids rest { p with m_playerTeamPrototypes := [] }
  simp only [Player.Xfer_Team_Prototypes, Xfer.xferUnsignedShort, Xfer.Get_Mode,
    Xfer.transfer_load, Except.bind_ok_eq, reduceCtorEq, if_false, h]
  cases Player.Find_All_Team_Prototypes env ids with
  | none => rfl
  | some resolved => simp

theorem Player.Find_All_Team_Prototypes_some (env : Env) (protos : List TeamPrototype)
    (hres : ∀ pr ∈ protos, (env.Find_Team_Prototype_By_ID pr.m_id).isSome = true) :
    ∃ resolved,
      Player.Find_All_Team_Prototypes env (protos.map (fun pr => pr.m_id)) = some resolved := by
  induction protos with
  | nil => exact ⟨[], rfl⟩
  | cons pr protos ih =>
    obtain ⟨resolved, h⟩ := ih (fun x hx => hres x (List.mem_cons_of_mem _ hx))
    obtain ⟨found, hfound⟩ := Option.isSome_iff_exists.mp (hres pr (List.mem_cons_self _ _))
    exact ⟨found :: resolved, by simp [Player.Find_All_Team_Prototypes, hfound, h]⟩

/-! ### Loading a stream of any version -/

/-- Loading, at a version up to 8, the stream body that the routine writes at
that version for the player `s` succeeds on a loading player that passes the
assertions of the load, consumes the stream, and gives the version-gated
fields their default or their stored value; the team prototype list holds the
prototypes the factory finds for the stored ids, in their order. -/
theorem Player.Xfer_Snapshot_load_at (env : Env) (version : Nat) (s l : Player)
    (hv : version ≤ 8) (hsome : ∀ squad ∈ s.m_squads, squad.isSome = true)
    (hc : s.Counts_Fit) (hsc : version < 5 → s.m_sciences.length < 2 ^ 16)
    (hr : s.References_Resolve env) (hl : Player.Can_Load version s l) :
    ∃ (b1 b2 b3 b4 timers : List XferItem) (loaded : Player),
      (Player.Xfer_Body env version ⟨XferMode.XFER_SAVE, []⟩ s).map (fun r => r.1.m_stream)
        = Except.ok (Player.Stored_Body version s b1 b2 b3 b4 timers) ∧
      Player.Xfer_Snapshot env
          ⟨XferMode.XFER_LOAD,
            XferItem.version version :: Player.Stored_Body version s b1 b2 b3 b4 timers⟩ l
        = Except.ok (⟨XferMode.XFER_LOAD, []⟩, loaded) ∧
      loaded.m_skillPointsModifier = (if version < 2 then 1 else s.m_skillPointsModifier) ∧
      loaded.m_listInScoreScreen = (if version < 3 then true else s.m_listInScoreScreen) ∧
      loaded.m_specialPowerReadyTimerList
        = (if version ≤ 4 then [] else s.m_specialPowerReadyTimerList) ∧
      loaded.m_unitsShouldHunt = (if version < 6 then false else s.m_unitsShouldHunt) ∧
      loaded.m_playerIsPreorder
        = (if version ≥ 7 then s.m_playerIsPreorder else l.m_playerIsPreorder) ∧
      loaded.m_disabledSciences
        = (if version ≥ 8 then s.m_disabledSciences else l.m_disabledSciences) ∧
      loaded.m_hiddenSciences
        = (if version ≥ 8 then s.m_hiddenSciences else l.m_hiddenSciences) ∧
      Player.Find_All_Team_Prototypes env (s.m_playerTeamPrototypes.map (fun pr => pr.m_id))
        = some loaded.m_playerTeamPrototypes ∧
      loaded.m_buildListInfo = s.m_buildListInfo ∧
      loaded.m_kindOfPercentProductionChangeList = s.m_kindOfPercentProductionChangeList ∧
      ∃ (rest : List XferItem) (q : Player),
        Player.Xfer_Upgrades env version
            ⟨XferMode.XFER_LOAD, Player.Stored_Body version s b1 b2 b3 b4 timers⟩ l
          = Except.ok (⟨XferMode.XFER_LOAD, rest⟩, q) ∧
        loaded.m_upgradeList = q.m_upgradeList := by
  obtain ⟨hc1, hc2, hc3, hc4, hc5, hc6, hc7⟩ := hc
  obtain ⟨hr1, hr2⟩ := hr
  obtain ⟨c1, c2, c3, c4, c5, c6, c7, c8⟩ := hl
  obtain ⟨u, su, lu⟩ := Player.Xfer_Upgrades_at env version s hc1 hr1
  obtain ⟨t2, s2, l2⟩ := Player.Xfer_Radar_And_Masks_round_trip s
  have s3 := Player.Xfer_Team_Prototypes_save env s hc2
  obtain ⟨resolved, hfind⟩ := Player.Find_All_Team_Prototypes_some env s.m_playerTeamPrototypes hr2
  obtain ⟨t4, s4, l4⟩ := Player.Xfer_Build_List_round_trip s hc3
  obtain ⟨t5, s5, l5⟩ := Player.Xfer_Owned_Systems_round_trip s
  obtain ⟨t6, s6, l6⟩ := Player.Xfer_Default_Team_round_trip env s
  obtain ⟨t7, s7, l7⟩ := Player.Xfer_Sciences_at version s hsc
  obtain ⟨pre8, post8, s8, l8⟩ := Player.Xfer_Rank_And_Relations_at version s hc4 hc5
  obtain ⟨t9, s9, l9⟩ := Player.Xfer_Kind_Of_Changes_round_trip
    { s with
      m_skillPointsModifier := if version < 2 then 1 else s.m_skillPointsModifier,
      m_listInScoreScreen := if version < 3 then true else s.m_listInScoreScreen } hc6
  obtain ⟨t10, s10, l10⟩ := Player.Xfer_Special_Power_Timers_at version
    { s with
      m_skillPointsModifier := if version < 2 then 1 else s.m_skillPointsModifier,
      m_listInScoreScreen := if version < 3 then true else s.m_listInScoreScreen } hc7
  obtain ⟨t11, s11, l11⟩ := Player.Xfer_Squads_round_trip
    { s with
      m_skillPointsModifier := if version < 2 then 1 else s.m_skillPointsModifier,
      m_listInScoreScreen := if version < 3 then true else s.m_listInScoreScreen,
      m_specialPowerReadyTimerList :=
        if version ≤ 4 then [] else s.m_specialPowerReadyTimerList } hsome
  have s12 := Player.Xfer_Battle_Plans_save version
    { s with
      m_skillPointsModifier := if version < 2 then 1 else s.m_skillPointsModifier,
      m_listInScoreScreen := if version < 3 then true else s.m_listInScoreScreen,
      m_specialPowerReadyTimerList :=
        if version ≤ 4 then [] else s.m_specialPowerReadyTimerList }
  -- the stream that is left before each block of the load
  obtain ⟨st12, hst12⟩ : ∃ st, st = Player.Stored_Battle_Plans version s.m_battlePlanBonuses
      s.m_activeBattlePlans0 s.m_activeBattlePlans1 s.m_activeBattlePlans2 s.m_unitsShouldHunt
      ++ [] := ⟨_, rfl⟩
  obtain ⟨st11, hst11⟩ : ∃ st, st = t11 ++ st12 := ⟨_, rfl⟩
  obtain ⟨st10, hst10⟩ : ∃ st, st = (if version ≤ 4 then [] else t10) ++ st11 := ⟨_, rfl⟩
  obtain ⟨st9, hst9⟩ : ∃ st, st = t9 ++ st10 := ⟨_, rfl⟩
  obtain ⟨st8, hst8⟩ : ∃ st, st = pre8 ++ (Player.Stored_Modifier_And_Score_Flag version
      s.m_skillPointsModifier s.m_listInScoreScreen ++ (post8 ++ st9)) := ⟨_, rfl⟩
  obtain ⟨st7, hst7⟩ : ∃ st, st = t7 ++ st8 := ⟨_, rfl⟩
  obtain ⟨st6, hst6⟩ : ∃ st, st = t6 ++ st7 := ⟨_, rfl⟩
  obtain ⟨st5, hst5⟩ : ∃ st, st = t5 ++ st6 := ⟨_, rfl⟩
  obtain ⟨st4, hst4⟩ : ∃ st, st = t4 ++ st5 := ⟨_, rfl⟩
  obtain ⟨st3, hst3⟩ : ∃ st, st = XferItem.unsignedShort s.m_playerTeamPrototypes.length
      :: (Player.Stored_Prototype_Ids (s.m_playerTeamPrototypes.map (fun pr => pr.m_id))
        ++ st4) := ⟨_, rfl⟩
  obtain ⟨st2, hst2⟩ : ∃ st, st = t2 ++ st3 := ⟨_, rfl⟩
  -- the states of the load after each block
  obtain ⟨nodes, effects, e1⟩ := lu st2 l
  generalize hp1 : ({ l with
      m_money := { l.m_money with m_money := s.m_money.m_money },
      m_playerIsPreorder := if version ≥ 7 then s.m_playerIsPreorder else l.m_playerIsPreorder,
      m_disabledSciences := if version ≥ 8 then s.m_disabledSciences else l.m_disabledSciences,
      m_hiddenSciences := if version ≥ 8 then s.m_hiddenSciences else l.m_hiddenSciences,
      m_upgradeList := nodes, m_effects := effects } : Player) = p1 at e1
  have e2 := l2 st3 p1
  rw [← hst2] at e2
  generalize hp2 : ({ p1 with
      m_radarCount := s.m_radarCount, m_playerIsDead := s.m_playerIsDead,
      m_disableProofRadarCount := s.m_disableProofRadarCount,
      m_radarDisabled := s.m_radarDisabled,
      m_upgradesInProgress := s.m_upgradesInProgress,
      m_upgradesCompleted := s.m_upgradesCompleted,
      m_energy := s.m_energy } : Player) = p2 at e2
  have e3 := Player.Xfer_Team_Prototypes_load env
    (s.m_playerTeamPrototypes.map (fun pr => pr.m_id)) st4 p2
  rw [hfind, List.length_map, ← hst3] at e3
  simp only at e3
  generalize hp3 : ({ p2 with m_playerTeamPrototypes := resolved } : Player) = p3 at e3
  have e4 := l4 st5 p3
  rw [← hst4] at e4
  generalize hp4 : ({ p3 with m_buildListInfo := s.m_buildListInfo } : Player) = p4 at e4
  have e5 := l5 st6 p4
    (by rw [← hp4, ← hp3, ← hp2, ← hp1]; exact c1)
    (by rw [← hp4, ← hp3, ← hp2, ← hp1]; exact c2)
    (by rw [← hp4, ← hp3, ← hp2, ← hp1]; exact c3)
  rw [← hst5] at e5
  generalize hp5 : ({ p4 with
      m_ai := s.m_ai,
      m_resourceGatheringManager := s.m_resourceGatheringManager,
      m_tunnelSystem := s.m_tunnelSystem } : Player) = p5 at e5
  obtain ⟨team, e6⟩ := l6 st7 p5
  rw [← hst6] at e6
  generalize hp6 : ({ p5 with m_defaultTeam := team } : Player) = p6 at e6
  have e7 := l7 st8 p6
  rw [← hst7] at e7
  generalize hp7 : ({ p6 with m_sciences :=
      if version < 5 then p6.m_sciences ++ s.m_sciences else s.m_sciences } : Player) = p7 at e7
  have e8 := l8 st9 p7
    (by rw [← hp7, ← hp6, ← hp5, ← hp4, ← hp3, ← hp2, ← hp1]; exact c8)
  rw [← hst8] at e8
  generalize hp8 : ({ p7 with
      m_rankLevel := s.m_rankLevel, m_currentSkillPoints := s.m_currentSkillPoints,
      m_sciencePurchasePoints := s.m_sciencePurchasePoints,
      m_skillPointsNeededForNextRank := s.m_skillPointsNeededForNextRank,
      m_rankProgress := s.m_rankProgress,
      m_scienceGeneralName := s.m_scienceGeneralName,
      m_playerRelations :=
        s.m_playerRelations.foldl (fun acc e => StdMap.insert acc e.1 e.2) p7.m_playerRelations,
      m_teamRelations :=
        s.m_teamRelations.foldl (fun acc e => StdMap.insert acc e.1 e.2) p7.m_teamRelations,
      m_canBuildUnits := s.m_canBuildUnits, m_canBuildBase := s.m_canBuildBase,
      m_playerIsObserver := s.m_playerIsObserver,
      m_skillPointsModifier := if version < 2 then 1 else s.m_skillPointsModifier,
      m_listInScoreScreen := if version < 3 then true else s.m_listInScoreScreen,
      m_attackedByPlayer := s.m_attackedByPlayer,
      m_bountyCostToBuild := s.m_bountyCostToBuild,
      m_scoreKeeper := s.m_scoreKeeper } : Player) = p8 at e8
  have e9 := l9 st10 p8
    (by rw [← hp8, ← hp7, ← hp6, ← hp5, ← hp4, ← hp3, ← hp2, ← hp1]; exact c4)
  rw [← hst9] at e9
  simp only at e9
  generalize hp9 : ({ p8 with
      m_kindOfPercentProductionChangeList := s.m_kindOfPercentProductionChangeList } : Player)
    = p9 at e9
  have e10 := l10 st11 p9
    (by rw [← hp9, ← hp8, ← hp7, ← hp6, ← hp5, ← hp4, ← hp3, ← hp2, ← hp1]; exact c5)
  rw [← hst10] at e10
  simp only at e10
  generalize hp10 : ({ p9 with
      m_specialPowerReadyTimerList :=
        if version ≤ 4 then [] else s.m_specialPowerReadyTimerList } : Player) = p10 at e10
  have e11 := l11 st12 p10
    (by rw [← hp10, ← hp9, ← hp8, ← hp7, ← hp6, ← hp5, ← hp4, ← hp3, ← hp2, ← hp1]; exact c6)
    (by rw [← hp10, ← hp9, ← hp8, ← hp7, ← hp6, ← hp5, ← hp4, ← hp3, ← hp2, ← hp1]; exact c7)
  rw [← hst11] at e11
  simp only at e11
  generalize hp11 : ({ p10 with
      m_squads := s.m_squads,
      m_aiSquad := if s.m_aiSquad.isSome then s.m_aiSquad else p10.m_aiSquad } : Player)
    = p11 at e11
  have e12 := Player.Xfer_Battle_Plans_load version s.m_battlePlanBonuses
    s.m_activeBattlePlans0 s.m_activeBattlePlans1 s.m_activeBattlePlans2 s.m_unitsShouldHunt
    [] p11
  rw [← hst12] at e12
  generalize hp12 : ({ p11 with
      m_battlePlanBonuses := s.m_battlePlanBonuses,
      m_activeBattlePlans0 := s.m_activeBattlePlans0,
      m_activeBattlePlans1 := s.m_activeBattlePlans1,
      m_activeBattlePlans2 := s.m_activeBattlePlans2,
      m_unitsShouldHunt := if version < 6 then false else s.m_unitsShouldHunt } : Player)
    = p12 at e12
  obtain ⟨b1, hb1⟩ : ∃ b, b = [XferItem.snapshot [(s.m_money.m_money : Int)],
      XferItem.unsignedShort s.m_upgradeList.length] := ⟨_, rfl⟩
  obtain ⟨b2, hb2⟩ : ∃ b, b = u ++ (t2 ++ (XferItem.unsignedShort s.m_playerTeamPrototypes.length
      :: (Player.Stored_Prototype_Ids (s.m_playerTeamPrototypes.map (fun pr => pr.m_id))
        ++ (t4 ++ (t5 ++ (t6 ++ (t7 ++ pre8))))))) := ⟨_, rfl⟩
  obtain ⟨b3, hb3⟩ : ∃ b, b = post8 ++ t9 := ⟨_, rfl⟩
  obtain ⟨b4, hb4⟩ : ∃ b, b = t11 ++ (Player.Stored_Bonuses s.m_battlePlanBonuses ++
      [XferItem.int s.m_activeBattlePlans0, XferItem.int s.m_activeBattlePlans1,
        XferItem.int s.m_activeBattlePlans2]) := ⟨_, rfl⟩
  have hbody : Player.Stored_Body version s b1 b2 b3 b4 t10
      = XferItem.snapshot [(s.m_money.m_money : Int)]
          :: XferItem.unsignedShort s.m_upgradeList.length
          :: (Player.Stored_Preorder_And_Availability version s.m_playerIsPreorder
              s.m_disabledSciences s.m_hiddenSciences ++ (u ++ st2)) := by
    rw [hb1, hb2, hb3, hb4, hst2, hst3, hst4, hst5, hst6, hst7, hst8, hst9, hst10, hst11, hst12]
    simp only [Player.Stored_Body, Player.Stored_Battle_Plans, List.append_assoc,
      List.cons_append, List.nil_append, List.append_nil]
  refine ⟨b1, b2, b3, b4, t10, p12, ?_, ?_, ?_⟩
  · rw [hbody, hst2, hst3, hst4, hst5, hst6, hst7, hst8, hst9, hst10, hst11, hst12]
    simp only [Player.Xfer_Body, su, s2, s3, s4, s5, s6, s7, s8, s9, s10, s11, s12,
      Except.bind_ok_eq, Except.map, List.nil_append, List.append_assoc, List.cons_append,
      List.append_nil]
  · rw [hbody]
    have hv8 : ¬ version > 8 := by omega
    simp only [Player.Xfer_Snapshot, Xfer.xferVersion, Xfer.transfer_load, Except.bind_ok_eq,
      hv8, if_false, e1, e2, e3, e4, e5, e6, e7, e8, e9, e10, e11]
    exact e12
  · refine ⟨?_, ?_, ?_, ?_, ?_, ?_, ?_, ?_, ?_, ?_, st2, p1, by rw [hbody]; exact e1, ?_⟩
    all_goals rw [← hp12, ← hp11, ← hp10, ← hp9, ← hp8, ← hp7, ← hp6, ← hp5, ← hp4, ← hp3,
      ← hp2, ← hp1]
    all_goals first | rfl | exact hfind
/-- The upgrade loop of the load succeeds on stored upgrades whose names the
upgrade centre knows. -/
theorem Player.Load_Upgrades_stored (env : Env) (entries : List (String × Int)) :
    ∀ (rest : List XferItem) (p : Player),
      (∀ e ∈ entries, (env.Find_Upgrade e.1).isSome = true ∧
        (UpgradeStatusType.ofInt e.2).isSome = true) →
      ∃ r, Player.Load_Upgrades env entries.length
          ⟨XferMode.XFER_LOAD, Player.Stored_Upgrades entries ++ rest⟩ p
        = Except.ok (⟨XferMode.XFER_LOAD, rest⟩, r) := by
  induction entries with
  | nil =>
    intro rest p _
    exact ⟨p, by simp [Player.Load_Upgrades, Player.Stored_Upgrades]⟩
  | cons e entries ih =>
    intro rest p hres
    obtain ⟨ename, code⟩ := e
    have he := hres (ename, code) (List.mem_cons_self _ _)
    obtain ⟨t, ht⟩ := Option.isSome_iff_exists.mp he.1
    obtain ⟨status, hstatus⟩ := Option.isSome_iff_exists.mp he.2
    simp at ht hstatus
    simp only [Player.Load_Upgrades, Player.Stored_Upgrades, Xfer.xferAsciiString,
      Upgrade.Xfer_Snapshot, Xfer.xferSnapshot, ht, hstatus, List.length_cons,
      List.cons_append, Xfer.transfer_load, Except.bind_ok_eq, Except.pure_eq_ok]
    exact ih rest _ (fun x hx => hres x (List.mem_cons_of_mem _ hx))

/-- The first block of the load on explicit stream items: money, upgrade
count, the version-gated items and the stored upgrades. -/
theorem Player.Xfer_Upgrades_load_stored (env : Env) (version : Nat) (amount : Int)
    (count : Nat) (preorder : Bool) (disabled hidden : List ScienceType)
    (rest : List XferItem) (p : Player) :
    ∃ q : Player,
      Player.Xfer_Upgrades env version
          ⟨XferMode.XFER_LOAD,
            XferItem.snapshot [amount] :: XferItem.unsignedShort count ::
              (Player.Stored_Preorder_And_Availability version preorder disabled hidden
                ++ rest)⟩ p
        = Player.Load_Upgrades env count ⟨XferMode.XFER_LOAD, rest⟩ q := by
  by_cases h7 : version ≥ 7 <;> by_cases h8 : version ≥ 8 <;>
    simp only [Player.Xfer_Upgrades, Player.Stored_Preorder_And_Availability,
      Money.Xfer_Snapshot, Xfer.xferSnapshot, Xfer.xferUnsignedShort, Xfer.xferBool,
      Xfer.xferScienceVec, Xfer.Get_Mode, h7, h8, Xfer.transfer_load, Except.bind_ok_eq,
      Except.pure_eq_ok, if_true, if_false, List.append_assoc, List.cons_append,
      List.nil_append, reduceCtorEq] <;>
    exact ⟨_, rfl⟩
/-- C20: on load, a stored upgrade name that the upgrade centre does not know
ends the whole load on the release assertion, wherever it stands among the
stored upgrades; so does a stored team prototype id that the team factory does
not know. The prototype block replaces the list of the loading player by the
prototypes found for the stored ids, in stream order; and after the load of a
saved stream the team prototype list is exactly the list of the prototypes the
factory finds for the ids of the saved list, in their order. -/
theorem C20_unresolved_reference_aborts (env : Env) :
    (∀ (version : Nat) (amount : Int) (count : Nat) (preorder : Bool)
        (disabled hidden : List ScienceType) (entries : List (String × Int)) (name : String)
        (rest : List XferItem) (p : Player),
      version ≤ 8 →
      (∀ e ∈ entries, (env.Find_Upgrade e.1).isSome = true ∧
        (UpgradeStatusType.ofInt e.2).isSome = true) →
      env.Find_Upgrade name = none → entries.length < count →
      Player.Xfer_Snapshot env
          ⟨XferMode.XFER_LOAD,
            XferItem.version version :: XferItem.snapshot [amount] ::
              XferItem.unsignedShort count ::
                (Player.Stored_Preorder_And_Availability version preorder disabled hidden ++
                  (Player.Stored_Upgrades entries ++ XferItem.asciiString name :: rest))⟩ p
        = Except.error XferError.RELEASE_ASSERT) ∧
    (∀ (ids : List Nat) (rest : List XferItem) (p : Player),
      Player.Xfer_Team_Prototypes env
          ⟨XferMode.XFER_LOAD,
            XferItem.unsignedShort ids.length :: (Player.Stored_Prototype_Ids ids ++ rest)⟩ p
        = match Player.Find_All_Team_Prototypes env ids with
          | some resolved =>
            Except.ok (⟨XferMode.XFER_LOAD, rest⟩,
              { p with m_playerTeamPrototypes := resolved })
          | none => Except.error XferError.RELEASE_ASSERT) ∧
    (∀ (version : Nat) (amount : Int) (preorder : Bool) (disabled hidden : List ScienceType)
        (entries : List (String × Int)) (radarCount proofCount : Int) (dead radarDisabled : Bool)
        (inProgress completed : BitFlags) (energy : Snapshot) (ids : List Nat)
        (rest : List XferItem) (p : Player),
      version ≤ 8 →
      (∀ e ∈ entries, (env.Find_Upgrade e.1).isSome = true ∧
        (UpgradeStatusType.ofInt e.2).isSome = true) →
      Player.Find_All_Team_Prototypes env ids = none →
      Player.Xfer_Snapshot env
          ⟨XferMode.XFER_LOAD,
            XferItem.version version :: XferItem.snapshot [amount] ::
              XferItem.unsignedShort entries.length ::
                (Player.Stored_Preorder_And_Availability version preorder disabled hidden ++
                  (Player.Stored_Upgrades entries ++
                    (XferItem.int radarCount :: XferItem.bool dead :: XferItem.int proofCount ::
                      XferItem.bool radarDisabled :: XferItem.upgradeMask inProgress ::
                      XferItem.upgradeMask completed :: XferItem.snapshot energy ::
                      XferItem.unsignedShort ids.length ::
                        (Player.Stored_Prototype_Ids ids ++ rest))))⟩ p
        = Except.error XferError.RELEASE_ASSERT) ∧
    (∀ (version : Nat) (s l : Player),
      version ≤ 8 → (∀ squad ∈ s.m_squads, squad.isSome = true) → s.Counts_Fit →
      (version < 5 → s.m_sciences.length < 2 ^ 16) → s.References_Resolve env →
      Player.Can_Load version s l →
      ∃ (b1 b2 b3 b4 timers : List XferItem) (loaded : Player),
        (Player.Xfer_Body env version ⟨XferMode.XFER_SAVE, []⟩ s).map (fun r => r.1.m_stream)
          = Except.ok (Player.Stored_Body version s b1 b2 b3 b4 timers) ∧
        Player.Xfer_Snapshot env
            ⟨XferMode.XFER_LOAD,
              XferItem.version version :: Player.Stored_Body version s b1 b2 b3 b4 timers⟩ l
          = Except.ok (⟨XferMode.XFER_LOAD, []⟩, loaded) ∧
        Player.Find_All_Team_Prototypes env (s.m_playerTeamPrototypes.map (fun pr => pr.m_id))
          = some loaded.m_playerTeamPrototypes) := by
  refine ⟨?_, Player.Xfer_Team_Prototypes_load env, ?_, ?_⟩
  · intro version amount count preorder disabled hidden entries name rest p hv hres hname hlen
    have hv8 : ¬ version > 8 := by omega
    obtain ⟨q, hq⟩ := Player.Xfer_Upgrades_load_stored env version amount count preorder
      disabled hidden (Player.Stored_Upgrades entries ++ XferItem.asciiString name :: rest) p
    simp only [Player.Xfer_Snapshot, Xfer.xferVersion, Xfer.transfer_load, Except.bind_ok_eq,
      hv8, if_false, hq,
      Player.Load_Upgrades_unresolved env name hname entries count rest q hres hlen]
    rfl
  · intro version amount preorder disabled hidden entries radarCount proofCount dead
      radarDisabled inProgress completed energy ids rest p hv hres hnone
    have hv8 : ¬ version > 8 := by omega
    obtain ⟨q, hq⟩ := Player.Xfer_Upgrades_load_stored env version amount entries.length
      preorder disabled hidden
      (Player.Stored_Upgrades entries ++
        (XferItem.int radarCount :: XferItem.bool dead :: XferItem.int proofCount ::
          XferItem.bool radarDisabled :: XferItem.upgradeMask inProgress ::
          XferItem.upgradeMask completed :: XferItem.snapshot energy ::
          XferItem.unsignedShort ids.length :: (Player.Stored_Prototype_Ids ids ++ rest))) p
    obtain ⟨r, hr⟩ := Player.Load_Upgrades_stored env entries
      (XferItem.int radarCount :: XferItem.bool dead :: XferItem.int proofCount ::
        XferItem.bool radarDisabled :: XferItem.upgradeMask inProgress ::
        XferItem.upgradeMask completed :: XferItem.snapshot energy ::
        XferItem.unsignedShort ids.length :: (Player.Stored_Prototype_Ids ids ++ rest)) q hres
    have hproto := Player.Xfer_Team_Prototypes_load env ids rest
    simp only [hnone] at hproto
    simp only [Player.Xfer_Snapshot, Xfer.xferVersion, Xfer.transfer_load, Except.bind_ok_eq,
      hv8, if_false, hq, hr, Player.Xfer_Radar_And_Masks, Xfer.xferInt, Xfer.xferBool,
      Xfer.xferUpgradeMask, Xfer.xferSnapshot, Except.pure_eq_ok, hproto]
    rfl
  · intro version s l hv hsome hc hsc hr hl
    obtain ⟨b1, b2, b3, b4, timers, loaded, h1, h2, _, _, _, _, _, _, _, h10, _⟩ :=
      Player.Xfer_Snapshot_load_at env version s l hv hsome hc hsc hr hl
    exact ⟨b1, b2, b3, b4, timers, loaded, h1, h2, h10⟩

/-- C20 at concrete inputs, with an upgrade centre that knows the upgrades A
and B and a team factory that knows the prototypes 3 and 4: the unknown upgrade
name C after the stored upgrade A, and the unknown prototype id 5 after the
stored id 3, end the load on the release assertion; the stored ids 4 and 3 load
as the prototypes 4 and 3 over the list of a player that held others; and the
stream saved from a player with the prototypes 4 and 3 loads with this list. -/
theorem C20_unresolved_reference_aborts_witness :
    Player.Xfer_Snapshot envWithPrototypes
        ⟨XferMode.XFER_LOAD,
          XferItem.version 8 :: XferItem.snapshot [0] :: XferItem.unsignedShort 2 ::
            (Player.Stored_Preorder_And_Availability 8 false [] [] ++
              (Player.Stored_Upgrades [("A", 2)] ++ XferItem.asciiString "C" :: []))⟩
        playerFresh
      = Except.error XferError.RELEASE_ASSERT ∧
    Player.Xfer_Team_Prototypes envWithPrototypes
        ⟨XferMode.XFER_LOAD,
          XferItem.unsignedShort 2 :: (Player.Stored_Prototype_Ids [4, 3] ++ [])⟩
        playerWithPrototypes
      = Except.ok (⟨XferMode.XFER_LOAD, []⟩,
          { playerWithPrototypes with m_playerTeamPrototypes := [prototypeFour, prototypeThree] }) ∧
    Player.Xfer_Snapshot envWithPrototypes
        ⟨XferMode.XFER_LOAD,
          XferItem.version 8 :: XferItem.snapshot [0] :: XferItem.unsignedShort 1 ::
            (Player.Stored_Preorder_And_Availability 8 false [] [] ++
              (Player.Stored_Upgrades [("A", 2)] ++
                (XferItem.int 0 :: XferItem.bool false :: XferItem.int 0 ::
                  XferItem.bool false :: XferItem.upgradeMask 0 ::
                  XferItem.upgradeMask 1 :: XferItem.snapshot [] ::
                  XferItem.unsignedShort 2 :: (Player.Stored_Prototype_Ids [3, 5] ++ []))))⟩
        playerFresh
      = Except.error XferError.RELEASE_ASSERT ∧
    ∃ (b1 b2 b3 b4 timers : List XferItem) (loaded : Player),
      Player.Xfer_Snapshot envWithPrototypes
          ⟨XferMode.XFER_LOAD,
            XferItem.version 8 ::
              Player.Stored_Body 8 playerWithPrototypes b1 b2 b3 b4 timers⟩ playerFresh
        = Except.ok (⟨XferMode.XFER_LOAD, []⟩, loaded) ∧
      loaded.m_playerTeamPrototypes = [prototypeFour, prototypeThree] := by
  have h := C20_unresolved_reference_aborts envWithPrototypes
  refine ⟨?_, ?_, ?_, ?_⟩
  · exact h.1 8 0 2 false [] [] [("A", 2)] "C" [] playerFresh (by decide) (by decide)
      (by decide) (by decide)
  · exact h.2.1 [4, 3] [] playerWithPrototypes
  · exact h.2.2.1 8 0 false [] [] [("A", 2)] 0 0 false false 0 1 [] [3, 5] [] playerFresh
      (by decide) (by decide) (by decide)
  · obtain ⟨b1, b2, b3, b4, timers, loaded, _, h2, h3⟩ :=
      h.2.2.2 8 playerWithPrototypes playerFresh (by decide) (by decide)
        (by unfold Player.Counts_Fit; decide) (by decide)
        (by unfold Player.References_Resolve; decide) (by unfold Player.Can_Load; decide)
    refine ⟨b1, b2, b3, b4, timers, loaded, h2, ?_⟩
    have h4 : Player.Find_All_Team_Prototypes envWithPrototypes
        (playerWithPrototypes.m_playerTeamPrototypes.map (fun pr => pr.m_id))
        = some [prototypeFour, prototypeThree] := by decide
    rw [h4] at h3
    exact (Option.some.inj h3).symm
/-- C11: version gating on load. The stream of version `version` (at most 8)
for a saved player `s` is the version tag followed by the body that the
routine writes when its `version` variable has that value; in it the modifier
item is missing below version 2, the score screen flag below version 3, the
timer section up to version 4, the hunt flag below version 6, the preorder flag
below version 7 and the availability vectors below version 8. Loading it into a
player that passes the assertions of the load succeeds and consumes exactly
this stream; afterwards the skill point modifier is 1 below version 2, the
score screen flag is true below version 3, the timer list is empty up to
version 4 (whatever the loading player held), the hunt flag is false below
version 6, the preorder flag and the availability vectors of the loading
player are untouched below version 7 and 8; from its threshold on each field
has the stored value. Up to version 4 the timer block transfers nothing: it
leaves the stream as it is and only empties the list. -/
theorem C11_version_gating (env : Env) (version : Nat) (s l : Player)
    (hv : version ≤ 8) (hsome : ∀ squad ∈ s.m_squads, squad.isSome = true)
    (hc : s.Counts_Fit) (hsc : version < 5 → s.m_sciences.length < 2 ^ 16)
    (hr : s.References_Resolve env) (hl : Player.Can_Load version s l) :
    (∃ (b1 b2 b3 b4 timers : List XferItem) (loaded : Player),
      (Player.Xfer_Body env version ⟨XferMode.XFER_SAVE, []⟩ s).map (fun r => r.1.m_stream)
        = Except.ok (Player.Stored_Body version s b1 b2 b3 b4 timers) ∧
      Player.Xfer_Snapshot env
          ⟨XferMode.XFER_LOAD,
            XferItem.version version :: Player.Stored_Body version s b1 b2 b3 b4 timers⟩ l
        = Except.ok (⟨XferMode.XFER_LOAD, []⟩, loaded) ∧
      loaded.m_skillPointsModifier = (if version < 2 then 1 else s.m_skillPointsModifier) ∧
      loaded.m_listInScoreScreen = (if version < 3 then true else s.m_listInScoreScreen) ∧
      loaded.m_specialPowerReadyTimerList
        = (if version ≤ 4 then [] else s.m_specialPowerReadyTimerList) ∧
      loaded.m_unitsShouldHunt = (if version < 6 then false else s.m_unitsShouldHunt) ∧
      loaded.m_playerIsPreorder
        = (if version ≥ 7 then s.m_playerIsPreorder else l.m_playerIsPreorder) ∧
      loaded.m_disabledSciences
        = (if version ≥ 8 then s.m_disabledSciences else l.m_disabledSciences) ∧
      loaded.m_hiddenSciences
        = (if version ≥ 8 then s.m_hiddenSciences else l.m_hiddenSciences)) ∧
    (version ≤ 4 → ∀ (xfer : Xfer) (p : Player),
      Player.Xfer_Special_Power_Timers version xfer p
        = Except.ok (xfer, { p with m_specialPowerReadyTimerList := [] })) := by
  constructor
  · obtain ⟨b1, b2, b3, b4, timers, loaded, h1, h2, h3, h4, h5, h6, h7, h8, h9, _⟩ :=
      Player.Xfer_Snapshot_load_at env version s l hv hsome hc hsc hr hl
    exact ⟨b1, b2, b3, b4, timers, loaded, h1, h2, h3, h4, h5, h6, h7, h8, h9⟩
  · intro h4 xfer p
    have h : ¬ version > 4 := by omega
    simp only [Player.Xfer_Special_Power_Timers, h, if_false]
    rfl

/-- C11 at a concrete input: the version-4 stream of a saved player with a
pending timer, a set hunt flag, a set preorder flag and a disabled science,
loaded into a fresh player that holds a timer: the timer list is empty, the
hunt flag false, the preorder flag and the disabled sciences those of the
loading player, the score screen flag the stored one. The same on the stream
written out item by item. -/
theorem C11_version_gating_witness :
    (∃ (b1 b2 b3 b4 timers : List XferItem) (loaded : Player),
      Player.Xfer_Snapshot envWithUpgrades
          ⟨XferMode.XFER_LOAD,
            XferItem.version 4 :: Player.Stored_Body 4 playerOldSave b1 b2 b3 b4 timers⟩
          playerHoldingTimer
        = Except.ok (⟨XferMode.XFER_LOAD, []⟩, loaded) ∧
      loaded.m_specialPowerReadyTimerList = [] ∧
      loaded.m_unitsShouldHunt = false ∧
      loaded.m_listInScoreScreen = false ∧
      loaded.m_playerIsPreorder = false ∧
      loaded.m_disabledSciences = []) ∧
    (Player.Xfer_Snapshot envWithUpgrades ⟨XferMode.XFER_LOAD, streamVersionFour⟩
        playerHoldingTimer).map
      (fun r => (r.1.m_stream, r.2.m_specialPowerReadyTimerList, r.2.m_unitsShouldHunt,
        r.2.m_listInScoreScreen, r.2.m_playerIsPreorder, r.2.m_disabledSciences))
      = Except.ok ([], [], false, false, false, []) := by
  constructor
  · obtain ⟨b1, b2, b3, b4, timers, loaded, _, h2, _, h4, h5, h6, h7, h8, _⟩ :=
      (C11_version_gating envWithUpgrades 4 playerOldSave playerHoldingTimer (by decide)
        (by decide) (by unfold Player.Counts_Fit; decide) (fun _ => by decide)
        (by unfold Player.References_Resolve; decide)
        (by unfold Player.Can_Load; decide)).1
    exact ⟨b1, b2, b3, b4, timers, loaded, h2, h5, h6, h4, h7, h8⟩
  · rfl

/-! ### The state after `Reset_Rank` and `Init` -/

theorem Player.Reset_Rank_Fields_values (env : Env) (p : Player) :
    (Player.Reset_Rank_Fields env p).m_rankLevel = 1 ∧
    (Player.Reset_Rank_Fields env p).m_currentSkillPoints = 0 ∧
    (Player.Reset_Rank_Fields env p).m_rankProgress = 0 ∧
    (Player.Reset_Rank_Fields env p).m_skillPointsNeededForNextRank
      = (match env.Get_Rank_Info 2 with
         | some next_rank_info => next_rank_info.m_skillPointsNeeded
         | none => 2 ^ 31 - 1) ∧
    (Player.Reset_Rank_Fields env p).m_sciencePurchasePoints
      = (match env.Get_Rank_Info 1 with
         | some cur_rank_info =>
           Int32_Wrap
             ((match p.m_playerTemplate with
               | some pt => pt.m_intrinsicSciencePurchasePoints
               | none => 0) + cur_rank_info.m_sciencePurchasePointsGranted)
         | none =>
           (match p.m_playerTemplate with
            | some pt => pt.m_intrinsicSciencePurchasePoints
            | none => 0)) ∧
    (Player.Reset_Rank_Fields env p).m_playerTemplate = p.m_playerTemplate ∧
    (Player.Reset_Rank_Fields env p).m_playerIndex = p.m_playerIndex := by
  cases h2 : env.Get_Rank_Info 2 <;> cases h1 : env.Get_Rank_Info 1 <;>
    cases ht : p.m_playerTemplate <;> cases hg : env.m_gameText <;>
    simp [Player.Reset_Rank_Fields, h1, h2, ht, hg]

theorem Int32_Wrap_of_range (x : Int) (h1 : -(2 ^ 31) ≤ x) (h2 : x < 2 ^ 31) :
    Int32_Wrap x = x := by
  have e31 : (2 : Int) ^ 31 = 2147483648 := by norm_num
  have e32 : (2 : Int) ^ 32 = 4294967296 := by norm_num
  unfold Int32_Wrap
  rw [e31] at h1 h2 ⊢
  rw [e32]
  omega

/-- The rank fields after `Reset_Rank`. -/
theorem Player.Reset_Rank_values (env : Env) (p : Player) :
    (Player.Reset_Rank env p).m_rankLevel = 1 ∧
    (Player.Reset_Rank env p).m_currentSkillPoints = 0 ∧
    (Player.Reset_Rank env p).m_rankProgress = 0 ∧
    (Player.Reset_Rank env p).m_skillPointsNeededForNextRank
      = (match env.Get_Rank_Info 2 with
         | some next_rank_info => next_rank_info.m_skillPointsNeeded
         | none => 2 ^ 31 - 1) ∧
    (Player.Reset_Rank env p).m_sciencePurchasePoints
      = (match env.Get_Rank_Info 1 with
         | some cur_rank_info =>
           Int32_Wrap
             ((match p.m_playerTemplate with
               | some pt => pt.m_intrinsicSciencePurchasePoints
               | none => 0) + cur_rank_info.m_sciencePurchasePointsGranted)
         | none =>
           (match p.m_playerTemplate with
            | some pt => pt.m_intrinsicSciencePurchasePoints
            | none => 0)) := by
  obtain ⟨h1, h2, h3, h4, h5, _, _⟩ := Player.Reset_Rank_Fields_values env p
  obtain ⟨sc, pr, ef, h⟩ := Player.Reset_Sciences_frame env (Player.Reset_Rank_Fields env p)
  unfold Player.Reset_Rank
  rw [h]
  exact ⟨h1, h2, h3, h4, h5⟩

/-- C25 (as stated, refuted): the purchase points are a 32-bit int and the
grant of the rank-1 info is added to them in 32-bit arithmetic. With a template
of 2147483647 intrinsic purchase points and a rank-1 info that grants 1 point,
`Reset_Rank` leaves -2147483648 purchase points, not the sum 2147483648. -/
theorem C25_points_overflow_counterexample :
    playerMaxPoints.m_playerTemplate = some templateMaxPoints ∧
    templateMaxPoints.m_intrinsicSciencePurchasePoints = 2147483647 ∧
    envWithRanks.Get_Rank_Info 1 = some rankInfoOne ∧
    rankInfoOne.m_sciencePurchasePointsGranted = 1 ∧
    (Player.Reset_Rank envWithRanks playerMaxPoints).m_sciencePurchasePoints = -2147483648 ∧
    (Player.Reset_Rank envWithRanks playerMaxPoints).m_sciencePurchasePoints
      ≠ templateMaxPoints.m_intrinsicSciencePurchasePoints
        + rankInfoOne.m_sciencePurchasePointsGranted := by
  have h : (Player.Reset_Rank envWithRanks playerMaxPoints).m_sciencePurchasePoints
      = -2147483648 := by
    rw [(Player.Reset_Rank_values envWithRanks playerMaxPoints).2.2.2.2]
    decide
  refine ⟨rfl, rfl, rfl, rfl, h, ?_⟩
  rw [h]
  decide

/-- C25 (amended): after `Reset_Rank` the rank level is 1, the current skill
points are 0, the rank progress is 0, the skill points needed for the next rank
are those of the rank-2 info, or 2^31 - 1 when the rank store has no rank-2
info, and the science purchase points are the intrinsic purchase points of the
template (0 without a template) plus the purchase points granted by the rank-1
info (0 when the rank store has no rank-1 info), provided that sum is in the
range -2^31 .. 2^31 - 1 of a 32-bit int. The grant is added in 32-bit
arithmetic: a sum outside the range is stored reduced modulo 2^32 into it. -/
theorem C25_Reset_Rank_values (env : Env) (p : Player) :
    (Player.Reset_Rank env p).m_rankLevel = 1 ∧
    (Player.Reset_Rank env p).m_currentSkillPoints = 0 ∧
    (Player.Reset_Rank env p).m_rankProgress = 0 ∧
    (Player.Reset_Rank env p).m_skillPointsNeededForNextRank
      = (match env.Get_Rank_Info 2 with
         | some next_rank_info => next_rank_info.m_skillPointsNeeded
         | none => 2 ^ 31 - 1) ∧
    (Player.Reset_Rank env p).m_sciencePurchasePoints
      = (match env.Get_Rank_Info 1 with
         | some cur_rank_info =>
           Int32_Wrap
             ((match p.m_playerTemplate with
               | some pt => pt.m_intrinsicSciencePurchasePoints
               | none => 0) + cur_rank_info.m_sciencePurchasePointsGranted)
         | none =>
           (match p.m_playerTemplate with
            | some pt => pt.m_intrinsicSciencePurchasePoints
            | none => 0)) ∧
    (-(2 ^ 31) ≤
        (match p.m_playerTemplate with
         | some pt => pt.m_intrinsicSciencePurchasePoints
         | none => 0) +
        (match env.Get_Rank_Info 1 with
         | some cur_rank_info => cur_rank_info.m_sciencePurchasePointsGranted
         | none => 0) →
      (match p.m_playerTemplate with
       | some pt => pt.m_intrinsicSciencePurchasePoints
       | none => 0) +
      (match env.Get_Rank_Info 1 with
       | some cur_rank_info => cur_rank_info.m_sciencePurchasePointsGranted
       | none => 0) < 2 ^ 31 →
      (Player.Reset_Rank env p).m_sciencePurchasePoints
        = (match p.m_playerTemplate with
           | some pt => pt.m_intrinsicSciencePurchasePoints
           | none => 0) +
          (match env.Get_Rank_Info 1 with
           | some cur_rank_info => cur_rank_info.m_sciencePurchasePointsGranted
           | none => 0)) := by
  obtain ⟨h1, h2, h3, h4, h5⟩ := Player.Reset_Rank_values env p
  refine ⟨h1, h2, h3, h4, h5, ?_⟩
  rw [h5]
  cases env.Get_Rank_Info 1 with
  | none =>
    intro _ _
    simp only [add_zero]
  | some cur_rank_info =>
    intro hlo hhi
    exact Int32_Wrap_of_range _ hlo hhi

/-- C25 (amended) at a concrete input: with a template of 2 intrinsic purchase
points and a rank-1 info that grants 1 point, `Reset_Rank` leaves 3 purchase
points. -/
theorem C25_Reset_Rank_values_witness :
    (Player.Reset_Rank envWithRanks playerWithTemplate).m_sciencePurchasePoints = 2 + 1 :=
  (C25_Reset_Rank_values envWithRanks playerWithTemplate).2.2.2.2.2 (by decide) (by decide)

/-- C23: after `Init`, with or without a template and from any prior state, the
squad array has its 10 slots, each holding a new, empty squad, and so has the
AI squad slot; the upgrade list and both upgrade accumulators are empty; the
disabled and the hidden science list are empty; the kind-of production change
list and the special power ready timer list are empty; there are no battle plan
bonuses; the three active battle plan counters are 0; the rank level is 1 and
the current skill points are 0. -/
theorem C23_Init_postconditions (env : Env) (p : Player) (pt : Option PlayerTemplate) :
    (Player.Init env p pt).m_squads.length = 10 ∧
    (∀ squad ∈ (Player.Init env p pt).m_squads, squad = some []) ∧
    (Player.Init env p pt).m_aiSquad = some [] ∧
    (Player.Init env p pt).m_upgradeList = [] ∧
    (Player.Init env p pt).m_upgradesInProgress = 0 ∧
    (Player.Init env p pt).m_upgradesCompleted = 0 ∧
    (Player.Init env p pt).m_disabledSciences = [] ∧
    (Player.Init env p pt).m_hiddenSciences = [] ∧
    (Player.Init env p pt).m_kindOfPercentProductionChangeList = [] ∧
    (Player.Init env p pt).m_specialPowerReadyTimerList = [] ∧
    (Player.Init env p pt).m_battlePlanBonuses = none ∧
    (Player.Init env p pt).m_activeBattlePlans0 = 0 ∧
    (Player.Init env p pt).m_activeBattlePlans1 = 0 ∧
    (Player.Init env p pt).m_activeBattlePlans2 = 0 ∧
    (Player.Init env p pt).m_rankLevel = 1 ∧
    (Player.Init env p pt).m_currentSkillPoints = 0 := by
  obtain ⟨needed, points, name, sc, pr, ef, h⟩ :=
    Player.Reset_Rank_frame env (Player.Init_Before_Rank env p pt)
  unfold Player.Init
  rw [h]
  cases pt <;>
    simp [Player.Init_After_Rank, Player.Init_Before_Rank, Player.Init_From_Template,
      Player.Init_Without_Template, Player.Set_Player_Relationship, Player.Delete_Upgrade_List,
      SQUAD_COUNT]

theorem Player.Init_relations (env : Env) (p : Player) (pt : Option PlayerTemplate) :
    (Player.Init env p pt).m_playerIndex = p.m_playerIndex ∧
    (Player.Init env p pt).m_teamRelations = p.m_teamRelations ∧
    (Player.Init env p pt).m_playerRelations
      = (match pt with
         | some _ => p.m_playerRelations
         | none => p.m_playerRelations.insert p.m_playerIndex Relationship.ALLIES) := by
  obtain ⟨needed, points, name, sc, pr, ef, h⟩ :=
    Player.Reset_Rank_frame env (Player.Init_Before_Rank env p pt)
  unfold Player.Init
  rw [h]
  cases pt <;> by_cases hl : p.m_playerTeamPrototypes.length = 0 <;>
    simp [Player.Init_After_Rank, Player.Init_Before_Rank, Player.Init_From_Template,
      Player.Init_Without_Template, Player.Set_Player_Relationship, Player.Delete_Upgrade_List,
      Player.Get_Player_Index, Player.Debug_Assert_Failed, hl]

/-- C28: after `Init` with no template, from any prior state, the player
relationship table maps the index of the player to ALLIES, and
`Get_Relationship` gives ALLIES for every team that this player controls and
that has no entry in the team table. The same holds after construction, where
the team table is empty, so there for every team the player controls. -/
theorem C28_allied_with_itself (env : Env) :
    (∀ (p : Player),
      (Player.Init env p none).m_playerRelations.find (Player.Init env p none).m_playerIndex
        = some Relationship.ALLIES ∧
      ∀ (team : Team),
        team.Get_Controlling_Player = some (Player.Init env p none).Get_Player_Index →
        (Player.Init env p none).m_teamRelations.find team.Get_Team_ID = none →
        (Player.Init env p none).Get_Relationship (some team) = Relationship.ALLIES) ∧
    (∀ (index : Int),
      (Player.Construct env index).m_playerRelations.find index = some Relationship.ALLIES ∧
      ∀ (team : Team), team.Get_Controlling_Player = some index →
        (Player.Construct env index).Get_Relationship (some team) = Relationship.ALLIES) := by
  have key : ∀ (q : Player) (team : Team),
      q.m_playerRelations.find q.m_playerIndex = some Relationship.ALLIES →
      team.m_controllingPlayer = some q.m_playerIndex →
      q.m_teamRelations.find team.m_id = none →
      q.Get_Relationship (some team) = Relationship.ALLIES := by
    intro q team h1 h2 h3
    rw [Player.Get_Relationship_eq_reference]
    simp only [Player.Get_Relationship_reference, h3, h2, h1]
  constructor
  · intro p
    obtain ⟨h1, h2, h3⟩ := Player.Init_relations env p none
    have hfind : (Player.Init env p none).m_playerRelations.find
        (Player.Init env p none).m_playerIndex = some Relationship.ALLIES := by
      rw [h3, h1]
      simp only [StdMap.find_insert, if_true]
    exact ⟨hfind, fun team hc ht => key _ team hfind hc ht⟩
  · intro index
    obtain ⟨_, _, _, _, _, _, _, h8, h9, h10⟩ := Player.Construct_fields env index
    have hfind : (Player.Construct env index).m_playerRelations.find index
        = some Relationship.ALLIES := by
      rw [h8]
      simp [StdMap.find]
    refine ⟨hfind, fun team hc => key _ team (by rw [h10]; exact hfind) (by rw [h10]; exact hc) ?_⟩
    rw [h9]
    rfl

/-- C28 at a concrete input: the player 0 with the team entry 5 -> NEUTRAL
and no player entry, initialised without a template, is allied with the team 1
that it controls; a freshly constructed player 0 is allied with that team
too. -/
theorem C28_allied_with_itself_witness :
    (Player.Init envNone playerNeutralTeamEntry none).Get_Relationship (some teamOneOfPlayerZero)
      = Relationship.ALLIES ∧
    (Player.Construct envNone 0).Get_Relationship (some teamOneOfPlayerZero)
      = Relationship.ALLIES :=
  ⟨((C28_allied_with_itself envNone).1 playerNeutralTeamEntry).2 teamOneOfPlayerZero
      (by decide) (by decide),
   ((C28_allied_with_itself envNone).2 0).2 teamOneOfPlayerZero (by decide)⟩

/-! ### Setting the availability of a science -/

/-- In every state reached by `Set_Science_Availability` calls from a state
whose override lists are duplicate free and disjoint, they still are. -/
theorem Player.Apply_Availability_Calls_invariants
    (calls : List (ScienceType × ScienceAvailabilityType)) (p : Player)
    (hd : p.m_disabledSciences.Nodup) (hh : p.m_hiddenSciences.Nodup)
    (hdis : ∀ x, x ∈ p.m_disabledSciences → x ∉ p.m_hiddenSciences) :
    (p.Apply_Availability_Calls calls).m_disabledSciences.Nodup ∧
    (p.Apply_Availability_Calls calls).m_hiddenSciences.Nodup ∧
    ∀ x, x ∈ (p.Apply_Availability_Calls calls).m_disabledSciences →
      x ∉ (p.Apply_Availability_Calls calls).m_hiddenSciences := by
  induction calls generalizing p with
  | nil => exact ⟨hd, hh, hdis⟩
  | cons c cs ih =>
    obtain ⟨h1, h2, h3⟩ := Player.Set_Science_Availability_inv p c.1 c.2 hd hh hdis
    exact ih _ h1 h2 h3

/-- One `Set_Science_Availability` call on a state whose override lists are
duplicate free and disjoint. -/
theorem Player.Set_Science_Availability_effect (p : Player) (t : ScienceType)
    (a : ScienceAvailabilityType)
    (hd : p.m_disabledSciences.Nodup) (hh : p.m_hiddenSciences.Nodup)
    (hdis : ∀ x, x ∈ p.m_disabledSciences → x ∉ p.m_hiddenSciences) :
    ((p.Set_Science_Availability t a).Is_Science_Disabled t = true ↔
      a = ScienceAvailabilityType.SCIENCE_AVAILABILITY_DISABLED) ∧
    ((p.Set_Science_Availability t a).Is_Science_Hidden t = true ↔
      a = ScienceAvailabilityType.SCIENCE_AVAILABILITY_HIDDEN) ∧
    ∀ x, x ≠ t →
      (p.Set_Science_Availability t a).Is_Science_Disabled x = p.Is_Science_Disabled x ∧
      (p.Set_Science_Availability t a).Is_Science_Hidden x = p.Is_Science_Hidden x := by
  have htD : t ∉ p.m_disabledSciences.erase t := fun h => (hd.mem_erase_iff.mp h).1 rfl
  have htH : t ∉ (if t ∈ p.m_disabledSciences then p.m_hiddenSciences
      else p.m_hiddenSciences.erase t) := by
    split_ifs with h
    · exact hdis t h
    · exact fun h2 => (hh.mem_erase_iff.mp h2).1 rfl
  have hxH : ∀ x, x ≠ t →
      (x ∈ (if t ∈ p.m_disabledSciences then p.m_hiddenSciences
        else p.m_hiddenSciences.erase t) ↔ x ∈ p.m_hiddenSciences) := by
    intro x hx
    split_ifs
    · exact Iff.rfl
    · exact List.mem_erase_of_ne hx
  simp only [Player.Is_Science_Disabled, Player.Is_Science_Hidden,
    Player.Set_Science_Availability_disabled, Player.Set_Science_Availability_hidden]
  generalize (if t ∈ p.m_disabledSciences then p.m_hiddenSciences
      else p.m_hiddenSciences.erase t) = H1 at *
  refine ⟨?_, ?_, ?_⟩
  · cases a <;> simp [htD]
  · cases a <;> simp [htH]
  · intro x hx
    have hxD : x ∈ p.m_disabledSciences.erase t ↔ x ∈ p.m_disabledSciences :=
      List.mem_erase_of_ne hx
    cases a <;> simp [hxD, hxH x hx, hx]

/-- C29: in any state reached from a freshly initialised player by
`Set_Science_Availability` calls, the call `Set_Science_Availability(t, a)`
leaves `t` disabled exactly when `a` is DISABLED and hidden exactly when `a`
is HIDDEN, and whether another science is disabled or hidden is the same
before and after the call. -/
theorem C29_Set_Science_Availability (env : Env) (q : Player) (pt : Option PlayerTemplate)
    (calls : List (ScienceType × ScienceAvailabilityType)) (t : ScienceType)
    (a : ScienceAvailabilityType) :
    ((((Player.Init env q pt).Apply_Availability_Calls calls).Set_Science_Availability
        t a).Is_Science_Disabled t = true ↔
      a = ScienceAvailabilityType.SCIENCE_AVAILABILITY_DISABLED) ∧
    ((((Player.Init env q pt).Apply_Availability_Calls calls).Set_Science_Availability
        t a).Is_Science_Hidden t = true ↔
      a = ScienceAvailabilityType.SCIENCE_AVAILABILITY_HIDDEN) ∧
    ∀ x, x ≠ t →
      (((Player.Init env q pt).Apply_Availability_Calls calls).Set_Science_Availability
          t a).Is_Science_Disabled x
        = ((Player.Init env q pt).Apply_Availability_Calls calls).Is_Science_Disabled x ∧
      (((Player.Init env q pt).Apply_Availability_Calls calls).Set_Science_Availability
          t a).Is_Science_Hidden x
        = ((Player.Init env q pt).Apply_Availability_Calls calls).Is_Science_Hidden x := by
  obtain ⟨hd, hh⟩ := Player.Init_override_lists env q pt
  obtain ⟨h1, h2, h3⟩ := Player.Apply_Availability_Calls_invariants calls (Player.Init env q pt)
    (by rw [hd]; exact List.nodup_nil) (by rw [hh]; exact List.nodup_nil)
    (by rw [hd]; intro x hx; simp at hx)
  exact Player.Set_Science_Availability_effect _ t a h1 h2 h3

/-- C29 at a concrete input: after science 5 was disabled and science 7
hidden on a fresh player, hiding science 5 leaves science 7 hidden and not
disabled, as it was. -/
theorem C29_Set_Science_Availability_witness :
    (7 : ScienceType) ≠ 5 ∧
    ((((Player.Init envNone playerFresh none).Apply_Availability_Calls
          [(5, ScienceAvailabilityType.SCIENCE_AVAILABILITY_DISABLED),
           (7, ScienceAvailabilityType.SCIENCE_AVAILABILITY_HIDDEN)]).Set_Science_Availability
        5 ScienceAvailabilityType.SCIENCE_AVAILABILITY_HIDDEN).Is_Science_Disabled 7
      = ((Player.Init envNone playerFresh none).Apply_Availability_Calls
          [(5, ScienceAvailabilityType.SCIENCE_AVAILABILITY_DISABLED),
           (7, ScienceAvailabilityType.SCIENCE_AVAILABILITY_HIDDEN)]).Is_Science_Disabled 7 ∧
     (((Player.Init envNone playerFresh none).Apply_Availability_Calls
          [(5, ScienceAvailabilityType.SCIENCE_AVAILABILITY_DISABLED),
           (7, ScienceAvailabilityType.SCIENCE_AVAILABILITY_HIDDEN)]).Set_Science_Availability
        5 ScienceAvailabilityType.SCIENCE_AVAILABILITY_HIDDEN).Is_Science_Hidden 7
      = ((Player.Init envNone playerFresh none).Apply_Availability_Calls
          [(5, ScienceAvailabilityType.SCIENCE_AVAILABILITY_DISABLED),
           (7, ScienceAvailabilityType.SCIENCE_AVAILABILITY_HIDDEN)]).Is_Science_Hidden 7) :=
  ⟨by decide,
   (C29_Set_Science_Availability envNone playerFresh none
      [(5, ScienceAvailabilityType.SCIENCE_AVAILABILITY_DISABLED),
       (7, ScienceAvailabilityType.SCIENCE_AVAILABILITY_HIDDEN)]
      5 ScienceAvailabilityType.SCIENCE_AVAILABILITY_HIDDEN).2.2 7 (by decide)⟩

/-! ### The acquired sciences after `Reset_Sciences` -/

theorem Player.Notices_Extend_refl (p : Player) : p.Notices_Extend p :=
  ⟨rfl, [], (List.append_nil _).symm⟩

theorem Player.Notices_Extend_trans {p q r : Player} (h1 : p.Notices_Extend q)
    (h2 : q.Notices_Extend r) : p.Notices_Extend r := by
  obtain ⟨a1, d1, b1⟩ := h1
  obtain ⟨a2, d2, b2⟩ := h2
  exact ⟨a2.trans a1, d1 ++ d2, by rw [b2, b1, List.append_assoc]⟩

theorem Player.Notices_Extend_foldl {α : Type} (f : Player → α → Player)
    (hf : ∀ (q : Player) (a : α), q.Notices_Extend (f q a)) (l : List α) (p : Player) :
    p.Notices_Extend (l.foldl f p) := by
  induction l generalizing p with
  | nil => exact Player.Notices_Extend_refl p
  | cons a rest ih => exact Player.Notices_Extend_trans (hf p a) (ih (f p a))

/-- A fold of player updates that act on the acquired list as `g` does. -/
theorem Player.sciences_foldl {α : Type} (f : Player → α → Player)
    (g : List ScienceType → α → List ScienceType)
    (hf : ∀ (q : Player) (a : α), (f q a).m_sciences = g q.m_sciences a) (l : List α)
    (p : Player) : (l.foldl f p).m_sciences = l.foldl g p.m_sciences := by
  induction l generalizing p with
  | nil => rfl
  | cons a rest ih => simp only [List.foldl_cons, ih, hf]

theorem Player.Add_Science_sciences (env : Env) (p : Player) (t : ScienceType) :
    (Player.Add_Science env p t).2.m_sciences = Player.Append_If_New p.m_sciences t := by
  unfold Player.Add_Science Player.Append_If_New Player.Has_Science
  by_cases h : t ∈ p.m_sciences <;> simp [h, Player.Notify_Of_Acquired_Science]

theorem Player.Add_Science_notices (env : Env) (p : Player) (t : ScienceType) :
    p.Notices_Extend (Player.Add_Science env p t).2 := by
  unfold Player.Add_Science Player.Has_Science
  by_cases h : t ∈ p.m_sciences
  · simp only [h, decide_True, if_true]
    exact Player.Notices_Extend_refl p
  · simp only [h, decide_False, Bool.false_eq_true, if_false]
    exact ⟨rfl, [(p.m_playerIndex, t)], rfl⟩

theorem Player.Grant_Rank_Sciences_sciences (env : Env) (p : Player) (level : Int) :
    (Player.Grant_Rank_Sciences env p level).m_sciences
      = (Player.Sciences_Granted_At env level).foldl Player.Append_If_New p.m_sciences := by
  unfold Player.Grant_Rank_Sciences Player.Sciences_Granted_At
  cases env.Get_Rank_Info level with
  | none => rfl
  | some info =>
    exact Player.sciences_foldl _ _ (fun q t => Player.Add_Science_sciences env q t) _ _

theorem Player.Grant_Rank_Sciences_notices (env : Env) (p : Player) (level : Int) :
    p.Notices_Extend (Player.Grant_Rank_Sciences env p level) := by
  unfold Player.Grant_Rank_Sciences
  cases env.Get_Rank_Info level with
  | none => exact Player.Notices_Extend_refl p
  | some info =>
    exact Player.Notices_Extend_foldl _ (fun q t => Player.Add_Science_notices env q t) _ _

/-- The grant loops of the levels `1 .. n` add the granted sciences in order. -/
theorem Player.grant_loop_sciences (env : Env) (n : Nat) (l : List ScienceType) :
    ((List.range n).map (fun (i : Nat) => (i : Int))).foldl
        (fun (l : List ScienceType) (i : Int) =>
          (Player.Sciences_Granted_At env (i + 1)).foldl Player.Append_If_New l) l
      = (Player.Sciences_Granted_Up_To env n).foldl Player.Append_If_New l := by
  induction n with
  | zero => rfl
  | succ n ih =>
    rw [List.range_succ, List.map_append, List.foldl_append, ih, Player.Sciences_Granted_Up_To,
      List.foldl_append]
    rfl

/-- The notification loop adds one notice per science of the list, in list
order, and changes nothing else. -/
theorem Player.notify_loop (index : Int) (l : List ScienceType) (p : Player)
    (hi : p.m_playerIndex = index) :
    (l.foldl (fun q t => q.Notify_Of_Acquired_Science q.Get_Player_Index t) p).m_sciences
      = p.m_sciences ∧
    (l.foldl (fun q t => q.Notify_Of_Acquired_Science q.Get_Player_Index t)
        p).m_effects.m_acquiredScienceNotices
      = p.m_effects.m_acquiredScienceNotices ++ l.map (fun t => (index, t)) := by
  induction l generalizing p with
  | nil => exact ⟨rfl, (List.append_nil _).symm⟩
  | cons t rest ih =>
    obtain ⟨h1, h2⟩ := ih (p.Notify_Of_Acquired_Science p.Get_Player_Index t) hi
    refine ⟨h1, ?_⟩
    rw [List.foldl_cons, h2]
    simp only [Player.Notify_Of_Acquired_Science, Player.Get_Player_Index, hi, List.map_cons,
      List.append_assoc, List.singleton_append]

/-- `Reset_Sciences` with its rank loop over the levels as integers. -/
theorem Player.Reset_Sciences_unfold (env : Env) (p : Player) :
    Player.Reset_Sciences env p
      = (((List.range p.Seed_Sciences.m_rankLevel.toNat).map (fun (i : Nat) => (i : Int))).foldl
          (fun (q : Player) (i : Int) => Player.Grant_Rank_Sciences env q (i + 1))
          p.Seed_Sciences).Notify_All_Sciences := by
  have h : ∀ (l : List Nat),
      (l.flatMap fun (a : Nat) => [(a : Int)]) = l.map (fun (i : Nat) => (i : Int)) := by
    intro l
    induction l with
    | nil => rfl
    | cons a rest ih => simpa [List.flatMap_cons] using ih
  unfold Player.Reset_Sciences
  simp only []
  congr 2
  simp only [List.bind_eq_flatMap, List.pure_def]
  exact h _

/-- The acquired list and the notices after `Reset_Sciences`. -/
theorem Player.Reset_Sciences_result (env : Env) (p : Player) :
    (Player.Reset_Sciences env p).m_sciences
      = Player.Sciences_After_Reset_reference env
          (match p.m_playerTemplate with
           | some pt => pt.m_intrinsicSciences
           | none => [])
          p.m_rankLevel ∧
    ∃ during, (Player.Reset_Sciences env p).m_effects.m_acquiredScienceNotices
      = p.m_effects.m_acquiredScienceNotices ++ during ++
        (Player.Reset_Sciences env p).m_sciences.map (fun t => (p.m_playerIndex, t)) := by
  have hseed : p.Seed_Sciences.m_sciences
      = (match p.m_playerTemplate with
         | some pt => pt.m_intrinsicSciences
         | none => []) ∧ p.Seed_Sciences.m_rankLevel = p.m_rankLevel ∧
      p.Notices_Extend p.Seed_Sciences := by
    unfold Player.Seed_Sciences
    cases p.m_playerTemplate <;> exact ⟨rfl, rfl, rfl, [], (List.append_nil _).symm⟩
  obtain ⟨hs1, hs2, hs3⟩ := hseed
  have hgrant := Player.sciences_foldl
    (fun (q : Player) (i : Int) => Player.Grant_Rank_Sciences env q (i + 1))
    (fun (l : List ScienceType) (i : Int) =>
      (Player.Sciences_Granted_At env (i + 1)).foldl Player.Append_If_New l)
    (fun q i => Player.Grant_Rank_Sciences_sciences env q _)
    ((List.range p.Seed_Sciences.m_rankLevel.toNat).map (fun (i : Nat) => (i : Int)))
    p.Seed_Sciences
  have hnot := Player.Notices_Extend_trans hs3 (Player.Notices_Extend_foldl
    (fun (q : Player) (i : Int) => Player.Grant_Rank_Sciences env q (i + 1))
    (fun q i => Player.Grant_Rank_Sciences_notices env q _)
    ((List.range p.Seed_Sciences.m_rankLevel.toNat).map (fun (i : Nat) => (i : Int)))
    p.Seed_Sciences)
  obtain ⟨hi, during, hd⟩ := hnot
  rw [Player.Reset_Sciences_unfold]
  unfold Player.Notify_All_Sciences
  generalize ((List.range p.Seed_Sciences.m_rankLevel.toNat).map
    (fun (i : Nat) => (i : Int))).foldl
    (fun (q : Player) (i : Int) => Player.Grant_Rank_Sciences env q (i + 1)) p.Seed_Sciences = p3
    at hgrant hi hd
  rw [Player.grant_loop_sciences, hs1, hs2] at hgrant
  obtain ⟨h1, h2⟩ := Player.notify_loop p.m_playerIndex p3.m_sciences p3 hi
  refine ⟨?_, during, ?_⟩
  · rw [h1, hgrant]
    rfl
  · rw [h2, h1, hd]

/-- How often a science occurs after sciences were added unless present: as
often as before when the list had it, once when it is new and among the added
ones, not at all otherwise. -/
theorem Player.Append_If_New_foldl_count (granted l : List ScienceType) (t : ScienceType) :
    (granted.foldl Player.Append_If_New l).count t
      = if t ∈ l then l.count t else if t ∈ granted then 1 else 0 := by
  induction granted generalizing l with
  | nil =>
    by_cases h : t ∈ l
    · simp [h]
    · simp [h, List.count_eq_zero_of_not_mem h]
  | cons a granted ih =>
    rw [List.foldl_cons, ih]
    unfold Player.Append_If_New
    by_cases ha : a ∈ l
    · simp only [ha, if_true]
      by_cases h : t ∈ l
      · simp only [h, if_true]
      · have hta : t ≠ a := fun e => h (e ▸ ha)
        simp only [h, if_false, List.mem_cons, hta, false_or]
    · simp only [ha, if_false, List.mem_append, List.mem_singleton, List.count_append]
      by_cases h : t ∈ l
      · have hta : t ≠ a := fun e => ha (e ▸ h)
        have hc : List.count t [a] = 0 :=
          List.count_eq_zero_of_not_mem (by simpa using hta)
        simp [h, hc]
      · by_cases hta : t = a
        · subst hta
          simp [h, List.count_eq_zero_of_not_mem h]
        · have hc : List.count t [a] = 0 :=
            List.count_eq_zero_of_not_mem (by simpa using hta)
          simp [h, hta, hc, List.count_eq_zero_of_not_mem h]

theorem Player.Append_If_New_foldl_count_granted (granted l : List ScienceType)
    (t : ScienceType) (ht : t ∈ granted) :
    (granted.foldl Player.Append_If_New l).count t = max 1 (l.count t) := by
  rw [Player.Append_If_New_foldl_count]
  by_cases h : t ∈ l
  · have hpos : 0 < l.count t := List.count_pos_iff.mpr h
    simp only [h, if_true]
    omega
  · simp only [h, if_false, ht, if_true, List.count_eq_zero_of_not_mem h]
    rfl

/-- C26: after `Reset_Sciences` the acquired list is the intrinsic science
list of the template (the empty list without a template) followed, in rank
order 1 .. rank level and in grant order within a rank, by each granted
science that the list did not have yet. A granted science is added no second
time: it occurs as often as in the intrinsic list if that list has it, and
once otherwise. The log of the script engine ends with one notice for every
science of this final list, in list order, after the notices it held before
and those of the grants; so the script engine has been notified of every
science of the final list. -/
theorem C26_Reset_Sciences (env : Env) (p : Player) :
    (Player.Reset_Sciences env p).m_sciences
      = Player.Sciences_After_Reset_reference env
          (match p.m_playerTemplate with
           | some pt => pt.m_intrinsicSciences
           | none => [])
          p.m_rankLevel ∧
    (∀ t, t ∈ Player.Sciences_Granted_Up_To env p.m_rankLevel.toNat →
      (Player.Reset_Sciences env p).m_sciences.count t
        = max 1 ((match p.m_playerTemplate with
                 | some pt => pt.m_intrinsicSciences
                 | none => []).count t)) ∧
    (∃ during, (Player.Reset_Sciences env p).m_effects.m_acquiredScienceNotices
      = p.m_effects.m_acquiredScienceNotices ++ during ++
        (Player.Reset_Sciences env p).m_sciences.map (fun t => (p.m_playerIndex, t))) ∧
    (∀ t, t ∈ (Player.Reset_Sciences env p).m_sciences →
      (p.m_playerIndex, t)
        ∈ (Player.Reset_Sciences env p).m_effects.m_acquiredScienceNotices) := by
  obtain ⟨h1, during, h2⟩ := Player.Reset_Sciences_result env p
  refine ⟨h1, ?_, ⟨during, h2⟩, ?_⟩
  · intro t ht
    rw [h1]
    exact Player.Append_If_New_foldl_count_granted _ _ t ht
  · intro t ht
    rw [h2]
    exact List.mem_append_right _ (List.mem_map.mpr ⟨t, ht, rfl⟩)

/-- C26 at a concrete input: a player at rank 2 whose template has the
intrinsic science 7, with a rank store that grants 5, 7, 5 at rank 1 and 9, 5
at rank 2. The acquired list is 7, 5, 9; the granted science 5 occurs once, and
the script engine was notified of it. -/
theorem C26_Reset_Sciences_witness :
    (Player.Reset_Sciences envWithRanks playerRankTwo).m_sciences = [7, 5, 9] ∧
    (5 : ScienceType) ∈ Player.Sciences_Granted_Up_To envWithRanks playerRankTwo.m_rankLevel.toNat ∧
    (Player.Reset_Sciences envWithRanks playerRankTwo).m_sciences.count 5
      = max 1 ((match playerRankTwo.m_playerTemplate with
               | some pt => pt.m_intrinsicSciences
               | none => []).count 5) ∧
    (playerRankTwo.m_playerIndex, (5 : ScienceType))
      ∈ (Player.Reset_Sciences envWithRanks playerRankTwo).m_effects.m_acquiredScienceNotices :=
  ⟨by decide, by decide,
   (C26_Reset_Sciences envWithRanks playerRankTwo).2.1 5 (by decide),
   (C26_Reset_Sciences envWithRanks playerRankTwo).2.2.2 5 (by decide)⟩

/-! ### The default team in the stream -/

theorem Player.Xfer_Default_Team_save (env : Env) (out : List XferItem) (p : Player) :
    Player.Xfer_Default_Team env ⟨XferMode.XFER_SAVE, out⟩ p
      = Except.ok (⟨XferMode.XFER_SAVE,
          out ++ [XferItem.user [match p.m_defaultTeam with
                                 | some team => (team.Get_Team_ID : Int)
                                 | none => 0]]⟩, p) := by
  simp only [Player.Xfer_Default_Team, Xfer.xferUser, Xfer.transfer_save, Except.bind_ok_eq,
    Xfer.Get_Mode, reduceCtorEq, if_false, Except.pure_eq_ok]

theorem Player.Xfer_Default_Team_load (env : Env) (id : Int) (rest : List XferItem)
    (l : Player) :
    Player.Xfer_Default_Team env ⟨XferMode.XFER_LOAD, XferItem.user [id] :: rest⟩ l
      = Except.ok (⟨XferMode.XFER_LOAD, rest⟩,
          { l with m_defaultTeam := env.Find_Team_By_ID id }) := by
  simp only [Player.Xfer_Default_Team, Xfer.xferUser, Xfer.transfer_load, Except.bind_ok_eq,
    Xfer.Get_Mode, List.length_singleton, if_true, Except.pure_eq_ok]

/-- C21, the failing input: a stored non-zero team id that the team factory
cannot resolve does not abort the load. The player saved with the default team
7 writes the id 7; with a team factory that knows no team the block loads this
id without an error and leaves the player without a default team, and the load
of the whole saved stream into a fresh player succeeds, consumes the stream
and gives a player without a default team. -/
theorem C21_unresolved_team_counterexample :
    envNone.Find_Team_By_ID 7 = none ∧
    Player.Xfer_Default_Team envNone ⟨XferMode.XFER_SAVE, []⟩ playerWithDefaultTeam
      = Except.ok (⟨XferMode.XFER_SAVE, [XferItem.user [7]]⟩, playerWithDefaultTeam) ∧
    Player.Xfer_Default_Team envNone ⟨XferMode.XFER_LOAD, [XferItem.user [7]]⟩ playerFresh
      = Except.ok (⟨XferMode.XFER_LOAD, []⟩, { playerFresh with m_defaultTeam := none }) ∧
    (Player.Save_Then_Load envNone playerWithDefaultTeam playerFresh).map
        (fun r => (r.1, r.2.m_defaultTeam))
      = Except.ok ([], none) := by
  refine ⟨rfl, rfl, rfl, rfl⟩

/-- C21: what lines 288-300 do. Save writes the id of the default team, or 0
when the player has no default team, and on load the default team becomes the
team the factory resolves for the stored id, as the claim says. The abort the
claim states for an unresolved id is not in the code: the result of
`Find_Team_By_ID` is stored unchecked, so a stored team id that the factory
cannot resolve, zero or not, leaves the player without a default team, the
block raises no error and the load goes on with the rest of the stream. -/
theorem C21_default_team (env : Env) (p : Player) :
    (∀ (out : List XferItem),
      Player.Xfer_Default_Team env ⟨XferMode.XFER_SAVE, out⟩ p
        = Except.ok (⟨XferMode.XFER_SAVE,
            out ++ [XferItem.user [match p.m_defaultTeam with
                                   | some team => (team.Get_Team_ID : Int)
                                   | none => 0]]⟩, p)) ∧
    (∀ (id : Int) (rest : List XferItem),
      Player.Xfer_Default_Team env ⟨XferMode.XFER_LOAD, XferItem.user [id] :: rest⟩ p
        = Except.ok (⟨XferMode.XFER_LOAD, rest⟩,
            { p with m_defaultTeam := env.Find_Team_By_ID id })) ∧
    (∀ (id : Int) (rest : List XferItem), env.Find_Team_By_ID id = none →
      Player.Xfer_Default_Team env ⟨XferMode.XFER_LOAD, XferItem.user [id] :: rest⟩ p
        = Except.ok (⟨XferMode.XFER_LOAD, rest⟩, { p with m_defaultTeam := none })) := by
  refine ⟨fun out => Player.Xfer_Default_Team_save env out p,
    fun id rest => Player.Xfer_Default_Team_load env id rest p, ?_⟩
  intro id rest h
  rw [Player.Xfer_Default_Team_load, h]

/-- C21 at a concrete input: with a team factory that knows no team, the
stored id 7 loads into the player that had the default team 7 and leaves it
without a default team. -/
theorem C21_default_team_witness :
    envNone.Find_Team_By_ID 7 = none ∧
    Player.Xfer_Default_Team envNone ⟨XferMode.XFER_LOAD, XferItem.user [7] :: []⟩
        playerWithDefaultTeam
      = Except.ok (⟨XferMode.XFER_LOAD, []⟩,
          { playerWithDefaultTeam with m_defaultTeam := none }) :=
  ⟨rfl, (C21_default_team envNone playerWithDefaultTeam).2.2 7 [] rfl⟩

/-! ### Squad count and squad slots on load -/

theorem Player.Xfer_Body_eq_Before_Squads (env : Env) (version : Nat) (xfer : Xfer)
    (p : Player) :
    Player.Xfer_Body env version xfer p
      = (do
          let r ← Player.Xfer_Before_Squads env version xfer p
          let r2 ← Player.Xfer_Squads r.1 r.2
          Player.Xfer_Battle_Plans version r2.1 r2.2) := by
  unfold Player.Xfer_Body Player.Xfer_Before_Squads
  simp only [bind_assoc]

theorem Player.Xfer_Squad_Slots_save (squads : List Snapshot) (out : List XferItem) :
    Player.Xfer_Squad_Slots (squads.map some) ⟨XferMode.XFER_SAVE, out⟩
      = Except.ok (⟨XferMode.XFER_SAVE, out ++ squads.map XferItem.snapshot⟩,
          squads.map some) := by
  induction squads generalizing out with
  | nil => simp [Player.Xfer_Squad_Slots]
  | cons squad rest ih =>
    simp only [List.map_cons, Player.Xfer_Squad_Slots, Xfer.xferSnapshot, Xfer.transfer_save,
      Except.bind_ok_eq, ih, Except.pure_eq_ok, List.append_assoc, List.singleton_append]

theorem Player.Xfer_Squad_Slots_null (pre stored : List Snapshot)
    (post : List (Option Snapshot)) (rest : List XferItem) (h : stored.length = pre.length) :
    Player.Xfer_Squad_Slots (pre.map some ++ none :: post)
        ⟨XferMode.XFER_LOAD, stored.map XferItem.snapshot ++ rest⟩
      = Except.error XferError.RELEASE_ASSERT := by
  induction pre generalizing stored with
  | nil => rfl
  | cons squad pre ih =>
    cases stored with
    | nil => simp at h
    | cons item stored =>
      have h2 : stored.length = pre.length := by simpa using h
      have h3 := ih stored h2
      rw [List.map_cons, List.map_cons, List.cons_append, List.cons_append,
        Player.Xfer_Squad_Slots]
      simp only [Xfer.xferSnapshot, Xfer.transfer_load, Except.bind_ok_eq, h3]
      rfl

theorem Player.Xfer_Squads_count_mismatch (n : Nat) (rest : List XferItem) (l : Player)
    (h : n ≠ SQUAD_COUNT) :
    Player.Xfer_Squads ⟨XferMode.XFER_LOAD, XferItem.unsignedShort n :: rest⟩ l
      = Except.error XferError.RELEASE_ASSERT := by
  simp only [Player.Xfer_Squads, Xfer.xferUnsignedShort, Xfer.transfer_load, Except.bind_ok_eq,
    Xfer.relassert, h, decide_False, Bool.false_eq_true, if_false]
  rfl

theorem Player.Xfer_Squads_null_slot (l : Player) (pre stored : List Snapshot)
    (post : List (Option Snapshot)) (rest : List XferItem)
    (hl : l.m_squads = pre.map some ++ none :: post) (h : stored.length = pre.length) :
    Player.Xfer_Squads
        ⟨XferMode.XFER_LOAD,
          XferItem.unsignedShort SQUAD_COUNT :: (stored.map XferItem.snapshot ++ rest)⟩ l
      = Except.error XferError.RELEASE_ASSERT := by
  simp only [Player.Xfer_Squads, Xfer.xferUnsignedShort, Xfer.transfer_load, Except.bind_ok_eq,
    Xfer.relassert, decide_True, if_true, hl, Player.Xfer_Squad_Slots_null pre stored post rest h]
  rfl

theorem Player.Xfer_Squads_save (p : Player) (squads : List Snapshot) (out : List XferItem)
    (hp : p.m_squads = squads.map some) :
    Player.Xfer_Squads ⟨XferMode.XFER_SAVE, out⟩ p
      = Except.ok (⟨XferMode.XFER_SAVE, out ++ Player.Stored_Squads squads p.m_aiSquad⟩, p) := by
  cases hai : p.m_aiSquad with
  | none =>
    simp only [Player.Xfer_Squads, Player.Stored_Squads, Player.Stored_System,
      Xfer.xferUnsignedShort, Xfer.xferBool, Xfer.transfer_save, Except.bind_ok_eq,
      Xfer.relassert, decide_True, if_true, hp, Player.Xfer_Squad_Slots_save, hai,
      Option.isSome_none, Bool.false_eq_true, if_false, Except.pure_eq_ok, List.append_assoc,
      List.cons_append, List.nil_append, List.singleton_append]
    rw [← hp, ← hai]
  | some squad =>
    simp only [Player.Xfer_Squads, Player.Stored_Squads, Player.Stored_System,
      Xfer.xferUnsignedShort, Xfer.xferBool, Xfer.xferSnapshot, Xfer.transfer_save,
      Except.bind_ok_eq, Xfer.relassert, decide_True, if_true, hp,
      Player.Xfer_Squad_Slots_save, hai, Option.isSome_some, Except.pure_eq_ok,
      List.append_assoc, List.cons_append, List.nil_append, List.singleton_append]
    rw [← hp, ← hai]

/-- The version call of a load accepts a stored version up to 8. -/
theorem Player.Xfer_Snapshot_load_body (env : Env) (version : Nat) (stream : List XferItem)
    (l : Player) (hv : version ≤ 8) :
    Player.Xfer_Snapshot env ⟨XferMode.XFER_LOAD, XferItem.version version :: stream⟩ l
      = Player.Xfer_Body env version ⟨XferMode.XFER_LOAD, stream⟩ l := by
  have hv8 : ¬ version > 8 := by omega
  rw [Player.Xfer_Snapshot_eq_Body]
  simp only [Xfer.xferVersion, Xfer.transfer_load, hv8, if_false]
  rfl


/-- C22: for a player whose 10 hotkey squad slots hold squads, as they do after
every `Init`, save writes the squad count `SQUAD_COUNT`, which is 10, followed
by the hotkey squads of all 10 slots (and then the AI squad), and the last
block writes all three active battle plan counters after the battle plan
bonuses. On
load a stored squad count other than `SQUAD_COUNT` ends the squads block on the
release assertion, and so does a null hotkey squad slot of the loading player,
at whatever index it stands: nothing is put into the slot. Either abort is the
result of the whole load when the blocks before the squads have gone
through. -/
theorem C22_squads_on_load (env : Env) (version : Nat) :
    (∀ (p : Player) (squads : List Snapshot) (out : List XferItem),
      p.m_squads = squads.map some → squads.length = SQUAD_COUNT →
      Player.Xfer_Squads ⟨XferMode.XFER_SAVE, out⟩ p
        = Except.ok (⟨XferMode.XFER_SAVE,
            out ++ (XferItem.unsignedShort 10 ::
              (squads.map XferItem.snapshot ++ Player.Stored_System p.m_aiSquad))⟩, p) ∧
      (squads.map XferItem.snapshot).length = 10) ∧
    (∀ (p : Player) (out : List XferItem),
      (Player.Xfer_Battle_Plans version ⟨XferMode.XFER_SAVE, out⟩ p).map
          (fun r => r.1.m_stream)
        = Except.ok (out ++ (Player.Stored_Bonuses p.m_battlePlanBonuses ++
            ([XferItem.int p.m_activeBattlePlans0, XferItem.int p.m_activeBattlePlans1,
              XferItem.int p.m_activeBattlePlans2] ++
              (if version < 6 then [] else [XferItem.bool p.m_unitsShouldHunt]))))) ∧
    (∀ (n : Nat) (rest : List XferItem) (l : Player), n ≠ SQUAD_COUNT →
      Player.Xfer_Squads ⟨XferMode.XFER_LOAD, XferItem.unsignedShort n :: rest⟩ l
        = Except.error XferError.RELEASE_ASSERT) ∧
    (∀ (l : Player) (pre stored : List Snapshot) (post : List (Option Snapshot))
        (rest : List XferItem),
      l.m_squads = pre.map some ++ none :: post → stored.length = pre.length →
      Player.Xfer_Squads
          ⟨XferMode.XFER_LOAD,
            XferItem.unsignedShort SQUAD_COUNT :: (stored.map XferItem.snapshot ++ rest)⟩ l
        = Except.error XferError.RELEASE_ASSERT) ∧
    (∀ (stream : List XferItem) (l : Player) (n : Nat) (rest : List XferItem),
      version ≤ 8 → n ≠ SQUAD_COUNT →
      (Player.Xfer_Before_Squads env version ⟨XferMode.XFER_LOAD, stream⟩ l).map (fun r => r.1)
        = Except.ok ⟨XferMode.XFER_LOAD, XferItem.unsignedShort n :: rest⟩ →
      Player.Xfer_Snapshot env ⟨XferMode.XFER_LOAD, XferItem.version version :: stream⟩ l
        = Except.error XferError.RELEASE_ASSERT) ∧
    (∀ (stream : List XferItem) (l : Player) (pre stored : List Snapshot)
        (post : List (Option Snapshot)) (rest : List XferItem),
      version ≤ 8 → stored.length = pre.length →
      (Player.Xfer_Before_Squads env version ⟨XferMode.XFER_LOAD, stream⟩ l).map
          (fun r => (r.1, r.2.m_squads))
        = Except.ok (⟨XferMode.XFER_LOAD,
              XferItem.unsignedShort SQUAD_COUNT :: (stored.map XferItem.snapshot ++ rest)⟩,
            pre.map some ++ none :: post) →
      Player.Xfer_Snapshot env ⟨XferMode.XFER_LOAD, XferItem.version version :: stream⟩ l
        = Except.error XferError.RELEASE_ASSERT) := by
  refine ⟨?_, ?_, Player.Xfer_Squads_count_mismatch, Player.Xfer_Squads_null_slot, ?_, ?_⟩
  · intro p squads out hp hlen
    refine ⟨Player.Xfer_Squads_save p squads out hp, ?_⟩
    rw [List.length_map, hlen]
    rfl
  · intro p out
    rw [Player.Xfer_Battle_Plans_save]
    rfl
  · intro stream l n rest hv hn h
    rw [Player.Xfer_Snapshot_load_body env version stream l hv,
      Player.Xfer_Body_eq_Before_Squads]
    cases hb : Player.Xfer_Before_Squads env version ⟨XferMode.XFER_LOAD, stream⟩ l with
    | error e => rw [hb] at h; cases h
    | ok r =>
      rw [hb] at h
      have h1 : r.1 = ⟨XferMode.XFER_LOAD, XferItem.unsignedShort n :: rest⟩ :=
        Except.ok.inj h
      simp only [Except.bind_ok_eq, h1, Player.Xfer_Squads_count_mismatch n rest r.2 hn]
      rfl
  · intro stream l pre stored post rest hv hlen h
    rw [Player.Xfer_Snapshot_load_body env version stream l hv,
      Player.Xfer_Body_eq_Before_Squads]
    cases hb : Player.Xfer_Before_Squads env version ⟨XferMode.XFER_LOAD, stream⟩ l with
    | error e => rw [hb] at h; cases h
    | ok r =>
      rw [hb] at h
      have h0 := Except.ok.inj h
      have h1 : r.1 = ⟨XferMode.XFER_LOAD,
          XferItem.unsignedShort SQUAD_COUNT :: (stored.map XferItem.snapshot ++ rest)⟩ :=
        congrArg Prod.fst h0
      have h2 : r.2.m_squads = pre.map some ++ none :: post := congrArg Prod.snd h0
      simp only [Except.bind_ok_eq, h1,
        Player.Xfer_Squads_null_slot r.2 pre stored post rest h2 hlen]
      rfl

/-- C22 at concrete inputs: the fresh player 0 saves the count 10 and ten
empty squads; a stored count 9 after the blocks that precede the squads ends
the load of the whole stream into a fresh player on the release assertion; and
so does the well-formed stream when slot 2 of the loading player is null. -/
theorem C22_squads_on_load_witness :
    Player.Xfer_Squads ⟨XferMode.XFER_SAVE, []⟩ playerFresh
      = Except.ok (⟨XferMode.XFER_SAVE,
          [] ++ (XferItem.unsignedShort 10 ::
            ((List.replicate 10 ([] : Snapshot)).map XferItem.snapshot
              ++ Player.Stored_System playerFresh.m_aiSquad))⟩, playerFresh) ∧
    Player.Xfer_Squads ⟨XferMode.XFER_LOAD, XferItem.unsignedShort 9 :: []⟩ playerFresh
      = Except.error XferError.RELEASE_ASSERT ∧
    Player.Xfer_Squads
        ⟨XferMode.XFER_LOAD,
          XferItem.unsignedShort SQUAD_COUNT ::
            (([[], []] : List Snapshot).map XferItem.snapshot ++ [])⟩ playerNullSquadSlot
      = Except.error XferError.RELEASE_ASSERT ∧
    Player.Xfer_Snapshot envNone
        ⟨XferMode.XFER_LOAD,
          XferItem.version 8 :: (streamBeforeSquads ++ [XferItem.unsignedShort 9])⟩ playerFresh
      = Except.error XferError.RELEASE_ASSERT ∧
    Player.Xfer_Snapshot envNone
        ⟨XferMode.XFER_LOAD,
          XferItem.version 8 ::
            (streamBeforeSquads ++
              (XferItem.unsignedShort SQUAD_COUNT ::
                (([[], []] : List Snapshot).map XferItem.snapshot ++ [])))⟩
        playerNullSquadSlot
      = Except.error XferError.RELEASE_ASSERT := by
  have h := C22_squads_on_load envNone 8
  refine ⟨?_, ?_, ?_, ?_, ?_⟩
  · exact (h.1 playerFresh (List.replicate 10 []) [] (by decide) (by decide)).1
  · exact h.2.2.1 9 [] playerFresh (by decide)
  · exact h.2.2.2.1 playerNullSquadSlot [[], []] [[], []]
      (List.replicate 7 (some [])) [] (by decide) (by decide)
  · exact h.2.2.2.2.1 (streamBeforeSquads ++ [XferItem.unsignedShort 9]) playerFresh 9 []
      (by decide) (by decide) rfl
  · exact h.2.2.2.2.2
      (streamBeforeSquads ++
        (XferItem.unsignedShort SQUAD_COUNT ::
          (([[], []] : List Snapshot).map XferItem.snapshot ++ [])))
      playerNullSquadSlot [[], []] [[], []] (List.replicate 7 (some [])) []
      (by decide) (by decide) rfl

/-! ### The team prototypes after the destructor -/

/-- C27: the destructor calls `Set_Owning_Player(nullptr)` on every team
prototype of the list of the player and deletes none of them: the prototypes
that outlive the player are those of the list, one for one and in list order,
each with no owning player and with its id and its team instances as before;
the list of the player itself is cleared. -/
theorem C27_destructor_releases_prototypes (p : Player) :
    p.Destruct.2.length = p.m_playerTeamPrototypes.length ∧
    List.Forall₂
      (fun before after =>
        after.m_owningPlayer = none ∧ after = { before with m_owningPlayer := none } ∧
          after.m_id = before.m_id ∧ after.m_teamInstances = before.m_teamInstances)
      p.m_playerTeamPrototypes p.Destruct.2 ∧
    p.Destruct.1.m_playerTeamPrototypes = [] := by
  refine ⟨?_, ?_, rfl⟩
  · simp only [Player.Destruct, List.length_map]
  · simp only [Player.Destruct]
    generalize p.m_playerTeamPrototypes = l
    induction l with
    | nil => exact List.Forall₂.nil
    | cons proto rest ih =>
      exact List.Forall₂.cons ⟨rfl, rfl, rfl, rfl⟩ ih

/-! ### Linking a new node in front of the upgrade list -/

/-- Every address of a chain is allocated. -/
theorem UpgradeLinks.Chain_allocated (nodes : Nat → Option UpgradeNode) (addresses : List Nat) :
    ∀ (prev upgrade : Option Nat), UpgradeLinks.Chain nodes prev upgrade addresses →
      ∀ a ∈ addresses, ∃ node, nodes a = some node := by
  induction addresses with
  | nil => intro _ _ _ a ha; simp at ha
  | cons b rest ih =>
    intro prev upgrade h a ha
    obtain ⟨_, node, h2, _, h4⟩ := h
    rcases List.mem_cons.mp ha with e | hr
    · exact ⟨node, e ▸ h2⟩
    · exact ih _ _ h4 a hr

/-- A chain only reads the links of the nodes at its addresses. -/
theorem UpgradeLinks.Chain_congr_links (nodes nodes2 : Nat → Option UpgradeNode)
    (addresses : List Nat) :
    ∀ (prev upgrade : Option Nat),
      (∀ a ∈ addresses, ∀ node, nodes a = some node →
        ∃ node2, nodes2 a = some node2 ∧ node2.m_prev = node.m_prev ∧
          node2.m_next = node.m_next) →
      UpgradeLinks.Chain nodes prev upgrade addresses →
      UpgradeLinks.Chain nodes2 prev upgrade addresses := by
  induction addresses with
  | nil => intro prev upgrade _ h; exact h
  | cons a rest ih =>
    intro prev upgrade hagree h
    obtain ⟨h1, node, h2, h3, h4⟩ := h
    obtain ⟨node2, g1, g2, g3⟩ := hagree a (List.mem_cons_self _ _) node h2
    refine ⟨h1, node2, g1, g2.trans h3, ?_⟩
    rw [g3]
    exact ih _ _ (fun b hb => hagree b (List.mem_cons_of_mem _ hb)) h4

/-- The search on the nodes and the search on the list they hold agree on
whether the template has a record. -/
theorem UpgradeLinks.find_none_iff (links : UpgradeLinks) (t : UpgradeTemplate)
    (addresses : List Nat) (hall : ∀ a ∈ addresses, ∃ node, links.m_nodes a = some node) :
    addresses.find? (links.Has_Template t) = none ↔
      (UpgradeLinks.Records links.m_nodes addresses).find?
        (fun upgrade => decide (upgrade.m_template = t)) = none := by
  induction addresses with
  | nil => simp [UpgradeLinks.Records]
  | cons b rest ih =>
    obtain ⟨nb, hb⟩ := hall b (List.mem_cons_self _ _)
    have ih2 := ih (fun a ha => hall a (List.mem_cons_of_mem _ ha))
    simp only [UpgradeLinks.Records] at ih2 ⊢
    simp only [List.find?_cons, List.filterMap_cons, hb, Option.map_some',
      UpgradeLinks.Has_Template]
    by_cases hm : nb.m_template = t
    · simp [hm]
    · simp only [hm, decide_False]
      exact ih2

/-- The nodes after the status of the first node with the template is set:
they hold the list with the status of the first record of the template set. -/
theorem UpgradeLinks.Set_Status_records (links : UpgradeLinks) (t : UpgradeTemplate)
    (s : UpgradeStatusType) (addresses : List Nat) (a : Nat)
    (hall : ∀ b ∈ addresses, ∃ node, links.m_nodes b = some node) (hnd : addresses.Nodup)
    (hf : addresses.find? (links.Has_Template t) = some a) :
    UpgradeLinks.Records (links.Set_Status a s).m_nodes addresses
      = Player.Set_Status_Of (UpgradeLinks.Records links.m_nodes addresses) t s := by
  induction addresses with
  | nil => simp at hf
  | cons b rest ih =>
    obtain ⟨nb, hb⟩ := hall b (List.mem_cons_self _ _)
    obtain ⟨hbrest, hnd2⟩ := List.nodup_cons.mp hnd
    simp only [List.find?_cons, UpgradeLinks.Has_Template, hb] at hf
    by_cases hm : nb.m_template = t
    · simp only [hm, decide_True] at hf
      have e : b = a := Option.some.inj hf
      subst e
      have hrest : UpgradeLinks.Records (links.Set_Status b s).m_nodes rest
          = UpgradeLinks.Records links.m_nodes rest := by
        apply UpgradeLinks.Records_congr
        intro c hc
        have hne : c ≠ b := fun e => hbrest (e ▸ hc)
        simp only [UpgradeLinks.Set_Status, hne, if_false]
      have hhead : (links.Set_Status b s).m_nodes b
          = some { nb with m_status := s } := by
        simp only [UpgradeLinks.Set_Status, if_true, hb, Option.map_some']
      have h1 : UpgradeLinks.Records (links.Set_Status b s).m_nodes (b :: rest)
          = { m_template := nb.m_template, m_status := s }
            :: UpgradeLinks.Records (links.Set_Status b s).m_nodes rest := by
        simp only [UpgradeLinks.Records, List.filterMap_cons, hhead, Option.map_some']
      have h2 : UpgradeLinks.Records links.m_nodes (b :: rest)
          = { m_template := nb.m_template, m_status := nb.m_status }
            :: UpgradeLinks.Records links.m_nodes rest := by
        simp only [UpgradeLinks.Records, List.filterMap_cons, hb, Option.map_some']
      rw [h1, h2, hrest]
      simp only [Player.Set_Status_Of, hm, if_true]
    · simp only [hm, decide_False] at hf
      have hab : a ≠ b := by
        intro e
        have hmem := List.mem_of_find?_eq_some hf
        exact hbrest (e ▸ hmem)
      have hne : b ≠ a := fun e => hab e.symm
      have ih2 := ih (fun c hc => hall c (List.mem_cons_of_mem _ hc)) hnd2 hf
      have hhead : (links.Set_Status a s).m_nodes b = some nb := by
        simp only [UpgradeLinks.Set_Status, hne, if_false, hb]
      have h1 : UpgradeLinks.Records (links.Set_Status a s).m_nodes (b :: rest)
          = { m_template := nb.m_template, m_status := nb.m_status }
            :: UpgradeLinks.Records (links.Set_Status a s).m_nodes rest := by
        simp only [UpgradeLinks.Records, List.filterMap_cons, hhead, Option.map_some']
      have h2 : UpgradeLinks.Records links.m_nodes (b :: rest)
          = { m_template := nb.m_template, m_status := nb.m_status }
            :: UpgradeLinks.Records links.m_nodes rest := by
        simp only [UpgradeLinks.Records, List.filterMap_cons, hb, Option.map_some']
      rw [h1, h2, ih2]
      simp only [Player.Set_Status_Of, hm, if_false]

/-- The nodes after a node was created: the new node has the template, the
status, the old head as `m_next` and a null `m_prev`; the old head has the new
node as `m_prev`; every other node is as before. -/
theorem UpgradeLinks.Add_Upgrade_new_nodes (links : UpgradeLinks) (fuel : Nat)
    (t : UpgradeTemplate) (s : UpgradeStatusType) (address : Nat)
    (hf : links.Find_Upgrade fuel t = none) (hne : links.m_upgradeList ≠ some address) :
    (links.Add_Upgrade fuel t s address).2 = address ∧
    (links.Add_Upgrade fuel t s address).1.m_upgradeList = some address ∧
    ∀ b, (links.Add_Upgrade fuel t s address).1.m_nodes b =
      if b = address then
        some { m_template := t, m_status := s, m_next := links.m_upgradeList, m_prev := none }
      else if links.m_upgradeList = some b then
        (links.m_nodes b).map (fun node => { node with m_prev := some address })
      else links.m_nodes b := by
  refine ⟨?_, ?_, ?_⟩
  · simp only [UpgradeLinks.Add_Upgrade, hf]
  · simp only [UpgradeLinks.Add_Upgrade, hf, UpgradeLinks.Set_Status]
  · intro b
    cases hh : links.m_upgradeList with
    | none =>
      by_cases hb : b = address
      · simp [UpgradeLinks.Add_Upgrade, hf, UpgradeLinks.Set_Status, UpgradeLinks.New_Upgrade,
          UpgradeLinks.Friend_Set_Prev, UpgradeLinks.Friend_Set_Next, hh, hb]
      · simp [UpgradeLinks.Add_Upgrade, hf, UpgradeLinks.Set_Status, UpgradeLinks.New_Upgrade,
          UpgradeLinks.Friend_Set_Prev, UpgradeLinks.Friend_Set_Next, hh, hb]
    | some head =>
      have hha : head ≠ address := fun e => hne (by rw [hh, e])
      by_cases hb : b = address
      · have hhb : ¬ head = b := fun e => hha (e.trans hb)
        have hah : ¬ address = head := fun e => hha e.symm
        simp [UpgradeLinks.Add_Upgrade, hf, UpgradeLinks.Set_Status, UpgradeLinks.New_Upgrade,
          UpgradeLinks.Friend_Set_Prev, UpgradeLinks.Friend_Set_Next, hh, hb, hah]
      · by_cases hbh : b = head
        · subst hbh
          simp [UpgradeLinks.Add_Upgrade, hf, UpgradeLinks.Set_Status,
            UpgradeLinks.New_Upgrade, UpgradeLinks.Friend_Set_Prev,
            UpgradeLinks.Friend_Set_Next, hh, hb]
        · have hhb : ¬ head = b := fun e => hbh e.symm
          simp [UpgradeLinks.Add_Upgrade, hf, UpgradeLinks.Set_Status,
            UpgradeLinks.New_Upgrade, UpgradeLinks.Friend_Set_Prev,
            UpgradeLinks.Friend_Set_Next, hh, hb, hbh, hhb]

/-- The linked-node `Add_Upgrade` refines the list model. When no node has the
template, the new node at the fresh address is the head, linked in front of
the old nodes, which follow in their old order, and the old head has the new
node as its `m_prev`. When a node has the template, the nodes and their order
are as before and the status of that node is set. -/
theorem UpgradeLinks.Add_Upgrade_holds (links : UpgradeLinks) (addresses : List Nat)
    (l : List Upgrade) (t : UpgradeTemplate) (s : UpgradeStatusType) (fuel address : Nat)
    (h : links.Holds addresses l) (hfuel : addresses.length ≤ fuel)
    (hfresh : links.m_nodes address = none) :
    (l.find? (fun upgrade => decide (upgrade.m_template = t)) = none →
      (links.Add_Upgrade fuel t s address).1.Holds (address :: addresses)
          ({ m_template := t, m_status := s } :: l) ∧
        (links.Add_Upgrade fuel t s address).1.m_upgradeList = some address ∧
        (links.Add_Upgrade fuel t s address).2 = address ∧
        ∀ head, links.m_upgradeList = some head →
          (links.Add_Upgrade fuel t s address).1.Friend_Get_Prev head = some address) ∧
    (l.find? (fun upgrade => decide (upgrade.m_template = t)) ≠ none →
      (links.Add_Upgrade fuel t s address).1.Holds addresses (Player.Set_Status_Of l t s) ∧
        (links.Add_Upgrade fuel t s address).1.m_upgradeList = links.m_upgradeList) := by
  obtain ⟨hc, hnd, hr⟩ := h
  have hall := UpgradeLinks.Chain_allocated links.m_nodes addresses none _ hc
  have hfind := UpgradeLinks.Find_Upgrade_From_chain links t addresses fuel none _ hc hfuel
  have hiff := UpgradeLinks.find_none_iff links t addresses hall
  rw [hr] at hiff
  have hnotin : address ∉ addresses := by
    intro hmem
    obtain ⟨node, hn⟩ := hall address hmem
    rw [hfresh] at hn
    cases hn
  constructor
  · intro hnone
    have hf : links.Find_Upgrade fuel t = none := by
      unfold UpgradeLinks.Find_Upgrade
      rw [hfind]
      exact hiff.mpr hnone
    have hhead := UpgradeLinks.Chain_head _ _ _ _ hc
    have hne : links.m_upgradeList ≠ some address := by
      intro e
      rw [e] at hhead
      cases addresses with
      | nil => cases hhead
      | cons a rest =>
        have : a = address := (Option.some.inj hhead).symm
        exact hnotin (this ▸ List.mem_cons_self _ _)
    obtain ⟨k1, k2, k3⟩ := UpgradeLinks.Add_Upgrade_new_nodes links fuel t s address hf hne
    have hold : ∀ b ∈ addresses, ∀ node, links.m_nodes b = some node →
        ∃ node2, (links.Add_Upgrade fuel t s address).1.m_nodes b = some node2 ∧
          node2.m_template = node.m_template ∧ node2.m_status = node.m_status ∧
          node2.m_next = node.m_next ∧
          node2.m_prev = if links.m_upgradeList = some b then some address else node.m_prev := by
      intro b hb node hn
      have hba : b ≠ address := fun e => hnotin (e ▸ hb)
      rw [k3 b]
      simp only [hba, if_false, hn]
      by_cases hlb : links.m_upgradeList = some b
      · simp only [hlb, if_true, Option.map_some']
        exact ⟨_, rfl, rfl, rfl, rfl, rfl⟩
      · simp only [hlb, if_false]
        exact ⟨_, rfl, rfl, rfl, rfl, rfl⟩
    have hnew : (links.Add_Upgrade fuel t s address).1.m_nodes address
        = some { m_template := t, m_status := s, m_next := links.m_upgradeList,
                 m_prev := none } := by
      rw [k3 address]
      simp only [if_true]
    refine ⟨⟨?_, ?_, ?_⟩, k2, k1, ?_⟩
    · -- the chain from the new head
      rw [k2]
      refine ⟨rfl, { m_template := t, m_status := s, m_next := links.m_upgradeList,
                     m_prev := none }, hnew, rfl, ?_⟩
      show UpgradeLinks.Chain _ (some address) links.m_upgradeList addresses
      cases addresses with
      | nil => exact hc
      | cons a rest =>
        obtain ⟨h1, node, h2, h3, h4⟩ := hc
        obtain ⟨node2, g1, _, _, g4, g5⟩ := hold a (List.mem_cons_self _ _) node h2
        refine ⟨h1, node2, g1, ?_, ?_⟩
        · rw [g5, h1]
          simp only [if_true]
        · rw [g4]
          refine UpgradeLinks.Chain_congr_links links.m_nodes _ rest _ _ ?_ h4
          intro b hb nodeb hnb
          obtain ⟨nb2, e1, _, _, e4, e5⟩ := hold b (List.mem_cons_of_mem _ hb) nodeb hnb
          have hba : ¬ links.m_upgradeList = some b := by
            rw [h1]
            intro e
            have : a = b := Option.some.inj e
            exact (List.nodup_cons.mp hnd).1 (this ▸ hb)
          simp only [hba, if_false] at e5
          exact ⟨nb2, e1, e5, e4⟩
    · exact List.nodup_cons.mpr ⟨hnotin, hnd⟩
    · have hrec : UpgradeLinks.Records (links.Add_Upgrade fuel t s address).1.m_nodes addresses
          = UpgradeLinks.Records links.m_nodes addresses := by
        apply UpgradeLinks.Records_congr
        intro b hb
        obtain ⟨node, hn⟩ := hall b hb
        obtain ⟨node2, e1, e2, e3, _, _⟩ := hold b hb node hn
        rw [e1, hn]
        simp only [Option.map_some', e2, e3]
      have hcons : UpgradeLinks.Records (links.Add_Upgrade fuel t s address).1.m_nodes
            (address :: addresses)
          = { m_template := t, m_status := s }
            :: UpgradeLinks.Records (links.Add_Upgrade fuel t s address).1.m_nodes addresses := by
        simp only [UpgradeLinks.Records, List.filterMap_cons, hnew, Option.map_some']
      rw [hcons, hrec, hr]
    · intro head hh
      have hmem : head ∈ addresses := by
        rw [hh] at hhead
        cases addresses with
        | nil => cases hhead
        | cons a rest =>
          have : head = a := Option.some.inj hhead
          exact this ▸ List.mem_cons_self _ _
      obtain ⟨node, hn⟩ := hall head hmem
      obtain ⟨node2, e1, _, _, _, e5⟩ := hold head hmem node hn
      simp only [hh, if_true] at e5
      simp only [UpgradeLinks.Friend_Get_Prev, e1, Option.bind, e5]
  · intro hsome
    have hsome2 : addresses.find? (links.Has_Template t) ≠ none := fun e => hsome (hiff.mp e)
    obtain ⟨a, ha⟩ := Option.ne_none_iff_exists'.mp hsome2
    have hf : links.Find_Upgrade fuel t = some a := by
      unfold UpgradeLinks.Find_Upgrade
      rw [hfind, ha]
    have hres : (links.Add_Upgrade fuel t s address).1 = links.Set_Status a s := by
      simp only [UpgradeLinks.Add_Upgrade, hf]
    rw [hres]
    refine ⟨⟨?_, hnd, ?_⟩, rfl⟩
    · refine UpgradeLinks.Chain_congr_links links.m_nodes _ addresses _ _ ?_ hc
      intro b _ node hn
      by_cases hba : b = a
      · subst hba
        exact ⟨{ node with m_status := s },
          by simp only [UpgradeLinks.Set_Status, if_true, hn, Option.map_some'], rfl, rfl⟩
      · exact ⟨node, by simp only [UpgradeLinks.Set_Status, hba, if_false, hn], rfl, rfl⟩
    · rw [UpgradeLinks.Set_Status_records links t s addresses a hall hnd ha, hr]

/-- C30: when the ledger has no record for the template `t`, `Add_Upgrade(t, s)`
puts the new record at the head of the upgrade list and all previous records
follow it in their previous order; on the linked nodes the new node is the
head, the old nodes follow it with mutually consistent links, and the `m_prev`
link of the old head points to the new node. When a record for `t` exists, the
records and the nodes are the same ones in the same order, only the status of
that record is set, and the head pointer is unchanged. -/
theorem C30_Add_Upgrade_order (env : Env) (p : Player) (t : UpgradeTemplate)
    (s : UpgradeStatusType) :
    (p.Find_Upgrade t = none →
      (p.Add_Upgrade env t s).1.m_upgradeList
        = { m_template := t, m_status := s } :: p.m_upgradeList ∧
      ∀ (links : UpgradeLinks) (addresses : List Nat) (fuel address : Nat),
        links.Holds addresses p.m_upgradeList → addresses.length ≤ fuel →
        links.m_nodes address = none →
        (links.Add_Upgrade fuel t s address).1.Holds (address :: addresses)
            (p.Add_Upgrade env t s).1.m_upgradeList ∧
          (links.Add_Upgrade fuel t s address).1.m_upgradeList = some address ∧
          ∀ head, links.m_upgradeList = some head →
            (links.Add_Upgrade fuel t s address).1.Friend_Get_Prev head = some address) ∧
    (p.Find_Upgrade t ≠ none →
      (p.Add_Upgrade env t s).1.m_upgradeList = Player.Set_Status_Of p.m_upgradeList t s ∧
      (p.Add_Upgrade env t s).1.m_upgradeList.map (fun upgrade => upgrade.m_template)
        = p.m_upgradeList.map (fun upgrade => upgrade.m_template) ∧
      ∀ (links : UpgradeLinks) (addresses : List Nat) (fuel address : Nat),
        links.Holds addresses p.m_upgradeList → addresses.length ≤ fuel →
        links.m_nodes address = none →
        (links.Add_Upgrade fuel t s address).1.Holds addresses
            (p.Add_Upgrade env t s).1.m_upgradeList ∧
          (links.Add_Upgrade fuel t s address).1.m_upgradeList = links.m_upgradeList) := by
  have hlist := Player.Add_Upgrade_list env p t s
  constructor
  · intro hnone
    rw [hnone] at hlist
    refine ⟨hlist, ?_⟩
    intro links addresses fuel address hh hfuel hfresh
    obtain ⟨k1, k2, _, k4⟩ :=
      (UpgradeLinks.Add_Upgrade_holds links addresses _ t s fuel address hh hfuel hfresh).1 hnone
    rw [hlist]
    exact ⟨k1, k2, k4⟩
  · intro hsome
    obtain ⟨u, hu⟩ := Option.ne_none_iff_exists'.mp hsome
    rw [hu] at hlist
    simp only at hlist
    refine ⟨hlist, by rw [hlist, Player.Set_Status_Of_map_template], ?_⟩
    intro links addresses fuel address hh hfuel hfresh
    rw [hlist]
    exact (UpgradeLinks.Add_Upgrade_holds links addresses _ t s fuel address hh hfuel
      hfresh).2 hsome

/-- C30 at concrete inputs, on the player whose list is B, A with the nodes at
the addresses 2 and 1. Adding the new upgrade C with a node at the fresh
address 3 gives the list C, B, A on the nodes 3, 2, 1, and the old head 2 has
the node 3 as its `m_prev`. Adding A again leaves the nodes 2, 1 in their
order. -/
theorem C30_Add_Upgrade_order_witness :
    linksInGame.Holds [2, 1] playerInGame.m_upgradeList ∧
    (playerInGame.Add_Upgrade envWithUpgrades templateC
        UpgradeStatusType.UPGRADE_STATUS_IN_PRODUCTION).1.m_upgradeList
      = { m_template := templateC, m_status := UpgradeStatusType.UPGRADE_STATUS_IN_PRODUCTION }
        :: playerInGame.m_upgradeList ∧
    (linksInGame.Add_Upgrade 2 templateC UpgradeStatusType.UPGRADE_STATUS_IN_PRODUCTION
        3).1.Holds [3, 2, 1]
      (playerInGame.Add_Upgrade envWithUpgrades templateC
        UpgradeStatusType.UPGRADE_STATUS_IN_PRODUCTION).1.m_upgradeList ∧
    (linksInGame.Add_Upgrade 2 templateC UpgradeStatusType.UPGRADE_STATUS_IN_PRODUCTION
        3).1.Friend_Get_Prev 2 = some 3 ∧
    (linksInGame.Add_Upgrade 2 templateA UpgradeStatusType.UPGRADE_STATUS_COMPLETE
        3).1.Holds [2, 1]
      (playerInGame.Add_Upgrade envWithUpgrades templateA
        UpgradeStatusType.UPGRADE_STATUS_COMPLETE).1.m_upgradeList :=
  have hholds : linksInGame.Holds [2, 1] playerInGame.m_upgradeList :=
    ⟨⟨rfl, _, rfl, rfl, rfl, _, rfl, rfl, rfl⟩, by decide, by decide⟩
  have hnew := (C30_Add_Upgrade_order envWithUpgrades playerInGame templateC
    UpgradeStatusType.UPGRADE_STATUS_IN_PRODUCTION).1 (by decide)
  have hold := (C30_Add_Upgrade_order envWithUpgrades playerInGame templateA
    UpgradeStatusType.UPGRADE_STATUS_COMPLETE).2 (by decide)
  ⟨hholds, hnew.1,
   (hnew.2 linksInGame [2, 1] 2 3 hholds (by decide) (by decide)).1,
   (hnew.2 linksInGame [2, 1] 2 3 hholds (by decide) (by decide)).2.2 2 rfl,
   (hold.2.2 linksInGame [2, 1] 2 3 hholds (by decide) (by decide)).1⟩

/-! ### `Init` applied twice -/

theorem StdMap.insert_insert_same {K V : Type} [DecidableEq K] [LT K]
    [DecidableRel (fun a b : K => a < b)] (m : StdMap K V) (k : K) (v : V) :
    StdMap.insert (StdMap.insert m k v) k v = StdMap.insert m k v := by
  induction m with
  | nil => simp [StdMap.insert]
  | cons e rest ih =>
    obtain ⟨k0, v0⟩ := e
    by_cases h1 : k = k0
    · simp [StdMap.insert, h1]
    · by_cases h2 : k < k0
      · simp [StdMap.insert, h1, h2]
      · simp [StdMap.insert, h1, h2, ih]

theorem Player.Reset_Rank_Fields_name (env : Env) (p : Player) :
    (Player.Reset_Rank_Fields env p).m_scienceGeneralName
      = (match env.m_gameText with
         | some fetch => fetch "SCIENCE:GeneralName"
         | none => "") := by
  cases h2 : env.Get_Rank_Info 2 <;> cases h1 : env.Get_Rank_Info 1 <;>
    cases ht : p.m_playerTemplate <;> cases hg : env.m_gameText <;>
    simp [Player.Reset_Rank_Fields, h1, h2, ht, hg]

/-- `Reset_Rank` in closed form: the rank fields and the acquired list are
given by the rank store, the game text and the template; the prototypes and
the effects are the only other fields that may differ. -/
theorem Player.Reset_Rank_explicit (env : Env) (q : Player) :
    ∃ pr ef, Player.Reset_Rank env q =
      { q with m_rankLevel := 1, m_currentSkillPoints := 0,
               m_skillPointsNeededForNextRank :=
                 (match env.Get_Rank_Info 2 with
                  | some next_rank_info => next_rank_info.m_skillPointsNeeded
                  | none => 2 ^ 31 - 1),
               m_rankProgress := 0,
               m_sciencePurchasePoints :=
                 (match env.Get_Rank_Info 1 with
                  | some cur_rank_info =>
                    Int32_Wrap
                      ((match q.m_playerTemplate with
                        | some pt => pt.m_intrinsicSciencePurchasePoints
                        | none => 0) + cur_rank_info.m_sciencePurchasePointsGranted)
                  | none =>
                    (match q.m_playerTemplate with
                     | some pt => pt.m_intrinsicSciencePurchasePoints
                     | none => 0)),
               m_scienceGeneralName :=
                 (match env.m_gameText with
                  | some fetch => fetch "SCIENCE:GeneralName"
                  | none => ""),
               m_sciences :=
                 Player.Sciences_After_Reset_reference env
                   (match q.m_playerTemplate with
                    | some pt => pt.m_intrinsicSciences
                    | none => []) 1,
               m_playerTeamPrototypes := pr, m_effects := ef } := by
  obtain ⟨needed, points, name, sc, pr, ef, h⟩ := Player.Reset_Rank_frame env q
  obtain ⟨v1, _, _, v4, v5, v6, _⟩ := Player.Reset_Rank_Fields_values env q
  have v7 := Player.Reset_Rank_Fields_name env q
  obtain ⟨sc2, pr2, ef2, hs⟩ := Player.Reset_Sciences_frame env (Player.Reset_Rank_Fields env q)
  have hsc := (Player.Reset_Sciences_result env (Player.Reset_Rank_Fields env q)).1
  rw [v6, v1] at hsc
  have hrr : Player.Reset_Rank env q
      = Player.Reset_Sciences env (Player.Reset_Rank_Fields env q) := rfl
  have e1 : (Player.Reset_Rank env q).m_skillPointsNeededForNextRank
      = (Player.Reset_Rank_Fields env q).m_skillPointsNeededForNextRank := by rw [hrr, hs]
  have e2 : (Player.Reset_Rank env q).m_sciencePurchasePoints
      = (Player.Reset_Rank_Fields env q).m_sciencePurchasePoints := by rw [hrr, hs]
  have e3 : (Player.Reset_Rank env q).m_scienceGeneralName
      = (Player.Reset_Rank_Fields env q).m_scienceGeneralName := by rw [hrr, hs]
  rw [← hrr] at hsc
  rw [v4] at e1
  rw [v5] at e2
  rw [v7] at e3
  rw [h] at e1 e2 e3 hsc
  have f1 : needed = _ := e1
  have f2 : points = _ := e2
  have f3 : name = _ := e3
  have f4 : sc = _ := hsc
  subst f1 f2 f3 f4
  exact ⟨pr, ef, h⟩

/-- The player owns no team prototype after `Reset_Rank` if it owned none
before. -/
theorem Player.Reset_Rank_no_prototypes (env : Env) (q : Player)
    (h : q.m_playerTeamPrototypes = []) :
    (Player.Reset_Rank env q).m_playerTeamPrototypes = [] := by
  have hfold : ∀ {α : Type} (f : Player → α → Player),
      (∀ (r : Player) (a : α), r.m_playerTeamPrototypes = [] →
        (f r a).m_playerTeamPrototypes = []) →
      ∀ (l : List α) (r : Player), r.m_playerTeamPrototypes = [] →
        (l.foldl f r).m_playerTeamPrototypes = [] := by
    intro α f hf l
    induction l with
    | nil => intro r hr; exact hr
    | cons a rest ih => intro r hr; exact ih (f r a) (hf r a hr)
  have hadd : ∀ (r : Player) (t : ScienceType), r.m_playerTeamPrototypes = [] →
      (Player.Add_Science env r t).2.m_playerTeamPrototypes = [] := by
    intro r t hr
    unfold Player.Add_Science
    split_ifs
    · exact hr
    · simp [Player.Notify_Of_Acquired_Science, hr]
  have hgrant : ∀ (r : Player) (i : Int), r.m_playerTeamPrototypes = [] →
      (Player.Grant_Rank_Sciences env r (i + 1)).m_playerTeamPrototypes = [] := by
    intro r i hr
    unfold Player.Grant_Rank_Sciences
    cases env.Get_Rank_Info (i + 1) with
    | none => exact hr
    | some info => exact hfold _ hadd _ r hr
  have hfields : (Player.Reset_Rank_Fields env q).m_playerTeamPrototypes = [] := by
    obtain ⟨needed, points, name, hf⟩ := Player.Reset_Rank_Fields_frame env q
    rw [hf]
    exact h
  have hseed : (Player.Reset_Rank_Fields env q).Seed_Sciences.m_playerTeamPrototypes = [] := by
    unfold Player.Seed_Sciences
    simp only []
    split <;> exact hfields
  unfold Player.Reset_Rank
  rw [Player.Reset_Sciences_unfold]
  unfold Player.Notify_All_Sciences
  refine hfold _ ?_ _ _ (hfold _ hgrant _ _ hseed)
  intro r t hr
  exact hr

/-- The state after a second `Init` with the same template is the state after
the first one, apart from the objects reached through the owned prototypes and
the recorded effects. -/
theorem Player.Init_twice (env : Env) (p : Player) (pt : Option PlayerTemplate) :
    ∃ pr ef, Player.Init env (Player.Init env p pt) pt
      = { Player.Init env p pt with m_playerTeamPrototypes := pr, m_effects := ef } := by
  unfold Player.Init
  generalize hq1 : Player.Init_Before_Rank env p pt = q1
  obtain ⟨pr1, ef1, h1⟩ := Player.Reset_Rank_explicit env q1
  rw [h1]
  generalize hq2 : Player.Init_Before_Rank env _ pt = q2
  obtain ⟨pr2, ef2, h2⟩ := Player.Reset_Rank_explicit env q2
  rw [h2]
  refine ⟨pr2, ef2, ?_⟩
  subst hq2 hq1
  cases pt <;> cases pr1 <;> cases hp : p.m_playerTeamPrototypes <;>
    simp [Player.Init_After_Rank, Player.Init_Before_Rank, Player.Init_From_Template,
      Player.Init_Without_Template, Player.Set_Player_Relationship, Player.Delete_Upgrade_List,
      Player.Get_Player_Index, Player.Debug_Assert_Failed, hp, StdMap.insert_insert_same]

theorem Player.Init_no_prototypes (env : Env) (p : Player) (pt : Option PlayerTemplate)
    (h : p.m_playerTeamPrototypes = []) :
    (Player.Init env p pt).m_playerTeamPrototypes = [] := by
  have hb : (Player.Init_Before_Rank env p pt).m_playerTeamPrototypes = [] := by
    cases pt <;>
      simp [Player.Init_Before_Rank, Player.Init_From_Template, Player.Init_Without_Template,
        Player.Set_Player_Relationship, Player.Delete_Upgrade_List, h]
  exact Player.Reset_Rank_no_prototypes env _ hb

/-- The owned sub-structures after `Init`, given by the template and the
global collaborators alone. -/
theorem Player.Init_owned (env : Env) (p : Player) (pt : Option PlayerTemplate) :
    (Player.Init env p pt).m_upgradeList = [] ∧
    (Player.Init env p pt).m_upgradesInProgress = 0 ∧
    (Player.Init env p pt).m_upgradesCompleted = 0 ∧
    (Player.Init env p pt).m_sciences
      = Player.Sciences_After_Reset_reference env
          (match pt with
           | some tmpl => tmpl.m_intrinsicSciences
           | none => []) 1 ∧
    (Player.Init env p pt).m_disabledSciences = [] ∧
    (Player.Init env p pt).m_hiddenSciences = [] ∧
    (Player.Init env p pt).m_rankLevel = 1 ∧
    (Player.Init env p pt).m_currentSkillPoints = 0 ∧
    (Player.Init env p pt).m_skillPointsNeededForNextRank
      = (match env.Get_Rank_Info 2 with
         | some next_rank_info => next_rank_info.m_skillPointsNeeded
         | none => 2 ^ 31 - 1) ∧
    (Player.Init env p pt).m_rankProgress = 0 ∧
    (Player.Init env p pt).m_sciencePurchasePoints
      = (match env.Get_Rank_Info 1 with
         | some cur_rank_info =>
           Int32_Wrap
             ((match pt with
               | some tmpl => tmpl.m_intrinsicSciencePurchasePoints
               | none => 0) + cur_rank_info.m_sciencePurchasePointsGranted)
         | none =>
           (match pt with
            | some tmpl => tmpl.m_intrinsicSciencePurchasePoints
            | none => 0)) ∧
    (Player.Init env p pt).m_scienceGeneralName
      = (match env.m_gameText with
         | some fetch => fetch "SCIENCE:GeneralName"
         | none => "") ∧
    (Player.Init env p pt).m_kindOfPercentProductionChangeList = [] ∧
    (Player.Init env p pt).m_specialPowerReadyTimerList = [] ∧
    (Player.Init env p pt).m_battlePlanBonuses = none := by
  unfold Player.Init
  generalize hq1 : Player.Init_Before_Rank env p pt = q1
  obtain ⟨pr1, ef1, h1⟩ := Player.Reset_Rank_explicit env q1
  rw [h1]
  subst hq1
  cases pt <;>
    simp [Player.Init_After_Rank, Player.Init_Before_Rank, Player.Init_From_Template,
      Player.Init_Without_Template, Player.Set_Player_Relationship, Player.Delete_Upgrade_List]

/-- C24 (as stated, refuted): the relationship tables after `Init` depend on
the state before the call. The fresh player 0 and the player 0 with the team
entry 7 -> ENEMIES and the player entry 1 -> ALLIES have the same player index;
after `Init` without a template the team table of the first is empty and the
one of the second still has its entry, and the player table of the second still
has the entry for player 1 next to the new one for its own index. -/
theorem C24_relationship_tables_counterexample :
    playerFresh.m_playerIndex = playerConflictingEntries.m_playerIndex ∧
    (Player.Init envNone playerFresh none).m_teamRelations = [] ∧
    (Player.Init envNone playerConflictingEntries none).m_teamRelations
      = [(7, Relationship.ENEMIES)] ∧
    (Player.Init envNone playerFresh none).m_playerRelations = [(0, Relationship.ALLIES)] ∧
    (Player.Init envNone playerConflictingEntries none).m_playerRelations
      = [(0, Relationship.ALLIES), (1, Relationship.ALLIES)] := by
  decide

/-- C24 (amended): applying `Init` twice with the same template gives the same
player state as applying it once: the members of the player are the same and
only the log of collaborator calls, and the objects reached through owned team
prototypes, show the second call; when the player owns no team prototype, which
is what `Init` asserts, only that log differs. The upgrade ledger, the science
lists, the rank state, the production change list, the timers and the battle
plan bonuses after `Init` are the same whatever the state of the player was
before the call. The relationship tables are not reset: `Init` leaves the team
table as it was, and the player table as it was with a template, or as it was
with the entry of the own index set to ALLIES without one. -/
theorem C24_Init_idempotent (env : Env) (pt : Option PlayerTemplate) :
    (∀ (p : Player), ∃ pr ef, Player.Init env (Player.Init env p pt) pt
      = { Player.Init env p pt with m_playerTeamPrototypes := pr, m_effects := ef }) ∧
    (∀ (p : Player), p.m_playerTeamPrototypes = [] →
      ∃ ef, Player.Init env (Player.Init env p pt) pt
        = { Player.Init env p pt with m_effects := ef }) ∧
    (∀ (p1 p2 : Player),
      (Player.Init env p1 pt).m_upgradeList = (Player.Init env p2 pt).m_upgradeList ∧
      (Player.Init env p1 pt).m_upgradesInProgress
        = (Player.Init env p2 pt).m_upgradesInProgress ∧
      (Player.Init env p1 pt).m_upgradesCompleted
        = (Player.Init env p2 pt).m_upgradesCompleted ∧
      (Player.Init env p1 pt).m_sciences = (Player.Init env p2 pt).m_sciences ∧
      (Player.Init env p1 pt).m_disabledSciences = (Player.Init env p2 pt).m_disabledSciences ∧
      (Player.Init env p1 pt).m_hiddenSciences = (Player.Init env p2 pt).m_hiddenSciences ∧
      (Player.Init env p1 pt).m_rankLevel = (Player.Init env p2 pt).m_rankLevel ∧
      (Player.Init env p1 pt).m_currentSkillPoints
        = (Player.Init env p2 pt).m_currentSkillPoints ∧
      (Player.Init env p1 pt).m_skillPointsNeededForNextRank
        = (Player.Init env p2 pt).m_skillPointsNeededForNextRank ∧
      (Player.Init env p1 pt).m_rankProgress = (Player.Init env p2 pt).m_rankProgress ∧
      (Player.Init env p1 pt).m_sciencePurchasePoints
        = (Player.Init env p2 pt).m_sciencePurchasePoints ∧
      (Player.Init env p1 pt).m_scienceGeneralName
        = (Player.Init env p2 pt).m_scienceGeneralName ∧
      (Player.Init env p1 pt).m_kindOfPercentProductionChangeList
        = (Player.Init env p2 pt).m_kindOfPercentProductionChangeList ∧
      (Player.Init env p1 pt).m_specialPowerReadyTimerList
        = (Player.Init env p2 pt).m_specialPowerReadyTimerList ∧
      (Player.Init env p1 pt).m_battlePlanBonuses
        = (Player.Init env p2 pt).m_battlePlanBonuses) ∧
    (∀ (p : Player),
      (Player.Init env p pt).m_teamRelations = p.m_teamRelations ∧
      (Player.Init env p pt).m_playerRelations
        = (match pt with
           | some _ => p.m_playerRelations
           | none => p.m_playerRelations.insert p.m_playerIndex Relationship.ALLIES)) := by
  refine ⟨fun p => Player.Init_twice env p pt, ?_, ?_, ?_⟩
  · intro p hp
    obtain ⟨pr, ef, h⟩ := Player.Init_twice env p pt
    have h1 := Player.Init_no_prototypes env p pt hp
    have h2 := Player.Init_no_prototypes env (Player.Init env p pt) pt h1
    rw [h] at h2
    have h3 : pr = [] := h2
    subst h3
    refine ⟨ef, ?_⟩
    rw [h]
    generalize Player.Init env p pt = A at h1
    cases A
    simp only at h1
    subst h1
    rfl
  · intro p1 p2
    obtain ⟨a1, a2, a3, a4, a5, a6, a7, a8, a9, a10, a11, a12, a13, a14, a15⟩ :=
      Player.Init_owned env p1 pt
    obtain ⟨b1, b2, b3, b4, b5, b6, b7, b8, b9, b10, b11, b12, b13, b14, b15⟩ :=
      Player.Init_owned env p2 pt
    exact ⟨a1.trans b1.symm, a2.trans b2.symm, a3.trans b3.symm, a4.trans b4.symm,
      a5.trans b5.symm, a6.trans b6.symm, a7.trans b7.symm, a8.trans b8.symm,
      a9.trans b9.symm, a10.trans b10.symm, a11.trans b11.symm, a12.trans b12.symm,
      a13.trans b13.symm, a14.trans b14.symm, a15.trans b15.symm⟩
  · intro p
    exact (Player.Init_relations env p pt).2

/-- C24 at a concrete input: the fresh player 0 owns no team prototype, and a
second `Init` without a template leaves it as the first one did, apart from the
log of collaborator calls. -/
theorem C24_Init_idempotent_witness :
    playerFresh.m_playerTeamPrototypes = [] ∧
    ∃ ef, Player.Init envNone (Player.Init envNone playerFresh none) none
      = { Player.Init envNone playerFresh none with m_effects := ef } :=
  ⟨rfl, (C24_Init_idempotent envNone none).2.1 playerFresh rfl⟩

/-! ### Radar -/

/-- C40: `Has_Radar` holds exactly when the radar count is greater than 0 and
the radar is not disabled or the disable-proof radar count is not zero. A
player with radar count 0 has no radar; and for a player that has radar,
disabling the radar leaves it without radar exactly when the disable-proof
count is 0. -/
theorem C40_Has_Radar (p : Player) :
    (p.Has_Radar = true ↔
      p.m_radarCount > 0 ∧ (p.m_radarDisabled = false ∨ p.m_disableProofRadarCount ≠ 0)) ∧
    (p.m_radarCount = 0 → p.Has_Radar = false) ∧
    (p.Has_Radar = true →
      (({ p with m_radarDisabled := true } : Player).Has_Radar = false ↔
        p.m_disableProofRadarCount = 0)) := by
  refine ⟨?_, ?_, ?_⟩
  · unfold Player.Has_Radar
    cases p.m_radarDisabled <;> by_cases h : p.m_disableProofRadarCount = 0 <;> simp [h]
  · intro h
    unfold Player.Has_Radar
    simp [h]
  · intro h
    unfold Player.Has_Radar at h ⊢
    have hpos : p.m_radarCount > 0 := by
      simp only [Bool.and_eq_true, decide_eq_true_eq] at h
      exact h.2
    by_cases h0 : p.m_disableProofRadarCount = 0 <;> simp [h0, hpos]

/-- C40 at concrete inputs: a fresh player has radar count 0 and no radar; a
player with one radar and no disable-proof radar has radar, and loses it when
the radar is disabled. -/
theorem C40_Has_Radar_witness :
    playerFresh.Has_Radar = false ∧
    playerWithRadar.Has_Radar = true ∧
    (({ playerWithRadar with m_radarDisabled := true } : Player).Has_Radar = false ↔
      playerWithRadar.m_disableProofRadarCount = 0) :=
  ⟨(C40_Has_Radar playerFresh).2.1 (by decide), by decide,
   (C40_Has_Radar playerWithRadar).2.2 (by decide)⟩

/-! ### Hotkey squads -/

/-- C38: on a player whose squad array has its 10 slots, `Get_Hotkey_Squad(i)`
returns the squad of slot `i` for every index 0 <= i <= 9, a new squad and not
null after `Init`, and returns null without a slot read for every index above
9. For a negative index the claim does not hold of the code: only `squad > 9`
is tested, so the array is read at the negative index, outside its slots. -/
theorem C38_Get_Hotkey_Squad (p : Player) (hlen : p.m_squads.length = SQUAD_COUNT) :
    (∀ (i : Nat), i ≤ 9 →
      p.Get_Hotkey_Squad (i : Int) = SquadAccess.returned (p.m_squads.getD i none)) ∧
    (∀ (env : Env) (q : Player) (pt : Option PlayerTemplate) (i : Nat), i ≤ 9 →
      (Player.Init env q pt).Get_Hotkey_Squad (i : Int) = SquadAccess.returned (some [])) ∧
    (∀ (squad : Int), squad > 9 → p.Get_Hotkey_Squad squad = SquadAccess.returned none) ∧
    (∀ (squad : Int), squad < 0 →
      p.Get_Hotkey_Squad squad = SquadAccess.read_outside_array squad) := by
  have hin : ∀ (r : Player) (i : Nat), r.m_squads.length = SQUAD_COUNT → i ≤ 9 →
      r.Get_Hotkey_Squad (i : Int) = SquadAccess.returned (r.m_squads.getD i none) := by
    intro r i hr hi
    have h1 : ¬ ((i : Int) > 9) := by omega
    have h2 : 0 ≤ (i : Int) ∧ (i : Int) < (r.m_squads.length : Int) := by
      rw [hr]
      simp only [SQUAD_COUNT]
      omega
    simp only [Player.Get_Hotkey_Squad, Player.Read_Squad_Slot, h1, h2, if_false, if_true,
      and_self, Int.toNat_ofNat]
  refine ⟨fun i hi => hin p i hlen hi, ?_, ?_, ?_⟩
  · intro env q pt i hi
    have hsq : (Player.Init env q pt).m_squads = List.replicate SQUAD_COUNT (some []) := by
      obtain ⟨needed, points, name, sc, pr, ef, h⟩ :=
        Player.Reset_Rank_frame env (Player.Init_Before_Rank env q pt)
      unfold Player.Init
      rw [h]
      cases pt <;>
        simp [Player.Init_After_Rank, Player.Init_Before_Rank, Player.Init_From_Template,
          Player.Init_Without_Template, Player.Set_Player_Relationship,
          Player.Delete_Upgrade_List]
    rw [hin _ i (by rw [hsq]; simp) hi, hsq]
    have hi2 : i < SQUAD_COUNT := by simp only [SQUAD_COUNT]; omega
    simp [List.getD, hi2]
  · intro squad h
    simp only [Player.Get_Hotkey_Squad, h, if_true]
  · intro squad h
    have h1 : ¬ (squad > 9) := by omega
    have h2 : ¬ (0 ≤ squad ∧ squad < (p.m_squads.length : Int)) := by omega
    simp only [Player.Get_Hotkey_Squad, Player.Read_Squad_Slot, h1, h2, if_false]

/-- C38 at concrete inputs, on the fresh player 0: slot 3 holds a squad, also
after another `Init`, index 10 gives null, and index -1 reads outside the
squad array. -/
theorem C38_Get_Hotkey_Squad_witness :
    playerFresh.Get_Hotkey_Squad 3 = SquadAccess.returned (some []) ∧
    (Player.Init envNone playerFresh none).Get_Hotkey_Squad 3 = SquadAccess.returned (some []) ∧
    playerFresh.Get_Hotkey_Squad 10 = SquadAccess.returned none ∧
    playerFresh.Get_Hotkey_Squad (-1) = SquadAccess.read_outside_array (-1) :=
  ⟨(C38_Get_Hotkey_Squad playerFresh (by decide)).1 3 (by decide),
   (C38_Get_Hotkey_Squad playerFresh (by decide)).2.1 envNone playerFresh none 3 (by decide),
   (C38_Get_Hotkey_Squad playerFresh (by decide)).2.2.1 10 (by decide),
   (C38_Get_Hotkey_Squad playerFresh (by decide)).2.2.2 (-1) (by decide)⟩

/-! ### The team prototype list -/

theorem Player.Is_Team_In_List_iff (team : TeamPrototype) (l : List TeamPrototype) :
    Player.Is_Team_In_List team l = true ↔ team ∈ l := by
  induction l with
  | nil => simp [Player.Is_Team_In_List]
  | cons proto rest ih =>
    by_cases h : team = proto
    · simp [Player.Is_Team_In_List, h]
    · simp [Player.Is_Team_In_List, h, ih]

theorem Player.Erase_Team_eq (team : TeamPrototype) (l : List TeamPrototype) :
    Player.Erase_Team team l = l.erase team := by
  induction l with
  | nil => rfl
  | cons proto rest ih =>
    by_cases h : team = proto
    · simp [Player.Erase_Team, h]
    · have h2 : ¬ proto = team := fun e => h e.symm
      simp [Player.Erase_Team, h, ih, List.erase_cons_tail, h2]

/-- C39: `Add_Team_To_List` leaves the list as it is when the prototype is in
it and appends the prototype at the end when it is not; a second call with the
same prototype changes nothing, and a duplicate-free list stays duplicate
free. On a duplicate-free list `Remove_Team_From_List(team)` leaves the list
without `team`, the other prototypes in their order; when `team` is not in the
list the call changes nothing. -/
theorem C39_team_list (p : Player) (team : TeamPrototype) :
    (team ∈ p.m_playerTeamPrototypes → p.Add_Team_To_List team = p) ∧
    (team ∉ p.m_playerTeamPrototypes →
      (p.Add_Team_To_List team).m_playerTeamPrototypes = p.m_playerTeamPrototypes ++ [team]) ∧
    (p.Add_Team_To_List team).Add_Team_To_List team = p.Add_Team_To_List team ∧
    (p.m_playerTeamPrototypes.Nodup → (p.Add_Team_To_List team).m_playerTeamPrototypes.Nodup) ∧
    (p.m_playerTeamPrototypes.Nodup →
      team ∉ (p.Remove_Team_From_List team).m_playerTeamPrototypes ∧
      (p.Remove_Team_From_List team).m_playerTeamPrototypes
        = p.m_playerTeamPrototypes.filter (fun proto => decide (proto ≠ team)) ∧
      (p.Remove_Team_From_List team).m_playerTeamPrototypes.Nodup) ∧
    (team ∉ p.m_playerTeamPrototypes → p.Remove_Team_From_List team = p) := by
  have hin : team ∈ p.m_playerTeamPrototypes → p.Add_Team_To_List team = p := by
    intro h
    simp only [Player.Add_Team_To_List, (Player.Is_Team_In_List_iff team _).mpr h, if_true]
  have hout : team ∉ p.m_playerTeamPrototypes →
      p.Add_Team_To_List team
        = { p with m_playerTeamPrototypes := p.m_playerTeamPrototypes ++ [team] } := by
    intro h
    have h2 : Player.Is_Team_In_List team p.m_playerTeamPrototypes = false := by
      cases hh : Player.Is_Team_In_List team p.m_playerTeamPrototypes with
      | false => rfl
      | true => exact absurd ((Player.Is_Team_In_List_iff team _).mp hh) h
    simp only [Player.Add_Team_To_List, h2, Bool.false_eq_true, if_false]
  refine ⟨hin, ?_, ?_, ?_, ?_, ?_⟩
  · intro h
    rw [hout h]
  · by_cases h : team ∈ p.m_playerTeamPrototypes
    · rw [hin h, hin h]
    · rw [hout h]
      have h2 : Player.Is_Team_In_List team (p.m_playerTeamPrototypes ++ [team]) = true :=
        (Player.Is_Team_In_List_iff team _).mpr (by simp)
      simp only [Player.Add_Team_To_List, h2, if_true]
  · intro hnd
    by_cases h : team ∈ p.m_playerTeamPrototypes
    · rw [hin h]
      exact hnd
    · rw [hout h]
      show (p.m_playerTeamPrototypes ++ [team]).Nodup
      rw [List.nodup_append]
      refine ⟨hnd, List.nodup_singleton team, ?_⟩
      intro a ha hb
      rw [List.mem_singleton] at hb
      exact h (hb ▸ ha)
  · intro hnd
    simp only [Player.Remove_Team_From_List, Player.Erase_Team_eq]
    refine ⟨?_, ?_, hnd.erase team⟩
    · exact fun h => (hnd.mem_erase_iff.mp h).1 rfl
    · rw [hnd.erase_eq_filter]
      congr 1
      funext proto
      by_cases e : proto = team <;> simp [e]
  · intro h
    simp only [Player.Remove_Team_From_List, Player.Erase_Team_eq, List.erase_of_not_mem h]

/-- C39 at concrete inputs, on the list with the prototypes 3 and 4: adding 3
again changes nothing, removing 3 leaves the list with 4 alone, adding the
prototype 6 appends it and keeps the list duplicate free, and removing the
prototype 6, which is not in the list, changes nothing. -/
theorem C39_team_list_witness :
    playerThreeFour.Add_Team_To_List prototypeThree = playerThreeFour ∧
    (playerThreeFour.Remove_Team_From_List prototypeThree).m_playerTeamPrototypes
      = [prototypeFour] ∧
    (playerThreeFour.Add_Team_To_List { m_id := 6 }).m_playerTeamPrototypes
      = [prototypeThree, prototypeFour, { m_id := 6 }] ∧
    (playerThreeFour.Add_Team_To_List { m_id := 6 }).m_playerTeamPrototypes.Nodup ∧
    playerThreeFour.Remove_Team_From_List { m_id := 6 } = playerThreeFour :=
  ⟨(C39_team_list playerThreeFour prototypeThree).1 (by decide),
   ((C39_team_list playerThreeFour prototypeThree).2.2.2.2.1 (by decide)).2.1,
   (C39_team_list playerThreeFour { m_id := 6 }).2.1 (by decide),
   (C39_team_list playerThreeFour { m_id := 6 }).2.2.2.1 (by decide),
   (C39_team_list playerThreeFour { m_id := 6 }).2.2.2.2.2 (by decide)⟩

/-! ### Reference counts of the kind-of change list -/

theorem Player.count_up_down (c : Nat) (h : c < 2 ^ 32) :
    ((c + 1) % 2 ^ 32 + 2 ^ 32 - 1) % 2 ^ 32 = c := by
  have e : (2 : Nat) ^ 32 = 4294967296 := by norm_num
  rw [e] at h ⊢
  omega

theorem Player.count_down (c : Nat) (h1 : 1 ≤ c) (h : c < 2 ^ 32) :
    (c + 2 ^ 32 - 1) % 2 ^ 32 = c - 1 := by
  have e : (2 : Nat) ^ 32 = 4294967296 := by norm_num
  rw [e] at h ⊢
  omega

/-- `Add` and then `Remove` of the same pair on a list whose counts are at
least 1 and fit 32 bits gives the list back. -/
theorem Player.Remove_Add_Kind_Of_Change (flags : BitFlags) (percent : ℚ)
    (l : List KindOfPercentProductionChange)
    (h : ∀ k ∈ l, 1 ≤ k.m_count ∧ k.m_count < 2 ^ 32) :
    Player.Remove_Kind_Of_Change flags percent (Player.Add_Kind_Of_Change flags percent l)
      = (true, l) := by
  induction l with
  | nil =>
    have e : (1 + 2 ^ 32 - 1) % 2 ^ 32 = 0 := by norm_num
    simp only [Player.Add_Kind_Of_Change, Player.Remove_Kind_Of_Change, and_self, if_true, e]
  | cons k rest ih =>
    obtain ⟨hk1, hk2⟩ := h k (List.mem_cons_self _ _)
    by_cases hm : k.m_percent = percent ∧ k.m_flags = flags
    · have hne : k.m_count ≠ 0 := by omega
      obtain ⟨f, pc, c⟩ := k
      obtain ⟨hp, hf⟩ := hm
      simp only at hp hf hne hk2
      subst hp hf
      simp only [Player.Add_Kind_Of_Change, and_self, if_true, Player.Remove_Kind_Of_Change,
        Player.count_up_down c hk2, hne, if_false]
    · have ih2 := ih (fun x hx => h x (List.mem_cons_of_mem _ hx))
      simp only [Player.Add_Kind_Of_Change, hm, if_false, Player.Remove_Kind_Of_Change, ih2]

/-- C36: on a kind-of change list in which every count is at least 1 (and fits
the 32-bit count field), `Add_Kind_Of_Production_Cost_Change(flags, percent)`
followed by `Remove_Kind_Of_Production_Cost_Change(flags, percent)` gives back
the player as it was, so the list has the same entries in the same order with
the same counts, whether or not the pair was in the list. -/
theorem C36_add_then_remove (p : Player) (flags : BitFlags) (percent : ℚ)
    (hcount : ∀ k ∈ p.m_kindOfPercentProductionChangeList, 1 ≤ k.m_count ∧ k.m_count < 2 ^ 32) :
    (p.Add_Kind_Of_Production_Cost_Change flags percent).Remove_Kind_Of_Production_Cost_Change
        flags percent = p ∧
    ((p.Add_Kind_Of_Production_Cost_Change flags percent).Remove_Kind_Of_Production_Cost_Change
        flags percent).m_kindOfPercentProductionChangeList
      = p.m_kindOfPercentProductionChangeList := by
  have h := Player.Remove_Add_Kind_Of_Change flags percent _ hcount
  have e : (p.Add_Kind_Of_Production_Cost_Change flags percent).Remove_Kind_Of_Production_Cost_Change
      flags percent = p := by
    simp only [Player.Remove_Kind_Of_Production_Cost_Change,
      Player.Add_Kind_Of_Production_Cost_Change, h, if_true]
  exact ⟨e, by rw [e]⟩

/-- C36 at concrete inputs, on the list with the pairs (1, 1/10) and
(4, 2/10): adding and removing the pair (4, 2/10), which is in the list, and
the pair (2, 1/2), which is not, gives the player back. -/
theorem C36_add_then_remove_witness :
    (playerTwoCostChanges.Add_Kind_Of_Production_Cost_Change 4
        (2 / 10)).Remove_Kind_Of_Production_Cost_Change 4 (2 / 10) = playerTwoCostChanges ∧
    (playerTwoCostChanges.Add_Kind_Of_Production_Cost_Change 2
        (1 / 2)).Remove_Kind_Of_Production_Cost_Change 2 (1 / 2) = playerTwoCostChanges := by
  have hc : ∀ k ∈ playerTwoCostChanges.m_kindOfPercentProductionChangeList,
      1 ≤ k.m_count ∧ k.m_count < 2 ^ 32 := by
    rw [playerTwoCostChanges_list]
    intro k hk
    simp only [List.mem_cons, List.mem_singleton, List.not_mem_nil, or_false] at hk
    rcases hk with h | h <;> rw [h] <;> norm_num
  exact ⟨(C36_add_then_remove playerTwoCostChanges 4 (2 / 10) hc).1,
    (C36_add_then_remove playerTwoCostChanges 2 (1 / 2) hc).1⟩


/-- The kind-of cost multiplier reads the flags and the percent of the
entries, not their counts. -/
theorem Player.cost_of_pairs (test : BitFlags → BitFlags → BitFlags → Bool) (flags : BitFlags)
    (l l2 : List KindOfPercentProductionChange)
    (h : Player.Kind_Of_Pairs l = Player.Kind_Of_Pairs l2) (c : Option ℚ) :
    l.foldl (fun cost k =>
        if test flags k.m_flags Player.KINDOFMASK_NONE then
          Float32.Mul (Float32.Add (some k.m_percent) (some 1)) cost
        else cost) c
      = l2.foldl (fun cost k =>
        if test flags k.m_flags Player.KINDOFMASK_NONE then
          Float32.Mul (Float32.Add (some k.m_percent) (some 1)) cost
        else cost) c := by
  induction l generalizing l2 c with
  | nil =>
    cases l2 with
    | nil => rfl
    | cons k2 rest2 => simp [Player.Kind_Of_Pairs] at h
  | cons k rest ih =>
    cases l2 with
    | nil => simp [Player.Kind_Of_Pairs] at h
    | cons k2 rest2 =>
      simp only [Player.Kind_Of_Pairs, List.map_cons, List.cons.injEq, Prod.mk.injEq] at h
      obtain ⟨⟨hf, hp⟩, hrest⟩ := h
      simp only [List.foldl_cons, hf, hp]
      exact ih rest2 hrest _

/-- The pairs of the list after `Add`: unchanged when the pair is in the list,
with the pair added at the end when it is not. -/
theorem Player.Add_Kind_Of_Change_pairs (flags : BitFlags) (percent : ℚ)
    (l : List KindOfPercentProductionChange) :
    Player.Kind_Of_Pairs (Player.Add_Kind_Of_Change flags percent l)
      = if (flags, percent) ∈ Player.Kind_Of_Pairs l then Player.Kind_Of_Pairs l
        else Player.Kind_Of_Pairs l ++ [(flags, percent)] := by
  induction l with
  | nil => simp [Player.Add_Kind_Of_Change, Player.Kind_Of_Pairs]
  | cons k rest ih =>
    simp only [Player.Kind_Of_Pairs] at ih ⊢
    by_cases hm : k.m_percent = percent ∧ k.m_flags = flags
    · simp [Player.Add_Kind_Of_Change, hm]
    · have hne : ¬ ((flags, percent) = (k.m_flags, k.m_percent)) := by
        intro e
        simp only [Prod.mk.injEq] at e
        exact hm ⟨e.2.symm, e.1.symm⟩
      simp only [Player.Add_Kind_Of_Change, hm, if_false, List.map_cons, ih, List.mem_cons, hne,
        false_or]
      split_ifs <;> rfl

/-- C37: for a pair that is in the kind-of change list,
`Add_Kind_Of_Production_Cost_Change(flags, percent)` leaves the value of
`Get_Production_Cost_Change_Based_On_Kind_Of` as it was for every queried flag
set. The value is the same for any two lists with the same (flags, percent)
pairs in the same order, whatever the counts of their entries are. -/
theorem C37_cost_ignores_counts (test : BitFlags → BitFlags → BitFlags → Bool) (p : Player) :
    (∀ (flags : BitFlags) (percent : ℚ) (queried : BitFlags),
      (∃ k ∈ p.m_kindOfPercentProductionChangeList, k.m_percent = percent ∧ k.m_flags = flags) →
      (p.Add_Kind_Of_Production_Cost_Change flags
          percent).Get_Production_Cost_Change_Based_On_Kind_Of test queried
        = p.Get_Production_Cost_Change_Based_On_Kind_Of test queried) ∧
    (∀ (q : Player) (queried : BitFlags),
      Player.Kind_Of_Pairs q.m_kindOfPercentProductionChangeList
        = Player.Kind_Of_Pairs p.m_kindOfPercentProductionChangeList →
      q.Get_Production_Cost_Change_Based_On_Kind_Of test queried
        = p.Get_Production_Cost_Change_Based_On_Kind_Of test queried) := by
  have hgen : ∀ (q : Player) (queried : BitFlags),
      Player.Kind_Of_Pairs q.m_kindOfPercentProductionChangeList
        = Player.Kind_Of_Pairs p.m_kindOfPercentProductionChangeList →
      q.Get_Production_Cost_Change_Based_On_Kind_Of test queried
        = p.Get_Production_Cost_Change_Based_On_Kind_Of test queried := by
    intro q queried h
    exact Player.cost_of_pairs test queried _ _ h (some 1)
  refine ⟨?_, hgen⟩
  intro flags percent queried hex
  apply hgen
  simp only [Player.Add_Kind_Of_Production_Cost_Change]
  rw [Player.Add_Kind_Of_Change_pairs]
  have hmem : (flags, percent) ∈ Player.Kind_Of_Pairs p.m_kindOfPercentProductionChangeList := by
    obtain ⟨k, hk, hp, hf⟩ := hex
    simp only [Player.Kind_Of_Pairs, List.mem_map]
    exact ⟨k, hk, by rw [hp, hf]⟩
  simp only [hmem, if_true]

/-- C37 at concrete inputs, on the list with the pairs (1, 1/10) and
(4, 2/10): adding the pair (1, 1/10) again leaves the multiplier of the flag
set 5 as it was, and the list with the same pairs and the counts 7 and 3 has
the same multiplier. -/
theorem C37_cost_ignores_counts_witness :
    (playerTwoCostChanges.Add_Kind_Of_Production_Cost_Change 1
        (1 / 10)).Get_Production_Cost_Change_Based_On_Kind_Of testAllSetNoneClear 5
      = playerTwoCostChanges.Get_Production_Cost_Change_Based_On_Kind_Of testAllSetNoneClear 5 ∧
    ({ playerFresh with
        m_kindOfPercentProductionChangeList :=
          [{ m_flags := 1, m_percent := 1 / 10, m_count := 7 },
           { m_flags := 4, m_percent := 2 / 10, m_count := 3 }] }
      : Player).Get_Production_Cost_Change_Based_On_Kind_Of testAllSetNoneClear 5
      = playerTwoCostChanges.Get_Production_Cost_Change_Based_On_Kind_Of testAllSetNoneClear 5 :=
  ⟨(C37_cost_ignores_counts testAllSetNoneClear playerTwoCostChanges).1 1 (1 / 10) 5
    ⟨{ m_flags := 1, m_percent := 1 / 10, m_count := 1 },
      by rw [playerTwoCostChanges_list]; exact List.mem_cons_self _ _, rfl, rfl⟩,
   (C37_cost_ignores_counts testAllSetNoneClear playerTwoCostChanges).2 _ 5
    (by rw [playerTwoCostChanges_list]; rfl)⟩

/-! ### The kind-of change list in reachable states -/

/-- `Add` keeps the pairs different and raises the bound of the counts by 1,
as long as the new bound fits 32 bits. -/
theorem Player.Add_Kind_Of_Change_ok (flags : BitFlags) (percent : ℚ) (bound : Nat)
    (l : List KindOfPercentProductionChange) (h : Player.Kind_Of_List_Ok bound l)
    (hb : bound + 1 < 2 ^ 32) :
    Player.Kind_Of_List_Ok (bound + 1) (Player.Add_Kind_Of_Change flags percent l) := by
  obtain ⟨hnd, hc⟩ := h
  constructor
  · rw [Player.Add_Kind_Of_Change_pairs]
    split_ifs with hmem
    · exact hnd
    · rw [List.nodup_append]
      refine ⟨hnd, List.nodup_singleton _, ?_⟩
      intro a ha hb2
      rw [List.mem_singleton] at hb2
      exact hmem (hb2 ▸ ha)
  · clear hnd
    induction l with
    | nil =>
      intro k hk
      simp only [Player.Add_Kind_Of_Change, List.mem_singleton] at hk
      rw [hk]
      exact ⟨le_refl 1, by simp⟩
    | cons k0 rest ih =>
      have h0 := hc k0 (List.mem_cons_self _ _)
      have hrest : ∀ k ∈ rest, 1 ≤ k.m_count ∧ k.m_count ≤ bound + 1 := fun k hk =>
        ⟨(hc k (List.mem_cons_of_mem _ hk)).1, by
          have := (hc k (List.mem_cons_of_mem _ hk)).2
          omega⟩
      intro k hk
      by_cases hm : k0.m_percent = percent ∧ k0.m_flags = flags
      · simp only [Player.Add_Kind_Of_Change, hm, and_self, if_true, List.mem_cons] at hk
        rcases hk with e | hk
        · rw [e]
          have hlt : k0.m_count + 1 < 2 ^ 32 := by omega
          simp only [Nat.mod_eq_of_lt hlt]
          omega
        · exact hrest k hk
      · simp only [Player.Add_Kind_Of_Change, hm, if_false, List.mem_cons] at hk
        rcases hk with e | hk
        · rw [e]
          exact ⟨h0.1, by omega⟩
        · exact ih (fun x hx => hc x (List.mem_cons_of_mem _ hx)) k hk

/-- `Remove` keeps the pairs different and the counts between 1 and the
bound. -/
theorem Player.Remove_Kind_Of_Change_ok (flags : BitFlags) (percent : ℚ) (bound : Nat)
    (l : List KindOfPercentProductionChange) (h : Player.Kind_Of_List_Ok bound l)
    (hb : bound < 2 ^ 32) :
    Player.Kind_Of_List_Ok bound (Player.Remove_Kind_Of_Change flags percent l).2 := by
  induction l with
  | nil => exact h
  | cons k0 rest ih =>
    obtain ⟨hnd, hc⟩ := h
    have h0 := hc k0 (List.mem_cons_self _ _)
    have hndrest : (Player.Kind_Of_Pairs rest).Nodup := by
      simp only [Player.Kind_Of_Pairs, List.map_cons, List.nodup_cons] at hnd
      exact hnd.2
    have hcrest : ∀ k ∈ rest, 1 ≤ k.m_count ∧ k.m_count ≤ bound :=
      fun x hx => hc x (List.mem_cons_of_mem _ hx)
    by_cases hm : k0.m_percent = percent ∧ k0.m_flags = flags
    · have hdown := Player.count_down k0.m_count h0.1 (by omega)
      by_cases hz : k0.m_count - 1 = 0
      · simp only [Player.Remove_Kind_Of_Change, hm, and_self, if_true, hdown, hz]
        exact ⟨hndrest, hcrest⟩
      · simp only [Player.Remove_Kind_Of_Change, hm, and_self, if_true, hdown, hz, if_false]
        refine ⟨?_, ?_⟩
        · simpa [Player.Kind_Of_Pairs, hm.1, hm.2] using hnd
        · intro k hk
          rcases List.mem_cons.mp hk with e | hk
          · rw [e]
            simp only
            omega
          · exact hcrest k hk
    · obtain ⟨ihnd, ihc⟩ := ih ⟨hndrest, hcrest⟩
      simp only [Player.Remove_Kind_Of_Change, hm, if_false]
      refine ⟨?_, ?_⟩
      · have hsub : ∀ x ∈ Player.Kind_Of_Pairs (Player.Remove_Kind_Of_Change flags percent rest).2,
            x ∈ Player.Kind_Of_Pairs rest := by
          clear ih ihnd ihc hndrest hcrest hnd hc
          induction rest with
          | nil => intro x hx; exact hx
          | cons k1 rest1 ih1 =>
            intro x hx
            by_cases hm1 : k1.m_percent = percent ∧ k1.m_flags = flags
            · by_cases hz1 : (k1.m_count + 2 ^ 32 - 1) % 2 ^ 32 = 0
              · simp only [Player.Remove_Kind_Of_Change, hm1, and_self, if_true, hz1] at hx
                simp only [Player.Kind_Of_Pairs, List.map_cons, List.mem_cons]
                exact Or.inr hx
              · simp only [Player.Remove_Kind_Of_Change, hm1, and_self, if_true, hz1,
                  if_false] at hx
                simpa [Player.Kind_Of_Pairs, hm1.1, hm1.2] using hx
            · simp only [Player.Remove_Kind_Of_Change, hm1, if_false, Player.Kind_Of_Pairs,
                List.map_cons, List.mem_cons] at hx ⊢
              rcases hx with e | hx
              · exact Or.inl e
              · exact Or.inr (ih1 x hx)
        simp only [Player.Kind_Of_Pairs, List.map_cons, List.nodup_cons] at hnd ⊢
        exact ⟨fun hmem => hnd.1 (hsub _ hmem), ihnd⟩
      · intro k hk
        rcases List.mem_cons.mp hk with e | hk
        · rw [e]
          exact h0
        · exact ihc k hk

theorem Player.Kind_Of_List_Ok_mono (b1 b2 : Nat) (l : List KindOfPercentProductionChange)
    (h : Player.Kind_Of_List_Ok b1 l) (hb : b1 ≤ b2) : Player.Kind_Of_List_Ok b2 l :=
  ⟨h.1, fun k hk => ⟨(h.2 k hk).1, le_trans (h.2 k hk).2 hb⟩⟩

theorem Player.Apply_Kind_Of_Call_ok (p : Player) (call : KindOfCall) (bound : Nat)
    (h : Player.Kind_Of_List_Ok bound p.m_kindOfPercentProductionChangeList)
    (hb : bound + 1 < 2 ^ 32) :
    Player.Kind_Of_List_Ok (bound + 1)
      (p.Apply_Kind_Of_Call call).m_kindOfPercentProductionChangeList := by
  cases call with
  | add flags percent =>
    exact Player.Add_Kind_Of_Change_ok flags percent bound _ h hb
  | remove flags percent =>
    have h2 := Player.Remove_Kind_Of_Change_ok flags percent bound _ h (by omega)
    simp only [Player.Apply_Kind_Of_Call, Player.Remove_Kind_Of_Production_Cost_Change]
    split_ifs
    · exact Player.Kind_Of_List_Ok_mono _ _ _ h2 (by omega)
    · exact Player.Kind_Of_List_Ok_mono _ _ _ h (by omega)

theorem Player.Apply_Kind_Of_Calls_ok (calls : List KindOfCall) :
    ∀ (p : Player) (bound : Nat),
      Player.Kind_Of_List_Ok bound p.m_kindOfPercentProductionChangeList →
      bound + calls.length < 2 ^ 32 →
      Player.Kind_Of_List_Ok (bound + calls.length)
        (p.Apply_Kind_Of_Calls calls).m_kindOfPercentProductionChangeList := by
  induction calls with
  | nil => intro p bound h _; exact h
  | cons call rest ih =>
    intro p bound h hb
    simp only [List.length_cons] at hb ⊢
    have h1 := Player.Apply_Kind_Of_Call_ok p call bound h (by omega)
    have h2 := ih (p.Apply_Kind_Of_Call call) (bound + 1) h1 (by omega)
    have e : bound + (rest.length + 1) = bound + 1 + rest.length := by omega
    rw [e]
    exact h2

/-- Repeated `Add` calls of one pair on an empty list: one entry, whose count
is the number of calls modulo 2^32. -/
theorem Player.repeated_add (p : Player) (flags : BitFlags) (percent : ℚ)
    (hp : p.m_kindOfPercentProductionChangeList = []) (n : Nat) :
    (p.Apply_Kind_Of_Calls
        (List.replicate (n + 1) (KindOfCall.add flags percent))).m_kindOfPercentProductionChangeList
      = [{ m_flags := flags, m_percent := percent, m_count := (n + 1) % 2 ^ 32 }] := by
  induction n with
  | zero =>
    simp only [Player.Apply_Kind_Of_Calls, List.replicate, List.foldl_cons, List.foldl_nil,
      Player.Apply_Kind_Of_Call, Player.Add_Kind_Of_Production_Cost_Change, hp,
      Player.Add_Kind_Of_Change]
    norm_num
  | succ n ih =>
    rw [List.replicate_succ', Player.Apply_Kind_Of_Calls, List.foldl_append]
    rw [Player.Apply_Kind_Of_Calls] at ih
    simp only [List.foldl_cons, List.foldl_nil, Player.Apply_Kind_Of_Call,
      Player.Add_Kind_Of_Production_Cost_Change, ih, Player.Add_Kind_Of_Change, and_self,
      if_true, Nat.add_mod_mod, Nat.mod_add_mod]


/-- C35 (as stated, refuted): the count of an entry is a 32-bit unsigned number
and `Add` increments it without a check. From a freshly initialised player,
2^32 calls of `Add_Kind_Of_Production_Cost_Change` with the same pair leave
one entry for the pair whose count has wrapped to 0. -/
theorem C35_count_wraps_counterexample :
    ((Player.Init envNone playerFresh none).Apply_Kind_Of_Calls
        (List.replicate (2 ^ 32) (KindOfCall.add 1 0))).m_kindOfPercentProductionChangeList
      = [{ m_flags := 1, m_percent := 0, m_count := 0 }] := by
  have h := Player.repeated_add (Player.Init envNone playerFresh none) 1 0 rfl (2 ^ 32 - 1)
  have e : 2 ^ 32 - 1 + 1 = 2 ^ 32 := by norm_num
  rw [e, Nat.mod_self] at h
  exact h

/-- C35 (amended): in every state reached from a freshly initialised player by
a sequence of fewer than 2^32 `Add_Kind_Of_Production_Cost_Change` and
`Remove_Kind_Of_Production_Cost_Change` calls, no two entries of the kind-of
change list have the same (flags, percent) pair and the count of every entry
is at least 1. -/
theorem C35_kind_of_list_invariant (env : Env) (q : Player) (pt : Option PlayerTemplate)
    (calls : List KindOfCall) (hlen : calls.length < 2 ^ 32) :
    (Player.Kind_Of_Pairs
      ((Player.Init env q pt).Apply_Kind_Of_Calls
        calls).m_kindOfPercentProductionChangeList).Nodup ∧
    ∀ k ∈ ((Player.Init env q pt).Apply_Kind_Of_Calls
        calls).m_kindOfPercentProductionChangeList, 1 ≤ k.m_count := by
  have h0 : Player.Kind_Of_List_Ok 0 (Player.Init env q pt).m_kindOfPercentProductionChangeList := by
    have e : (Player.Init env q pt).m_kindOfPercentProductionChangeList = [] := rfl
    rw [e]
    exact ⟨List.nodup_nil, fun k hk => absurd hk (List.not_mem_nil k)⟩
  have h := Player.Apply_Kind_Of_Calls_ok calls (Player.Init env q pt) 0 h0 (by omega)
  exact ⟨h.1, fun k hk => (h.2 k hk).1⟩

/-- C35 at a concrete input: after two `Add` calls and one `Remove` call of the
pair (1, 1/10) and one `Add` call of the pair (4, 2/10) on a fresh player the
pairs of the list are different and every count is at least 1. -/
theorem C35_kind_of_list_invariant_witness :
    (Player.Kind_Of_Pairs
      ((Player.Init envNone playerFresh none).Apply_Kind_Of_Calls
        [KindOfCall.add 1 (1 / 10), KindOfCall.add 1 (1 / 10), KindOfCall.remove 1 (1 / 10),
         KindOfCall.add 4 (2 / 10)]).m_kindOfPercentProductionChangeList).Nodup ∧
    ∀ k ∈ ((Player.Init envNone playerFresh none).Apply_Kind_Of_Calls
        [KindOfCall.add 1 (1 / 10), KindOfCall.add 1 (1 / 10), KindOfCall.remove 1 (1 / 10),
         KindOfCall.add 4 (2 / 10)]).m_kindOfPercentProductionChangeList, 1 ≤ k.m_count :=
  C35_kind_of_list_invariant envNone playerFresh none
    [KindOfCall.add 1 (1 / 10), KindOfCall.add 1 (1 / 10), KindOfCall.remove 1 (1 / 10),
     KindOfCall.add 4 (2 / 10)] (by norm_num)

/-! ### Loading a relationship table from an explicit stream -/

theorem PlayerRelationMap.Save_Entries_stored (m : StdMap Int Relationship) :
    ∀ out, PlayerRelationMap.Save_Entries m ⟨XferMode.XFER_SAVE, out⟩
      = Except.ok ⟨XferMode.XFER_SAVE, out ++ PlayerRelationMap.Stored_Entries m⟩ := by
  induction m with
  | nil => intro out; simp [PlayerRelationMap.Save_Entries, PlayerRelationMap.Stored_Entries]
  | cons e m ih =>
    obtain ⟨id, r⟩ := e
    intro out
    simp [PlayerRelationMap.Save_Entries, PlayerRelationMap.Stored_Entries, Xfer.xferInt,
      Xfer.xferUser, ih]

theorem PlayerRelationMap.Load_Entries_stored (entries : List (Int × Relationship)) :
    ∀ rest base, PlayerRelationMap.Load_Entries entries.length
        ⟨XferMode.XFER_LOAD, PlayerRelationMap.Stored_Entries entries ++ rest⟩ base
      = Except.ok (⟨XferMode.XFER_LOAD, rest⟩,
          entries.foldl (fun acc e => StdMap.insert acc e.1 e.2) base) := by
  induction entries with
  | nil => intro rest base; simp [PlayerRelationMap.Load_Entries, PlayerRelationMap.Stored_Entries]
  | cons e m ih =>
    obtain ⟨id, r⟩ := e
    intro rest base
    simp [PlayerRelationMap.Load_Entries, PlayerRelationMap.Stored_Entries, Xfer.xferInt,
      Xfer.xferUser, ih, Relationship.relationship_ofInt_toInt]

theorem StdMap.find_foldl_insert_absent {K V : Type} [DecidableEq K] [LT K]
    [DecidableRel (fun a b : K => a < b)] (m base : StdMap K V) (k : K)
    (h : k ∉ m.map Prod.fst) :
    StdMap.find (m.foldl (fun acc e => StdMap.insert acc e.1 e.2) base) k
      = StdMap.find base k := by
  induction m generalizing base with
  | nil => rfl
  | cons e rest ih =>
    obtain ⟨k0, v0⟩ := e
    simp only [List.map_cons, List.mem_cons, not_or] at h
    have hne : ¬ k0 = k := fun e => h.1 e.symm
    simp only [List.foldl_cons, ih _ h.2, StdMap.find_insert, hne, if_false]

theorem StdMap.insert_greatest {V : Type} (m : StdMap Int V) (k : Int) (v : V)
    (h : ∀ b ∈ m, b.1 < k) : StdMap.insert m k v = m ++ [(k, v)] := by
  induction m with
  | nil => rfl
  | cons e rest ih =>
    obtain ⟨k0, v0⟩ := e
    have h0 : k0 < k := h (k0, v0) (List.mem_cons_self _ _)
    have h1 : ¬ k = k0 := by omega
    have h2 : ¬ k < k0 := by omega
    have hr : ∀ b ∈ rest, b.1 < k := fun b hb => h b (List.mem_cons_of_mem _ hb)
    simp only [StdMap.insert, h1, h2, if_false, ih hr, List.cons_append]

/-- Assigning the entries of a table in ascending key order into a table all
of whose keys are smaller appends them. -/
theorem StdMap.foldl_insert_ascending {V : Type} (m : StdMap Int V) :
    ∀ base : StdMap Int V, (∀ b ∈ base, ∀ e ∈ m, b.1 < e.1) →
      m.Pairwise (fun a b => a.1 < b.1) →
      m.foldl (fun acc e => StdMap.insert acc e.1 e.2) base = base ++ m := by
  induction m with
  | nil => intro base _ _; simp
  | cons e rest ih =>
    intro base hb hp
    rw [List.pairwise_cons] at hp
    have hins : StdMap.insert base e.1 e.2 = base ++ [e] :=
      StdMap.insert_greatest base e.1 e.2 (fun b hbm => hb b hbm e (List.mem_cons_self _ _))
    rw [List.foldl_cons, hins, ih (base ++ [e]) ?_ hp.2]
    · simp
    · intro b hbm x hx
      rw [List.mem_append, List.mem_singleton] at hbm
      rcases hbm with hbm | hbm
      · exact hb b hbm x (List.mem_cons_of_mem _ hx)
      · rw [hbm]
        exact hp.1 x hx

/-- C34: `PlayerRelationMap::Xfer_Snapshot` in load mode, on the stream of the
pairs `entries` (fewer than 65536), assigns every pair into the map it is
called on, which is not cleared: for an id of the stream the loaded map holds
the stance of its last pair in the stream, for any other id what the map held
before. Saving a map writes the stream of its entries, and loading that
stream into the empty map gives the map back (a `std::map` holds its entries
in ascending order of the ids). -/
theorem C34_relation_map_load (entries : List (Int × Relationship))
    (base : StdMap Int Relationship) (rest : List XferItem)
    (hlen : entries.length < 2 ^ 16) :
    PlayerRelationMap.Xfer_Snapshot
        ⟨XferMode.XFER_LOAD, PlayerRelationMap.Stored_Relations entries ++ rest⟩ base
      = Except.ok (⟨XferMode.XFER_LOAD, rest⟩,
          entries.foldl (fun acc e => StdMap.insert acc e.1 e.2) base) ∧
    (∀ front back id r, entries = front ++ (id, r) :: back → id ∉ back.map Prod.fst →
      StdMap.find (entries.foldl (fun acc e => StdMap.insert acc e.1 e.2) base) id = some r) ∧
    (∀ id, id ∉ entries.map Prod.fst →
      StdMap.find (entries.foldl (fun acc e => StdMap.insert acc e.1 e.2) base) id
        = StdMap.find base id) ∧
    (∀ out, PlayerRelationMap.Xfer_Snapshot ⟨XferMode.XFER_SAVE, out⟩ entries
      = Except.ok (⟨XferMode.XFER_SAVE, out ++ PlayerRelationMap.Stored_Relations entries⟩,
          entries)) ∧
    (entries.Pairwise (fun a b => a.1 < b.1) →
      PlayerRelationMap.Xfer_Snapshot
          ⟨XferMode.XFER_LOAD, PlayerRelationMap.Stored_Relations entries ++ rest⟩ []
        = Except.ok (⟨XferMode.XFER_LOAD, rest⟩, entries)) := by
  have hload : ∀ b : StdMap Int Relationship, PlayerRelationMap.Xfer_Snapshot
        ⟨XferMode.XFER_LOAD, PlayerRelationMap.Stored_Relations entries ++ rest⟩ b
      = Except.ok (⟨XferMode.XFER_LOAD, rest⟩,
          entries.foldl (fun acc e => StdMap.insert acc e.1 e.2) b) := by
    intro b
    simp [PlayerRelationMap.Xfer_Snapshot, PlayerRelationMap.Stored_Relations, Xfer.xferVersion,
      Xfer.xferUnsignedShort, Xfer.Get_Mode, PlayerRelationMap.Load_Entries_stored]
  refine ⟨hload base, ?_, ?_, ?_, ?_⟩
  · intro front back id r he hid
    rw [he, List.foldl_append, List.foldl_cons, StdMap.find_foldl_insert_absent _ _ _ hid,
      StdMap.find_insert]
    simp
  · intro id hid
    exact StdMap.find_foldl_insert_absent _ _ _ hid
  · intro out
    have hmod : entries.length % 65536 = entries.length := Nat.mod_eq_of_lt hlen
    simp [PlayerRelationMap.Xfer_Snapshot, PlayerRelationMap.Stored_Relations, Xfer.xferVersion,
      Xfer.xferUnsignedShort, Xfer.Get_Mode, PlayerRelationMap.Save_Entries_stored, hmod]
  · intro hp
    rw [hload [], StdMap.foldl_insert_ascending entries [] (fun b hb => absurd hb (List.not_mem_nil b)) hp]
    rfl

/-- C34 at concrete inputs: the stream with the pairs (3, allies), (0, enemies),
(3, neutral) loaded over a map with the entry (5, allies) leaves id 3 neutral
and id 5 allied, and the map with the entries (0, enemies), (3, neutral) comes
back from its own stream. -/
theorem C34_relation_map_load_witness :
    ([((3 : Int), Relationship.ALLIES), (0, Relationship.ENEMIES),
        (3, Relationship.NEUTRAL)].length < 2 ^ 16) ∧
    StdMap.find ([((3 : Int), Relationship.ALLIES), (0, Relationship.ENEMIES),
        (3, Relationship.NEUTRAL)].foldl (fun acc e => StdMap.insert acc e.1 e.2)
        [((5 : Int), Relationship.ALLIES)]) 3 = some Relationship.NEUTRAL ∧
    StdMap.find ([((3 : Int), Relationship.ALLIES), (0, Relationship.ENEMIES),
        (3, Relationship.NEUTRAL)].foldl (fun acc e => StdMap.insert acc e.1 e.2)
        [((5 : Int), Relationship.ALLIES)]) 5 = some Relationship.ALLIES ∧
    PlayerRelationMap.Xfer_Snapshot
        ⟨XferMode.XFER_LOAD, PlayerRelationMap.Stored_Relations
          [((0 : Int), Relationship.ENEMIES), (3, Relationship.NEUTRAL)] ++ []⟩ []
      = Except.ok (⟨XferMode.XFER_LOAD, []⟩,
          [((0 : Int), Relationship.ENEMIES), (3, Relationship.NEUTRAL)]) :=
  ⟨by norm_num,
   (C34_relation_map_load [((3 : Int), Relationship.ALLIES), (0, Relationship.ENEMIES),
      (3, Relationship.NEUTRAL)] [((5 : Int), Relationship.ALLIES)] [] (by norm_num)).2.1
      [((3 : Int), Relationship.ALLIES), (0, Relationship.ENEMIES)] [] 3 Relationship.NEUTRAL
      rfl (by simp),
   (C34_relation_map_load [((3 : Int), Relationship.ALLIES), (0, Relationship.ENEMIES),
      (3, Relationship.NEUTRAL)] [((5 : Int), Relationship.ALLIES)] [] (by norm_num)).2.2.1
      5 (by simp),
   (C34_relation_map_load [((0 : Int), Relationship.ENEMIES), (3, Relationship.NEUTRAL)]
      [] [] (by norm_num)).2.2.2.2 (by simp)⟩

/-! ### What a save writes and leaves -/

theorem Player.Save_Upgrades_stored (nodes : List Upgrade) :
    ∀ out, Player.Save_Upgrades nodes ⟨XferMode.XFER_SAVE, out⟩
      = Except.ok ⟨XferMode.XFER_SAVE, out ++ Player.Stored_Upgrade_Records nodes⟩ := by
  induction nodes with
  | nil => intro out; simp [Player.Save_Upgrades, Player.Stored_Upgrade_Records,
      Player.Stored_Upgrades]
  | cons u nodes ih =>
    intro out
    have ih2 := ih (out ++ [XferItem.asciiString u.m_template.m_name,
      XferItem.snapshot [u.m_status.toInt]])
    simp only [Player.Stored_Upgrade_Records] at ih2 ⊢
    simp [Player.Save_Upgrades, Player.Stored_Upgrades, Xfer.xferAsciiString,
      Upgrade.Xfer_Snapshot, Xfer.xferSnapshot, UpgradeTemplate.Get_Name,
      UpgradeStatusType.status_ofInt_toInt] at ih2 ⊢
    exact ih2

theorem Player.Save_Build_List_stored (nodes : List Snapshot) :
    ∀ out, Player.Save_Build_List nodes ⟨XferMode.XFER_SAVE, out⟩
      = Except.ok ⟨XferMode.XFER_SAVE, out ++ nodes.map XferItem.snapshot⟩ := by
  induction nodes with
  | nil => intro out; simp [Player.Save_Build_List]
  | cons node nodes ih =>
    intro out
    simp [Player.Save_Build_List, Xfer.xferSnapshot, ih]

theorem Player.Save_Kind_Of_Changes_stored (entries : List KindOfPercentProductionChange) :
    ∀ out, Player.Save_Kind_Of_Changes entries ⟨XferMode.XFER_SAVE, out⟩
      = Except.ok ⟨XferMode.XFER_SAVE, out ++ Player.Stored_Kind_Of_Changes entries⟩ := by
  induction entries with
  | nil => intro out; simp [Player.Save_Kind_Of_Changes, Player.Stored_Kind_Of_Changes]
  | cons k entries ih =>
    intro out
    simp [Player.Save_Kind_Of_Changes, Player.Stored_Kind_Of_Changes, Xfer.xferKindOf,
      Xfer.xferReal, Xfer.xferUnsignedInt, ih]

theorem Player.Save_Timers_stored (timers : List SpecialPowerReadyTimerType) :
    ∀ out, Player.Save_Timers timers ⟨XferMode.XFER_SAVE, out⟩
      = Except.ok ⟨XferMode.XFER_SAVE, out ++ Player.Stored_Timers timers⟩ := by
  induction timers with
  | nil => intro out; simp [Player.Save_Timers, Player.Stored_Timers]
  | cons timer timers ih =>
    intro out
    simp [Player.Save_Timers, Player.Stored_Timers, Xfer.xferUnsignedInt, ih]

theorem Player.Xfer_Upgrades_save_stored (env : Env) (p : Player) (out : List XferItem) :
    Player.Xfer_Upgrades env 8 ⟨XferMode.XFER_SAVE, out⟩ p
      = Except.ok (⟨XferMode.XFER_SAVE, out ++ Player.Stored_Upgrade_Section p⟩, p) := by
  simp [Player.Xfer_Upgrades, Player.Stored_Upgrade_Section, Money.Xfer_Snapshot,
    Xfer.xferSnapshot, Xfer.xferUnsignedShort, Xfer.xferBool, Xfer.xferScienceVec,
    Xfer.Get_Mode, Player.Save_Upgrades_stored]

theorem Player.Xfer_Team_Prototypes_save_stored (env : Env) (p : Player)
    (out : List XferItem) :
    Player.Xfer_Team_Prototypes env ⟨XferMode.XFER_SAVE, out⟩ p
      = Except.ok (⟨XferMode.XFER_SAVE, out ++ Player.Stored_Team_Prototype_Section p⟩, p) := by
  simp [Player.Xfer_Team_Prototypes, Player.Stored_Team_Prototype_Section,
    Xfer.xferUnsignedShort, Xfer.Get_Mode, Player.Save_Team_Prototypes_ids]

theorem Player.Xfer_Build_List_save_stored (p : Player) (out : List XferItem) :
    Player.Xfer_Build_List ⟨XferMode.XFER_SAVE, out⟩ p
      = Except.ok (⟨XferMode.XFER_SAVE, out ++ Player.Stored_Build_List_Section p⟩, p) := by
  simp [Player.Xfer_Build_List, Player.Stored_Build_List_Section, Xfer.xferUnsignedShort,
    Xfer.Get_Mode, Player.Save_Build_List_stored]

theorem Player.Xfer_Kind_Of_Changes_save_stored (p : Player) (out : List XferItem) :
    Player.Xfer_Kind_Of_Changes ⟨XferMode.XFER_SAVE, out⟩ p
      = Except.ok (⟨XferMode.XFER_SAVE, out ++ Player.Stored_Kind_Of_Section p⟩, p) := by
  simp [Player.Xfer_Kind_Of_Changes, Player.Stored_Kind_Of_Section, Xfer.xferUnsignedShort,
    Xfer.Get_Mode, Player.Save_Kind_Of_Changes_stored]

theorem Player.Xfer_Special_Power_Timers_save_stored (p : Player) (out : List XferItem) :
    Player.Xfer_Special_Power_Timers 8 ⟨XferMode.XFER_SAVE, out⟩ p
      = Except.ok (⟨XferMode.XFER_SAVE, out ++ Player.Stored_Timer_Section p⟩, p) := by
  simp [Player.Xfer_Special_Power_Timers, Player.Stored_Timer_Section, Xfer.xferUnsignedShort,
    Xfer.Get_Mode, Player.Save_Timers_stored]

theorem PlayerRelationMap.Player_Relations_save (m : StdMap Int Relationship) :
    ∃ toks : List XferItem, ∀ out,
      PlayerRelationMap.Xfer_Snapshot ⟨XferMode.XFER_SAVE, out⟩ m
        = Except.ok (⟨XferMode.XFER_SAVE, out ++ toks⟩, m) := by
  obtain ⟨toks, hs, _⟩ := PlayerRelationMap.Player_Entries_round_trip m
  refine ⟨XferItem.version 1 :: XferItem.unsignedShort (m.length % 2 ^ 16) :: toks, ?_⟩
  intro out
  simp [PlayerRelationMap.Xfer_Snapshot, Xfer.xferVersion, Xfer.xferUnsignedShort, hs,
    Xfer.Get_Mode]

theorem TeamRelationMap.Team_Relations_save (m : StdMap Nat Relationship) :
    ∃ toks : List XferItem, ∀ out,
      TeamRelationMap.Xfer_Snapshot ⟨XferMode.XFER_SAVE, out⟩ m
        = Except.ok (⟨XferMode.XFER_SAVE, out ++ toks⟩, m) := by
  obtain ⟨toks, hs, _⟩ := TeamRelationMap.Team_Entries_round_trip m
  refine ⟨XferItem.version 1 :: XferItem.unsignedShort (m.length % 2 ^ 16) :: toks, ?_⟩
  intro out
  simp [TeamRelationMap.Xfer_Snapshot, Xfer.xferVersion, Xfer.xferUnsignedShort, hs,
    Xfer.Get_Mode]

theorem Player.Xfer_Rank_And_Relations_save (p : Player) :
    ∃ toks : List XferItem, ∀ out,
      Player.Xfer_Rank_And_Relations 8 ⟨XferMode.XFER_SAVE, out⟩ p
        = Except.ok (⟨XferMode.XFER_SAVE, out ++ toks⟩, p) := by
  obtain ⟨t1, hs1⟩ := PlayerRelationMap.Player_Relations_save p.m_playerRelations
  obtain ⟨t2, hs2⟩ := TeamRelationMap.Team_Relations_save p.m_teamRelations
  refine ⟨[XferItem.int p.m_rankLevel, XferItem.int p.m_currentSkillPoints,
    XferItem.int p.m_sciencePurchasePoints, XferItem.int p.m_skillPointsNeededForNextRank,
    XferItem.int p.m_rankProgress, XferItem.unicodeString p.m_scienceGeneralName]
    ++ (t1 ++ (t2 ++ [XferItem.bool p.m_canBuildUnits, XferItem.bool p.m_canBuildBase,
      XferItem.bool p.m_playerIsObserver, XferItem.real p.m_skillPointsModifier,
      XferItem.bool p.m_listInScoreScreen,
      XferItem.user (p.m_attackedByPlayer.map (fun b => if b then (1 : Int) else 0)),
      XferItem.real p.m_bountyCostToBuild, XferItem.snapshot p.m_scoreKeeper])), ?_⟩
  intro out
  simp [Player.Xfer_Rank_And_Relations, Xfer.xferInt, Xfer.xferUnicodeString, Xfer.xferBool,
    Xfer.xferReal, Xfer.xferUser, Xfer.xferSnapshot, hs1, hs2,
    Player.attacked_flags_round_trip]

/-- In save mode the blocks before the squads always succeed, leave the player
as it is and append to the stream the sections of the five sequences, each with
its count, between the items of the other blocks. -/
theorem Player.Xfer_Before_Squads_save (env : Env) (p : Player) :
    ∃ radar middle ranks : List XferItem, ∀ out,
      Player.Xfer_Before_Squads env 8 ⟨XferMode.XFER_SAVE, out⟩ p
        = Except.ok (⟨XferMode.XFER_SAVE,
            out ++ (Player.Stored_Upgrade_Section p ++ (radar ++
              (Player.Stored_Team_Prototype_Section p ++ (Player.Stored_Build_List_Section p ++
                (middle ++ (ranks ++ (Player.Stored_Kind_Of_Section p ++
                  Player.Stored_Timer_Section p)))))))⟩, p) := by
  obtain ⟨t2, s2, _⟩ := Player.Xfer_Radar_And_Masks_round_trip p
  obtain ⟨t7, s7, _⟩ := Player.Xfer_Sciences_round_trip p
  obtain ⟨t8, s8⟩ := Player.Xfer_Rank_And_Relations_save p
  obtain ⟨t6, s6⟩ : ∃ t, ∀ out, Player.Xfer_Default_Team env ⟨XferMode.XFER_SAVE, out⟩ p
      = Except.ok (⟨XferMode.XFER_SAVE, out ++ t⟩, p) :=
    ⟨_, fun out => Player.Xfer_Default_Team_save env out p⟩
  refine ⟨t2, (Player.Stored_System p.m_ai ++
      (Player.Stored_System p.m_resourceGatheringManager ++
        Player.Stored_System p.m_tunnelSystem)) ++ (t6 ++ t7), t8, ?_⟩
  intro out
  simp only [Player.Xfer_Before_Squads, Player.Xfer_Upgrades_save_stored, s2,
    Player.Xfer_Team_Prototypes_save_stored, Player.Xfer_Build_List_save_stored,
    Player.Xfer_Owned_Systems_save, s6, s7, s8,
    Player.Xfer_Kind_Of_Changes_save_stored, Player.Xfer_Special_Power_Timers_save_stored,
    Except.bind_ok_eq, List.append_assoc]

theorem Player.Xfer_Squad_Slots_save_null (slots : List (Option Snapshot))
    (hnull : ¬ ∀ squad ∈ slots, squad.isSome = true) :
    ∀ out, Player.Xfer_Squad_Slots slots ⟨XferMode.XFER_SAVE, out⟩
      = Except.error XferError.RELEASE_ASSERT := by
  induction slots with
  | nil => exact absurd (fun squad h => absurd h (List.not_mem_nil squad)) hnull
  | cons slot rest ih =>
    intro out
    cases slot with
    | none => rfl
    | some squad =>
      have hrest : ¬ ∀ s ∈ rest, s.isSome = true := by
        intro h
        apply hnull
        intro s hs
        rcases List.mem_cons.mp hs with e | e
        · rw [e]; rfl
        · exact h s e
      simp only [Player.Xfer_Squad_Slots, Xfer.xferSnapshot, Xfer.transfer_save,
        Except.bind_ok_eq, ih hrest]
      rfl

theorem Player.Xfer_Squads_save_null (p : Player)
    (hnull : ¬ ∀ squad ∈ p.m_squads, squad.isSome = true) (out : List XferItem) :
    Player.Xfer_Squads ⟨XferMode.XFER_SAVE, out⟩ p = Except.error XferError.RELEASE_ASSERT := by
  simp only [Player.Xfer_Squads, Xfer.xferUnsignedShort, Xfer.transfer_save, Except.bind_ok_eq,
    Xfer.relassert, decide_True, if_true, Player.Xfer_Squad_Slots_save_null p.m_squads hnull]
  rfl

/-- In save mode `Xfer_Snapshot` returns the player it was called on, having
appended to the stream, when no squad slot is null. -/
theorem Player.Xfer_Snapshot_save (env : Env) (p : Player)
    (hsome : ∀ squad ∈ p.m_squads, squad.isSome = true) :
    ∃ radar middle ranks last : List XferItem, ∀ out,
      Player.Xfer_Snapshot env ⟨XferMode.XFER_SAVE, out⟩ p
        = Except.ok (⟨XferMode.XFER_SAVE,
            out ++ (XferItem.version 8 :: (Player.Stored_Upgrade_Section p ++ (radar ++
              (Player.Stored_Team_Prototype_Section p ++ (Player.Stored_Build_List_Section p ++
                (middle ++ (ranks ++ (Player.Stored_Kind_Of_Section p ++
                  (Player.Stored_Timer_Section p ++ last))))))))) ⟩, p) := by
  obtain ⟨radar, middle, ranks, hb⟩ := Player.Xfer_Before_Squads_save env p
  obtain ⟨t11, s11, _⟩ := Player.Xfer_Squads_round_trip p hsome
  have s12 := Player.Xfer_Battle_Plans_save 8 p
  refine ⟨radar, middle, ranks, t11 ++ Player.Stored_Battle_Plans 8 p.m_battlePlanBonuses
    p.m_activeBattlePlans0 p.m_activeBattlePlans1 p.m_activeBattlePlans2 p.m_unitsShouldHunt, ?_⟩
  intro out
  rw [Player.Xfer_Snapshot_eq_Body]
  simp only [Xfer.xferVersion, Xfer.transfer_save, show ¬ (8 > 8) from by decide, if_false,
    Except.bind, Player.Xfer_Body_eq_Before_Squads, hb, s11, s12, Except.bind_ok_eq,
    show ¬ (8 < 6) from by decide, List.append_assoc, List.cons_append, List.nil_append,
    List.singleton_append]

theorem Player.Xfer_Snapshot_save_null (env : Env) (p : Player)
    (hnull : ¬ ∀ squad ∈ p.m_squads, squad.isSome = true) (out : List XferItem) :
    Player.Xfer_Snapshot env ⟨XferMode.XFER_SAVE, out⟩ p
      = Except.error XferError.RELEASE_ASSERT := by
  obtain ⟨radar, middle, ranks, hb⟩ := Player.Xfer_Before_Squads_save env p
  rw [Player.Xfer_Snapshot_eq_Body]
  simp only [Xfer.xferVersion, Xfer.transfer_save, show ¬ (8 > 8) from by decide, if_false,
    Except.bind, Player.Xfer_Body_eq_Before_Squads, hb, Except.bind_ok_eq,
    Player.Xfer_Squads_save_null p hnull]
  rfl


/-- C33: in save mode `Xfer_Snapshot` is read-only on the player. When no squad
slot is null the call succeeds, appends its items to the stream and returns the
very player it was called on: the upgrade list and both accumulators, the three
science lists, the team prototype list, the build list, the kind-of change
list, the timer list, the rank fields, the relationship tables and every flag
are the ones before the call. When a squad slot is null the save ends on the
release assertion of the squad loop and returns no player. -/
theorem C33_save_is_read_only (env : Env) (p : Player) (out : List XferItem) :
    ((∀ squad ∈ p.m_squads, squad.isSome = true) →
      ∃ toks, Player.Xfer_Snapshot env ⟨XferMode.XFER_SAVE, out⟩ p
        = Except.ok (⟨XferMode.XFER_SAVE, out ++ toks⟩, p)) ∧
    ((¬ ∀ squad ∈ p.m_squads, squad.isSome = true) →
      Player.Xfer_Snapshot env ⟨XferMode.XFER_SAVE, out⟩ p
        = Except.error XferError.RELEASE_ASSERT) := by
  refine ⟨?_, ?_⟩
  · intro hsome
    obtain ⟨radar, middle, ranks, last, h⟩ := Player.Xfer_Snapshot_save env p hsome
    exact ⟨_, h out⟩
  · intro hnull
    exact Player.Xfer_Snapshot_save_null env p hnull out

/-- C33 at concrete inputs: the save of the player in the game returns that
player, and the save of the player with a null squad slot ends on the release
assertion. -/
theorem C33_save_is_read_only_witness :
    (∃ toks, Player.Xfer_Snapshot envWithUpgrades ⟨XferMode.XFER_SAVE, []⟩ playerInGame
        = Except.ok (⟨XferMode.XFER_SAVE, [] ++ toks⟩, playerInGame)) ∧
    Player.Xfer_Snapshot envNone ⟨XferMode.XFER_SAVE, []⟩ playerNullSquadSlot
      = Except.error XferError.RELEASE_ASSERT :=
  ⟨(C33_save_is_read_only envWithUpgrades playerInGame []).1 (by decide),
   (C33_save_is_read_only envNone playerNullSquadSlot []).2 (by decide)⟩

/-! ### Loading the upgrade records -/

theorem Player.Stored_Upgrade_Records_cons (u : Upgrade) (nodes : List Upgrade) :
    Player.Stored_Upgrade_Records (u :: nodes)
      = XferItem.asciiString u.m_template.m_name :: XferItem.snapshot [u.m_status.toInt]
          :: Player.Stored_Upgrade_Records nodes := rfl

/-- The load loop on the records of a saved list whose templates are pairwise
different, unknown to the loading player and returned by the upgrade centre
for their names: every record becomes the new head, so the records come out
in reverse order before the records the player had. -/
theorem Player.Load_Upgrades_reverses (env : Env) (nodes : List Upgrade) :
    ∀ (rest : List XferItem) (p : Player),
      (∀ u ∈ nodes, env.Find_Upgrade u.m_template.m_name = some u.m_template) →
      (nodes.map (fun u => u.m_template)).Nodup →
      (∀ u ∈ nodes, u.m_template ∉ p.m_upgradeList.map (fun u => u.m_template)) →
      ∃ r, Player.Load_Upgrades env nodes.length
          ⟨XferMode.XFER_LOAD, Player.Stored_Upgrade_Records nodes ++ rest⟩ p
        = Except.ok (⟨XferMode.XFER_LOAD, rest⟩, r) ∧
        r.m_upgradeList = nodes.reverse ++ p.m_upgradeList := by
  induction nodes with
  | nil =>
    intro rest p _ _ _
    exact ⟨p, by simp [Player.Load_Upgrades, Player.Stored_Upgrade_Records,
      Player.Stored_Upgrades], by simp⟩
  | cons u nodes ih =>
    intro rest p hres hnd hnew
    have hu := hres u (List.mem_cons_self _ _)
    have hfind : p.Find_Upgrade u.m_template = none :=
      (Player.Find_Upgrade_none_iff p u.m_template).mpr (hnew u (List.mem_cons_self _ _))
    have hlist := Player.Add_Upgrade_list env p u.m_template
      UpgradeStatusType.UPGRADE_STATUS_INVALID
    rw [hfind] at hlist
    simp only at hlist
    rw [List.map_cons, List.nodup_cons] at hnd
    have hnext : (Player.Set_Status_Of
        (p.Add_Upgrade env u.m_template UpgradeStatusType.UPGRADE_STATUS_INVALID).1.m_upgradeList
        u.m_template u.m_status) = u :: p.m_upgradeList := by
      rw [hlist]
      simp only [Player.Set_Status_Of, if_true]
    obtain ⟨r, hr, hrl⟩ := ih rest
      { (p.Add_Upgrade env u.m_template UpgradeStatusType.UPGRADE_STATUS_INVALID).1 with
        m_upgradeList := Player.Set_Status_Of
          (p.Add_Upgrade env u.m_template
            UpgradeStatusType.UPGRADE_STATUS_INVALID).1.m_upgradeList
          u.m_template u.m_status }
      (fun v hv => hres v (List.mem_cons_of_mem _ hv)) hnd.2
      (by
        intro v hv
        show v.m_template ∉ (Player.Set_Status_Of
          (p.Add_Upgrade env u.m_template
            UpgradeStatusType.UPGRADE_STATUS_INVALID).1.m_upgradeList
          u.m_template u.m_status).map (fun u => u.m_template)
        rw [hnext, List.map_cons, List.mem_cons, not_or]
        refine ⟨?_, hnew v (List.mem_cons_of_mem _ hv)⟩
        intro e
        exact hnd.1 (e ▸ List.mem_map_of_mem (fun u => u.m_template) hv))
    refine ⟨r, ?_, ?_⟩
    · simp only [Player.Load_Upgrades, Player.Stored_Upgrade_Records_cons,
        Xfer.xferAsciiString, Upgrade.Xfer_Snapshot, Xfer.xferSnapshot, hu,
        UpgradeStatusType.status_ofInt_toInt, List.length_cons, List.cons_append,
        Xfer.transfer_load, Except.bind_ok_eq, Except.pure_eq_ok]
      exact hr
    · rw [hrl]
      show nodes.reverse ++ (Player.Set_Status_Of
          (p.Add_Upgrade env u.m_template
            UpgradeStatusType.UPGRADE_STATUS_INVALID).1.m_upgradeList
          u.m_template u.m_status) = (u :: nodes).reverse ++ p.m_upgradeList
      rw [hnext, List.reverse_cons, List.append_assoc]
      rfl

/-- The first block of a load at version 8 on the section saved from `s`,
into a player with an empty upgrade list. -/
theorem Player.Xfer_Upgrades_load_reverses (env : Env) (s l : Player) (rest : List XferItem)
    (hlen : s.m_upgradeList.length < 2 ^ 16)
    (hres : ∀ u ∈ s.m_upgradeList, env.Find_Upgrade u.m_template.m_name = some u.m_template)
    (hnd : (s.m_upgradeList.map (fun u => u.m_template)).Nodup)
    (hl : l.m_upgradeList = []) :
    ∃ r, Player.Xfer_Upgrades env 8
        ⟨XferMode.XFER_LOAD, Player.Stored_Upgrade_Section s ++ rest⟩ l
      = Except.ok (⟨XferMode.XFER_LOAD, rest⟩, r) ∧
      r.m_upgradeList = s.m_upgradeList.reverse := by
  obtain ⟨r, hr, hrl⟩ := Player.Load_Upgrades_reverses env s.m_upgradeList rest
    { l with
      m_money := { l.m_money with m_money := s.m_money.m_money },
      m_playerIsPreorder := s.m_playerIsPreorder,
      m_disabledSciences := s.m_disabledSciences,
      m_hiddenSciences := s.m_hiddenSciences } hres hnd
    (by
      intro u _
      show u.m_template ∉ l.m_upgradeList.map (fun u => u.m_template)
      rw [hl]
      exact List.not_mem_nil _)
  refine ⟨r, ?_, ?_⟩
  · have hmod : s.m_upgradeList.length % 2 ^ 16 = s.m_upgradeList.length :=
      Nat.mod_eq_of_lt hlen
    simp only [Player.Xfer_Upgrades, Player.Stored_Upgrade_Section, Money.Xfer_Snapshot,
      Xfer.xferSnapshot, Xfer.xferUnsignedShort, Xfer.xferBool, Xfer.xferScienceVec,
      Xfer.Get_Mode, Xfer.transfer_load, Except.bind_ok_eq, Except.pure_eq_ok,
      show (8 : Nat) ≥ 7 from by decide, show (8 : Nat) ≥ 8 from by decide, if_true, if_false,
      List.cons_append, reduceCtorEq, hmod, Int.toNat_ofNat]
    exact hr
  · rw [hrl, show ({ l with
      m_money := { l.m_money with m_money := s.m_money.m_money },
      m_playerIsPreorder := s.m_playerIsPreorder,
      m_disabledSciences := s.m_disabledSciences,
      m_hiddenSciences := s.m_hiddenSciences } : Player).m_upgradeList = l.m_upgradeList
      from rfl, hl, List.append_nil]

/-! ### The saved stream loaded into another player -/

theorem Player.Xfer_Body_save (env : Env) (p : Player)
    (hsome : ∀ squad ∈ p.m_squads, squad.isSome = true) :
    ∃ radar middle ranks last : List XferItem, ∀ out,
      Player.Xfer_Body env 8 ⟨XferMode.XFER_SAVE, out⟩ p
        = Except.ok (⟨XferMode.XFER_SAVE,
            out ++ (Player.Stored_Upgrade_Section p ++ (radar ++
              (Player.Stored_Team_Prototype_Section p ++ (Player.Stored_Build_List_Section p ++
                (middle ++ (ranks ++ (Player.Stored_Kind_Of_Section p ++
                  (Player.Stored_Timer_Section p ++ last))))))))⟩, p) := by
  obtain ⟨radar, middle, ranks, hb⟩ := Player.Xfer_Before_Squads_save env p
  obtain ⟨t11, s11, _⟩ := Player.Xfer_Squads_round_trip p hsome
  have s12 := Player.Xfer_Battle_Plans_save 8 p
  refine ⟨radar, middle, ranks, t11 ++ Player.Stored_Battle_Plans 8 p.m_battlePlanBonuses
    p.m_activeBattlePlans0 p.m_activeBattlePlans1 p.m_activeBattlePlans2 p.m_unitsShouldHunt, ?_⟩
  intro out
  simp only [Player.Xfer_Body_eq_Before_Squads, hb, s11, s12, Except.bind_ok_eq,
    show ¬ (8 < 6) from by decide, if_false, List.append_assoc]

/-- The stream saved from `s` at version 8, loaded into a player `l` that
passes the assertions of the load: the load succeeds and consumes the stream;
the upgrade list of the loaded player is the one the first block of the load
leaves, and the team prototype list, the build list, the kind-of change list
and the timer list are rebuilt from the stream. -/
theorem Player.Xfer_Snapshot_save_then_load (env : Env) (s l : Player)
    (hsome : ∀ squad ∈ s.m_squads, squad.isSome = true)
    (hc : s.Counts_Fit) (hr : s.References_Resolve env) (hl : Player.Can_Load 8 s l) :
    ∃ (tail : List XferItem) (loaded : Player),
      (∀ out, Player.Xfer_Snapshot env ⟨XferMode.XFER_SAVE, out⟩ s
        = Except.ok (⟨XferMode.XFER_SAVE,
            out ++ (XferItem.version 8 :: (Player.Stored_Upgrade_Section s ++ tail))⟩, s)) ∧
      Player.Xfer_Snapshot env
          ⟨XferMode.XFER_LOAD, XferItem.version 8 :: (Player.Stored_Upgrade_Section s ++ tail)⟩ l
        = Except.ok (⟨XferMode.XFER_LOAD, []⟩, loaded) ∧
      (∃ (rest : List XferItem) (q : Player),
        Player.Xfer_Upgrades env 8
            ⟨XferMode.XFER_LOAD, Player.Stored_Upgrade_Section s ++ tail⟩ l
          = Except.ok (⟨XferMode.XFER_LOAD, rest⟩, q) ∧
        loaded.m_upgradeList = q.m_upgradeList) ∧
      Player.Find_All_Team_Prototypes env (s.m_playerTeamPrototypes.map (fun pr => pr.m_id))
        = some loaded.m_playerTeamPrototypes ∧
      loaded.m_buildListInfo = s.m_buildListInfo ∧
      loaded.m_kindOfPercentProductionChangeList = s.m_kindOfPercentProductionChangeList ∧
      loaded.m_specialPowerReadyTimerList = s.m_specialPowerReadyTimerList := by
  obtain ⟨b1, b2, b3, b4, timers, loaded, h1, h2, _, _, h5, _, _, _, _, h10, h11, h12, rest, q,
    hq, hlist⟩ := Player.Xfer_Snapshot_load_at env 8 s l (by decide) hsome hc
      (fun h => absurd h (by decide)) hr hl
  obtain ⟨radar, middle, ranks, last, hb⟩ := Player.Xfer_Body_save env s hsome
  rw [hb []] at h1
  simp only [Except.map, List.nil_append, Except.ok.injEq] at h1
  rw [← h1] at h2 hq
  refine ⟨_, loaded, ?_, h2, ⟨rest, q, hq, hlist⟩, h10, h11, h12, ?_⟩
  · intro out
    rw [Player.Xfer_Snapshot_eq_Body]
    simp only [Xfer.xferVersion, Xfer.transfer_save, show ¬ (8 > 8) from by decide, if_false,
      Except.bind, hb, List.append_assoc, List.singleton_append]
  · rw [h5]
    simp

/-! ### The order of the upgrades after a load -/

/-- The first block of a load at version 8 when the stored upgrade count is 0:
no record is read. -/
theorem Player.Xfer_Upgrades_load_wrapped (env : Env) (s l : Player) (rest : List XferItem)
    (hlen : s.m_upgradeList.length % 2 ^ 16 = 0) :
    Player.Xfer_Upgrades env 8
        ⟨XferMode.XFER_LOAD, Player.Stored_Upgrade_Section s ++ rest⟩ l
      = Except.ok (⟨XferMode.XFER_LOAD, Player.Stored_Upgrade_Records s.m_upgradeList ++ rest⟩,
          { l with
            m_money := { l.m_money with m_money := s.m_money.m_money },
            m_playerIsPreorder := s.m_playerIsPreorder,
            m_disabledSciences := s.m_disabledSciences,
            m_hiddenSciences := s.m_hiddenSciences }) := by
  simp only [Player.Xfer_Upgrades, Player.Stored_Upgrade_Section, Money.Xfer_Snapshot,
    Xfer.xferSnapshot, Xfer.xferUnsignedShort, Xfer.xferBool, Xfer.xferScienceVec,
    Xfer.Get_Mode, Xfer.transfer_load, Except.bind_ok_eq, Except.pure_eq_ok,
    show (8 : Nat) ≥ 7 from by decide, show (8 : Nat) ≥ 8 from by decide, if_true, if_false,
    List.cons_append, reduceCtorEq, hlen, Int.toNat_ofNat, Player.Load_Upgrades]

/-- C32 (as stated, refuted): the upgrade count of the stream is a 16-bit number.
The save of a player with 65536 upgrade records of pairwise different templates
writes the count 0 before the records; the upgrade section of a load into a
player with an empty upgrade list then reads no record: it returns with the
upgrade list still empty and all the stored records unread in the stream. -/
theorem C32_count_wraps_counterexample :
    (playerManyUpgrades.m_upgradeList.map (fun u => u.m_template)).Nodup ∧
    playerManyUpgrades.m_upgradeList.length = 65536 ∧
    playerFresh.m_upgradeList = [] ∧
    ∀ env : Env,
      Player.Xfer_Upgrades env 8 ⟨XferMode.XFER_SAVE, []⟩ playerManyUpgrades
        = Except.ok (⟨XferMode.XFER_SAVE,
            XferItem.snapshot [(playerManyUpgrades.m_money.m_money : Int)] ::
              XferItem.unsignedShort 0 ::
              XferItem.bool playerManyUpgrades.m_playerIsPreorder ::
              XferItem.scienceVec playerManyUpgrades.m_disabledSciences ::
              XferItem.scienceVec playerManyUpgrades.m_hiddenSciences ::
              Player.Stored_Upgrade_Records playerManyUpgrades.m_upgradeList⟩,
            playerManyUpgrades) ∧
      ∃ r, Player.Xfer_Upgrades env 8
          ⟨XferMode.XFER_LOAD, Player.Stored_Upgrade_Section playerManyUpgrades ++ []⟩ playerFresh
        = Except.ok (⟨XferMode.XFER_LOAD,
            Player.Stored_Upgrade_Records playerManyUpgrades.m_upgradeList ++ []⟩, r) ∧
        r.m_upgradeList = [] := by
  have hlist : playerManyUpgrades.m_upgradeList = (List.range 65536).map (fun (i : Nat) =>
      ({ m_template := { m_name := toString i, m_upgradeMask := i },
         m_status := UpgradeStatusType.UPGRADE_STATUS_COMPLETE } : Upgrade)) := by
    simp only [playerManyUpgrades]
  have hlen : playerManyUpgrades.m_upgradeList.length = 65536 := by
    rw [hlist, List.length_map, List.length_range]
  have hmod : playerManyUpgrades.m_upgradeList.length % 2 ^ 16 = 0 := by
    rw [hlen]
    norm_num
  refine ⟨?_, hlen, rfl, ?_⟩
  · rw [hlist, List.map_map]
    refine List.Nodup.map ?_ (List.nodup_range 65536)
    intro i j h
    simp only [Function.comp, UpgradeTemplate.mk.injEq] at h
    exact h.2
  · intro env
    refine ⟨?_, _, Player.Xfer_Upgrades_load_wrapped env playerManyUpgrades playerFresh [] hmod,
      rfl⟩
    rw [Player.Xfer_Upgrades_save_stored, Player.Stored_Upgrade_Section, hmod, List.nil_append]

/-- C32 (amended): saving a player whose upgrade list holds n < 65536 records
of pairwise different templates, head first, and loading the stream into a
player with an empty upgrade list reverses the order. The upgrade section of
the save writes the records head first; the upgrade section of the load, on
that section, leaves the records of the same templates with their statuses in
the reverse order, the upgrade centre returning for the name of each saved
template that template; and saving the loaded player writes the records in the
reverse of the order of the first save. The same holds of the whole
`Xfer_Snapshot` when the load runs to its end. -/
theorem C32_load_reverses_upgrades (env : Env) (s l : Player)
    (hlen : s.m_upgradeList.length < 2 ^ 16)
    (hnd : (s.m_upgradeList.map (fun u => u.m_template)).Nodup)
    (hres : ∀ u ∈ s.m_upgradeList, env.Find_Upgrade u.m_template.m_name = some u.m_template)
    (hl : l.m_upgradeList = []) :
    (∀ out, Player.Xfer_Upgrades env 8 ⟨XferMode.XFER_SAVE, out⟩ s
      = Except.ok (⟨XferMode.XFER_SAVE,
          out ++ (XferItem.snapshot [(s.m_money.m_money : Int)] ::
            XferItem.unsignedShort s.m_upgradeList.length ::
            XferItem.bool s.m_playerIsPreorder ::
            XferItem.scienceVec s.m_disabledSciences ::
            XferItem.scienceVec s.m_hiddenSciences ::
            Player.Stored_Upgrade_Records s.m_upgradeList)⟩, s)) ∧
    (∀ rest, ∃ r,
      Player.Xfer_Upgrades env 8
          ⟨XferMode.XFER_LOAD, Player.Stored_Upgrade_Section s ++ rest⟩ l
        = Except.ok (⟨XferMode.XFER_LOAD, rest⟩, r) ∧
      r.m_upgradeList = s.m_upgradeList.reverse ∧
      ∀ out, Player.Xfer_Upgrades env 8 ⟨XferMode.XFER_SAVE, out⟩ r
        = Except.ok (⟨XferMode.XFER_SAVE,
            out ++ (XferItem.snapshot [(r.m_money.m_money : Int)] ::
              XferItem.unsignedShort s.m_upgradeList.length ::
              XferItem.bool r.m_playerIsPreorder ::
              XferItem.scienceVec r.m_disabledSciences ::
              XferItem.scienceVec r.m_hiddenSciences ::
              Player.Stored_Upgrade_Records s.m_upgradeList.reverse)⟩, r)) ∧
    ((∀ squad ∈ s.m_squads, squad.isSome = true) → s.Counts_Fit → s.References_Resolve env →
      Player.Can_Load 8 s l →
      ∃ (toks : List XferItem) (loaded : Player),
        Player.Xfer_Snapshot env ⟨XferMode.XFER_SAVE, []⟩ s
          = Except.ok (⟨XferMode.XFER_SAVE, toks⟩, s) ∧
        Player.Xfer_Snapshot env ⟨XferMode.XFER_LOAD, toks⟩ l
          = Except.ok (⟨XferMode.XFER_LOAD, []⟩, loaded) ∧
        loaded.m_upgradeList = s.m_upgradeList.reverse ∧
        ∀ out, Player.Xfer_Upgrades env 8 ⟨XferMode.XFER_SAVE, out⟩ loaded
          = Except.ok (⟨XferMode.XFER_SAVE,
              out ++ (XferItem.snapshot [(loaded.m_money.m_money : Int)] ::
                XferItem.unsignedShort s.m_upgradeList.length ::
                XferItem.bool loaded.m_playerIsPreorder ::
                XferItem.scienceVec loaded.m_disabledSciences ::
                XferItem.scienceVec loaded.m_hiddenSciences ::
                Player.Stored_Upgrade_Records s.m_upgradeList.reverse)⟩, loaded)) := by
  have hmod : s.m_upgradeList.length % 2 ^ 16 = s.m_upgradeList.length := Nat.mod_eq_of_lt hlen
  have hsave : ∀ (r : Player), r.m_upgradeList = s.m_upgradeList.reverse →
      ∀ out, Player.Xfer_Upgrades env 8 ⟨XferMode.XFER_SAVE, out⟩ r
        = Except.ok (⟨XferMode.XFER_SAVE,
            out ++ (XferItem.snapshot [(r.m_money.m_money : Int)] ::
              XferItem.unsignedShort s.m_upgradeList.length ::
              XferItem.bool r.m_playerIsPreorder ::
              XferItem.scienceVec r.m_disabledSciences ::
              XferItem.scienceVec r.m_hiddenSciences ::
              Player.Stored_Upgrade_Records s.m_upgradeList.reverse)⟩, r) := by
    intro r hr out
    rw [Player.Xfer_Upgrades_save_stored, Player.Stored_Upgrade_Section, hr,
      List.length_reverse, hmod]
  refine ⟨?_, ?_, ?_⟩
  · intro out
    rw [Player.Xfer_Upgrades_save_stored, Player.Stored_Upgrade_Section, hmod]
  · intro rest
    obtain ⟨r, hr, hrl⟩ := Player.Xfer_Upgrades_load_reverses env s l rest hlen hres hnd hl
    exact ⟨r, hr, hrl, hsave r hrl⟩
  · intro hsome hc hr hcan
    obtain ⟨tail, loaded, hs, hload, ⟨rest, q, hq, hlist⟩, _⟩ :=
      Player.Xfer_Snapshot_save_then_load env s l hsome hc hr hcan
    obtain ⟨r, hr2, hrl⟩ := Player.Xfer_Upgrades_load_reverses env s l tail hlen hres hnd hl
    rw [hr2] at hq
    simp only [Except.ok.injEq, Prod.mk.injEq] at hq
    have hloaded : loaded.m_upgradeList = s.m_upgradeList.reverse := by
      rw [hlist, ← hq.2, hrl]
    refine ⟨_, loaded, ?_, hload, hloaded, hsave loaded hloaded⟩
    have h := hs []
    rw [List.nil_append] at h
    exact h

/-- C32 (amended) at a concrete input: the player in the game holds upgrade B
in production (head) and upgrade A complete; loaded into the fresh player, A is
the head and B follows. -/
theorem C32_load_reverses_upgrades_witness :
    playerInGame.m_upgradeList
      = [{ m_template := templateB, m_status := UpgradeStatusType.UPGRADE_STATUS_IN_PRODUCTION },
         { m_template := templateA, m_status := UpgradeStatusType.UPGRADE_STATUS_COMPLETE }] ∧
    (∃ r, Player.Xfer_Upgrades envWithUpgrades 8
          ⟨XferMode.XFER_LOAD, Player.Stored_Upgrade_Section playerInGame ++ []⟩ playerFresh
        = Except.ok (⟨XferMode.XFER_LOAD, []⟩, r) ∧
      r.m_upgradeList = playerInGame.m_upgradeList.reverse) ∧
    (∃ (toks : List XferItem) (loaded : Player),
      Player.Xfer_Snapshot envWithUpgrades ⟨XferMode.XFER_SAVE, []⟩ playerInGame
        = Except.ok (⟨XferMode.XFER_SAVE, toks⟩, playerInGame) ∧
      Player.Xfer_Snapshot envWithUpgrades ⟨XferMode.XFER_LOAD, toks⟩ playerFresh
        = Except.ok (⟨XferMode.XFER_LOAD, []⟩, loaded) ∧
      loaded.m_upgradeList = playerInGame.m_upgradeList.reverse) :=
  ⟨by decide,
   (((C32_load_reverses_upgrades envWithUpgrades playerInGame playerFresh (by decide)
      (by decide) (by decide) (by decide)).2.1 []).imp (fun _ h => ⟨h.1, h.2.1⟩)),
   ((C32_load_reverses_upgrades envWithUpgrades playerInGame playerFresh (by decide)
      (by decide) (by decide) (by decide)).2.2 (by decide)
      (by unfold Player.Counts_Fit; decide) (by unfold Player.References_Resolve; decide)
      (by unfold Player.Can_Load; decide)).imp
        (fun _ h => h.imp (fun _ h2 => ⟨h2.1, h2.2.1, h2.2.2.1⟩))⟩

/-! ### The sequences in the stream -/

theorem Player.Load_Build_List_stored (nodes : List Snapshot) :
    ∀ (rest : List XferItem) (l : Player),
      Player.Load_Build_List nodes.length
          ⟨XferMode.XFER_LOAD, nodes.map XferItem.snapshot ++ rest⟩ l
        = Except.ok (⟨XferMode.XFER_LOAD, rest⟩,
            { l with m_buildListInfo := l.m_buildListInfo ++ nodes }) := by
  induction nodes with
  | nil => intro rest l; simp [Player.Load_Build_List]
  | cons node nodes ih =>
    intro rest l
    simp [Player.Load_Build_List, Xfer.xferSnapshot, ih]

theorem Player.Load_Kind_Of_Changes_stored (entries : List KindOfPercentProductionChange) :
    ∀ (rest : List XferItem) (l : Player),
      Player.Load_Kind_Of_Changes entries.length
          ⟨XferMode.XFER_LOAD, Player.Stored_Kind_Of_Changes entries ++ rest⟩ l
        = Except.ok (⟨XferMode.XFER_LOAD, rest⟩,
            { l with m_kindOfPercentProductionChangeList :=
                       l.m_kindOfPercentProductionChangeList ++ entries }) := by
  induction entries with
  | nil => intro rest l; simp [Player.Load_Kind_Of_Changes, Player.Stored_Kind_Of_Changes]
  | cons k entries ih =>
    intro rest l
    simp [Player.Load_Kind_Of_Changes, Player.Stored_Kind_Of_Changes, Xfer.xferKindOf,
      Xfer.xferReal, Xfer.xferUnsignedInt, ih]

theorem Player.Load_Timers_stored (timers : List SpecialPowerReadyTimerType) :
    ∀ (rest : List XferItem) (l : Player),
      Player.Load_Timers timers.length
          ⟨XferMode.XFER_LOAD, Player.Stored_Timers timers ++ rest⟩ l
        = Except.ok (⟨XferMode.XFER_LOAD, rest⟩,
            { l with m_specialPowerReadyTimerList :=
                       l.m_specialPowerReadyTimerList ++ timers }) := by
  induction timers with
  | nil => intro rest l; simp [Player.Load_Timers, Player.Stored_Timers]
  | cons timer timers ih =>
    intro rest l
    simp [Player.Load_Timers, Player.Stored_Timers, Xfer.xferUnsignedInt, ih]

theorem Player.Xfer_Build_List_load_stored (nodes : List Snapshot) (rest : List XferItem)
    (l : Player) :
    Player.Xfer_Build_List
        ⟨XferMode.XFER_LOAD,
          XferItem.unsignedShort nodes.length :: (nodes.map XferItem.snapshot ++ rest)⟩ l
      = Except.ok (⟨XferMode.XFER_LOAD, rest⟩, { l with m_buildListInfo := nodes }) := by
  simp [Player.Xfer_Build_List, Xfer.xferUnsignedShort, Xfer.Get_Mode,
    Player.Load_Build_List_stored]

theorem Player.Xfer_Kind_Of_Changes_load_stored (entries : List KindOfPercentProductionChange)
    (rest : List XferItem) (l : Player) (hl : l.m_kindOfPercentProductionChangeList = []) :
    Player.Xfer_Kind_Of_Changes
        ⟨XferMode.XFER_LOAD,
          XferItem.unsignedShort entries.length ::
            (Player.Stored_Kind_Of_Changes entries ++ rest)⟩ l
      = Except.ok (⟨XferMode.XFER_LOAD, rest⟩,
          { l with m_kindOfPercentProductionChangeList := entries }) := by
  simp [Player.Xfer_Kind_Of_Changes, Xfer.xferUnsignedShort, Xfer.Get_Mode, Xfer.relassert,
    Player.Load_Kind_Of_Changes_stored, hl]

theorem Player.Xfer_Special_Power_Timers_load_stored (timers : List SpecialPowerReadyTimerType)
    (rest : List XferItem) (l : Player) (hl : l.m_specialPowerReadyTimerList = []) :
    Player.Xfer_Special_Power_Timers 8
        ⟨XferMode.XFER_LOAD,
          XferItem.unsignedShort timers.length :: (Player.Stored_Timers timers ++ rest)⟩ l
      = Except.ok (⟨XferMode.XFER_LOAD, rest⟩,
          { l with m_specialPowerReadyTimerList := timers }) := by
  simp [Player.Xfer_Special_Power_Timers, Xfer.xferUnsignedShort, Xfer.Get_Mode,
    Xfer.relassert, Player.Load_Timers_stored, hl]

theorem Player.Find_All_Team_Prototypes_self (env : Env) (protos : List TeamPrototype)
    (hself : ∀ pr ∈ protos, env.Find_Team_Prototype_By_ID pr.m_id = some pr) :
    Player.Find_All_Team_Prototypes env (protos.map (fun pr => pr.m_id)) = some protos := by
  induction protos with
  | nil => rfl
  | cons pr protos ih =>
    simp only [List.map_cons, Player.Find_All_Team_Prototypes,
      hself pr (List.mem_cons_self _ _),
      ih (fun x hx => hself x (List.mem_cons_of_mem _ hx)), Option.map_some']

/-- The build list block when the list holds a multiple of 65536 nodes: the
save writes the count 0 before the nodes and the load reads no node. -/
theorem Player.Xfer_Build_List_wrapped (s l : Player) (rest : List XferItem)
    (hlen : s.m_buildListInfo.length % 2 ^ 16 = 0) :
    Player.Xfer_Build_List ⟨XferMode.XFER_SAVE, []⟩ s
      = Except.ok (⟨XferMode.XFER_SAVE,
          XferItem.unsignedShort 0 :: s.m_buildListInfo.map XferItem.snapshot⟩, s) ∧
    Player.Xfer_Build_List
        ⟨XferMode.XFER_LOAD,
          XferItem.unsignedShort 0 :: (s.m_buildListInfo.map XferItem.snapshot ++ rest)⟩ l
      = Except.ok (⟨XferMode.XFER_LOAD, s.m_buildListInfo.map XferItem.snapshot ++ rest⟩,
          { l with m_buildListInfo := [] }) := by
  refine ⟨?_, ?_⟩
  · rw [Player.Xfer_Build_List_save_stored, Player.Stored_Build_List_Section, hlen,
      List.nil_append]
  · simp only [Player.Xfer_Build_List, Xfer.xferUnsignedShort, Xfer.transfer_load,
      Except.bind_ok_eq, Xfer.Get_Mode, reduceCtorEq, if_false, Player.Load_Build_List,
      Except.pure_eq_ok]

/-- C31 (as stated, refuted): the element counts of the stream are 16-bit
numbers. The save of a player whose build list holds 65536 nodes writes the
count 0, not the element count, before the nodes; the build list block of a
load into a freshly initialised player then rebuilds an empty build list and
leaves all the stored nodes unread in the stream. -/
theorem C31_count_wraps_counterexample :
    playerLongBuildList.m_buildListInfo.length = 65536 ∧
    Player.Xfer_Build_List ⟨XferMode.XFER_SAVE, []⟩ playerLongBuildList
      = Except.ok (⟨XferMode.XFER_SAVE,
          XferItem.unsignedShort 0 ::
            playerLongBuildList.m_buildListInfo.map XferItem.snapshot⟩,
          playerLongBuildList) ∧
    Player.Xfer_Build_List
        ⟨XferMode.XFER_LOAD,
          XferItem.unsignedShort 0 ::
            (playerLongBuildList.m_buildListInfo.map XferItem.snapshot ++ [])⟩
        (Player.Init envNone playerFresh none)
      = Except.ok (⟨XferMode.XFER_LOAD,
          playerLongBuildList.m_buildListInfo.map XferItem.snapshot ++ []⟩,
          { Player.Init envNone playerFresh none with m_buildListInfo := [] }) := by
  have hlist : playerLongBuildList.m_buildListInfo = List.replicate 65536 [] := by
    simp only [playerLongBuildList]
  have hlen : playerLongBuildList.m_buildListInfo.length = 65536 := by
    rw [hlist, List.length_replicate]
  have hmod : playerLongBuildList.m_buildListInfo.length % 2 ^ 16 = 0 := by
    rw [hlen]
    norm_num
  exact ⟨hlen, Player.Xfer_Build_List_wrapped playerLongBuildList
    (Player.Init envNone playerFresh none) [] hmod⟩

/-- C31 (amended): for a player whose upgrade list, team prototype list, build
list, kind-of change list and timer list each hold fewer than 65536 elements,
the save writes each sequence in its current order, after its element count:
the upgrade records head to tail, the team prototype ids in container order,
the build list nodes in link order, flags, percent and count of the kind-of
change entries in list order, id and frame of the timers in list order. Each
of these blocks of a load into a freshly initialised player, on the section
the save wrote, rebuilds the list with the same elements in the same order,
the team prototypes being those the team factory returns for the stored ids.
The same holds of the whole `Xfer_Snapshot` when the load runs to its end. -/
theorem C31_sequences_keep_order (env : Env) (s : Player)
    (hupgrades : s.m_upgradeList.length < 2 ^ 16)
    (hprotos : s.m_playerTeamPrototypes.length < 2 ^ 16)
    (hbuild : s.m_buildListInfo.length < 2 ^ 16)
    (hkind : s.m_kindOfPercentProductionChangeList.length < 2 ^ 16)
    (htimers : s.m_specialPowerReadyTimerList.length < 2 ^ 16) :
    (∀ out,
      Player.Xfer_Upgrades env 8 ⟨XferMode.XFER_SAVE, out⟩ s
        = Except.ok (⟨XferMode.XFER_SAVE,
            out ++ (XferItem.snapshot [(s.m_money.m_money : Int)] ::
              XferItem.unsignedShort s.m_upgradeList.length ::
              XferItem.bool s.m_playerIsPreorder ::
              XferItem.scienceVec s.m_disabledSciences ::
              XferItem.scienceVec s.m_hiddenSciences ::
              Player.Stored_Upgrade_Records s.m_upgradeList)⟩, s) ∧
      Player.Xfer_Team_Prototypes env ⟨XferMode.XFER_SAVE, out⟩ s
        = Except.ok (⟨XferMode.XFER_SAVE,
            out ++ (XferItem.unsignedShort s.m_playerTeamPrototypes.length ::
              Player.Stored_Prototype_Ids (s.m_playerTeamPrototypes.map (fun pr => pr.m_id)))⟩,
            s) ∧
      Player.Xfer_Build_List ⟨XferMode.XFER_SAVE, out⟩ s
        = Except.ok (⟨XferMode.XFER_SAVE,
            out ++ (XferItem.unsignedShort s.m_buildListInfo.length ::
              s.m_buildListInfo.map XferItem.snapshot)⟩, s) ∧
      Player.Xfer_Kind_Of_Changes ⟨XferMode.XFER_SAVE, out⟩ s
        = Except.ok (⟨XferMode.XFER_SAVE,
            out ++ (XferItem.unsignedShort s.m_kindOfPercentProductionChangeList.length ::
              Player.Stored_Kind_Of_Changes s.m_kindOfPercentProductionChangeList)⟩, s) ∧
      Player.Xfer_Special_Power_Timers 8 ⟨XferMode.XFER_SAVE, out⟩ s
        = Except.ok (⟨XferMode.XFER_SAVE,
            out ++ (XferItem.unsignedShort s.m_specialPowerReadyTimerList.length ::
              Player.Stored_Timers s.m_specialPowerReadyTimerList)⟩, s)) ∧
    (∀ (q : Player) (pt : Option PlayerTemplate) (rest : List XferItem),
      ((∀ pr ∈ s.m_playerTeamPrototypes, env.Find_Team_Prototype_By_ID pr.m_id = some pr) →
        Player.Xfer_Team_Prototypes env
            ⟨XferMode.XFER_LOAD,
              XferItem.unsignedShort s.m_playerTeamPrototypes.length ::
                (Player.Stored_Prototype_Ids (s.m_playerTeamPrototypes.map (fun pr => pr.m_id))
                  ++ rest)⟩ (Player.Init env q pt)
          = Except.ok (⟨XferMode.XFER_LOAD, rest⟩,
              { Player.Init env q pt with
                m_playerTeamPrototypes := s.m_playerTeamPrototypes })) ∧
      Player.Xfer_Build_List
          ⟨XferMode.XFER_LOAD,
            XferItem.unsignedShort s.m_buildListInfo.length ::
              (s.m_buildListInfo.map XferItem.snapshot ++ rest)⟩ (Player.Init env q pt)
        = Except.ok (⟨XferMode.XFER_LOAD, rest⟩,
            { Player.Init env q pt with m_buildListInfo := s.m_buildListInfo }) ∧
      Player.Xfer_Kind_Of_Changes
          ⟨XferMode.XFER_LOAD,
            XferItem.unsignedShort s.m_kindOfPercentProductionChangeList.length ::
              (Player.Stored_Kind_Of_Changes s.m_kindOfPercentProductionChangeList ++ rest)⟩
          (Player.Init env q pt)
        = Except.ok (⟨XferMode.XFER_LOAD, rest⟩,
            { Player.Init env q pt with
              m_kindOfPercentProductionChangeList := s.m_kindOfPercentProductionChangeList }) ∧
      Player.Xfer_Special_Power_Timers 8
          ⟨XferMode.XFER_LOAD,
            XferItem.unsignedShort s.m_specialPowerReadyTimerList.length ::
              (Player.Stored_Timers s.m_specialPowerReadyTimerList ++ rest)⟩
          (Player.Init env q pt)
        = Except.ok (⟨XferMode.XFER_LOAD, rest⟩,
            { Player.Init env q pt with
              m_specialPowerReadyTimerList := s.m_specialPowerReadyTimerList })) ∧
    (∀ l : Player, (∀ squad ∈ s.m_squads, squad.isSome = true) → s.Counts_Fit →
      s.References_Resolve env →
      (∀ pr ∈ s.m_playerTeamPrototypes, env.Find_Team_Prototype_By_ID pr.m_id = some pr) →
      Player.Can_Load 8 s l →
      ∃ (toks : List XferItem) (loaded : Player),
        Player.Xfer_Snapshot env ⟨XferMode.XFER_SAVE, []⟩ s
          = Except.ok (⟨XferMode.XFER_SAVE, toks⟩, s) ∧
        Player.Xfer_Snapshot env ⟨XferMode.XFER_LOAD, toks⟩ l
          = Except.ok (⟨XferMode.XFER_LOAD, []⟩, loaded) ∧
        loaded.m_playerTeamPrototypes = s.m_playerTeamPrototypes ∧
        loaded.m_buildListInfo = s.m_buildListInfo ∧
        loaded.m_kindOfPercentProductionChangeList = s.m_kindOfPercentProductionChangeList ∧
        loaded.m_specialPowerReadyTimerList = s.m_specialPowerReadyTimerList) := by
  refine ⟨?_, ?_, ?_⟩
  · intro out
    refine ⟨?_, ?_, ?_, ?_, ?_⟩
    · rw [Player.Xfer_Upgrades_save_stored, Player.Stored_Upgrade_Section,
        Nat.mod_eq_of_lt hupgrades]
    · rw [Player.Xfer_Team_Prototypes_save_stored, Player.Stored_Team_Prototype_Section,
        Nat.mod_eq_of_lt hprotos]
    · rw [Player.Xfer_Build_List_save_stored, Player.Stored_Build_List_Section,
        Nat.mod_eq_of_lt hbuild]
    · rw [Player.Xfer_Kind_Of_Changes_save_stored, Player.Stored_Kind_Of_Section,
        Nat.mod_eq_of_lt hkind]
    · rw [Player.Xfer_Special_Power_Timers_save_stored, Player.Stored_Timer_Section,
        Nat.mod_eq_of_lt htimers]
  · intro q pt rest
    refine ⟨?_, ?_, ?_, ?_⟩
    · intro hself
      have h := Player.Xfer_Team_Prototypes_load env
        (s.m_playerTeamPrototypes.map (fun pr => pr.m_id)) rest (Player.Init env q pt)
      rw [Player.Find_All_Team_Prototypes_self env _ hself, List.length_map] at h
      exact h
    · exact Player.Xfer_Build_List_load_stored _ rest _
    · exact Player.Xfer_Kind_Of_Changes_load_stored _ rest _ rfl
    · exact Player.Xfer_Special_Power_Timers_load_stored _ rest _ rfl
  · intro l hsome hc hr hself hcan
    obtain ⟨tail, loaded, hs, hload, _, hfind, hb, hk, ht⟩ :=
      Player.Xfer_Snapshot_save_then_load env s l hsome hc hr hcan
    rw [Player.Find_All_Team_Prototypes_self env _ hself] at hfind
    refine ⟨_, loaded, ?_, hload, (Option.some.inj hfind).symm, hb, hk, ht⟩
    have h := hs []
    rw [List.nil_append] at h
    exact h


/-- C31 (amended) at a concrete input: the player in the game with the
prototypes 4 and 3, two build list nodes, two kind-of changes and two timers,
in an environment whose team factory knows both prototypes. The prototype
block of a load into a freshly initialised player gives the prototypes 4 and 3
back, and the whole stream loaded into the fresh player rebuilds the four
lists. -/
theorem C31_sequences_keep_order_witness :
    Player.Xfer_Team_Prototypes envWithPrototypes
        ⟨XferMode.XFER_LOAD,
          XferItem.unsignedShort playerWithSequences.m_playerTeamPrototypes.length ::
            (Player.Stored_Prototype_Ids
              (playerWithSequences.m_playerTeamPrototypes.map (fun pr => pr.m_id)) ++ [])⟩
        (Player.Init envWithPrototypes playerFresh none)
      = Except.ok (⟨XferMode.XFER_LOAD, []⟩,
          { Player.Init envWithPrototypes playerFresh none with
            m_playerTeamPrototypes := playerWithSequences.m_playerTeamPrototypes }) ∧
    ∃ (toks : List XferItem) (loaded : Player),
      Player.Xfer_Snapshot envWithPrototypes ⟨XferMode.XFER_SAVE, []⟩ playerWithSequences
        = Except.ok (⟨XferMode.XFER_SAVE, toks⟩, playerWithSequences) ∧
      Player.Xfer_Snapshot envWithPrototypes ⟨XferMode.XFER_LOAD, toks⟩ playerFresh
        = Except.ok (⟨XferMode.XFER_LOAD, []⟩, loaded) ∧
      loaded.m_playerTeamPrototypes = playerWithSequences.m_playerTeamPrototypes ∧
      loaded.m_buildListInfo = playerWithSequences.m_buildListInfo ∧
      loaded.m_kindOfPercentProductionChangeList
        = playerWithSequences.m_kindOfPercentProductionChangeList ∧
      loaded.m_specialPowerReadyTimerList = playerWithSequences.m_specialPowerReadyTimerList :=
  ⟨((C31_sequences_keep_order envWithPrototypes playerWithSequences (by decide) (by decide)
      (by decide) (by decide) (by decide)).2.1 playerFresh none []).1 (by decide),
   (C31_sequences_keep_order envWithPrototypes playerWithSequences (by decide) (by decide)
      (by decide) (by decide) (by decide)).2.2 playerFresh (by decide)
      (by unfold Player.Counts_Fit; decide) (by unfold Player.References_Resolve; decide)
      (by decide) (by unfold Player.Can_Load; decide)⟩

end Thyme
